import Mathlib

/-!
# sdwan-agent: app-state controller, primary discovery, hosts pinning

A shallow embedding of parts of `Fivegen-LLC/sdwan-agent`:

* `internal/domains/appstate/service.go` (the serialized state machine),
* `internal/domains/discovery/service.go` and `discovery/monitoring/service.go`,
* `internal/domains/nslookup/service.go` (`SyncHosts`).

Go `error` values are embedded as `GoError`; `nil` is `none`.  Collaborators that the
Go code reaches through interfaces (state handlers, config service, HTTP client,
resolver) are parameters of the definitions.
-/

/-! ## Go errors -/

/-- Go `error` values: package-level sentinels (`errors.New` / `fmt.Errorf` without `%w`
stored in a variable), other leaf errors, `fmt.Errorf` with one `%w` verb, and
`errors.Join` of two errors. -/
inductive GoError where
  | sentinel (name : String)
  | leaf (text : String)
  | wrap (msg : String) (inner : GoError)
  | join (first : GoError) (second : GoError)
  deriving DecidableEq, Repr

namespace GoError

/-- `errors.Is(err, target)` for a sentinel target: walks the `%w` chain. -/
def Is : GoError → GoError → Bool
  | sentinel n, t => decide (sentinel n = t)
  | leaf s, t => decide (leaf s = t)
  | wrap m e, t => decide (wrap m e = t) || Is e t
  | join a b, t => decide (join a b = t) || Is a t || Is b t

/-- Go: the `Error()` text of an error. -/
def Error : GoError → String
  | sentinel n => n
  | leaf s => s
  | wrap m e => m ++ Error e
  | join a b => Error a ++ "\n" ++ Error b

/-- Go: `errors.Join(first, second)`: nil when both are nil, otherwise an error that wraps
the non-nil ones. -/
def Join : Option GoError → Option GoError → Option GoError
  | none, none => none
  | some a, none => some (wrap "" a)
  | none, some b => some (wrap "" b)
  | some a, some b => some (join a b)

end GoError

/-- Sentinel `errs.ErrTransitionNotSupported`. -/
def ErrTransitionNotSupported : GoError := .sentinel "transition not supported"
/-- Sentinel `errs.ErrSplitBrain`. -/
def ErrSplitBrain : GoError := .sentinel "split-brain"
/-- Sentinel `errs.ErrPrimaryNotFound`. -/
def ErrPrimaryNotFound : GoError := .sentinel "primary not found"

/-! ## App-state controller (`appstate/service.go`) -/

namespace Appstate

/-- Go: `type AppState string`. -/
abbrev AppState := String

/-- Go: `entities.AppStateBoot`. -/
def AppStateBoot : AppState := "boot"

/-- Go: `common.StateHandleResult`; a nil `Transition` is `none`. -/
structure StateHandleResult (τ : Type) where
  Transition : Option τ

/-- Modelled from the spec: what a collaborator appends to the journal of the open
transaction: the undo of a completed step (`ExecuteFunc`, `ExecuteActivity`), the marker of
`AddCheckPoint`, or the removal of a marker by `DeleteCheckPoint` (kept as a record of its
own: the checkpoint with this id no longer counts). -/
inductive JournalStep (W : Type) where
  | undo (f : W → W)
  | checkpoint (id : Nat)
  | checkpointDeleted (id : Nat)

/-- What running a journal record as undo does to the world: markers do nothing. -/
def JournalStep.run {W : Type} : JournalStep W → W → W
  | .undo f, w => f w
  | .checkpoint _, w => w
  | .checkpointDeleted _, w => w

/-- What a call into a collaborator did: the world it left, the records it appended to the
journal of the open transaction (in call order) and what it returned. -/
structure Effect (W α : Type) where
  world : W
  undo : List (JournalStep W)
  ret : Except GoError α

/-- Go: `IStateHandler`.  `W` is everything outside the controller (config store, message
queue, network stack); `τ` is the type of transitions. -/
structure IStateHandler (W τ : Type) where
  StateID : AppState
  ValidateTransition : AppState → Option GoError
  Handle : W → τ → Effect W (StateHandleResult τ)
  OnExit : W → τ → Effect W Unit

/-- Go: `IConfigService` and `IActivityService`, as far as the controller uses them.
`FinishStatus` is the error `FinishTransaction` returns for a given `execErr`. -/
structure Services (W : Type) where
  UpdateConfigWithTx : W → AppState → Effect W Unit
  StartTransaction : W → W × Option GoError
  FinishStatus : W → Option GoError → Option GoError

/-- One undo entry of the worker's transaction. `restoreState old` is the rollback closure
of `updateAppState` with its captured `oldStateID`; `external e` is a record appended by a
collaborator: an undo acting on the world only, or a checkpoint marker. -/
inductive UndoStep (W : Type) where
  | restoreState (oldStateID : AppState)
  | external (e : JournalStep W)

/-- Calls made by the worker, recorded in call order (ghost state). `onExit` and `handle`
carry the `StateID()` of the handler called and the live state at the moment of the call;
`updateConfigWithTx` carries whether the call returned nil. -/
inductive Event where
  | startTransaction
  | validateTransition (handler : AppState) (fromState : AppState)
  | onExit (handler : AppState) (live : AppState)
  | updateConfigWithTx (newState : AppState) (ok : Bool)
  | executeFunc
  | handle (handler : AppState) (live : AppState)
  | finishTransaction (execErr : Option GoError)
  | reply (err : Option GoError)
  deriving DecidableEq, Repr

/-- Go: `StateService` together with the world it acts on, the step list of the
transaction the worker holds, and the ghost call trace. -/
structure Machine (W τ : Type) where
  stateHandlers : List (AppState × IStateHandler W τ)
  activeState : AppState
  world : W
  tx : List (UndoStep W)
  trace : List Event

variable {W τ : Type}

/-- Go map read `s.stateHandlers[id]`. -/
def lookupHandler (hs : List (AppState × IStateHandler W τ)) (id : AppState) :
    Option (IStateHandler W τ) :=
  match hs with
  | [] => none
  | (k, h) :: rest => if k = id then some h else lookupHandler rest id

/-- Go map write `handlerMap[id] = handler`. -/
def insertHandler (hs : List (AppState × IStateHandler W τ)) (id : AppState)
    (h : IStateHandler W τ) : List (AppState × IStateHandler W τ) :=
  match hs with
  | [] => [(id, h)]
  | (k, h0) :: rest => if k = id then (k, h) :: rest else (k, h0) :: insertHandler rest id h

/-- The `for` loop of `SetStateHandlers`; `none` is the `log.Fatal` branch. -/
def buildHandlerMap (handlerMap : List (AppState × IStateHandler W τ)) :
    List (IStateHandler W τ) → Option (List (AppState × IStateHandler W τ))
  | [] => some handlerMap
  | handler :: rest =>
    if (lookupHandler handlerMap handler.StateID).isSome then none
    else buildHandlerMap (insertHandler handlerMap handler.StateID handler) rest

/-- Go: `NewService` (the fields the model keeps). -/
def NewService (world : W) : Machine W τ :=
  { stateHandlers := [], activeState := AppStateBoot, world := world, tx := [], trace := [] }

/-- Go: `StateService.SetStateHandlers`; `none` is a `log.Fatal` exit. -/
def SetStateHandlers (s : Machine W τ) (stateHandlers : List (IStateHandler W τ)) :
    Option (Machine W τ) :=
  match buildHandlerMap [] stateHandlers with
  | none => none
  | some handlerMap =>
    if (lookupHandler handlerMap s.activeState).isNone then none
    else if (lookupHandler handlerMap AppStateBoot).isNone then none
    else some { s with stateHandlers := handlerMap }

/-- Modelled from the spec: `ExecuteFunc(tx, fn, undoFn)` of the activity engine, which is
not part of the sources. It runs the forward function and, when that succeeds, appends the
undo to the transaction; on failure it returns without appending. -/
def ExecuteFunc (s : Machine W τ) (fn : Machine W τ → Machine W τ × Option GoError)
    (rlFn : UndoStep W) : Machine W τ × Option GoError :=
  let s1 := { s with trace := s.trace ++ [Event.executeFunc] }
  match fn s1 with
  | (s2, none) => ({ s2 with tx := s2.tx ++ [rlFn] }, none)
  | (s2, some e) => (s2, some e)

/-- The effect of one undo entry. For `restoreState` this is the body of the rollback
closure in `updateAppState`: `if oldStateID != AppStateBoot { s.activeState = oldStateID }`. -/
def runUndo (st : UndoStep W) (s : Machine W τ) : Machine W τ :=
  match st with
  | .restoreState oldStateID =>
    if oldStateID ≠ AppStateBoot then { s with activeState := oldStateID } else s
  | .external e => { s with world := e.run s.world }

/-- Modelled from the spec: step 1 of the rollback algorithm, "iterate completed
step-records in reverse order, skipping those preceding the last active checkpoint". The
argument is the journal read backwards and the ids of the checkpoints deleted by records
already read; the result is the records to undo, in the order they are undone. The scan
ends at the first checkpoint that no later record deletes. -/
def unsealed : List (UndoStep W) → List Nat → List (UndoStep W)
  | [], _ => []
  | st :: rest, deleted =>
    match st with
    | .external (.checkpoint id) => if id ∈ deleted then unsealed rest deleted else []
    | .external (.checkpointDeleted id) => unsealed rest (id :: deleted)
    | .external (.undo f) => .external (.undo f) :: unsealed rest deleted
    | .restoreState oldStateID => .restoreState oldStateID :: unsealed rest deleted

/-- The last active checkpoint of a journal, if there is one; arguments as for `unsealed`. -/
def activeCheckpoint : List (UndoStep W) → List Nat → Option Nat
  | [], _ => none
  | st :: rest, deleted =>
    match st with
    | .external (.checkpoint id) =>
      if id ∈ deleted then activeCheckpoint rest deleted else some id
    | .external (.checkpointDeleted id) => activeCheckpoint rest (id :: deleted)
    | .external (.undo _) => activeCheckpoint rest deleted
    | .restoreState _ => activeCheckpoint rest deleted

/-- Modelled from the spec: the rollback of the activity engine, which is not part of the
sources: the undo of every completed step after the last active checkpoint is applied, last
step first, and the journal is then deleted. -/
def rollback (s : Machine W τ) : Machine W τ :=
  { ((unsealed s.tx.reverse []).foldl (fun acc st => runUndo st acc) s) with tx := [] }

/-- Appends what a collaborator call left behind to the machine. -/
def absorb {α : Type} (s : Machine W τ) (eff : Effect W α) : Machine W τ :=
  { s with world := eff.world, tx := s.tx ++ eff.undo.map UndoStep.external }

/-- Go: `StateService.updateAppState`. -/
def updateAppState (svc : Services W) (s : Machine W τ) (newStateID : AppState) :
    Machine W τ × Option GoError :=
  let eff := svc.UpdateConfigWithTx s.world newStateID
  let s1 := absorb { s with trace := s.trace ++
    [Event.updateConfigWithTx newStateID eff.ret.toBool] } eff
  match eff.ret with
  | .error err => (s1, some (.wrap "updateAppState: " err))
  | .ok _ =>
    let oldStateID := s1.activeState
    match ExecuteFunc s1 (fun m => ({ m with activeState := newStateID }, none))
        (UndoStep.restoreState oldStateID) with
    | (s2, some err) => (s2, some (.wrap "updateAppState: " err))
    | (s2, none) => (s2, none)

/-- The "exit active state" block of `performTransition`: `OnExit` of the handler
registered for the live state, if there is one. -/
def exitActiveState (s : Machine W τ) (transition : τ) : Machine W τ × Option GoError :=
  match lookupHandler s.stateHandlers s.activeState with
  | some activeHandler =>
    let eff := activeHandler.OnExit s.world transition
    let s1 := absorb { s with trace := s.trace ++
      [Event.onExit activeHandler.StateID s.activeState] } eff
    match eff.ret with
    | .error err => (s1, some err)
    | .ok _ => (s1, none)
  | none => (s, none)

/-- Go: `StateService.performTransition`. `ToState` is the method of `IStateTransition`. -/
def performTransition (svc : Services W) (ToState : τ → AppState) (s : Machine W τ)
    (transition : τ) : Machine W τ × Except GoError (StateHandleResult τ) :=
  let newStateID := ToState transition
  -- validate transition
  if s.activeState = newStateID then
    (s, .error (.leaf ("performTransition: already in state " ++ s.activeState)))
  else
    match lookupHandler s.stateHandlers newStateID with
    | none =>
      (s, .error (.leaf ("performTransition: handler for state " ++ newStateID ++ " not found")))
    | some toState =>
      let s1 := { s with trace := s.trace ++
        [Event.validateTransition toState.StateID s.activeState] }
      match toState.ValidateTransition s1.activeState with
      | some err =>
        let err1 := if err.Is ErrTransitionNotSupported then
            GoError.wrap (": transition from " ++ s1.activeState ++ " to " ++ newStateID
              ++ " not supported") err
          else err
        (s1, .error (.wrap "performTransition: " err1))
      | none =>
        -- exit active state
        match exitActiveState s1 transition with
        | (s2, some err) => (s2, .error (.wrap "performTransition: " err))
        | (s2, none) =>
          -- apply new state
          match updateAppState svc s2 newStateID with
          | (s3, some err) => (s3, .error (.wrap "performTransition: " err))
          | (s3, none) =>
            let eff := toState.Handle s3.world transition
            let s4 := absorb { s3 with trace := s3.trace ++
              [Event.handle toState.StateID s3.activeState] } eff
            match eff.ret with
            | .error err => (s4, .error (.wrap "performTransition: " err))
            | .ok handleResult => (s4, .ok { Transition := handleResult.Transition })

/-- The inner `for` loop of `Run`: perform the transition, follow the follow-up returned by
`Handle`, stop at the first error or when there is no follow-up. Returns the final `err`
of the loop; `none` (outer) when the fuel is used up before the loop ends. -/
def runChain (svc : Services W) (ToState : τ → AppState) :
    Nat → Machine W τ → τ → Option (Machine W τ × Option GoError)
  | 0, _, _ => none
  | fuel + 1, s, transition =>
    match performTransition svc ToState s transition with
    | (s1, .error err) => some (s1, some err)
    | (s1, .ok result) =>
      match result.Transition with
      | none => some (s1, none)
      | some next => runChain svc ToState fuel s1 next

/-- Modelled from the spec: `FinishTransaction(ctx, tx, execErr)` of the activity engine,
which is not part of the sources: with a nil `execErr` the journal is deleted, otherwise the
rollback runs. The error it returns is the parameter `FinishStatus`. -/
def FinishTransaction (svc : Services W) (s : Machine W τ) (execErr : Option GoError) :
    Machine W τ × Option GoError :=
  let s1 := { s with trace := s.trace ++ [Event.finishTransaction execErr] }
  match execErr with
  | none => ({ s1 with tx := [] }, svc.FinishStatus s1.world none)
  | some e =>
    let s2 := rollback s1
    (s2, svc.FinishStatus s2.world (some e))

/-- The `case data := <-s.transitionChan` branch of `Run`: one request of `Perform`.
Returns the value sent on `data.resultChan`. -/
def serveRequest (svc : Services W) (ToState : τ → AppState) (fuel : Nat) (s : Machine W τ)
    (transition : τ) : Option (Machine W τ × Option GoError) :=
  let s0 := { s with trace := s.trace ++ [Event.startTransaction] }
  match svc.StartTransaction s0.world with
  | (w, some err) =>
    let r := some (GoError.wrap "Run: " err)
    some ({ s0 with world := w, trace := s0.trace ++ [Event.reply r] }, r)
  | (w, none) =>
    match runChain svc ToState fuel { s0 with world := w, tx := [] } transition with
    | none => none
    | some (s1, err) =>
      match FinishTransaction svc s1 err with
      | (s2, some err2) =>
        let r := some (GoError.wrap "Run: " err2)
        some ({ s2 with trace := s2.trace ++ [Event.reply r] }, r)
      | (s2, none) => some ({ s2 with trace := s2.trace ++ [Event.reply none] }, none)

/-- Go: `StateService.Perform`, with the worker's branch of `Run` run in place of the
channel rendezvous. -/
def Perform (svc : Services W) (ToState : τ → AppState) (fuel : Nat) (s : Machine W τ)
    (transition : τ) : Option (Machine W τ × Option GoError) :=
  match serveRequest svc ToState fuel s transition with
  | none => none
  | some (s1, some err) => some (s1, some (.wrap "Perform: " err))
  | some (s1, none) => some (s1, none)

/-- A chain of transitions as the inner loop of `Run` runs it: from machine `s` the
transition `t` is performed, then every follow-up returned by `Handle`, until a step fails
(`some err`) or returns no follow-up (`none`); the third argument is the machine at the end. -/
inductive ChainRun (svc : Services W) (ToState : τ → AppState) :
    Machine W τ → τ → Machine W τ → Option GoError → Prop where
  | failed (s : Machine W τ) (t : τ) (e : GoError) :
    (performTransition svc ToState s t).2 = .error e →
    ChainRun svc ToState s t (performTransition svc ToState s t).1 (some e)
  | finished (s : Machine W τ) (t : τ) (r : StateHandleResult τ) :
    (performTransition svc ToState s t).2 = .ok r → r.Transition = none →
    ChainRun svc ToState s t (performTransition svc ToState s t).1 none
  | followUp (s : Machine W τ) (t next : τ) (r : StateHandleResult τ) (s1 : Machine W τ)
      (err : Option GoError) :
    (performTransition svc ToState s t).2 = .ok r → r.Transition = some next →
    ChainRun svc ToState (performTransition svc ToState s t).1 next s1 err →
    ChainRun svc ToState s t s1 err

/-- An undo entry appended by a collaborator. -/
def UndoStep.isExternal : UndoStep W → Bool
  | .external _ => true
  | .restoreState _ => false

/-- The event is a `FinishTransaction` call. -/
def Event.isFinish : Event → Bool
  | .finishTransaction _ => true
  | _ => false

/-- Calls that the worker makes outside `performTransition`. -/
def Event.isOuter : Event → Bool
  | .startTransaction => true
  | .finishTransaction _ => true
  | .reply _ => true
  | _ => false

/-- What one `performTransition` from machine `s` with transition `t` leaves behind in
machine `out`: the calls `evs` it made and the undo entries `steps` it appended. -/
structure StepFacts (ToState : τ → AppState) (s : Machine W τ) (t : τ) (out : Machine W τ)
    (evs : List Event) (steps : List (UndoStep W)) : Prop where
  trace_eq : out.trace = s.trace ++ evs
  tx_eq : out.tx = s.tx ++ steps
  handlers_eq : out.stateHandlers = s.stateHandlers
  inner : ∀ e ∈ evs, Event.isOuter e = false
  undo : (out.activeState = s.activeState ∧ ∀ st ∈ steps, UndoStep.isExternal st = true) ∨
    ∃ pre post, steps = pre ++ UndoStep.restoreState s.activeState :: post ∧
      ∀ st ∈ pre, UndoStep.isExternal st = true
  handle_only : ∀ h live, Event.handle h live ∈ evs →
    ∃ toState, lookupHandler s.stateHandlers (ToState t) = some toState ∧
      h = toState.StateID ∧ toState.ValidateTransition s.activeState = none ∧
      (∀ a, lookupHandler s.stateHandlers s.activeState = some a →
        ∃ u, (a.OnExit s.world t).ret = .ok u) ∧
      Event.updateConfigWithTx (ToState t) true ∈ evs ∧ live = ToState t
  exit_only : ∀ h live, Event.onExit h live ∈ evs →
    live = s.activeState ∧
      ∃ a, lookupHandler s.stateHandlers s.activeState = some a ∧ h = a.StateID

/-- The undo entries of a transaction opened in live state `a0` restore `a0`: either the
live state is still `a0` and all entries are external, or the first entry that is not
external is `restoreState a0`. -/
def ChainInv (a0 : AppState) (m : Machine W τ) : Prop :=
  (m.activeState = a0 ∧ ∀ st ∈ m.tx, UndoStep.isExternal st = true) ∨
    ∃ pre post, m.tx = pre ++ UndoStep.restoreState a0 :: post ∧
      ∀ st ∈ pre, UndoStep.isExternal st = true

/-- A sample state handler over the trivial world: it accepts every transition, its
`Handle` fails when `fails` is set and otherwise returns the follow-up `next`. -/
def sampleHandler (id : AppState) (next : Option AppState) (fails : Bool) :
    IStateHandler Unit AppState :=
  { StateID := id
    ValidateTransition := fun _ => none
    Handle := fun w _ =>
      { world := w, undo := [],
        ret := if fails then .error (.leaf "handle failed") else .ok { Transition := next } }
    OnExit := fun w _ => { world := w, undo := [], ret := .ok () } }

/-- Sample collaborators: every call succeeds and `FinishTransaction` returns its argument. -/
def sampleServices : Services Unit :=
  { UpdateConfigWithTx := fun w _ => { world := w, undo := [], ret := .ok () }
    StartTransaction := fun w => (w, none)
    FinishStatus := fun _ execErr => execErr }

/-- Sample collaborators whose `StartTransaction` fails. -/
def sampleServicesNoStart : Services Unit :=
  { sampleServices with StartTransaction := fun w => (w, some (.leaf "store is closed")) }

/-- Sample handler list: `active` hands over to `maintenance`, whose `Handle` fails. -/
def sampleHandlers : List (IStateHandler Unit AppState) :=
  [sampleHandler "boot" none false, sampleHandler "init" none false,
    sampleHandler "active" (some "maintenance") false, sampleHandler "maintenance" none true]

/-- Sample machine in live state `init` with the sample registry. -/
def sampleMachine : Machine Unit AppState :=
  { stateHandlers := sampleHandlers.map (fun h => (h.StateID, h))
    activeState := "init", world := (), tx := [], trace := [] }

/-- Sample machine whose two handlers hand over to each other for ever. -/
def loopMachine : Machine Unit AppState :=
  { stateHandlers := [("init", sampleHandler "init" (some "ztp_setup") false),
      ("ztp_setup", sampleHandler "ztp_setup" (some "init") false)]
    activeState := "init", world := (), tx := [], trace := [] }

end Appstate

/-! ## Device configuration (`sdwan-lib/pkg/config`, the fields used here) -/

/-- Go: `config.AppSection`, the fields read by the code embedded below. -/
structure AppSection where
  SerialNumber : String
  OrchestratorAddrs : List String
  ActiveOrchestratorAddr : String
  OrchestratorTunnelAddr : String := ""
  deriving DecidableEq, Repr

/-- Go: `config.AppStateSection`. -/
structure AppStateSection where
  State : String
  deriving DecidableEq, Repr

/-- Go: `config.PortConfig`, the fields read by `setHubPort`; `Wan` is flattened. -/
structure PortConfig where
  Name : String
  IPAddr : String := ""
  SubnetMask : String := ""
  Gateway : String := ""
  DNS : String := ""
  deriving DecidableEq, Repr

/-- Go: `config.PortSection`. -/
structure PortSection where
  PortConfigs : List PortConfig := []
  PortMTUs : List String := []
  deriving DecidableEq, Repr

/-- Go: `config.AdminStateSection`. -/
structure AdminStateSection where
  AdminStatePorts : List String := []
  deriving DecidableEq, Repr

/-- Go: `config.WANProtectionSection`. -/
structure WANProtectionSection where
  PortNames : List String := []
  AllowedPorts : List String := []
  deriving DecidableEq, Repr

/-- Go: `config.LoopbackSection`. -/
structure LoopbackSection where
  Addresses : List String := []
  deriving DecidableEq, Repr

/-- Go: `config.IPRuleSection`. -/
structure IPRuleSection where
  IPRules : List String := []
  deriving DecidableEq, Repr

/-- Go: `config.WireguardSection`. -/
structure WireguardSection where
  Configs : List String := []
  deriving DecidableEq, Repr

/-- Go: a cluster of `config.PonySection`: its network and the monitor addresses of its
uplinks. -/
structure PonyCluster where
  Network : String
  Uplinks : List String := []
  deriving DecidableEq, Repr

/-- Go: `config.PonySection`. -/
structure PonySection where
  Clusters : List PonyCluster := []
  deriving DecidableEq, Repr

/-- Go: `config.TrunkSection`; the content is kept as a list of entries, and the zero value
`config.TrunkSection{}` has none. The other five service sections are kept the same way. -/
structure TrunkSection where
  items : List String := []
  deriving DecidableEq, Repr

/-- Go: `config.P2PServiceSection`. -/
structure P2PServiceSection where
  items : List String := []
  deriving DecidableEq, Repr

/-- Go: `config.BridgeServiceSection`. -/
structure BridgeServiceSection where
  items : List String := []
  deriving DecidableEq, Repr

/-- Go: `config.L3ServiceSection`. -/
structure L3ServiceSection where
  items : List String := []
  deriving DecidableEq, Repr

/-- Go: `config.ISBSection`. -/
structure ISBSection where
  items : List String := []
  deriving DecidableEq, Repr

/-- Go: `config.FWSection`. -/
structure FWSection where
  items : List String := []
  deriving DecidableEq, Repr

/-- Go: `config.Config`, the sections the code embedded below touches; a nil section
pointer is `none`. -/
structure Config where
  App : Option AppSection := none
  AppState : Option AppStateSection := none
  Port : Option PortSection := none
  AdminState : Option AdminStateSection := none
  WANProtection : Option WANProtectionSection := none
  Loopback : Option LoopbackSection := none
  IPRule : Option IPRuleSection := none
  Wireguard : Option WireguardSection := none
  Pony : Option PonySection := none
  Trunk : Option TrunkSection := none
  P2P : Option P2PServiceSection := none
  Bridge : Option BridgeServiceSection := none
  L3 : Option L3ServiceSection := none
  ISB : Option ISBSection := none
  FW : Option FWSection := none
  deriving DecidableEq, Repr

/-! ## Primary discovery (`discovery/service.go`) -/

namespace Discovery

/-- Go: `discoveryResult` (fields as used by `FetchPrimary`). -/
structure discoveryResult where
  Host : String
  IsPrimary : Bool
  Err : Option GoError
  deriving DecidableEq, Repr

/-- The closure handed to `p.Go` for one host. -/
def checkHost (CheckPrimary : String → Bool × Option GoError) (host : String) :
    discoveryResult :=
  match CheckPrimary host with
  | (_, some err) => { Host := host, IsPrimary := false, Err := some (.wrap "check primary error: " err) }
  | (isPrimary, none) => { Host := host, IsPrimary := isPrimary, Err := none }

/-- The `for _, result := range results` loop of `FetchPrimary`: `.error` is the early
`return primary, errs.ErrSplitBrain`, `.ok` the value of `primary` after the loop. -/
def scanResults : List discoveryResult → String → Except (String × GoError) String
  | [], primary => .ok primary
  | result :: rest, primary =>
    if result.IsPrimary then
      if primary ≠ "" then .error (primary, ErrSplitBrain)
      else scanResults rest result.Host
    else scanResults rest primary

/-- Go: `Service.FetchPrimary`. `wait` is the order in which `p.Wait()` hands back the
results of the submitted tasks. `none` is a panic: `WithMaxGoroutines(n)` of
`sourcegraph/conc` panics for `n < 1`. -/
def FetchPrimary (CheckPrimary : String → Bool × Option GoError)
    (wait : List discoveryResult → List discoveryResult) (hosts : List String) :
    Option (String × Option GoError) :=
  if hosts.length < 1 then none
  else
    let results := wait (hosts.map (checkHost CheckPrimary))
    match scanResults results "" with
    | .error (primary, err) => some (primary, some err)
    | .ok primary =>
      if primary = "" then some ("", some (.wrap "FetchPrimary: " ErrPrimaryNotFound))
      else some (primary, none)

/-- A host answers primary: `CheckPrimary` returns `(true, nil)`. -/
def answersPrimary (CheckPrimary : String → Bool × Option GoError) (host : String) : Bool :=
  match CheckPrimary host with
  | (true, none) => true
  | _ => false

/-- Sample `CheckPrimary`: `orch2.sdwan.lab` answers primary, every other host standby. -/
def sampleCheckPrimary (host : String) : Bool × Option GoError :=
  (decide (host = "orch2.sdwan.lab"), none)

/-- Sample `CheckPrimary`: every host fails with a network error. -/
def sampleCheckDown (_ : String) : Bool × Option GoError :=
  (false, some (.leaf "network error"))

/-- Sample `CheckPrimary`: every host answers primary. -/
def sampleCheckAllPrimary (_ : String) : Bool × Option GoError :=
  (true, none)

end Discovery

/-! ## Discovery monitor (`discovery/monitoring/service.go`) -/

namespace Monitoring

/-- What one tick of the monitor reads from its collaborators. -/
structure TickEnv where
  GetConfig : Except GoError Config
  GetHosts : List String
  FetchPrimary : List String → String × Option GoError
  IsActive : Bool

/-- The `case <-ticker.C` branch of `Service.Start`: the number of `Reconnect()` calls made
on this tick; `none` is the nil-pointer panic of `cfg.App.ActiveOrchestratorAddr` when the
App section is missing. -/
def tick (env : TickEnv) : Option Nat :=
  match env.GetConfig with
  | .error _ => some 0
  | .ok cfg =>
    match cfg.App with
    | none => none
    | some app =>
      if app.ActiveOrchestratorAddr = "" then some 0
      else
        let hosts := env.GetHosts
        if hosts.length = 0 then some 0
        else
          match env.FetchPrimary hosts with
          | (_, some err) => if err.Is ErrSplitBrain then some 1 else some 0
          | (primary, none) =>
            if primary ≠ app.ActiveOrchestratorAddr && env.IsActive then some 1 else some 0

/-- Sample App section with two orchestrators, `https://A` being the active one. -/
def sampleApp : AppSection :=
  { SerialNumber := "SN1", OrchestratorAddrs := ["https://A", "https://B"],
    ActiveOrchestratorAddr := "https://A" }

/-- Sample tick: the active address is `https://A`, discovery reports a split brain. -/
def sampleTickEnv : TickEnv :=
  { GetConfig := .ok { App := some sampleApp },
    GetHosts := ["https://A", "https://B"],
    FetchPrimary := fun _ => ("https://A", some ErrSplitBrain),
    IsActive := true }

end Monitoring

/-! ## Hosts pinning (`nslookup/service.go`)

Go strings are embedded as `List Char`: the text is taken to be valid UTF-8, so that the
runes seen by `strings.TrimSpace` are the characters of the list. -/

namespace Nslookup

/-- Go: `unicode.IsSpace`. -/
def isSpace (c : Char) : Bool :=
  let r := c.toNat
  if r ≤ 0xFF then
    r == 0x09 || r == 0x0A || r == 0x0B || r == 0x0C || r == 0x0D || r == 0x20
      || r == 0x85 || r == 0xA0
  else
    r == 0x1680 || (0x2000 ≤ r && r ≤ 0x200A) || r == 0x2028 || r == 0x2029
      || r == 0x202F || r == 0x205F || r == 0x3000

/-- Go: `strings.TrimSpace`. -/
def TrimSpace (s : List Char) : List Char :=
  (s.dropWhile isSpace).rdropWhile isSpace

/-- Go: `strings.Split(s, sep)` for a one-character separator. -/
def Split (sep : Char) : List Char → List (List Char)
  | [] => [[]]
  | c :: cs =>
    if c = sep then [] :: Split sep cs
    else
      match Split sep cs with
      | [] => [[c]]
      | p :: ps => (c :: p) :: ps

/-- Worker of `ReplaceAll`: `skip` characters of a match found earlier are still to be
dropped. -/
def replaceFrom (old new : List Char) : List Char → Nat → List Char
  | [], _ => []
  | _ :: cs, skip + 1 => replaceFrom old new cs skip
  | c :: cs, 0 =>
    if old.isPrefixOf (c :: cs) then new ++ replaceFrom old new cs (old.length - 1)
    else c :: replaceFrom old new cs 0

/-- Go: `strings.ReplaceAll(s, old, new)` for a non-empty `old`: the non-overlapping
occurrences of `old` are replaced from left to right. -/
def ReplaceAll (s old new : List Char) : List Char :=
  replaceFrom old new s 0

/-- Go: `dropCR` of `bufio`. -/
def dropCR (data : List Char) : List Char :=
  if data.getLast? = some '\r' then data.dropLast else data

/-- The lines `bufio.ScanLines` cuts the input into, before `dropCR`; `cur` is the
unfinished line read so far. A final line without newline is a line if it is not empty. -/
def rawLines : List Char → List Char → List (List Char)
  | [], cur => if cur = [] then [] else [cur]
  | c :: cs, cur => if c = '\n' then cur :: rawLines cs [] else rawLines cs (cur ++ [c])

/-- Length in bytes of the UTF-8 encoding. -/
def utf8Len (s : List Char) : Nat :=
  (s.map Char.utf8Size).sum

/-- Go: `bufio.MaxScanTokenSize`. -/
def MaxScanTokenSize : Nat := 64 * 1024

/-- Sentinel `bufio.ErrTooLong`. -/
def ErrTooLong : GoError := .sentinel "bufio.Scanner: token too long"

/-- Go: `scanner.Err()` after the scan loop over `data`: the scanner gives up with
`ErrTooLong` when a line does not fit its buffer of `MaxScanTokenSize` bytes. -/
def scannerErr (data : List Char) : Option GoError :=
  if (rawLines data []).any (fun l => decide (MaxScanTokenSize ≤ utf8Len l)) then
    some ErrTooLong
  else none

/-- The values of `scanner.Text()` over the scan loop of a scanner that ends without error.
When `scannerErr` is not nil the loop stops in front of the first line that is too long
(`scannedLines`); the callers that fold over `scannerLines` cannot panic in the loop and
discard what the loop computed when `scannerErr` is not nil. -/
def scannerLines (data : List Char) : List (List Char) :=
  (rawLines data []).map dropCR

/-- The values of `scanner.Text()` over the scan loop: `Scan` returns false at the first
line that does not fit the buffer, and the lines behind it are not scanned. -/
def scannedLines (data : List Char) : List (List Char) :=
  ((rawLines data []).takeWhile (fun l => decide (utf8Len l < MaxScanTokenSize))).map dropCR

/-- Go: `sdwanSection`. -/
def sdwanSection : List Char := "# SDWAN: generated section".toList

/-- Go: `hostPair`. -/
structure hostPair where
  fqdn : List Char
  ip : List Char
  deriving DecidableEq, Repr

/-- Go: `newHostPair`. -/
def newHostPair (fqdn ip : List Char) : hostPair :=
  { fqdn := fqdn, ip := ip }

/-- Go: `hostPair.buildHostLine`, `fmt.Sprintf("%s %s", d.ip, d.fqdn)`. -/
def hostPair.buildHostLine (d : hostPair) : List Char :=
  d.ip ++ ' ' :: d.fqdn

/-- Go: `m[key] = true` on a `map[string]bool`, kept as the list of its keys. -/
def mapSet (m : List (List Char)) (key : List Char) : List (List Char) :=
  if key ∈ m then m else m ++ [key]

/-- Go: `delete(m, key)`. -/
def mapDelete (m : List (List Char)) (key : List Char) : List (List Char) :=
  m.filter (fun k => decide (k ≠ key))

/-- The address with the scheme removed, as computed at the head of the resolve loop. -/
def stripScheme (addr : String) : List Char :=
  ReplaceAll (ReplaceAll addr.toList "http://".toList []) "https://".toList []

/-- The resolve loop of `SyncHosts`. `LookupIP` returns the addresses already rendered by
`net.IP.String()`. The result is `newHosts` and the keys of `orchestratorMap`. -/
def resolveAddrs (LookupIP : List Char → Except GoError (List (List Char))) :
    List String → List hostPair → List (List Char) →
    Except GoError (List hostPair × List (List Char))
  | [], newHosts, orchestratorMap => .ok (newHosts, orchestratorMap)
  | addr :: rest, newHosts, orchestratorMap =>
    let orchestratorAddress := stripScheme addr
    match LookupIP orchestratorAddress with
    | .error err => .error (.wrap "SyncHosts: " err)
    | .ok ips =>
      resolveAddrs LookupIP rest (newHosts ++ ips.map (fun ip => newHostPair orchestratorAddress ip))
        (mapSet orchestratorMap orchestratorAddress)

/-- The variables the scan loop of `SyncHosts` updates. -/
structure ParseState where
  buf : List Char
  existingHosts : List (List Char)
  deriving DecidableEq, Repr

/-- The body of the scan loop of `SyncHosts` for one `scanner.Text()`. -/
def parseLine (orchestratorMap : List (List Char)) (st : ParseState) (text : List Char) :
    ParseState :=
  let line := TrimSpace text
  if line = sdwanSection then st
  else
    match Split ' ' line with
    | p0 :: p1 :: _ =>
      let ip := TrimSpace p0
      let fqdn := TrimSpace p1
      -- collect only orchestrator addresses
      if fqdn ∈ orchestratorMap then
        let key := (newHostPair fqdn ip).buildHostLine
        { st with existingHosts := mapSet st.existingHosts key }
      else { st with buf := st.buf ++ line ++ ['\n'] }
    | _ => { st with buf := st.buf ++ line ++ ['\n'] }

/-- The "search for changes" part of `SyncHosts`. -/
def hasChanges (existingHosts : List (List Char)) (newHosts : List hostPair) : Bool :=
  if existingHosts.length ≠ newHosts.length then true
  else
    decide (0 < (newHosts.foldl (fun m newHost => mapDelete m newHost.buildHostLine)
      existingHosts).length)

/-- The hosts file as `SyncHosts` meets it: the errors of `os.Stat`, `os.ReadFile` and
`os.WriteFile` (if any) and the bytes read. -/
structure HostsFile where
  statErr : Option GoError
  readErr : Option GoError
  data : List Char
  writeErr : Option GoError

/-- What a run of `SyncHosts` did: the error returned and the content handed to
`os.WriteFile`, if that was called. -/
structure SyncOutcome where
  err : Option GoError
  written : Option (List Char)
  deriving DecidableEq, Repr

/-- The second half of `SyncHosts`, from "read /etc/hosts file" to the end. -/
def rewriteHosts (newHosts : List hostPair) (orchestratorMap : List (List Char))
    (file : HostsFile) : SyncOutcome :=
  -- read /etc/hosts file
  match file.statErr with
  | some err => { err := some (.wrap "SyncHosts: " err), written := none }
  | none =>
    match file.readErr with
    | some err => { err := some (.wrap "SyncHosts: " err), written := none }
    | none =>
      -- parse existing addresses
      let st := (scannerLines file.data).foldl (parseLine orchestratorMap)
        { buf := [], existingHosts := [] }
      match scannerErr file.data with
      | some err => { err := some (.wrap "SyncHosts: " err), written := none }
      | none =>
        if !hasChanges st.existingHosts newHosts then { err := none, written := none }
        else
          -- append comment
          let buf := st.buf ++ ['\n'] ++ sdwanSection ++ ['\n']
          -- append new hosts
          let buf := newHosts.foldl
            (fun b newHost => b ++ newHost.buildHostLine ++ ['\n']) buf
          -- save updates to file
          match file.writeErr with
          | some err => { err := some (.wrap "SyncHosts: " err), written := some buf }
          | none => { err := none, written := some buf }

/-- Go: `Service.SyncHosts`. -/
def SyncHosts (GetConfig : Except GoError Config)
    (LookupIP : List Char → Except GoError (List (List Char))) (file : HostsFile) :
    SyncOutcome :=
  match GetConfig with
  | .error err => { err := some (.wrap "SyncHosts: " err), written := none }
  | .ok cfg =>
    match cfg.App with
    | none => { err := none, written := none }
    | some app =>
      if app.OrchestratorAddrs.length = 0 then { err := none, written := none }
      else
        -- resolve ips
        match resolveAddrs LookupIP app.OrchestratorAddrs [] [] with
        | .error err => { err := some err, written := none }
        | .ok (newHosts, orchestratorMap) =>
          if newHosts.length = 0 then { err := none, written := none }
          else rewriteHosts newHosts orchestratorMap file

/-- The file content after a run whose write, if any, succeeded. -/
def fileAfter (file : HostsFile) (out : SyncOutcome) : List Char :=
  match out.written with
  | some content => content
  | none => file.data

/-- The `newHosts` a run of `SyncHosts` resolves: one pair per resolved address, in
orchestrator order and within an orchestrator in resolver order; empty when the run stops
before or in the resolve loop. -/
def resolvedPairs (GetConfig : Except GoError Config)
    (LookupIP : List Char → Except GoError (List (List Char))) : List hostPair :=
  match GetConfig with
  | .error _ => []
  | .ok cfg =>
    match cfg.App with
    | none => []
    | some app =>
      match resolveAddrs LookupIP app.OrchestratorAddrs [] [] with
      | .error _ => []
      | .ok (newHosts, _) => newHosts

/-- A text without white space at either end. -/
def Trimmed (s : List Char) : Prop :=
  s.dropWhile isSpace = s ∧ s.rdropWhile isSpace = s

/-- A field of a generated host line that reads back as written: not empty, without
leading or trailing white space, and containing neither a space nor a newline. -/
def cleanField (x : List Char) : Bool :=
  decide (x ≠ []) && decide (TrimSpace x = x) && !x.contains ' ' && !x.contains '\n'

/-- The `fqdn` the scan loop of `SyncHosts` reads from a trimmed line: `parts[1]` of
`strings.Split(line, " ")`, white space trimmed; `none` when `len(parts) > 1` is false. -/
def splitField (line : List Char) : Option (List Char) :=
  match Split ' ' line with
  | _ :: field :: _ => some (TrimSpace field)
  | _ => none

/-- The trimmed lines the scan loop of `SyncHosts` writes to `buf`: those that are not the
marker and whose `splitField` is not a key of `orchestratorMap`. -/
def keptBySplit (fqdns : List (List Char)) (line : List Char) : Bool :=
  decide (line ≠ sdwanSection) &&
    match splitField line with
    | some field => !decide (field ∈ fqdns)
    | none => true

/-- The addresses `LookupIP` resolves for an FQDN. -/
def resolvedIPs (LookupIP : List Char → Except GoError (List (List Char)))
    (fqdn : List Char) : List (List Char) :=
  match LookupIP fqdn with
  | .ok ips => ips
  | .error _ => []

/-- The content `SyncHosts` hands to `os.WriteFile`, in closed form: the lines of the
original file that `keptBySplit` keeps, trimmed, in order, each followed by a newline; an
empty line; the marker line; one `ip fqdn` line per resolved address, in orchestrator order
and within an orchestrator in resolver order. -/
def writtenContent (addrs : List String)
    (LookupIP : List Char → Except GoError (List (List Char))) (data : List Char) :
    List Char :=
  let fqdns := addrs.map stripScheme
  let kept := ((rawLines data []).map TrimSpace).filter (keptBySplit fqdns)
  let generated := (fqdns.map (fun fqdn =>
    (resolvedIPs LookupIP fqdn).map (fun ip => ip ++ ' ' :: fqdn))).flatten
  (kept.map (fun line => line ++ ['\n'])).flatten ++ ['\n'] ++ sdwanSection ++ ['\n'] ++
    (generated.map (fun line => line ++ ['\n'])).flatten

/-- Sample config of the tests: the two orchestrators `test.sdwan.com` and
`test.reserve.sdwan.com`. -/
def sampleConfig : Config :=
  { App := some
      { SerialNumber := "",
        OrchestratorAddrs := ["test.sdwan.com", "https://test.reserve.sdwan.com"],
        ActiveOrchestratorAddr := "" } }

/-- Sample resolver of the tests. -/
def sampleLookupIP (address : List Char) : Except GoError (List (List Char)) :=
  if address = "test.sdwan.com".toList then
    .ok ["192.168.132.12".toList, "192.168.80.90".toList]
  else if address = "test.reserve.sdwan.com".toList then .ok ["172.20.180.10".toList]
  else .error (.leaf "no such host")

/-- Sample hosts file: one stale orchestrator entry between two ordinary lines. -/
def sampleHostsFile : HostsFile :=
  { statErr := none, readErr := none, writeErr := none,
    data := "127.0.0.1 localhost\n192.168.80.91 test.sdwan.com\n::1     ip6-localhost\n".toList }

/-- Sample config in which the same orchestrator is configured twice. -/
def sampleConfigTwice : Config :=
  { App := some
      { SerialNumber := "",
        OrchestratorAddrs := ["http://orch", "https://orch"],
        ActiveOrchestratorAddr := "" } }

/-- Sample config whose orchestrator address ends in a space. -/
def sampleConfigSpace : Config :=
  { App := some
      { SerialNumber := "",
        OrchestratorAddrs := ["orch "],
        ActiveOrchestratorAddr := "" } }

/-- Sample resolver answering every lookup with the one address `10.0.0.1`. -/
def sampleLookupOne (_ : List Char) : Except GoError (List (List Char)) :=
  .ok ["10.0.0.1".toList]

/-- An empty hosts file that can be read and written. -/
def emptyHostsFile : HostsFile :=
  { statErr := none, readErr := none, writeErr := none, data := [] }

/-- The hosts file after a run: same file system answers, content as left by the run. -/
def HostsFile.after (file : HostsFile) (out : SyncOutcome) : HostsFile :=
  { file with data := fileAfter file out }

end Nslookup

namespace Nslookup

/-- The pair the scan loop of `SyncHosts` collects from one line: `parts[1]` and `parts[0]`
of `strings.Split(line, " ")`, trimmed, for a line other than the section marker with
`len(parts) > 1` whose trimmed `parts[1]` is one of `fqdns`. -/
def parsedEntry (fqdns : List (List Char)) (text : List Char) : Option hostPair :=
  let line := TrimSpace text
  if line = sdwanSection then none
  else
    match Split ' ' line with
    | p0 :: p1 :: _ =>
      if TrimSpace p1 ∈ fqdns then some (newHostPair (TrimSpace p1) (TrimSpace p0)) else none
    | _ => none

/-- The pairs the scan loop of `SyncHosts` collects from the hosts file, in file order. -/
def parsedEntries (fqdns : List (List Char)) (data : List Char) : List hostPair :=
  (scannerLines data).filterMap (parsedEntry fqdns)

/-- A hosts file holding the entry of `sampleConfig` outside a generated section, with an
alias after the name. -/
def sampleSyncedFile : HostsFile :=
  { statErr := none, readErr := none,
    data := "127.0.0.1 localhost\n10.0.0.1 orch alias\n".toList, writeErr := none }

/-- Sample config with one orchestrator, given with its scheme. -/
def sampleConfigOne : Config :=
  { App := some
      { SerialNumber := "SN1", OrchestratorAddrs := ["http://orch"],
        ActiveOrchestratorAddr := "" } }

/-- The fields of the text behind `cur`, the field read so far: see `Fields`. -/
def fieldsFrom : List Char → List Char → List (List Char)
  | [], cur => if cur = [] then [] else [cur]
  | c :: cs, cur =>
    if isSpace c then
      if cur = [] then fieldsFrom cs [] else cur :: fieldsFrom cs []
    else fieldsFrom cs (cur ++ [c])

/-- Claims C10 and C11, the fields of a line of the hosts file: the maximal runs of
characters other than white space, as `strings.Fields` cuts them. In a hosts file the fields
of an entry are separated by any number of blanks and tabs. -/
def Fields (s : List Char) : List (List Char) :=
  fieldsFrom s []

/-- Claim C10, second field of an `ip fqdn` entry; `none` when the line has fewer than two
fields. -/
def secondField (line : List Char) : Option (List Char) :=
  (Fields line).get? 1

/-- Claim C10, the lines that are kept: a trimmed line that is neither the marker nor an
`ip fqdn` entry whose second field is one of the orchestrator FQDNs. -/
def keptLine (fqdns : List (List Char)) (line : List Char) : Bool :=
  decide (line ≠ sdwanSection) &&
    match secondField line with
    | some field => !decide (field ∈ fqdns)
    | none => true

/-- Claim C10, the content of a rewritten hosts file, following the words of the claim:
the kept lines of the original file, trimmed, in order, each followed by a newline; an empty
line; the marker line; one `ip fqdn` line per resolved address, in orchestrator order and
within an orchestrator in resolver order. -/
def expectedContent (addrs : List String)
    (LookupIP : List Char → Except GoError (List (List Char))) (data : List Char) :
    List Char :=
  let fqdns := addrs.map stripScheme
  let kept := ((rawLines data []).map TrimSpace).filter (keptLine fqdns)
  let generated := (fqdns.map (fun fqdn =>
    (resolvedIPs LookupIP fqdn).map (fun ip => ip ++ ' ' :: fqdn))).flatten
  (kept.map (fun line => line ++ ['\n'])).flatten ++ ['\n'] ++ sdwanSection ++ ['\n'] ++
    (generated.map (fun line => line ++ ['\n'])).flatten

/-- Claim C11, the `ip fqdn` entry one line of the hosts file holds for the FQDNs `fqdns`:
the first two fields of a line other than the section marker, when the second field is one
of `fqdns`. The line may sit anywhere in the file and carry further fields. -/
def lineEntry (fqdns : List (List Char)) (text : List Char) : Option hostPair :=
  if TrimSpace text = sdwanSection then none
  else
    match Fields text with
    | ip :: fqdn :: _ => if fqdn ∈ fqdns then some (newHostPair fqdn ip) else none
    | _ => none

/-- Claim C11, the `ip fqdn` entries present in the hosts file for the FQDNs `fqdns`, in
file order. -/
def fileEntries (fqdns : List (List Char)) (data : List Char) : List hostPair :=
  (scannerLines data).filterMap (lineEntry fqdns)

/-- A hosts file with a stale entry of the orchestrator of `sampleConfigOne`, ip and name
separated by a tab. -/
def tabStaleFile : HostsFile :=
  { statErr := none, readErr := none,
    data := "127.0.0.1\tlocalhost\n10.0.0.9\torch\n".toList, writeErr := none }

/-- A hosts file with the entry `sampleLookupOne` resolves for the orchestrator of
`sampleConfigOne`, ip and name separated by a tab. -/
def tabSyncedFile : HostsFile :=
  { statErr := none, readErr := none,
    data := "127.0.0.1\tlocalhost\n10.0.0.1\torch\n".toList, writeErr := none }

end Nslookup

namespace Appstate

/-- Go: `entities.AppStateInit`. -/
def AppStateInit : AppState := "init"

/-- Go: `entities.AppStateActive`. -/
def AppStateActive : AppState := "active"

/-- Go: `entities.AppStateUpdateConfig`. -/
def AppStateUpdateConfig : AppState := "update_config"

/-- Go: `entities.AppStateMaintenance`. -/
def AppStateMaintenance : AppState := "maintenance"

/-- Go: `entities.AppStateZTPSetup`. -/
def AppStateZTPSetup : AppState := "ztp_setup"

/-- Go: `entities.AppStateReset`. -/
def AppStateReset : AppState := "reset"

/-- The state ids of a handler list, in list order. -/
def stateIDs {W τ : Type} (stateHandlers : List (IStateHandler W τ)) : List AppState :=
  stateHandlers.map (fun handler => handler.StateID)

end Appstate

/-! ## State handlers (`appstate/handlers`): transitions, world and collaborators -/

namespace Handlers

open Appstate (AppState AppStateBoot AppStateInit AppStateActive AppStateUpdateConfig
  AppStateMaintenance AppStateZTPSetup AppStateReset)

/-- Go: `entities.PackageItem`. -/
structure PackageItem where
  Name : String
  Version : String := ""
  PreviousVersion : String := ""
  IsNew : Bool := false
  deriving DecidableEq, Repr

/-- Go: `entities.InstallPackageRequest`. -/
structure InstallPackageRequest where
  PackagesToInstall : List PackageItem
  deriving DecidableEq, Repr

/-- Go: the transition types of `entities/app_state.go`. -/
inductive Transition where
  | OnAfterBoot (toState : AppState)
  | OnFirstSetup (SerialNumber : String) (OrchestratorAddrs : List String)
  | OnMigrateFromOldVersion (SerialNumber : String) (OrchestratorAddr : String)
  | OnFallback
  | OnUpdateConfigFinished
  | OnUpdateDeviceFinished (err : Option GoError)
  | OnUpdateConfig (Config : Config)
  | OnRebuildServices
  | OnUpdateDevice (InstallPackages : InstallPackageRequest)
  | OnReset
  | OnZTPSetupFinished
  | OnZTPSetupInterrupted
  | OnInitFallback
  | OnHubResetFinished
  | OnZTPSetupConfig (Config : Config)
  | OnHubSetPort (PortConfig : PortConfig)
  | OnHubDeletePort (PortName : String)
  deriving DecidableEq, Repr

/-- Go: the `ToState` methods of the transition types. -/
def Transition.ToState : Transition → AppState
  | .OnAfterBoot toState => toState
  | .OnFirstSetup _ _ => AppStateActive
  | .OnMigrateFromOldVersion _ _ => AppStateActive
  | .OnFallback => AppStateActive
  | .OnUpdateConfigFinished => AppStateActive
  | .OnUpdateDeviceFinished _ => AppStateActive
  | .OnUpdateConfig _ => AppStateUpdateConfig
  | .OnRebuildServices => AppStateUpdateConfig
  | .OnUpdateDevice _ => AppStateMaintenance
  | .OnReset => AppStateReset
  | .OnZTPSetupFinished => AppStateInit
  | .OnZTPSetupInterrupted => AppStateInit
  | .OnInitFallback => AppStateInit
  | .OnHubResetFinished => AppStateInit
  | .OnZTPSetupConfig _ => AppStateZTPSetup
  | .OnHubSetPort _ => AppStateZTPSetup
  | .OnHubDeletePort _ => AppStateZTPSetup

/-- Go: `environment.Agent`, the fields the handlers read. -/
structure Agent where
  DeviceType : String
  DeviceID : String := ""
  EndPoint : String := ""
  deriving DecidableEq, Repr

/-- Go: `constants.DeviceTypeHub`. -/
def DeviceTypeHub : String := "hub"

/-- Go: `constants.DeviceTypeCPE`. -/
def DeviceTypeCPE : String := "cpe"

/-- Go: `entities.InitConfig`, the request of the orchestrator served by `InitDevice`. -/
structure InitConfig where
  OFControllerAddr : String := ""
  OrchestratorAddrs : List String := []
  AptSource : String := ""
  Wireguard : WireguardSection := {}
  Port : PortSection := {}
  WANProtection : WANProtectionSection := {}
  Loopback : LoopbackSection := {}
  IPRule : IPRuleSection := {}
  AdminState : AdminStateSection := {}
  Pony : PonySection := {}
  Trunk : TrunkSection := {}
  L3 : L3ServiceSection := {}
  ISB : ISBSection := {}
  Bridge : BridgeServiceSection := {}
  P2P : P2PServiceSection := {}
  FW : FWSection := {}
  deriving DecidableEq, Repr

/-- A call into a collaborator of the handlers (config store, activity engine, message
queue, systemd, websocket publisher, shell, file system), with its arguments. -/
inductive Call where
  | GetConfig
  | UpdateConfigWithTx (cfg : Config) (skipGenerators : Bool)
  | ExecuteActivity (name : String)
  | AddCheckPoint
  | DeleteCheckPoint (checkpointID : Nat)
  | ActivateHandler (subject : String)
  | DeactivateHandler (subject : String)
  | Request (subject : String) (request : InstallPackageRequest)
  | jsonUnmarshal
  | responseIsError
  | ChanSubscribe (subject : String)
  | receiveInstallFinished
  | Unsubscribe
  | publisherStart
  | publisherStop
  | StartTransaction
  | FinishTransaction (execErr : Option GoError)
  | TryStartServiceWithTx (serviceName : String)
  | TryStopServiceWithTx (serviceName : String)
  | TryStopService (serviceName : String)
  | shellExec (command : String)
  | installUpdateManagerScript (newVersion : String) (currentVersion : String)
  | receiveFirstInit
  | PublishRequest (method : String) (errorMessage : String)
  | responseIsErrorResponse
  | Reconnect
  | ponyPause
  | ponyResume
  | SyncHosts
  | checkHubTunnels
  | checkWebsocketConnection
  | UpdateHostnameWithTx (hostname : String)
  | SetAptSource (aptSource : String)
  | ConfigureAgent (serverAddr : String)
  | SetupStaticWithTx
  | ClearStatic
  | tryResetEnv
  | dbClose
  | RemoveAll (path : String)
  | GetSection (sectionName : String)
  | ConvertIPMaskToInt (subnetMask : String)
  | AppendCommand
  | goRoutine (name : String)
  | Dial (scheme host path : String)
  | UpdateConfig (cfg : Config)
  deriving DecidableEq, Repr

/-- A call that was made, with the error it returned. -/
structure CallRecord where
  call : Call
  err : Option GoError
  deriving DecidableEq, Repr

/-- One record appended to the journal of the open transaction by a handler: the rollback
function given to `ExecuteFunc`, the undo payload of an activity, the marker of
`AddCheckPoint`, or the removal of a marker by `DeleteCheckPoint`. -/
inductive Undo where
  | DeactivateHandler (subject : String)
  | ActivateHandler (subject : String)
  | websocketStop
  | websocketStart
  | restoreSections (old : Config) (touched : Config)
  | activity (name : String)
  | checkpoint (id : Nat)
  | checkpointDeleted (id : Nat)
  deriving DecidableEq, Repr

/-- The pending rendezvous of the device-init service: the transaction recorded in
`firstInitData` and the channel `waitFirstInitChan` (transactions and channels are numbered
in the order they are made). -/
structure FirstInit where
  tx : Nat
  chan : Nat
  deriving DecidableEq, Repr

/-- The channel `WaitFirstInit` returns: a buffered channel that already holds an error, or
the unbuffered channel of the rendezvous it has registered. -/
inductive InitChan where
  | holding (err : GoError)
  | waiting (chan : Nat)
  deriving DecidableEq, Repr

/-- Everything outside the controller that the state handlers act on. `outcome` is the
environment: the error a collaborator call returns, given the calls made so far;
`initRequest` is the `InitDevice` request the orchestrator sends while `runFirstSetup` waits
(`none`: none is sent before the timeout); `CheckPrimary` is what each orchestrator host
answers to the primary check of the discovery service. -/
structure World where
  store : Config
  subjects : Finset String
  websocketStarted : Bool
  checkpoints : List Nat
  checkpointCount : Nat
  firstInit : Option FirstInit
  chanCount : Nat
  isInitializing : Bool
  txID : Nat
  panicked : Bool
  calls : List CallRecord
  outcome : List CallRecord → Call → Option GoError
  initRequest : Option InitConfig
  CheckPrimary : String → Bool × Option GoError

/-- The state a handler function runs on: the world and the undo entries appended to the
open transaction so far by the running `Handle` or `OnExit`, in call order. -/
structure HState where
  world : World
  undo : List Undo

/-- A handler function: it changes world and transaction and returns a value or an error. -/
def Act (α : Type) : Type := HState → Except GoError α × HState

/-- Return without error. -/
def Act.pure {α : Type} (a : α) : Act α := fun s => (.ok a, s)

/-- Sequencing with Go's `if err != nil { return ... }` after the first call. -/
def Act.bind {α β : Type} (x : Act α) (f : α → Act β) : Act β := fun s =>
  match x s with
  | (.ok a, s1) => f a s1
  | (.error e, s1) => (.error e, s1)

instance : Monad Act where
  pure := Act.pure
  bind := Act.bind

/-- Go: `return err`. -/
def Act.fail {α : Type} (e : GoError) : Act α := fun s => (.error e, s)

/-- Go: `fmt.Errorf(msg + "%w", err)` around the error of `x`, if any. -/
def Act.wrapErr {α : Type} (msg : String) (x : Act α) : Act α := fun s =>
  match x s with
  | (.ok a, s1) => (.ok a, s1)
  | (.error e, s1) => (.error (.wrap msg e), s1)

/-- Go: `if err := x(); err != nil { log.Error() }`: the error is returned as a value. -/
def Act.attempt {α : Type} (x : Act α) : Act (Option GoError) := fun s =>
  match x s with
  | (.ok _, s1) => (.ok none, s1)
  | (.error e, s1) => (.ok (some e), s1)

/-- A nil pointer dereference: the goroutine panics. -/
def Act.nilDeref {α : Type} : Act α := fun s =>
  (.error (.leaf "panic: runtime error: invalid memory address or nil pointer dereference"),
    { s with world := { s.world with panicked := true } })

/-- A call that returns no error: recorded only. -/
def note (c : Call) : Act Unit := fun s =>
  (.ok (), { s with world := { s.world with calls := s.world.calls ++ [⟨c, none⟩] } })

/-- A call into a collaborator: recorded, and answered by the environment. -/
def call (c : Call) : Act Unit := fun s =>
  let err := s.world.outcome s.world.calls c
  let s1 := { s with world := { s.world with calls := s.world.calls ++ [⟨c, err⟩] } }
  match err with
  | none => (.ok (), s1)
  | some e => (.error e, s1)

/-- A change of the world made by a collaborator call that has succeeded. -/
def modifyWorld (f : World → World) : Act Unit := fun s =>
  (.ok (), { s with world := f s.world })

/-- Read the world. -/
def getWorld : Act World := fun s => (.ok s.world, s)

/-- Append an undo entry to the open transaction. -/
def pushUndo (u : Undo) : Act Unit := fun s =>
  (.ok (), { s with undo := s.undo ++ [u] })

/-- Modelled from the spec: `config.EmptyConfig()` of the configuration library, which is
not part of the sources: the configuration "with empty sections" a device is created with,
every section present and empty. -/
def EmptyConfig : Config :=
  { App := some { SerialNumber := "", OrchestratorAddrs := [], ActiveOrchestratorAddr := "" },
    AppState := some { State := "" }, Port := some {}, AdminState := some {},
    WANProtection := some {}, Loopback := some {}, IPRule := some {}, Wireguard := some {},
    Pony := some {}, Trunk := some {}, P2P := some {}, Bridge := some {}, L3 := some {},
    ISB := some {}, FW := some {} }

/-- One section of a config update: a non-nil section of the argument replaces the stored
one, a nil section leaves it. -/
def mergeSection {α : Type} (stored new : Option α) : Option α :=
  match new with
  | some x => some x
  | none => stored

/-- Modelled from the spec: the merge of `UpdateConfigWithTx` in the configuration library,
which is not part of the sources: the update replaces exactly the non-nil sections of its
argument. -/
def mergeConfig (stored new : Config) : Config :=
  { App := mergeSection stored.App new.App
    AppState := mergeSection stored.AppState new.AppState
    Port := mergeSection stored.Port new.Port
    AdminState := mergeSection stored.AdminState new.AdminState
    WANProtection := mergeSection stored.WANProtection new.WANProtection
    Loopback := mergeSection stored.Loopback new.Loopback
    IPRule := mergeSection stored.IPRule new.IPRule
    Wireguard := mergeSection stored.Wireguard new.Wireguard
    Pony := mergeSection stored.Pony new.Pony
    Trunk := mergeSection stored.Trunk new.Trunk
    P2P := mergeSection stored.P2P new.P2P
    Bridge := mergeSection stored.Bridge new.Bridge
    L3 := mergeSection stored.L3 new.L3
    ISB := mergeSection stored.ISB new.ISB
    FW := mergeSection stored.FW new.FW }

/-- One section of the undo of a config update: a section the update touched gets back the
value stored before the update. -/
def restoreSection {α : Type} (old touched current : Option α) : Option α :=
  match touched with
  | some _ => old
  | none => current

/-- Modelled from the spec: the undo of the update-store-section activity through which
`UpdateConfigWithTx` persists the merged config: the sections the update touched get back
the values stored before it. -/
def restoreConfig (old touched current : Config) : Config :=
  { App := restoreSection old.App touched.App current.App
    AppState := restoreSection old.AppState touched.AppState current.AppState
    Port := restoreSection old.Port touched.Port current.Port
    AdminState := restoreSection old.AdminState touched.AdminState current.AdminState
    WANProtection := restoreSection old.WANProtection touched.WANProtection
      current.WANProtection
    Loopback := restoreSection old.Loopback touched.Loopback current.Loopback
    IPRule := restoreSection old.IPRule touched.IPRule current.IPRule
    Wireguard := restoreSection old.Wireguard touched.Wireguard current.Wireguard
    Pony := restoreSection old.Pony touched.Pony current.Pony
    Trunk := restoreSection old.Trunk touched.Trunk current.Trunk
    P2P := restoreSection old.P2P touched.P2P current.P2P
    Bridge := restoreSection old.Bridge touched.Bridge current.Bridge
    L3 := restoreSection old.L3 touched.L3 current.L3
    ISB := restoreSection old.ISB touched.ISB current.ISB
    FW := restoreSection old.FW touched.FW current.FW }

/-- The effect of an undo entry that runs without error. The undo of an activity acts on
parts of the system (systemd units, network setup) that the model does not keep. -/
def Undo.run : Undo → World → World
  | .DeactivateHandler subject, w => { w with subjects := w.subjects.erase subject }
  | .ActivateHandler subject, w => { w with subjects := insert subject w.subjects }
  | .websocketStop, w => { w with websocketStarted := false }
  | .websocketStart, w => { w with websocketStarted := true }
  | .restoreSections old touched, w => { w with store := restoreConfig old touched w.store }
  | .activity _, w => w
  | .checkpoint _, w => w
  | .checkpointDeleted _, w => w

/-- The journal record of an entry: checkpoint markers stay markers, every other entry is
the undo `Undo.run`. -/
def Undo.toStep : Undo → Appstate.JournalStep World
  | .checkpoint id => .checkpoint id
  | .checkpointDeleted id => .checkpointDeleted id
  | u => .undo u.run

/-- Go: `IConfigService.GetConfig`: the stored config, or the error of the store. -/
def GetConfig : Act Config := do
  call .GetConfig
  let w ← getWorld
  return w.store

/-- Modelled from the spec: `IConfigService.UpdateConfigWithTx` of the configuration
library, which is not part of the sources: the non-nil sections of `cfg` are merged into the
stored config and the write is a step of the transaction; on error nothing is stored. -/
def UpdateConfigWithTx (cfg : Config) (skipGenerators : Bool) : Act Unit := do
  let w ← getWorld
  call (.UpdateConfigWithTx cfg skipGenerators)
  modifyWorld (fun w1 => { w1 with store := mergeConfig w1.store cfg })
  pushUndo (.restoreSections w.store cfg)

/-- Modelled from the spec: `ExecuteFunc(tx, fn, rlFn)` of the activity engine, which is not
part of the sources: it runs `fn` and, when that succeeds, appends `rlFn` to the
transaction. -/
def ExecuteFunc (fn : Act Unit) (rlFn : Undo) : Act Unit := do
  fn
  pushUndo rlFn

/-- Modelled from the spec: `ExecuteActivity` of the activity engine for an activity whose
forward and undo actions run outside the model (shell commands, net-init sections). -/
def ExecuteActivity (name : String) : Act Unit := do
  call (.ExecuteActivity name)
  pushUndo (.activity name)

/-- Modelled from the spec: `AddCheckPoint` of the activity engine; checkpoints are numbered
in the order they are added, and the marker is appended to the journal. -/
def AddCheckPoint : Act Nat := do
  call .AddCheckPoint
  let w ← getWorld
  modifyWorld (fun w1 => { w1 with checkpoints := w1.checkpoints ++ [w1.checkpointCount],
                                   checkpointCount := w1.checkpointCount + 1 })
  pushUndo (.checkpoint w.checkpointCount)
  return w.checkpointCount

/-- Modelled from the spec: `DeleteCheckPoint` of the activity engine: the checkpoint no
longer counts, which the journal records. -/
def DeleteCheckPoint (checkpointID : Nat) : Act Unit := do
  call (.DeleteCheckPoint checkpointID)
  modifyWorld (fun w => { w with checkpoints := w.checkpoints.filter (· ≠ checkpointID) })
  pushUndo (.checkpointDeleted checkpointID)

/-- Modelled from the spec: `IMQService.ActivateHandler`: the handler registered for the
subject is delivered messages from now on. -/
def ActivateHandler (subject : String) : Act Unit := do
  call (.ActivateHandler subject)
  modifyWorld (fun w => { w with subjects := insert subject w.subjects })

/-- Modelled from the spec: `IMQService.DeactivateHandler`. -/
def DeactivateHandler (subject : String) : Act Unit := do
  call (.DeactivateHandler subject)
  modifyWorld (fun w => { w with subjects := w.subjects.erase subject })

/-- Go: `websocket.Service.IsStarted`, `!s.messagePublisher.IsClosed()`. -/
def IsStarted : Act Bool := do
  let w ← getWorld
  return w.websocketStarted

/-- Go: `websocket.Service.Start`. The publisher of the websocket library is open after its
`Start` and closed after its `Stop`. -/
def websocketStart : Act Unit := do
  if (← IsStarted) then
    Act.fail (.leaf "Start: publisher already started")
  else do
    note .publisherStart
    modifyWorld (fun w => { w with websocketStarted := true })

/-- Go: `websocket.Service.Stop`. -/
def websocketStop : Act Unit := do
  if !(← IsStarted) then
    Act.fail (.leaf "Stop: publisher already stopped")
  else do
    note .publisherStop
    modifyWorld (fun w => { w with websocketStarted := false })

/-- Go: `ISystemdService.TryStartServiceWithTx`. -/
def TryStartServiceWithTx (serviceName : String) : Act Unit := do
  call (.TryStartServiceWithTx serviceName)
  pushUndo (.activity ("start " ++ serviceName))

/-- Go: `ISystemdService.TryStopServiceWithTx`. -/
def TryStopServiceWithTx (serviceName : String) : Act Unit := do
  call (.TryStopServiceWithTx serviceName)
  pushUndo (.activity ("stop " ++ serviceName))

/-- Go: `IHostnameService.UpdateHostnameWithTx`. -/
def UpdateHostnameWithTx (hostname : String) : Act Unit := do
  call (.UpdateHostnameWithTx hostname)
  pushUndo (.activity "update hostname")

/-- Go: `IFirstPortService.SetupStaticWithTx`. -/
def SetupStaticWithTx : Act Unit := do
  call .SetupStaticWithTx
  pushUndo (.activity "setup static")

/-- A goroutine started with `go`: it runs after the handler has returned and outside the
transaction, so only the start is recorded. -/
def goRoutine (name : String) : Act Unit :=
  note (.goRoutine name)

/-! ### Device-init service (`deviceinit/service.go`) -/

/-- Go: `deviceinit.Service.WaitFirstInit`. -/
def WaitFirstInit (tx : Nat) : Act InitChan := do
  let w ← getWorld
  match w.firstInit with
  | some _ =>
    return .holding (.leaf "WaitFirstInit: already waiting first init")
  | none =>
    modifyWorld (fun w1 => { w1 with firstInit := some { tx := tx, chan := w1.chanCount },
                                     chanCount := w1.chanCount + 1 })
    return .waiting w.chanCount

/-- Go: `defineNewAddrs`. -/
def defineNewAddrs (newAddrs oldAddrs : List String) : List String :=
  if newAddrs.length = 0 then oldAddrs else newAddrs

/-- Go: `strings.Split(initConfig.OFControllerAddr, ":")[0]`. -/
def hostOf (addr : String) : String :=
  String.mk (addr.toList.takeWhile (· ≠ ':'))

/-- Go: `deviceinit.Service.checkHubTunnels`; the pings run in the environment. -/
def checkHubTunnels (ponyCfg : PonySection) : Act Unit :=
  if ponyCfg.Clusters.length = 0 then pure ()
  else call .checkHubTunnels

/-- The body of `deviceinit.Service.InitDevice` from the `isInitializing` check on, without
the deferred calls. -/
def initDeviceSteps (deviceType : String) (initConfig : InitConfig) : Act Unit := do
  note .ponyPause
  let oldConfig ← (GetConfig).wrapErr "InitDevice: "
  match oldConfig.App with
  | none => Act.nilDeref
  | some app0 =>
    let deviceSerial := app0.SerialNumber
    let orchTunnelAddr := hostOf initConfig.OFControllerAddr
    let app := { app0 with
      OrchestratorTunnelAddr := orchTunnelAddr,
      OrchestratorAddrs := defineNewAddrs initConfig.OrchestratorAddrs app0.OrchestratorAddrs }
    (UpdateConfigWithTx { App := some app } false).wrapErr "InitDevice: "
    (UpdateHostnameWithTx deviceSerial).wrapErr "InitDevice: "
    (call (.SetAptSource initConfig.AptSource)).wrapErr "InitDevice: "
    -- install rules
    (UpdateConfigWithTx
      { Wireguard := some initConfig.Wireguard, Port := some initConfig.Port,
        WANProtection := some initConfig.WANProtection, Loopback := some initConfig.Loopback,
        IPRule := some initConfig.IPRule, Pony := some initConfig.Pony,
        AdminState := some initConfig.AdminState } false).wrapErr "InitDevice: "
    (call (.ConfigureAgent ("http://" ++ orchTunnelAddr))).wrapErr "InitDevice: "
    -- check connection to hubs via tunnels
    if deviceType = DeviceTypeCPE then
      (checkHubTunnels initConfig.Pony).wrapErr "InitDevice: "
    -- check connection via websocket
    if deviceType = DeviceTypeCPE ∨ deviceType = DeviceTypeHub then
      (call .checkWebsocketConnection).wrapErr "InitDevice: "
    -- install services
    (UpdateConfigWithTx
      { Trunk := some initConfig.Trunk, L3 := some initConfig.L3, ISB := some initConfig.ISB,
        Bridge := some initConfig.Bridge, P2P := some initConfig.P2P,
        FW := some initConfig.FW } false).wrapErr "InitDevice: "

/-- Go: `deviceinit.Service.InitDevice` called while a first-init rendezvous is pending: the
steps join the recorded transaction, and the deferred calls resume the tunnel monitor, hand
the error to the waiting `runFirstSetup` and release the slot. The value returned is the
error sent on the channel. -/
def InitDevice (deviceType : String) (initConfig : InitConfig) : Act (Option GoError) := do
  let w ← getWorld
  if w.isInitializing then
    modifyWorld (fun w1 => { w1 with firstInit := none })
    return some (.leaf "InitDevice: device already initializing")
  else do
    modifyWorld (fun w1 => { w1 with isInitializing := true })
    let err ← (initDeviceSteps deviceType initConfig).attempt
    note .ponyResume
    modifyWorld (fun w1 => { w1 with isInitializing := false, firstInit := none })
    return err

/-! ### Connection factory (`connection/factory.go`) -/

/-- Modelled from the spec: `IConfigService.UpdateConfig` of the configuration library,
which is not part of the sources: the non-nil sections of `cfg` are merged into the stored
config, outside any transaction. -/
def UpdateConfig (cfg : Config) : Act Unit := do
  call (.UpdateConfig cfg)
  modifyWorld (fun w1 => { w1 with store := mergeConfig w1.store cfg })

/-- The scheme of the websocket URL: `wss` for an address that starts with `https`. -/
def wsScheme (orchestratorAddr : String) : String :=
  if "https".toList.isPrefixOf orchestratorAddr.toList then "wss" else "ws"

/-- The end of `BuildConn`: the host the connection was made to is written to the App section
as the active orchestrator address. -/
def writeActiveAddr (orchestratorAddr : String) : Act Unit := do
  let oldConfig ← (GetConfig).wrapErr "BuildConn: "
  match oldConfig.App with
  | none => Act.nilDeref
  | some oldApp =>
    (UpdateConfig
      { App := some { oldApp with ActiveOrchestratorAddr := orchestratorAddr } }).wrapErr
      "BuildConn: "

/-- Go: `connection.Factory.BuildConn`, the function the websocket publisher dials with.
The results of the discovery pool are taken in submission order; the connection itself is
outside the model. On an empty address list `FetchPrimary` panics. -/
def BuildConn : Act Unit := do
  -- load connection data from config
  let cfg ← (GetConfig).wrapErr "BuildConn: "
  match cfg.App with
  | none => Act.fail (.leaf "BuildConn: device app configuration is missing")
  | some app =>
    let w ← getWorld
    match Discovery.FetchPrimary w.CheckPrimary id app.OrchestratorAddrs with
    | none => do
      -- the pool panics on `WithMaxGoroutines(0)`
      modifyWorld (fun w1 => { w1 with panicked := true })
      Act.fail (.leaf "panic: max goroutines in a pool must be greater than zero")
    | some (_, some err) => Act.fail (.wrap "BuildConn: " err)
    | some (orchestratorAddr, none) =>
      if app.SerialNumber = "" then
        Act.fail (.leaf "BuildConn: serial number for device is not set")
      else if orchestratorAddr = "" then
        Act.fail (.leaf "BuildConn: orchestrator address for device is not set")
      else do
        -- build connection
        (call (.Dial (wsScheme orchestratorAddr)
          (String.mk (Nslookup.stripScheme orchestratorAddr))
          ("/api/v1/ws/agents/" ++ app.SerialNumber))).wrapErr "BuildConn: "
        writeActiveAddr orchestratorAddr

/-! ### Constants (`constants`, `errs`) -/

/-- Sentinel `errs.ErrInvalidTransitionType`. -/
def ErrInvalidTransitionType : GoError := .sentinel "invalid transition type"

/-- Go: `constants.MQAgentZTPFirstSetup`. -/
def MQAgentZTPFirstSetup : String := "agent.ztp.first_setup"

/-- Go: `constants.MQAgentZTPSetPort`. -/
def MQAgentZTPSetPort : String := "agent.ztp.set_port"

/-- Go: `constants.MQAgentZTPDelPort`. -/
def MQAgentZTPDelPort : String := "agent.ztp.del_port"

/-- Go: `constants.MQAgentRebuildServices`. -/
def MQAgentRebuildServices : String := "agent.rebuild_services"

/-- Go: `constants.MQAgentInstallFinished`. -/
def MQAgentInstallFinished : String := "agent.install_finished"

/-- Go: `constants.MQAgentReset`. -/
def MQAgentReset : String := "agent.reset"

/-- Go: `constants.MQAgentHubSetPort`. -/
def MQAgentHubSetPort : String := "agent.hub.set_port"

/-- Go: `constants.MQAgentHubDelPort`. -/
def MQAgentHubDelPort : String := "agent.hub.del_port"

/-- Go: `constants.MQAgentHubInit`. -/
def MQAgentHubInit : String := "agent.hub.init"

/-- Go: `constants.MQUpdateManagerInstall`. -/
def MQUpdateManagerInstall : String := "update_manager.install"

/-- Go: `constants.SdwanAgentPackageName`. -/
def SdwanAgentPackageName : String := "sdwan-agent"

/-- Go: `constants.SdwanBGPAdapterPackageName`. -/
def SdwanBGPAdapterPackageName : String := "sdwan-bgp-adapter"

/-- Go: `constants.SdwanBGPDPackageName`. -/
def SdwanBGPDPackageName : String := "sdwan-bgpd"

/-- Go: `constants.SdwanUpdateManagerPackageName`. -/
def SdwanUpdateManagerPackageName : String := "sdwan-update-manager"

/-- Go: `constants.UpdateManagerServiceName`; the file that gives its value is not part of
the sources, the name stands for it. The other service names are kept the same way. -/
def UpdateManagerServiceName : String := "UpdateManagerServiceName"

/-- Go: `constants.AgentStarterServiceName`. -/
def AgentStarterServiceName : String := "AgentStarterServiceName"

/-- Go: `constants.ISCDHCPServiceName`. -/
def ISCDHCPServiceName : String := "ISCDHCPServiceName"

/-- Go: `constants.AdapterServiceName`. -/
def AdapterServiceName : String := "AdapterServiceName"

/-- The loop of a `subscribeQueueSubjects`: every subject is activated through
`ExecuteFunc` with its deactivation as undo; the first error ends the loop. -/
def subscribeLoop : List String → Act Unit
  | [] => pure ()
  | subject :: rest => do
    (ExecuteFunc (ActivateHandler subject) (.DeactivateHandler subject)).wrapErr
      "subscribeQueueSubjects: "
    subscribeLoop rest

/-- The loop of an `unsubscribeQueueSubjects`. -/
def unsubscribeLoop : List String → Act Unit
  | [] => pure ()
  | subject :: rest => do
    (ExecuteFunc (DeactivateHandler subject) (.ActivateHandler subject)).wrapErr
      "unsubscribeQueueSubjects: "
    unsubscribeLoop rest

/-! ### Init state handler (`handlers/init.go`) -/

namespace InitStateHandler

/-- Go: the `mqSubjects` set by `NewInitStateHandler`. -/
def mqSubjects : List String :=
  [MQAgentZTPFirstSetup, MQAgentZTPSetPort, MQAgentZTPDelPort, MQAgentHubSetPort,
    MQAgentHubDelPort, MQAgentHubInit, MQAgentReset]

/-- Go: `InitStateHandler.StateID`. -/
def StateID : AppState := AppStateInit

/-- Go: `InitStateHandler.ValidateTransition`. -/
def ValidateTransition (fromState : AppState) : Option GoError :=
  if fromState ≠ AppStateBoot ∧ fromState ≠ AppStateZTPSetup ∧ fromState ≠ AppStateReset then
    some (.wrap "ValidateTransition: " ErrTransitionNotSupported)
  else none

/-- Go: `InitStateHandler.subscribeQueueSubjects`. -/
def subscribeQueueSubjects : Act Unit :=
  subscribeLoop mqSubjects

/-- Go: `InitStateHandler.unsubscribeQueueSubjects`. -/
def unsubscribeQueueSubjects : Act Unit :=
  unsubscribeLoop mqSubjects

/-- Go: `InitStateHandler.checkMigrateFromOldVersion`. -/
def checkMigrateFromOldVersion (agentEnv : Agent) : Bool :=
  let deviceID := agentEnv.DeviceID
  if deviceID = "" then false
  else if deviceID.toList.any (fun c => c = 'x' ∨ c = 'X') then false
  else true

/-- Go: `InitStateHandler.restoreInitState`. The errors of the four shell commands are
logged only. -/
def restoreInitState (agentEnv : Agent) : Act Unit := do
  -- activate mq routes
  (subscribeQueueSubjects).wrapErr "restoreInitState: "
  -- activate/deactivate daemons
  let _ ← (call (.shellExec ("disable " ++ AdapterServiceName))).attempt
  let _ ← (call (.shellExec ("stop " ++ AdapterServiceName))).attempt
  let _ ← (call (.shellExec ("disable " ++ UpdateManagerServiceName))).attempt
  let _ ← (call (.shellExec ("stop " ++ UpdateManagerServiceName))).attempt
  if agentEnv.DeviceType ≠ DeviceTypeHub then
    -- agent starter
    (TryStartServiceWithTx AgentStarterServiceName).wrapErr "restoreInitState: "
    -- isc dhcp server
    (TryStartServiceWithTx ISCDHCPServiceName).wrapErr "restoreInitState: "

/-- Go: `InitStateHandler.Handle`. -/
def Handle (agentEnv : Agent) (transition : Transition) :
    Act (Appstate.StateHandleResult Transition) :=
  match transition with
  | .OnAfterBoot _ =>
    if checkMigrateFromOldVersion agentEnv then
      pure { Transition := some (.OnMigrateFromOldVersion agentEnv.DeviceID agentEnv.EndPoint) }
    else do
      (restoreInitState agentEnv).wrapErr "Handle: "
      return { Transition := none }
  | .OnInitFallback => do
    (restoreInitState agentEnv).wrapErr "Handle: "
    return { Transition := none }
  | .OnZTPSetupInterrupted => do
    (restoreInitState agentEnv).wrapErr "Handle: "
    return { Transition := none }
  | .OnZTPSetupFinished => do
    (subscribeQueueSubjects).wrapErr "Handle: "
    return { Transition := none }
  | .OnHubResetFinished => do
    (subscribeQueueSubjects).wrapErr "Handle: "
    return { Transition := none }
  | _ => Act.fail (.wrap "Handle: " ErrInvalidTransitionType)

/-- Go: `InitStateHandler.OnExit`. -/
def OnExit (transition : Transition) : Act Unit :=
  match transition with
  | .OnMigrateFromOldVersion _ _ =>
    -- mq routes not activated
    pure ()
  | _ => (unsubscribeQueueSubjects).wrapErr "OnExit: "

end InitStateHandler

/-! ### Active state handler (`handlers/active.go`) -/

namespace ActiveStateHandler

/-- Go: the `mqSubjects` set by `NewActiveStateHandler`. -/
def mqSubjects : List String :=
  [MQAgentReset, MQAgentRebuildServices]

/-- Go: `ActiveStateHandler.StateID`. -/
def StateID : AppState := AppStateActive

/-- Go: `ActiveStateHandler.ValidateTransition`. -/
def ValidateTransition (_ : AppState) : Option GoError := none

/-- Go: `ActiveStateHandler.subscribeQueueSubjects`. -/
def subscribeQueueSubjects : Act Unit :=
  subscribeLoop mqSubjects

/-- Go: `ActiveStateHandler.unsubscribeQueueSubjects`. -/
def unsubscribeQueueSubjects : Act Unit :=
  unsubscribeLoop mqSubjects

/-- Go: `ActiveStateHandler.activateServices`. -/
def activateServices : Act Unit :=
  -- activate update manager
  (TryStartServiceWithTx UpdateManagerServiceName).wrapErr "activateServices: "

/-- Go: `strings.HasPrefix`. -/
def HasPrefix (s pre : String) : Bool :=
  pre.toList.isPrefixOf s.toList

/-- The address check of `runFirstSetup`: the first address without scheme ends the loop. -/
def checkSchemes : List String → Act Unit
  | [] => pure ()
  | orchestratorAddr :: rest =>
    if !HasPrefix orchestratorAddr "http://" && !HasPrefix orchestratorAddr "https://" then
      Act.fail (.leaf "runFirstSetup: orchestrator address has no schema")
    else checkSchemes rest

/-- The `select` of `runFirstSetup` on the channel returned by `WaitFirstInit`: the error
already in a buffered channel, or the error sent by `InitDevice` when the orchestrator calls
it during the wait, or the timeout. The request of the orchestrator comes over the
websocket (`init_device` is a route of the websocket service, `cmd/app/routes.go`): it
reaches `InitDevice` only when the publisher that `runFirstSetup` has started gets its
connection from `BuildConn`, the factory it is built on (`infrastructure/services.go`);
without a connection the wait ends with the timeout. -/
def waitDeviceInit (deviceType : String) (waitInitChan : InitChan) : Act (Option GoError) := do
  match waitInitChan with
  | .holding err => return some err
  | .waiting _ =>
    let w ← getWorld
    match w.initRequest with
    | some initConfig =>
      match (← (BuildConn).attempt) with
      | some _ => return some (.leaf "device init timeout")
      | none => InitDevice deviceType initConfig
    | none => return some (.leaf "device init timeout")

/-- Go: `ActiveStateHandler.runFirstSetup`. -/
def runFirstSetup (deviceType : String) (serialNumber : String)
    (orchestratorAddrs : List String) : Act Unit := do
  let cfg ← (GetConfig).wrapErr "runFirstSetup: "
  -- check device has any wan port
  if cfg.Port.isNone ∨ (cfg.Port.map (fun p => p.PortConfigs.length)) = some 0 then
    Act.fail (.leaf "runFirstSetup: wan port not configured")
  else do
    checkSchemes orchestratorAddrs
    (UpdateConfigWithTx
      { App := some { SerialNumber := serialNumber, OrchestratorAddrs := orchestratorAddrs,
                      ActiveOrchestratorAddr := "" } } false).wrapErr "runFirstSetup: "
    -- activate update manager
    (ExecuteActivity "enable update manager").wrapErr "runFirstSetup: "
    (ExecuteActivity "start update manager").wrapErr "runFirstSetup: "
    let w ← getWorld
    let waitInitChan ← WaitFirstInit w.txID
    -- start publisher
    (ExecuteFunc websocketStart .websocketStop).wrapErr "runFirstSetup: "
    -- wait for device init
    match (← waitDeviceInit deviceType waitInitChan) with
    | some err => Act.fail (.wrap "runFirstSetup: " err)
    | none =>
      if deviceType ≠ DeviceTypeHub then
        -- deactivate dhcp server
        (TryStopServiceWithTx ISCDHCPServiceName).wrapErr "runFirstSetup: "
      (subscribeQueueSubjects).wrapErr "runFirstSetup: "
      if deviceType ≠ DeviceTypeHub then
        goRoutine "deactivateStarter"

/-- Go: `ActiveStateHandler.migrateFromOldVersion`. -/
def migrateFromOldVersion (serialNumber orchestratorAddr : String) : Act Unit := do
  let cfg ← (GetConfig).wrapErr "migrateFromOldVersion: "
  match cfg.App with
  | none => Act.nilDeref
  | some app0 =>
    let app := { app0 with SerialNumber := serialNumber,
                           OrchestratorAddrs := [orchestratorAddr] }
    (UpdateConfigWithTx { App := some app } false).wrapErr "migrateFromOldVersion: "
    (activateServices).wrapErr "migrateFromOldVersion: "
    -- start publisher
    (ExecuteFunc websocketStart .websocketStop).wrapErr "migrateFromOldVersion: "
    (subscribeQueueSubjects).wrapErr "migrateFromOldVersion: "

/-- Go: `ActiveStateHandler.restoreActiveState`. -/
def restoreActiveState : Act Unit := do
  (activateServices).wrapErr "restoreActiveState: "
  -- deactivate starter
  (TryStopServiceWithTx AgentStarterServiceName).wrapErr "restoreActiveState: "
  -- start publisher
  if !(← IsStarted) then
    (ExecuteFunc websocketStart .websocketStop).wrapErr "restoreActiveState: "
  (subscribeQueueSubjects).wrapErr "restoreActiveState: "

/-- Go: `ActiveStateHandler.Handle`. -/
def Handle (deviceType : String) (transition : Transition) :
    Act (Appstate.StateHandleResult Transition) :=
  match transition with
  | .OnAfterBoot _ => do
    (restoreActiveState).wrapErr "Handle: "
    return { Transition := none }
  | .OnFirstSetup serialNumber orchestratorAddrs => do
    (runFirstSetup deviceType serialNumber orchestratorAddrs).wrapErr "Handle: "
    return { Transition := none }
  | .OnMigrateFromOldVersion serialNumber orchestratorAddr => do
    (migrateFromOldVersion serialNumber orchestratorAddr).wrapErr "Handle: "
    return { Transition := none }
  | .OnFallback => do
    -- something went wrong, try to restore everything
    (restoreActiveState).wrapErr "Handle: "
    return { Transition := none }
  | .OnUpdateConfigFinished => do
    (subscribeQueueSubjects).wrapErr "Handle: "
    return { Transition := none }
  | .OnUpdateDeviceFinished _ => do
    -- the error of the update is logged
    (subscribeQueueSubjects).wrapErr "Handle: "
    (activateServices).wrapErr "Handle: "
    return { Transition := none }
  | _ => Act.fail (.wrap "Handle: " ErrInvalidTransitionType)

/-- Go: `ActiveStateHandler.OnExit`. -/
def OnExit (_ : Transition) : Act Unit :=
  (unsubscribeQueueSubjects).wrapErr "OnExit: "

end ActiveStateHandler

/-! ### Maintenance state handler (`handlers/maintenance.go`) -/

namespace MaintenanceStateHandler

/-- Go: `MaintenanceStateHandler.StateID`. -/
def StateID : AppState := AppStateMaintenance

/-- Go: `MaintenanceStateHandler.ValidateTransition`. -/
def ValidateTransition (fromState : AppState) : Option GoError :=
  if fromState ≠ AppStateActive ∧ fromState ≠ AppStateBoot then
    some (.wrap "ValidateTransition: " ErrTransitionNotSupported)
  else none

/-- Go: `MaintenanceStateHandler.installUpdateManager`. -/
def installUpdateManager (request : InstallPackageRequest) : Act InstallPackageRequest :=
  match request.PackagesToInstall.find?
      (fun item => item.Name = SdwanUpdateManagerPackageName) with
  | some pkg => do
    (call (.installUpdateManagerScript pkg.Version pkg.PreviousVersion)).wrapErr
      "installUpdateManager: "
    return { request with
      PackagesToInstall := (request.PackagesToInstall.filter
        (fun item => !decide (item.Name = SdwanUpdateManagerPackageName))) }
  | none => pure request

/-- Go: `MaintenanceStateHandler.deleteServices`. -/
def deleteServices : Act Unit :=
  (UpdateConfigWithTx
    { Trunk := some {}, P2P := some {}, Bridge := some {}, ISB := some {}, L3 := some {},
      FW := some {} } false).wrapErr "deleteServices: "

/-- Go: `MaintenanceStateHandler.waitInstallFinished`. The receive stands for the `select`:
its error is the timeout, the failed reply, the undecodable message or the error message of
the update manager. The deferred `Unsubscribe` runs once the subscription exists. -/
def waitInstallFinished : Act Unit := do
  (call (.ChanSubscribe MQAgentInstallFinished)).wrapErr "waitInstallFinished: "
  let err ← (call .receiveInstallFinished).attempt
  let _ ← (call .Unsubscribe).attempt
  match err with
  | some e => Act.fail (.wrap "waitInstallFinished: " e)
  | none => pure ()

/-- Go: `MaintenanceStateHandler.waitInstallFinishedAfterBoot`. -/
def waitInstallFinishedAfterBoot : Act Unit := do
  -- start publisher
  (websocketStart).wrapErr "waitInstallFinishedAfterBoot: "
  -- wait install finished
  (call (.ChanSubscribe MQAgentInstallFinished)).wrapErr "waitInstallFinishedAfterBoot: "
  let err ← (call .receiveInstallFinished).attempt
  let _ ← (call .Unsubscribe).attempt
  match err with
  | some e => Act.fail (.wrap "waitInstallFinishedAfterBoot: " e)
  | none => pure ()

/-- The part of `updateDevice` from the install request on. -/
def requestInstall (request : InstallPackageRequest) : Act Unit := do
  (call (.Request MQUpdateManagerInstall request)).wrapErr "updateDevice: "
  (call .jsonUnmarshal).wrapErr "updateDevice: "
  (call .responseIsError).wrapErr "updateDevice: "
  (waitInstallFinished).wrapErr "updateDevice: "

/-- Go: `MaintenanceStateHandler.updateDevice`. The deferred function deletes the
checkpoint when the named result `err` is not nil; its own error is logged. -/
def updateDevice (request0 : InstallPackageRequest) : Act Unit := do
  let request ← (installUpdateManager request0).wrapErr "updateDevice: "
  if request.PackagesToInstall.any (fun item =>
      item.Name = SdwanAgentPackageName ∨ item.Name = SdwanBGPAdapterPackageName ∨
        item.Name = SdwanBGPDPackageName) then
    (deleteServices).wrapErr "updateDevice: "
  if request.PackagesToInstall.any (fun item => item.Name = SdwanAgentPackageName) then do
    -- commit changes and wait for restart agent service
    let checkpointID ← (AddCheckPoint).wrapErr "updateDevice: "
    match (← (requestInstall request).attempt) with
    | none => pure ()
    | some err => do
      let _ ← (DeleteCheckPoint checkpointID).attempt
      Act.fail err
  else
    requestInstall request

/-- Go: `MaintenanceStateHandler.sendInstallFinished`; `Reconnect` is deferred. -/
def sendInstallFinished (updErr : Option GoError) : Act Unit := do
  let errorMessage := match updErr with
    | some e => e.Error
    | none => ""
  let err ← (do
    (call (.PublishRequest "install_device_packages_finished" errorMessage)).wrapErr
      "sendInstallFinished: "
    (call .responseIsErrorResponse).wrapErr "sendInstallFinished: ").attempt
  note .Reconnect
  match err with
  | some e => Act.fail e
  | none => pure ()

/-- The common tail of both branches of `Handle`: the finish notice is sent, its error is
logged and joined to `updErr`, and the follow-up carries the result. -/
def finishUpdate (updErr : Option GoError) : Act (Appstate.StateHandleResult Transition) := do
  let sErr ← (sendInstallFinished updErr).attempt
  let updErr1 := match sErr with
    | some e => GoError.Join updErr (some e)
    | none => updErr
  return { Transition := some (.OnUpdateDeviceFinished updErr1) }

/-- Go: `MaintenanceStateHandler.Handle`. -/
def Handle (transition : Transition) : Act (Appstate.StateHandleResult Transition) :=
  match transition with
  | .OnAfterBoot _ => do
    let updErr ← (waitInstallFinishedAfterBoot).attempt
    finishUpdate updErr
  | .OnUpdateDevice installPackages => do
    let updErr ← (updateDevice installPackages).attempt
    finishUpdate updErr
  | _ => Act.fail (.wrap "Handle: " ErrInvalidTransitionType)

/-- Go: `MaintenanceStateHandler.OnExit`. -/
def OnExit (_ : Transition) : Act Unit := pure ()

end MaintenanceStateHandler

/-! ### Update-config state handler (`handlers/update_config.go`) -/

namespace UpdateConfigStateHandler

/-- Go: `UpdateConfigStateHandler.StateID`. -/
def StateID : AppState := AppStateUpdateConfig

/-- Go: `UpdateConfigStateHandler.ValidateTransition`. -/
def ValidateTransition (fromState : AppState) : Option GoError :=
  if fromState ≠ AppStateActive ∧ fromState ≠ AppStateBoot then
    some (.wrap "ValidateTransition: " ErrTransitionNotSupported)
  else none

/-- Modelled from the spec: `Compare` of a config section in the configuration library,
which is not part of the sources: sections are nullable and compared by deep value
equality. -/
def Compare {α : Type} [DecidableEq α] (a b : Option α) : Bool :=
  decide (a = b)

/-- Go: `UpdateConfigStateHandler.isPortConfigurationChanged`. -/
def isPortConfigurationChanged (oldCfg newCfg : Config) : Bool :=
  if newCfg.Port.isSome && !Compare oldCfg.Port newCfg.Port then true
  else if newCfg.AdminState.isSome && !Compare oldCfg.AdminState newCfg.AdminState then true
  else false

/-- Go: `UpdateConfigStateHandler.checkHubTunnels`; the pings run in the environment. -/
def checkHubTunnels (ponyCfg : PonySection) : Act Unit :=
  if ponyCfg.Clusters.length = 0 then pure ()
  else call .checkHubTunnels

/-- Go: `UpdateConfigStateHandler.updateConfig`. -/
def updateConfig (deviceType : String) (newCfg : Config) : Act Unit := do
  let oldCfg ← (GetConfig).wrapErr "updateConfig: "
  let isPortConfigChanged := isPortConfigurationChanged oldCfg newCfg
  if isPortConfigChanged then
    note .ponyPause
    let _ ← (websocketStop).attempt
  match (← (UpdateConfigWithTx newCfg false).attempt) with
  | some err => do
    if isPortConfigChanged then
      note .ponyResume
      let _ ← (websocketStart).attempt
    Act.fail (.wrap "updateConfig: " err)
  | none => do
    -- sync hosts
    if newCfg.App.isSome then
      if !Compare oldCfg.App newCfg.App then
        let _ ← (call .SyncHosts).attempt
    if !isPortConfigChanged then
      pure ()
    else do
      note .ponyResume
      -- check connection to hubs via tunnels
      let err ← (do
        if deviceType = DeviceTypeCPE then
          match newCfg.Pony with
          | some pony => (checkHubTunnels pony).wrapErr "updateConfig: "
          | none => pure ()).attempt
      -- deferred: start publisher
      let _ ← (websocketStart).attempt
      match err with
      | some e => Act.fail e
      | none => pure ()

/-- Go: `UpdateConfigStateHandler.rebuildServices`. -/
def rebuildServices : Act Unit := do
  let cfg ← (GetConfig).wrapErr "rebuildServices: "
  (UpdateConfigWithTx
    { Trunk := some {}, P2P := some {}, Bridge := some {}, L3 := some {}, ISB := some {},
      FW := some {} } false).wrapErr "rebuildServices: "
  (UpdateConfigWithTx
    { Trunk := cfg.Trunk, P2P := cfg.P2P, Bridge := cfg.Bridge, L3 := cfg.L3, ISB := cfg.ISB,
      FW := cfg.FW } false).wrapErr "rebuildServices: "

/-- Go: `UpdateConfigStateHandler.Handle`. -/
def Handle (deviceType : String) (transition : Transition) :
    Act (Appstate.StateHandleResult Transition) :=
  match transition with
  | .OnAfterBoot _ =>
    -- update config was interrupted
    pure { Transition := some .OnFallback }
  | .OnUpdateConfig cfg => do
    (updateConfig deviceType cfg).wrapErr "Handle: "
    return { Transition := some .OnUpdateConfigFinished }
  | .OnRebuildServices => do
    (rebuildServices).wrapErr "Handle: "
    return { Transition := some .OnUpdateConfigFinished }
  | _ => Act.fail (.wrap "Handle: " ErrInvalidTransitionType)

/-- Go: `UpdateConfigStateHandler.OnExit`. -/
def OnExit (_ : Transition) : Act Unit := pure ()

end UpdateConfigStateHandler

/-! ### Reset state handler (`handlers/reset.go`) -/

namespace ResetStateHandler

/-- Go: `defaultHostname`. -/
def defaultHostname : String := "cpe-default"

/-- Go: `constants.AgentConfigPath`. -/
def AgentConfigPath : String := "/etc/sdwan/agent-config"

/-- Go: `ResetStateHandler.StateID`. -/
def StateID : AppState := AppStateReset

/-- Go: `ResetStateHandler.ValidateTransition`. -/
def ValidateTransition (fromState : AppState) : Option GoError :=
  if fromState ≠ AppStateBoot ∧ fromState ≠ AppStateInit ∧ fromState ≠ AppStateActive then
    some (.wrap "ValidateTransition: " ErrTransitionNotSupported)
  else none

/-- Go: `ResetStateHandler.wasInitState`; `cfg.App.SerialNumber` dereferences the section. -/
def wasInitState : Act Bool := do
  let cfg ← (GetConfig).wrapErr "wasInitState: "
  match cfg.App with
  | none => Act.nilDeref
  | some app => return decide (app.SerialNumber = "")

/-- The "stop websocket" block shared by `reset` and `resetHub`. -/
def stopWebsocket : Act Unit := do
  if (← IsStarted) then
    (ExecuteFunc websocketStop .websocketStart).wrapErr "reset: "

/-- Go: `ResetStateHandler.reset`. The rewrite of the env file is one call here; its error
is logged only. -/
def reset : Act Unit := do
  -- stop websocket
  stopWebsocket
  -- reset hostname
  (UpdateHostnameWithTx defaultHostname).wrapErr "reset: "
  -- reset device config
  (UpdateConfigWithTx EmptyConfig false).wrapErr "reset: "
  -- set addr 192.168.1.1
  (SetupStaticWithTx).wrapErr "reset: "
  -- enable agent starter
  (ExecuteActivity "enable agent starter").wrapErr "reset: "
  -- enable isc dhcp server
  (ExecuteActivity "enable isc dhcp server").wrapErr "reset: "
  -- stop bgp adapter
  (TryStopServiceWithTx AdapterServiceName).wrapErr "reset: "
  -- stop update manager
  (TryStopServiceWithTx UpdateManagerServiceName).wrapErr "reset: "
  let checkpoinID ← (AddCheckPoint).wrapErr "reset: "
  -- reset .env
  let _ ← (call .tryResetEnv).attempt
  -- close badger
  match (← (call .dbClose).attempt) with
  | some err => do
    let _ ← (DeleteCheckPoint checkpoinID).attempt
    Act.fail (.wrap "reset: " err)
  | none => do
    -- delete config
    let _ ← (call (.RemoveAll AgentConfigPath)).attempt
    -- reboot device
    goRoutine "reboot"

/-- Go: `ResetStateHandler.resetHub`. -/
def resetHub : Act Unit := do
  let oldCfg ← (GetConfig).wrapErr "reset: "
  -- stop websocket
  stopWebsocket
  -- reset hostname
  (UpdateHostnameWithTx defaultHostname).wrapErr "reset: "
  -- reset device config (skip port section for hub)
  let resetConfig := { EmptyConfig with Port := oldCfg.Port }
  (UpdateConfigWithTx resetConfig false).wrapErr "reset: "
  -- stop bgp adapter
  (TryStopServiceWithTx AdapterServiceName).wrapErr "reset: "
  -- stop update manager
  (TryStopServiceWithTx UpdateManagerServiceName).wrapErr "reset: "
  -- reset .env
  let _ ← (call .tryResetEnv).attempt

/-- Go: `ResetStateHandler.Handle`. -/
def Handle (deviceType : String) (transition : Transition) :
    Act (Appstate.StateHandleResult Transition) :=
  match transition with
  | .OnAfterBoot _ => do
    -- reset operation was interrupted
    let wasInit ← (wasInitState).wrapErr "Handle: "
    if wasInit then
      return { Transition := some .OnInitFallback }
    else
      return { Transition := some .OnFallback }
  | .OnReset =>
    if deviceType = DeviceTypeHub then do
      (resetHub).wrapErr "Handle: "
      -- move to init state
      return { Transition := some .OnHubResetFinished }
    else do
      (reset).wrapErr "Handle: "
      return { Transition := none }
  | _ => Act.fail (.wrap "Handle: " ErrInvalidTransitionType)

/-- Go: `ResetStateHandler.OnExit`. -/
def OnExit (_ : Transition) : Act Unit := pure ()

end ResetStateHandler

/-! ### ZTP-setup state handler (`handlers/ztp_setup.go`) -/

namespace ZTPSetupHandler

/-- Go: `ZTPSetupHandler.StateID`. -/
def StateID : AppState := AppStateZTPSetup

/-- Go: `ZTPSetupHandler.ValidateTransition`. -/
def ValidateTransition (fromState : AppState) : Option GoError :=
  if fromState ≠ AppStateInit ∧ fromState ≠ AppStateBoot then
    some (.wrap "ValidateTransition: " ErrTransitionNotSupported)
  else none

/-- Go: `ZTPSetupHandler.setupZTPConfig`. -/
def setupZTPConfig (newCfg : Config) : Act Unit :=
  (UpdateConfigWithTx newCfg false).wrapErr "setupZTPConfig: "

/-- Go: `ZTPSetupHandler.setHubPort`. The text of the net-init command is built outside the
model: converting the mask and appending the command are calls that may fail. -/
def setHubPort (portConfig : PortConfig) : Act Unit := do
  (call (.GetSection "port_config")).wrapErr "setHubPort :"
  (UpdateConfigWithTx { Port := some { PortConfigs := [portConfig] } } true).wrapErr
    "setHubPort :"
  -- update net_init
  ((call (.ConvertIPMaskToInt portConfig.SubnetMask)).wrapErr
    "buildStaticAddCommand: ").wrapErr "setHubPort: "
  (call .AppendCommand).wrapErr "setHubPort: "
  (ExecuteActivity "update port config section").wrapErr "setHubPort: "

/-- Go: `ZTPSetupHandler.deleteHubPort`. -/
def deleteHubPort : Act Unit := do
  (call (.GetSection "port_config")).wrapErr "deleteHubPort :"
  (UpdateConfigWithTx { Port := some {} } true).wrapErr "deleteHubPort: "
  -- update net_init
  (ExecuteActivity "update port config section").wrapErr "deleteHubPort: "

/-- Go: `ZTPSetupHandler.Handle`. -/
def Handle (transition : Transition) : Act (Appstate.StateHandleResult Transition) :=
  match transition with
  | .OnAfterBoot _ =>
    -- setup ztp was interrupted
    pure { Transition := some .OnZTPSetupInterrupted }
  | .OnZTPSetupConfig cfg => do
    (setupZTPConfig cfg).wrapErr "Handle: "
    return { Transition := some .OnZTPSetupFinished }
  | .OnHubSetPort portConfig => do
    (setHubPort portConfig).wrapErr "Handle: "
    return { Transition := some .OnZTPSetupFinished }
  | .OnHubDeletePort _ => do
    (deleteHubPort).wrapErr "Handle: "
    return { Transition := some .OnZTPSetupFinished }
  | _ => Act.fail (.wrap "Handle: " ErrInvalidTransitionType)

/-- Go: `ZTPSetupHandler.OnExit`. -/
def OnExit (_ : Transition) : Act Unit := pure ()

end ZTPSetupHandler

/-! ### Boot state handler (`handlers/boot.go`) -/

namespace BootStateHandler

/-- Go: `BootStateHandler.StateID`. -/
def StateID : AppState := AppStateBoot

/-- Go: `BootStateHandler.ValidateTransition`. -/
def ValidateTransition (_ : AppState) : Option GoError := none

/-- Go: `BootStateHandler.Handle`. -/
def Handle (_ : Transition) : Act (Appstate.StateHandleResult Transition) :=
  pure { Transition := none }

/-- Go: `BootStateHandler.OnExit`. -/
def OnExit (_ : Transition) : Act Unit := pure ()

end BootStateHandler

/-! ### The handlers as the controller sees them (`infrastructure/services.go`) -/

/-- A handler function run by the controller on world `w`: the world it leaves, the undo
entries it appended to the transaction, and its result. -/
def Act.toEffect {α : Type} (x : Act α) (w : World) : Appstate.Effect World α :=
  { world := (x { world := w, undo := [] }).2.world
    undo := (x { world := w, undo := [] }).2.undo.map Undo.toStep
    ret := (x { world := w, undo := [] }).1 }

/-- Go: `NewBootStateHandler()` as an `IStateHandler`. -/
def bootStateHandler : Appstate.IStateHandler World Transition :=
  { StateID := BootStateHandler.StateID
    ValidateTransition := BootStateHandler.ValidateTransition
    Handle := fun w t => (BootStateHandler.Handle t).toEffect w
    OnExit := fun w t => (BootStateHandler.OnExit t).toEffect w }

/-- Go: `NewInitStateHandler(...)` as an `IStateHandler`. -/
def initStateHandler (agentEnv : Agent) : Appstate.IStateHandler World Transition :=
  { StateID := InitStateHandler.StateID
    ValidateTransition := InitStateHandler.ValidateTransition
    Handle := fun w t => (InitStateHandler.Handle agentEnv t).toEffect w
    OnExit := fun w t => (InitStateHandler.OnExit t).toEffect w }

/-- Go: `NewActiveStateHandler(...)` as an `IStateHandler`. -/
def activeStateHandler (agentEnv : Agent) : Appstate.IStateHandler World Transition :=
  { StateID := ActiveStateHandler.StateID
    ValidateTransition := ActiveStateHandler.ValidateTransition
    Handle := fun w t => (ActiveStateHandler.Handle agentEnv.DeviceType t).toEffect w
    OnExit := fun w t => (ActiveStateHandler.OnExit t).toEffect w }

/-- Go: `NewUpdateConfigStateHandler(...)` as an `IStateHandler`. -/
def updateConfigStateHandler (agentEnv : Agent) : Appstate.IStateHandler World Transition :=
  { StateID := UpdateConfigStateHandler.StateID
    ValidateTransition := UpdateConfigStateHandler.ValidateTransition
    Handle := fun w t => (UpdateConfigStateHandler.Handle agentEnv.DeviceType t).toEffect w
    OnExit := fun w t => (UpdateConfigStateHandler.OnExit t).toEffect w }

/-- Go: `NewMaintenanceStateHandler(...)` as an `IStateHandler`. -/
def maintenanceStateHandler : Appstate.IStateHandler World Transition :=
  { StateID := MaintenanceStateHandler.StateID
    ValidateTransition := MaintenanceStateHandler.ValidateTransition
    Handle := fun w t => (MaintenanceStateHandler.Handle t).toEffect w
    OnExit := fun w t => (MaintenanceStateHandler.OnExit t).toEffect w }

/-- Go: `NewZTPSetupHandler(...)` as an `IStateHandler`. -/
def ztpSetupHandler : Appstate.IStateHandler World Transition :=
  { StateID := ZTPSetupHandler.StateID
    ValidateTransition := ZTPSetupHandler.ValidateTransition
    Handle := fun w t => (ZTPSetupHandler.Handle t).toEffect w
    OnExit := fun w t => (ZTPSetupHandler.OnExit t).toEffect w }

/-- Go: `NewResetStateHandler(...)` as an `IStateHandler`. -/
def resetStateHandler (agentEnv : Agent) : Appstate.IStateHandler World Transition :=
  { StateID := ResetStateHandler.StateID
    ValidateTransition := ResetStateHandler.ValidateTransition
    Handle := fun w t => (ResetStateHandler.Handle agentEnv.DeviceType t).toEffect w
    OnExit := fun w t => (ResetStateHandler.OnExit t).toEffect w }

/-- Go: the handler list `BuildAppStateService` passes to `SetStateHandlers`. -/
def stateHandlers (agentEnv : Agent) : List (Appstate.IStateHandler World Transition) :=
  [bootStateHandler, initStateHandler agentEnv, activeStateHandler agentEnv,
    updateConfigStateHandler agentEnv, maintenanceStateHandler, ztpSetupHandler,
    resetStateHandler agentEnv]

/-- The registry `SetStateHandlers` builds from `stateHandlers`. -/
def registry (agentEnv : Agent) :
    List (AppState × Appstate.IStateHandler World Transition) :=
  (stateHandlers agentEnv).map (fun handler => (handler.StateID, handler))

/-- Go: `StartTransaction` of the activity engine as the controller calls it: a call that
may fail; transactions are numbered in the order they are started. -/
def StartTransaction (w : World) : World × Option GoError :=
  match call .StartTransaction { world := w, undo := [] } with
  | (.ok _, s) => ({ s.world with txID := s.world.txID + 1 }, none)
  | (.error e, s) => (s.world, some e)

/-- The collaborators of the controller over `World`: the config update of
`updateAppState` writes the AppState section; the error `FinishTransaction` returns is the
parameter `FinishStatus`. -/
def services (FinishStatus : World → Option GoError → Option GoError) :
    Appstate.Services World :=
  { UpdateConfigWithTx := fun w newStateID =>
      (UpdateConfigWithTx { AppState := some { State := newStateID } } false).toEffect w
    StartTransaction := StartTransaction
    FinishStatus := FinishStatus }

/-- The value of `cfg.AppState.State` read by `setActiveStateFromBoot`, `none` for a nil
AppState section. -/
def persistedState (w : World) : World × Except GoError (Option String) :=
  match GetConfig { world := w, undo := [] } with
  | (.ok cfg, s) => (s.world, .ok (cfg.AppState.map (fun appState => appState.State)))
  | (.error e, s) => (s.world, .error e)

/-- A world at start-up: nothing toggled, nothing pending, no call made yet; every
orchestrator host answers primary. -/
def World.fresh (store : Config) (outcome : List CallRecord → Call → Option GoError)
    (initRequest : Option InitConfig) : World :=
  { store := store, subjects := ∅, websocketStarted := false, checkpoints := [],
    checkpointCount := 0, firstInit := none, chanCount := 0, isInitializing := false,
    txID := 0, panicked := false, calls := [], outcome := outcome,
    initRequest := initRequest, CheckPrimary := fun _ => (true, none) }

/-- The environment in which no collaborator call fails. -/
def allSucceed : List CallRecord → Call → Option GoError :=
  fun _ _ => none

end Handlers

namespace Appstate

/-- Go: `StateService.setActiveStateFromBoot`. `GetConfig` gives `cfg.AppState.State`
(`none` for a nil AppState section, on which the goroutine panics); `OnAfterBoot` is
`entities.NewOnAfterBoot`. The result is the error returned after the deferred
`FinishTransaction`; `none` when the goroutine panics or the fuel is used up before the
loop ends. -/
def setActiveStateFromBoot {W τ : Type} (svc : Services W) (ToState : τ → AppState)
    (OnAfterBoot : AppState → τ) (GetConfig : W → W × Except GoError (Option String))
    (initState : AppState) (fuel : Nat) (s : Machine W τ) :
    Option (Machine W τ × Option GoError) :=
  let s0 := { s with trace := s.trace ++ [Event.startTransaction] }
  match svc.StartTransaction s0.world with
  | (w, some err) =>
    some ({ s0 with world := w }, some (.wrap "setActiveStateFromBoot: " err))
  | (w, none) =>
    let s1 := { s0 with world := w, tx := [] }
    match GetConfig s1.world with
    | (w1, .error err) =>
      some (FinishTransaction svc { s1 with world := w1 }
        (some (.wrap "setActiveStateFromBoot: " err)))
    | (_, .ok none) => none
    | (w1, .ok (some state)) =>
      let toState := if state ≠ "" then state else initState
      match runChain svc ToState fuel { s1 with world := w1 } (OnAfterBoot toState) with
      | none => none
      | some (s2, some err) =>
        some (FinishTransaction svc s2 (some (.wrap "setActiveStateFromBoot: " err)))
      | some (s2, none) => some (FinishTransaction svc s2 none)

end Appstate

namespace Handlers

/-- The config in which every nil service section of `cfg` is the empty section; the other
sections are those of `cfg`. -/
def withServiceSections (cfg : Config) : Config :=
  { cfg with
    Trunk := some (cfg.Trunk.getD {}), P2P := some (cfg.P2P.getD {}),
    Bridge := some (cfg.Bridge.getD {}), L3 := some (cfg.L3.getD {}),
    ISB := some (cfg.ISB.getD {}), FW := some (cfg.FW.getD {}) }

/-- All six service sections of the config are non-nil. -/
def hasServiceSections (cfg : Config) : Bool :=
  cfg.Trunk.isSome && cfg.P2P.isSome && cfg.Bridge.isSome && cfg.L3.isSome &&
    cfg.ISB.isSome && cfg.FW.isSome

/-- The argument of the first write of `rebuildServices`: six empty service sections. -/
def emptyServiceSections : Config :=
  { Trunk := some {}, P2P := some {}, Bridge := some {}, L3 := some {}, ISB := some {},
    FW := some {} }

/-- A stored config with a serial number and a WAN port and without service sections. -/
def sampleStore : Config :=
  { App := some { SerialNumber := "SN1", OrchestratorAddrs := ["http://orch"],
                  ActiveOrchestratorAddr := "" },
    AppState := some { State := "active" },
    Port := some { PortConfigs := [{ Name := "port1" }] } }

/-- A stored config with all six service sections, one of them with content. -/
def sampleStoreServices : Config :=
  { sampleStore with
    Trunk := some { items := ["trunk1"] }, P2P := some {}, Bridge := some {}, L3 := some {},
    ISB := some {}, FW := some {} }

/-- A handler state at the start of a `Handle`: the given store, no call failing, nothing
appended to the transaction yet. -/
def sampleHState (store : Config) : HState :=
  { world := World.fresh store allSucceed none, undo := [] }

end Handlers

namespace Handlers

/-- The relation `R` holds between the state before and the state after every run of `x`,
whatever `x` returns. -/
structure Act.Inv {α : Type} (R : HState → HState → Prop) (x : Act α) : Prop where
  run : ∀ s, R s (x s).2

/-- The state after one more recorded call. -/
def HState.record (s : HState) (c : Call) (err : Option GoError) : HState :=
  { s with world := { s.world with calls := s.world.calls ++ [⟨c, err⟩] } }

/-- The calls of `s1` continue the calls of `s`. -/
def CallsExtend (s s1 : HState) : Prop :=
  ∃ rest, s1.world.calls = s.world.calls ++ rest

instance : IsRefl HState CallsExtend :=
  ⟨fun _ => ⟨[], by simp⟩⟩

instance : IsTrans HState CallsExtend :=
  ⟨fun _ _ _ h1 h2 => by
    obtain ⟨r1, h1⟩ := h1
    obtain ⟨r2, h2⟩ := h2
    exact ⟨r1 ++ r2, by rw [h2, h1, List.append_assoc]⟩⟩

/-- Every run of `x` makes at least one call, and the first one is `c`. -/
structure Act.FirstCall {α : Type} (c : Call) (x : Act α) : Prop where
  run : ∀ s, ∃ err rest, (x s).2.world.calls = s.world.calls ++ ⟨c, err⟩ :: rest

/-- The device has no configured WAN port: the check at the head of `runFirstSetup`. -/
def noWanPort (cfg : Config) : Prop :=
  cfg.Port = none ∨ ∃ p, cfg.Port = some p ∧ p.PortConfigs = []

/-- The address starts with the `http://` or the `https://` scheme. -/
def hasScheme (orchestratorAddr : String) : Bool :=
  ActiveStateHandler.HasPrefix orchestratorAddr "http://" ||
    ActiveStateHandler.HasPrefix orchestratorAddr "https://"

/-- A stored config without Port section. -/
def sampleStoreNoPort : Config :=
  { App := some { SerialNumber := "", OrchestratorAddrs := [], ActiveOrchestratorAddr := "" },
    AppState := some { State := "init" } }

end Handlers

namespace Handlers

/-- The call adds or deletes a checkpoint. -/
def isCheckpointCall : Call → Bool
  | .AddCheckPoint => true
  | .DeleteCheckPoint _ => true
  | _ => false

/-- The calls of `s1` continue the calls of `s` with calls that satisfy `p` only. -/
def CallsOnly (p : Call → Bool) (s s1 : HState) : Prop :=
  ∃ rest, s1.world.calls = s.world.calls ++ rest ∧ ∀ r ∈ rest, p r.call = true

instance (p : Call → Bool) : IsRefl HState (CallsOnly p) :=
  ⟨fun _ => ⟨[], by simp⟩⟩

instance (p : Call → Bool) : IsTrans HState (CallsOnly p) :=
  ⟨fun _ _ _ h1 h2 => by
    obtain ⟨r1, h1, hp1⟩ := h1
    obtain ⟨r2, h2, hp2⟩ := h2
    refine ⟨r1 ++ r2, by rw [h2, h1, List.append_assoc], ?_⟩
    intro r hr
    rcases List.mem_append.mp hr with h | h
    · exact hp1 r h
    · exact hp2 r h⟩

/-- The state after a config update that returned nil. -/
def HState.afterUpdate (s : HState) (cfg : Config) (skipGenerators : Bool) : HState :=
  { world := { (s.record (.UpdateConfigWithTx cfg skipGenerators) none).world with
      store := mergeConfig s.world.store cfg },
    undo := s.undo ++ [.restoreSections s.world.store cfg] }

/-- The state after an `AddCheckPoint` that returned nil. -/
def HState.afterCheckPoint (s : HState) : HState :=
  { world := { (s.record .AddCheckPoint none).world with
      checkpoints := s.world.checkpoints ++ [s.world.checkpointCount],
      checkpointCount := s.world.checkpointCount + 1 }
    undo := s.undo ++ [.checkpoint s.world.checkpointCount] }

/-- The request contains the `sdwan-agent` package. -/
def hasAgentPackage (request : InstallPackageRequest) : Bool :=
  request.PackagesToInstall.any (fun item => item.Name = SdwanAgentPackageName)

/-- Sample install request: the agent and the update manager. -/
def sampleInstallRequest : InstallPackageRequest :=
  { PackagesToInstall := [{ Name := "sdwan-update-manager", Version := "2", PreviousVersion := "1" },
      { Name := "sdwan-agent", Version := "2", PreviousVersion := "1" }] }

/-- The environment in which the install request to the update manager fails and every
other call succeeds. -/
def installRequestFails : List CallRecord → Call → Option GoError :=
  fun _ c =>
    match c with
    | .Request _ _ => some (.leaf "nats: timeout")
    | _ => none

/-- The environment in which every `ActivateHandler` call fails and every other call
succeeds. -/
def subscribeFails : List CallRecord → Call → Option GoError :=
  fun _ c =>
    match c with
    | .ActivateHandler _ => some (.leaf "nats: no responders")
    | _ => none

/-- A handler state at the start of a `Handle` in which the install request will fail. -/
def sampleUpdateState : HState :=
  { world := World.fresh sampleStoreServices installRequestFails none, undo := [] }

/-- The sample install request without the update-manager package. -/
def sampleAgentRequest : InstallPackageRequest :=
  { PackagesToInstall := [{ Name := "sdwan-agent", Version := "2", PreviousVersion := "1" }] }

end Handlers

namespace Handlers

open Appstate (AppState AppStateBoot AppStateInit AppStateActive AppStateUpdateConfig
  AppStateMaintenance AppStateZTPSetup AppStateReset)

/-- The subjects the active state handler keeps active. -/
def activeSubjects : Finset String :=
  {MQAgentReset, MQAgentRebuildServices}

/-- A controller in live state `active` on a CPE: the registry of `BuildAppStateService`, the
subjects of `active` activated, the publisher started, no transaction open. -/
def sampleActiveMachine (store : Config) (outcome : List CallRecord → Call → Option GoError) :
    Appstate.Machine World Transition :=
  { stateHandlers := registry { DeviceType := DeviceTypeCPE }
    activeState := AppStateActive
    world := { World.fresh store outcome none with
      subjects := activeSubjects, websocketStarted := true }
    tx := []
    trace := [] }

/-- The collaborators of the controller with a `FinishTransaction` that returns the error it
is given. -/
def sampleServices : Appstate.Services World :=
  services (fun _ execErr => execErr)

end Handlers

namespace Appstate

variable {W τ : Type}

/-- The call of the "exit active state" block of `performTransition`: `OnExit` of the handler
registered for the live state; nothing happens when there is none. -/
def exitEffect (s : Machine W τ) (transition : τ) : Effect W Unit :=
  match lookupHandler s.stateHandlers s.activeState with
  | some activeHandler => activeHandler.OnExit s.world transition
  | none => { world := s.world, undo := [], ret := .ok () }

/-- The world that undoing all the entries `tx` leaves, started on world `w`: the undo
functions of the collaborators are applied, last entry first. -/
def undoWorld (tx : List (UndoStep W)) (w : W) : W :=
  tx.foldr (fun st acc =>
    match st with
    | .external e => e.run acc
    | .restoreState _ => acc) w

end Appstate

/-- Equality of Go results `(value, err)` can be decided when that of values and errors
can. -/
instance instDecidableEqExcept {ε α : Type} [DecidableEq ε] [DecidableEq α] :
    DecidableEq (Except ε α) := fun a b =>
  match a, b with
  | .ok x, .ok y =>
    if h : x = y then isTrue (by rw [h]) else isFalse (fun h2 => h (by cases h2; rfl))
  | .error x, .error y =>
    if h : x = y then isTrue (by rw [h]) else isFalse (fun h2 => h (by cases h2; rfl))
  | .ok _, .error _ => isFalse (fun h => by cases h)
  | .error _, .ok _ => isFalse (fun h => by cases h)

instance instDecidableEqStateHandleResult {τ : Type} [DecidableEq τ] :
    DecidableEq (Appstate.StateHandleResult τ) := fun a b =>
  match a, b with
  | ⟨x⟩, ⟨y⟩ =>
    if h : x = y then isTrue (by rw [h]) else isFalse (fun h2 => h (by cases h2; rfl))

namespace Handlers

open Appstate (AppState AppStateBoot AppStateInit AppStateActive AppStateUpdateConfig
  AppStateMaintenance AppStateZTPSetup AppStateReset)

/-- The run left the set of active subjects as it was. -/
def SubjectsKept (s s1 : HState) : Prop :=
  s1.world.subjects = s.world.subjects

instance : IsRefl HState SubjectsKept :=
  ⟨fun _ => rfl⟩

instance : IsTrans HState SubjectsKept :=
  ⟨fun _ _ _ h1 h2 => h2.trans h1⟩

/-- The subjects the init state handler keeps active. -/
def initSubjects : Finset String :=
  InitStateHandler.mqSubjects.toFinset

/-- A controller in live state `init` on a CPE: the registry of `BuildAppStateService`, the
seven subjects of `init` activated, no transaction open. -/
def sampleInitMachine (store : Config) (outcome : List CallRecord → Call → Option GoError) :
    Appstate.Machine World Transition :=
  { stateHandlers := registry { DeviceType := DeviceTypeCPE }
    activeState := AppStateInit
    world := { World.fresh store outcome none with subjects := initSubjects }
    tx := []
    trace := [] }

/-- A ZTP config: one WAN port. -/
def sampleZTPConfig : Config :=
  { Port := some { PortConfigs := [{ Name := "port1" }] } }

end Handlers

namespace Handlers

open Appstate (AppState AppStateBoot AppStateInit AppStateActive AppStateUpdateConfig
  AppStateMaintenance AppStateZTPSetup AppStateReset)

/-- The follow-up the reset handler emits after boot for a stored serial number. -/
def resetFollowUp (serialNumber : String) : Transition :=
  if serialNumber = "" then .OnInitFallback else .OnFallback

/-- A controller at start-up (live state `boot`) on a CPE whose store holds the persisted
state `reset` and the App section `app`; no call fails. -/
def sampleBootMachine (app : AppSection) : Appstate.Machine World Transition :=
  { stateHandlers := registry { DeviceType := DeviceTypeCPE }
    activeState := AppStateBoot
    world := World.fresh { App := some app, AppState := some { State := AppStateReset } }
      allSucceed none
    tx := []
    trace := [] }

/-- A stored App section with a serial number. -/
def sampleAppSet : AppSection :=
  { SerialNumber := "SN1", OrchestratorAddrs := ["http://orch"], ActiveOrchestratorAddr := "" }

end Handlers

namespace Handlers

open Appstate (AppState AppStateBoot AppStateInit AppStateActive AppStateUpdateConfig
  AppStateMaintenance AppStateZTPSetup AppStateReset)

/-- The run left the stored App section and the pending request of the orchestrator as they
were. -/
def AppKept (s s1 : HState) : Prop :=
  s1.world.store.App = s.world.store.App ∧ s1.world.initRequest = s.world.initRequest

instance : IsRefl HState AppKept :=
  ⟨fun _ => ⟨rfl, rfl⟩⟩

instance : IsTrans HState AppKept :=
  ⟨fun _ _ _ h1 h2 => ⟨h2.1.trans h1.1, h2.2.trans h1.2⟩⟩

/-- A stored config of a device in state `init`: a WAN port, no serial number yet. -/
def sampleStoreInit : Config :=
  { App := some { SerialNumber := "", OrchestratorAddrs := [], ActiveOrchestratorAddr := "" },
    AppState := some { State := "init" },
    Port := some { PortConfigs := [{ Name := "port1" }] } }

/-- A controller in live state `init` on a CPE with the seven subjects of `init` activated;
no call fails, and the orchestrator sends the `InitDevice` request `initConfig` while
`runFirstSetup` waits. -/
def sampleSetupMachine (initConfig : InitConfig) : Appstate.Machine World Transition :=
  { stateHandlers := registry { DeviceType := DeviceTypeCPE }
    activeState := AppStateInit
    world := { World.fresh sampleStoreInit allSucceed (some initConfig) with
      subjects := initSubjects }
    tx := []
    trace := [] }

/-- The handler state at the start of `Handle` in `sampleSetupMachine initConfig`. -/
def sampleSetupState (initConfig : InitConfig) : HState :=
  { world := (sampleSetupMachine initConfig).world, undo := [] }

/-- An `InitDevice` request of the orchestrator that names one orchestrator address. -/
def sampleInitConfig : InitConfig :=
  { OFControllerAddr := "10.0.0.1:6653", OrchestratorAddrs := ["https://orch2"] }

end Handlers

namespace Handlers

open Appstate (AppState AppStateBoot AppStateInit AppStateActive AppStateUpdateConfig
  AppStateMaintenance AppStateZTPSetup AppStateReset)

/-- What an undo entry that runs without error does to the set of active subjects. -/
def Undo.runSubjects : Undo → Finset String → Finset String
  | .DeactivateHandler subject, subjects => subjects.erase subject
  | .ActivateHandler subject, subjects => insert subject subjects
  | _, subjects => subjects

/-- The undo entry toggles a subject. -/
def Undo.isToggle : Undo → Bool
  | .DeactivateHandler _ => true
  | .ActivateHandler _ => true
  | _ => false

/-- The active subjects after the undo entries `entries` have run on `subjects`, last entry
first. -/
def rollSubjects (entries : List Undo) (subjects : Finset String) : Finset String :=
  entries.foldr Undo.runSubjects subjects

/-- The undo entries appended between `s` and `s1`, run last entry first on the subjects of
`s1`, give the subjects of `s`. -/
def Restores (s s1 : HState) : Prop :=
  ∃ entries, s1.undo = s.undo ++ entries ∧
    rollSubjects entries s1.world.subjects = s.world.subjects

/-- Between `s` and `s1` no subject was toggled and no toggle was appended as undo. -/
def Neutral (s s1 : HState) : Prop :=
  s1.world.subjects = s.world.subjects ∧
    ∃ entries, s1.undo = s.undo ++ entries ∧ ∀ u ∈ entries, u.isToggle = false

instance : IsRefl HState Neutral :=
  ⟨fun _ => ⟨rfl, [], by simp, by simp⟩⟩

instance : IsTrans HState Neutral :=
  ⟨fun _ _ _ h1 h2 => by
    obtain ⟨ha, e1, hb, hc⟩ := h1
    obtain ⟨hd, e2, he, hf⟩ := h2
    refine ⟨hd.trans ha, e1 ++ e2, by rw [he, hb, List.append_assoc], ?_⟩
    intro u hu
    rcases List.mem_append.mp hu with h | h
    · exact hc u h
    · exact hf u h⟩

/-- Run from any state whose active subjects are `X`, the handler function `x` leaves undo
entries that restore `X`, whatever it returns, and when it returns a value `a` without error
the active subjects `Y` it leaves satisfy `Q a Y`. -/
structure HT {α : Type} (X : Finset String) (x : Act α) (Q : α → Finset String → Prop) :
    Prop where
  run : ∀ s, s.world.subjects = X →
    Restores s (x s).2 ∧ ∀ a, (x s).1 = .ok a → Q a (x s).2.world.subjects

/-- The eight subjects the init and active state handlers toggle. -/
def toggledSubjects : Finset String :=
  InitStateHandler.mqSubjects.toFinset ∪ ActiveStateHandler.mqSubjects.toFinset

/-- The toggled subjects a live state keeps active between two chains: the seven of `init`,
the two of `active`, none in the other states. -/
def expectedSubjects (live : AppState) : Finset String :=
  if live = AppStateInit then InitStateHandler.mqSubjects.toFinset
  else if live = AppStateActive then ActiveStateHandler.mqSubjects.toFinset
  else ∅

/-- The transition is `OnMigrateFromOldVersion`. -/
def Transition.isMigrate : Transition → Bool
  | .OnMigrateFromOldVersion _ _ => true
  | _ => false

/-- The active subjects agree with the live state at the moment transition `t` is performed:
of the toggled subjects exactly those of the live state are active. `OnMigrateFromOldVersion`
is the follow-up the init handler returns after boot instead of activating its subjects, so
it finds none of them active. -/
def SubjectsMatch (live : AppState) (t : Transition) (subjects : Finset String) : Prop :=
  subjects ∩ toggledSubjects =
    if live = AppStateInit ∧ t.isMigrate = true then ∅ else expectedSubjects live

instance (live : AppState) (t : Transition) (subjects : Finset String) :
    Decidable (SubjectsMatch live t subjects) := by
  unfold SubjectsMatch
  infer_instance

/-- The undo entries `entries` of a transaction, run last entry first on any world whose
active subjects are `after`, leave the active subjects `before`. -/
def Undoes (entries : List (Appstate.UndoStep World)) (after before : Finset String) : Prop :=
  ∀ w : World, w.subjects = after → (Appstate.undoWorld entries w).subjects = before

/-- The undo entries of the transaction of the machine, run on its active subjects, leave the
active subjects `before`. -/
def ChainSubjects (before : Finset String) (m : Appstate.Machine World Transition) : Prop :=
  Undoes m.tx m.world.subjects before

/-- The undo a toggle call made through `ExecuteFunc` leaves: the opposite toggle of the
same subject when the call returned nil, nothing for a failed call or another call. -/
def toggleUndo (r : CallRecord) : Option Undo :=
  match r.call, r.err with
  | .ActivateHandler subject, none => some (.DeactivateHandler subject)
  | .DeactivateHandler subject, none => some (.ActivateHandler subject)
  | _, _ => none

/-- The call is an `ActivateHandler` or a `DeactivateHandler`. -/
def Call.isToggle : Call → Bool
  | .ActivateHandler _ => true
  | .DeactivateHandler _ => true
  | _ => false

/-- Between `s` and `s1` the toggles among the appended undo entries are, in order, the
opposite toggles of the toggle calls that returned nil. -/
def Paired (s s1 : HState) : Prop :=
  ∃ calls entries, s1.world.calls = s.world.calls ++ calls ∧ s1.undo = s.undo ++ entries ∧
    entries.filter Undo.isToggle = calls.filterMap toggleUndo

instance : IsRefl HState Paired :=
  ⟨fun _ => ⟨[], [], by simp, by simp, rfl⟩⟩

instance : IsTrans HState Paired :=
  ⟨fun _ _ _ h1 h2 => by
    obtain ⟨c1, e1, ha, hb, hc⟩ := h1
    obtain ⟨c2, e2, hd, he, hf⟩ := h2
    refine ⟨c1 ++ c2, e1 ++ e2, by rw [hd, ha, List.append_assoc],
      by rw [he, hb, List.append_assoc], ?_⟩
    rw [List.filter_append, List.filterMap_append, hc, hf]⟩

end Handlers

namespace Handlers

open Appstate (AppState AppStateBoot AppStateInit AppStateActive AppStateUpdateConfig
  AppStateMaintenance AppStateZTPSetup AppStateReset)

/-- A handler state in which a first-init rendezvous of transaction 4 is pending on
channel 0. -/
def samplePendingState : HState :=
  { world := { World.fresh sampleStoreInit allSucceed none with
      firstInit := some { tx := 4, chan := 0 }, chanCount := 1 },
    undo := [] }

end Handlers

/-! ## DHCP lease table (`dhcp/formatter.go`) -/

namespace Dhcp

open Nslookup (TrimSpace Split scannedLines scannerErr)

/-- A cell of a `table.Row`: the row number or a text. -/
inductive Cell where
  | num (n : Nat)
  | text (s : List Char)
  deriving DecidableEq, Repr

/-- Go: `ipColumnIndex`. -/
def ipColumnIndex : Nat := 2

/-- Go: `headerKeys`, which are also the keys of `searchKeys`. -/
def headerKeys : List (List Char) :=
  ["#".toList, "MAC".toList, "IP".toList, "HOSTNAME".toList, "BEGIN".toList, "END".toList,
    "MANUFACTURER".toList]

/-- Go: `skipPrefixes`. -/
def skipPrefixes : List (List Char) :=
  ["To get manufacturer".toList]

/-- Go: `searchKeys[value]`. -/
def searchKeys (value : List Char) : Bool :=
  decide (value ∈ headerKeys)

/-- The row built so far and the string builder `buf` of the loop over `values`. -/
structure RowState where
  row : List Cell
  buf : List Char
  deriving DecidableEq, Repr

/-- One round of the loop over `values` in `formatDHCPLeaseToTable`. -/
def addValue (st : RowState) (value : List Char) : RowState :=
  if !searchKeys value then
    { st with buf := (if st.buf.length > 0 then st.buf ++ [' '] else st.buf) ++ value }
  else if st.buf.length > 0 then
    { row := st.row ++ [.text st.buf], buf := [] }
  else st

/-- The row `formatDHCPLeaseToTable` builds from a trimmed line. -/
def buildRow (rowNumber : Nat) (line : List Char) : List Cell :=
  let st := (Split ' ' line).foldl addValue { row := [.num rowNumber], buf := [] }
  if st.buf.length > 0 then st.row ++ [.text st.buf] else st.row

/-- Go: `fmt.Sprintf("%v", cell)`. -/
def Cell.format : Cell → List Char
  | .num n => (Nat.repr n).toList
  | .text s => s

/-- The functions of package `net` that `skipRow` calls, over the networks `N` and
addresses `A` of that package: `ParseCIDR`, `ParseIP` followed by `To4` (`none` for a nil
result) and `IPNet.Contains`. -/
structure NetLib (N A : Type) where
  ParseCIDR : List Char → Except GoError N
  ParseIP4 : List Char → Option A
  Contains : N → A → Bool

/-- Go: `skipRow`. -/
def skipRow {N A : Type} (net : NetLib N A) (ipValue : Cell)
    (filterLinkIP : Option (List Char)) : Bool × Option GoError :=
  match filterLinkIP with
  | none => (false, none)
  | some filter =>
    match net.ParseCIDR filter with
    | .error err => (false, some (.wrap "skipRow: " err))
    | .ok linkNet =>
      let ipStr := TrimSpace ipValue.format
      match net.ParseIP4 ipStr with
      | none => (false, some (.leaf ("skipRow: invalid ip address " ++ String.mk ipStr)))
      | some ip => (!net.Contains linkNet ip, none)

/-- The rows appended to the table so far and the next row number. -/
structure TableState where
  rows : List (List Cell)
  rowNumber : Nat
  deriving DecidableEq, Repr

/-- One round of the scan loop of `formatDHCPLeaseToTable`; `none` is the panic of the index
expression `row[ipColumnIndex]` on a row that is too short. -/
def formatLine {N A : Type} (net : NetLib N A) (filterLinkIP : Option (List Char))
    (st : TableState) (text : List Char) : Option TableState :=
  let line := TrimSpace text
  if line = [] then some st
  else if skipPrefixes.any (fun skipPrefix => skipPrefix.isPrefixOf line) then some st
  else
    let row := buildRow st.rowNumber line
    -- check lease belongs to link
    match row.get? ipColumnIndex with
    | none => none
    | some ipValue =>
      let (skip, _) := skipRow net ipValue filterLinkIP
      if !skip then some { rows := st.rows ++ [row], rowNumber := st.rowNumber + 1 }
      else some st

/-- The scan loop over the lines of the input. -/
def formatLines {N A : Type} (net : NetLib N A) (filterLinkIP : Option (List Char)) :
    TableState → List (List Char) → Option TableState
  | st, [] => some st
  | st, text :: rest =>
    match formatLine net filterLinkIP st text with
    | none => none
    | some st1 => formatLines net filterLinkIP st1 rest

/-- Go: `formatDHCPLeaseToTable`. The result is the list of rows handed to the table writer
(its rendering is outside the model); `none` is a panic. The loop runs over the lines
scanned: a line behind one that is too long is not looked at. -/
def formatDHCPLeaseToTable {N A : Type} (net : NetLib N A) (input : List Char)
    (filterLinkIP : Option (List Char)) : Option (Except GoError (List (List Cell))) :=
  match formatLines net filterLinkIP { rows := [], rowNumber := 1 } (scannedLines input) with
  | none => none
  | some st =>
    match scannerErr input with
    | some err => some (.error (.wrap "formatDHCPLeaseToTable: " err))
    | none => some (.ok st.rows)

/-- A sample `net` library in which every address parses and lies in every network. -/
def sampleNet : NetLib Unit Unit :=
  { ParseCIDR := fun _ => .ok (), ParseIP4 := fun _ => some (), Contains := fun _ _ => true }

end Dhcp

/-! ## Reset of the env file (`handlers/reset.go`, `tryResetEnv`) -/

namespace Handlers

namespace ResetStateHandler

open Nslookup (TrimSpace scannerLines scannerErr rawLines dropCR utf8Len MaxScanTokenSize)

/-- The env file as `tryResetEnv` finds it: the errors of `os.Stat`, `os.ReadFile` and
`os.WriteFile`, its content and its permission bits. -/
structure EnvFile where
  statErr : Option GoError
  readErr : Option GoError
  data : List Char
  perm : Nat
  writeErr : Option GoError

/-- What a run of `tryResetEnv` did: the error returned, and the content and permission bits
handed to `os.WriteFile`, if that was called. -/
structure ResetOutcome where
  err : Option GoError
  written : Option (List Char × Nat)
  deriving DecidableEq, Repr

/-- One round of the scan loop of `tryResetEnv`; `sb` is the string builder. -/
def resetEnvLine (sb line : List Char) : List Char :=
  if line = [] then sb
  else
    let left := line.takeWhile (· ≠ '=')
    let found := line.contains '='
    if !found then sb ++ line ++ ['\n']
    else
      let left := TrimSpace left
      if "AGENT_ENDPOINT".toList.isPrefixOf left then sb ++ "AGENT_ENDPOINT=\"\"\n".toList
      else if "AGENT_ID".toList.isPrefixOf left then sb ++ "AGENT_ID=\"\"\n".toList
      else sb ++ line ++ ['\n']

/-- Go: `ResetStateHandler.tryResetEnv`. -/
def tryResetEnv (file : EnvFile) : ResetOutcome :=
  match file.statErr with
  | some err => { err := some (.wrap "tryResetEnv: " err), written := none }
  | none =>
    match file.readErr with
    | some err => { err := some (.wrap "tryResetEnv: " err), written := none }
    | none =>
      let sb := (scannerLines file.data).foldl resetEnvLine []
      match scannerErr file.data with
      | some err => { err := some (.wrap "tryResetEnv: " err), written := none }
      | none =>
        match file.writeErr with
        | some err =>
          { err := some (.wrap "tryResetEnv: " err), written := some (sb, file.perm) }
        | none => { err := none, written := some (sb, file.perm) }

/-- The name a line assigns, as `tryResetEnv` reads it: the part before the first `=`,
white space trimmed; `none` for a line without `=`. -/
def assignedName (line : List Char) : Option (List Char) :=
  if line.contains '=' then some (TrimSpace (line.takeWhile (· ≠ '='))) else none

/-- Claim C22, the line written for a non-empty line of the env file: the assignment of the
empty string to `AGENT_ENDPOINT` (to `AGENT_ID`) when the line assigns a name that starts
with `AGENT_ENDPOINT` (with `AGENT_ID`), the line itself otherwise. -/
def expectedLine (line : List Char) : List Char :=
  match assignedName line with
  | some name =>
    if "AGENT_ENDPOINT".toList.isPrefixOf name then "AGENT_ENDPOINT=\"\"".toList
    else if "AGENT_ID".toList.isPrefixOf name then "AGENT_ID=\"\"".toList
    else line
  | none => line

/-- Claim C22, the content written for the env file `data`: for every non-empty line, in
order, its `expectedLine` followed by a newline. -/
def expectedEnv (data : List Char) : List Char :=
  ((((scannerLines data).filter (fun line => line ≠ [])).map expectedLine).map
    (fun line => line ++ ['\n'])).flatten

/-- The env file after a run that has written it. -/
def EnvFile.after (file : EnvFile) (out : ResetOutcome) : EnvFile :=
  match out.written with
  | some (content, perm) => { file with data := content, perm := perm }
  | none => file

/-- A sample env file: identity, another variable, an empty line and a comment. -/
def sampleEnvFile : EnvFile :=
  { statErr := none, readErr := none,
    data := "AGENT_ENDPOINT=\"https://orch\"\nLOG_LEVEL=debug\n\n# agent\nAGENT_ID = \"7\"\n".toList,
    perm := 420, writeErr := none }

/-- A sample env file with another variable whose name starts with `AGENT_ID`. -/
def sampleEnvFilePrefix : EnvFile :=
  { sampleEnvFile with data := "AGENT_ID_BACKUP=7\n".toList }

/-- A sample env file whose line ends in two carriage returns. -/
def sampleEnvFileCR : EnvFile :=
  { sampleEnvFile with data := "LOG_LEVEL=debug\r\r\n".toList }

end ResetStateHandler

end Handlers

namespace Handlers

namespace UpdateConfigStateHandler

/-- The part of `updateConfig` after the stored config `oldCfg` has been read, with the
tunnel monitor (`Pause`, `Resume` of `IPonyService`) and the publisher (`Stop`, `Start` of
`IWebsocketService`) as parameters. -/
def updateConfigFrom (Pause Resume Stop Start : Act Unit) (deviceType : String)
    (oldCfg newCfg : Config) : Act Unit := do
  let isPortConfigChanged := isPortConfigurationChanged oldCfg newCfg
  if isPortConfigChanged then
    Pause
    let _ ← (Stop).attempt
  match (← (UpdateConfigWithTx newCfg false).attempt) with
  | some err => do
    if isPortConfigChanged then
      Resume
      let _ ← (Start).attempt
    Act.fail (.wrap "updateConfig: " err)
  | none => do
    -- sync hosts
    if newCfg.App.isSome then
      if !Compare oldCfg.App newCfg.App then
        let _ ← (call .SyncHosts).attempt
    if !isPortConfigChanged then
      pure ()
    else do
      Resume
      -- check connection to hubs via tunnels
      let err ← (do
        if deviceType = DeviceTypeCPE then
          match newCfg.Pony with
          | some pony => (checkHubTunnels pony).wrapErr "updateConfig: "
          | none => pure ()).attempt
      -- deferred: start publisher
      let _ ← (Start).attempt
      match err with
      | some e => Act.fail e
      | none => pure ()

/-- Go: `UpdateConfigStateHandler.updateConfig` with the tunnel monitor and the publisher as
parameters. -/
def updateConfigWith (Pause Resume Stop Start : Act Unit) (deviceType : String)
    (newCfg : Config) : Act Unit := do
  let oldCfg ← (GetConfig).wrapErr "updateConfig: "
  updateConfigFrom Pause Resume Stop Start deviceType oldCfg newCfg

/-- The call is one of `Pause`, `Resume` of the tunnel monitor and `Stop`, `Start` of the
publisher. -/
def isMonitorCall : Call → Bool
  | .ponyPause => true
  | .ponyResume => true
  | .publisherStop => true
  | .publisherStart => true
  | _ => false

/-- The calls to the tunnel monitor and to the publisher made between `s` and `s1`, in call
order. -/
def monitorCalls (s s1 : HState) : List Call :=
  ((s1.world.calls.drop s.world.calls.length).map (fun r => r.call)).filter isMonitorCall

/-- The handler function `x` makes, whatever it returns, exactly the calls `l` to the tunnel
monitor and to the publisher, in this order. -/
structure Emits {α : Type} (x : Act α) (l : List Call) : Prop where
  run : ∀ s, ∃ calls, (x s).2.world.calls = s.world.calls ++ calls ∧
    (calls.map (fun r => r.call)).filter isMonitorCall = l

/-- The handler function `x` never returns an error. -/
structure Total {α : Type} (x : Act α) : Prop where
  run : ∀ s, ∃ a, (x s).1 = .ok a

/-- The environment in which the publisher is already stopped, the config update fails and
every other call succeeds. -/
def updateFails : List CallRecord → Call → Option GoError :=
  fun _ c =>
    match c with
    | .publisherStop => some (.leaf "Stop: publisher already stopped")
    | .UpdateConfigWithTx _ _ => some (.leaf "store is closed")
    | _ => none

/-- A new config with another Port section than the one of `sampleStoreInit`. -/
def samplePortChange : Config :=
  { Port := some { PortConfigs := [{ Name := "port2" }] } }

/-- A handler state with the store `sampleStoreInit` in the environment `updateFails`. -/
def sampleUpdateFailsState : HState :=
  { world := World.fresh sampleStoreInit updateFails none, undo := [] }

end UpdateConfigStateHandler

end Handlers

namespace Handlers

open Appstate (AppState AppStateBoot AppStateInit AppStateActive AppStateUpdateConfig
  AppStateMaintenance AppStateZTPSetup AppStateReset)

/-- The error is not `ErrInvalidTransitionType` and does not wrap it:
`errors.Is(err, errs.ErrInvalidTransitionType)` is false. -/
def Foreign (e : GoError) : Prop :=
  e.Is ErrInvalidTransitionType = false

/-- No error the environment returns for a collaborator call is or wraps
`ErrInvalidTransitionType`. -/
def EnvForeign (w : World) : Prop :=
  ∀ calls c e, w.outcome calls c = some e → Foreign e

/-- The errors a value returned by a handler function carries: the error of an
`Option GoError`, the error a channel of `WaitFirstInit` holds, none for the other types. -/
class HasErr (α : Type) where
  errs : α → List GoError

instance (priority := low) instHasErrDefault {α : Type} : HasErr α :=
  ⟨fun _ => []⟩

instance instHasErrOption : HasErr (Option GoError) :=
  ⟨fun o => o.toList⟩

instance instHasErrInitChan : HasErr InitChan :=
  ⟨fun waitInitChan =>
    match waitInitChan with
    | .holding err => [err]
    | .waiting _ => []⟩

/-- In an environment that returns no error wrapping `ErrInvalidTransitionType`, the handler
function `x` returns no such error either, neither as its error nor inside its value, and
leaves the environment as it is. -/
structure Post {α : Type} [HasErr α] (x : Act α) : Prop where
  run : ∀ s, EnvForeign s.world → EnvForeign (x s).2.world ∧
    (∀ a, (x s).1 = .ok a → ∀ e ∈ HasErr.errs a, Foreign e) ∧
    (∀ e, (x s).1 = .error e → Foreign e)

end Handlers

namespace Handlers

open Appstate (AppState AppStateBoot AppStateInit AppStateActive AppStateUpdateConfig
  AppStateMaintenance AppStateZTPSetup AppStateReset)

/-- Every value `x` returns without error satisfies `V`, in every state it is run in. -/
structure Act.Ret {α : Type} (x : Act α) (V : α → Prop) : Prop where
  run : ∀ s a, (x s).1 = .ok a → V a

/-- The follow-ups found in the `Handle` methods, by the `StateID` of the handler that
returns them: init returns `OnMigrateFromOldVersion`; update_config `OnFallback` and
`OnUpdateConfigFinished`; maintenance `OnUpdateDeviceFinished`; reset `OnInitFallback`,
`OnFallback` and `OnHubResetFinished`; ztp_setup `OnZTPSetupInterrupted` and
`OnZTPSetupFinished`; boot and active none. -/
def isFollowUpOf (emitter : AppState) (next : Transition) : Bool :=
  match next with
  | .OnMigrateFromOldVersion _ _ => decide (emitter = AppStateInit)
  | .OnFallback => decide (emitter = AppStateUpdateConfig) || decide (emitter = AppStateReset)
  | .OnUpdateConfigFinished => decide (emitter = AppStateUpdateConfig)
  | .OnUpdateDeviceFinished _ => decide (emitter = AppStateMaintenance)
  | .OnInitFallback => decide (emitter = AppStateReset)
  | .OnHubResetFinished => decide (emitter = AppStateReset)
  | .OnZTPSetupInterrupted => decide (emitter = AppStateZTPSetup)
  | .OnZTPSetupFinished => decide (emitter = AppStateZTPSetup)
  | _ => false

end Handlers

namespace Handlers

open Appstate (AppState AppStateBoot AppStateInit AppStateActive AppStateUpdateConfig
  AppStateMaintenance AppStateZTPSetup AppStateReset)

/-- Go: `constants.MQAgentGetConfig`. -/
def MQAgentGetConfig : String := "agent.get_config"

/-- Go: `constants.MQAgentHubListPorts`. -/
def MQAgentHubListPorts : String := "agent.hub.list_ports"

/-- Go: `constants.MQAgentDebugDumpHeap`. -/
def MQAgentDebugDumpHeap : String := "agent.debug.dump_heap"

/-- The subjects `main` activates itself before the controller starts (`cmd/app/main.go`). -/
def mainSubjects : List String :=
  [MQAgentGetConfig, MQAgentHubListPorts, MQAgentDebugDumpHeap]

/-- The transitions passed to `Perform` by the request handlers of the agent: `OnFirstSetup`,
`OnUpdateConfig`, `OnRebuildServices`, `OnUpdateDevice`, `OnReset`, `OnZTPSetupConfig`,
`OnHubSetPort` and `OnHubDeletePort`. -/
def Transition.isSubmitted : Transition → Bool
  | .OnFirstSetup _ _ => true
  | .OnUpdateConfig _ => true
  | .OnRebuildServices => true
  | .OnUpdateDevice _ => true
  | .OnReset => true
  | .OnZTPSetupConfig _ => true
  | .OnHubSetPort _ => true
  | .OnHubDeletePort _ => true
  | _ => false

/-- The subject a call toggles, if it is an `ActivateHandler` or a `DeactivateHandler`. -/
def Call.toggled : Call → Option String
  | .ActivateHandler subject => some subject
  | .DeactivateHandler subject => some subject
  | _ => none

/-- The subject an undo entry toggles, if it is a toggle. -/
def Undo.toggled : Undo → Option String
  | .ActivateHandler subject => some subject
  | .DeactivateHandler subject => some subject
  | _ => none

/-- Between `s` and `s1` every toggle call made and every toggle appended as undo is on one
of the `toggledSubjects`, and the active subjects outside `toggledSubjects` are the same. -/
def OwnToggles (s s1 : HState) : Prop :=
  (∃ calls, s1.world.calls = s.world.calls ++ calls ∧
    ∀ r ∈ calls, ∀ subject, r.call.toggled = some subject → subject ∈ toggledSubjects) ∧
  (∃ entries, s1.undo = s.undo ++ entries ∧
    ∀ u ∈ entries, ∀ subject, u.toggled = some subject → subject ∈ toggledSubjects) ∧
  s1.world.subjects \ toggledSubjects = s.world.subjects \ toggledSubjects

instance : IsRefl HState OwnToggles :=
  ⟨fun _ => ⟨⟨[], by simp, by simp⟩, ⟨[], by simp, by simp⟩, rfl⟩⟩

instance : IsTrans HState OwnToggles :=
  ⟨fun _ _ _ h1 h2 => by
    obtain ⟨⟨c1, ha, hb⟩, ⟨e1, hc, hd⟩, he⟩ := h1
    obtain ⟨⟨c2, hf, hg⟩, ⟨e2, hh, hi⟩, hj⟩ := h2
    refine ⟨⟨c1 ++ c2, by rw [hf, ha, List.append_assoc], ?_⟩,
      ⟨e1 ++ e2, by rw [hh, hc, List.append_assoc], ?_⟩, hj.trans he⟩
    · intro r hr
      rcases List.mem_append.mp hr with h | h
      · exact hb r h
      · exact hg r h
    · intro u hu
      rcases List.mem_append.mp hu with h | h
      · exact hd u h
      · exact hi u h⟩

/-- A call into a collaborator spares `subject`: it makes no toggle call on it, leaves it
active exactly if it was, and so does every undo it appends. -/
def Spares {α : Type} (subject : String) (w : World) (eff : Appstate.Effect World α) : Prop :=
  (∃ calls, eff.world.calls = w.calls ++ calls ∧
    ∀ r ∈ calls, r.call ≠ .ActivateHandler subject ∧ r.call ≠ .DeactivateHandler subject) ∧
  (subject ∈ eff.world.subjects ↔ subject ∈ w.subjects) ∧
  ∀ f ∈ eff.undo, ∀ w1 : World, subject ∈ (f.run w1).subjects ↔ subject ∈ w1.subjects

/-- The machines the controller is in between two requests. `boot`: the process starts in
live state boot with none of the `toggledSubjects` active, and `setActiveStateFromBoot`
returns nil (on an error `main` exits). `perform`: a request handler passes one of its
transitions to `Perform`, which returns. -/
inductive Reach (agentEnv : Agent) (FinishStatus : World → Option GoError → Option GoError)
    (initState : AppState) : Appstate.Machine World Transition → Prop where
  | boot (m0 m1 : Appstate.Machine World Transition) (fuel : Nat) :
    m0.stateHandlers = registry agentEnv → m0.activeState = AppStateBoot →
    m0.world.subjects ∩ toggledSubjects = ∅ →
    Appstate.setActiveStateFromBoot (services FinishStatus) Transition.ToState
      Transition.OnAfterBoot persistedState initState fuel m0 = some (m1, none) →
    Reach agentEnv FinishStatus initState m1
  | perform (m m1 : Appstate.Machine World Transition) (t : Transition) (fuel : Nat)
      (res : Option GoError) :
    Reach agentEnv FinishStatus initState m → t.isSubmitted = true →
    Appstate.Perform (services FinishStatus) Transition.ToState fuel m t = some (m1, res) →
    Reach agentEnv FinishStatus initState m1

/-- Between `s` and `s1` no checkpoint was added to the journal. -/
def Unmarked (s s1 : HState) : Prop :=
  ∃ entries, s1.undo = s.undo ++ entries ∧ ∀ u ∈ entries, ∀ id, u ≠ .checkpoint id

instance : IsRefl HState Unmarked :=
  ⟨fun _ => ⟨[], by simp, by simp⟩⟩

instance : IsTrans HState Unmarked :=
  ⟨fun _ _ _ h1 h2 => by
    obtain ⟨e1, ha, hb⟩ := h1
    obtain ⟨e2, hc, hd⟩ := h2
    refine ⟨e1 ++ e2, by rw [hc, ha, List.append_assoc], ?_⟩
    intro u hu
    rcases List.mem_append.mp hu with h | h
    · exact hb u h
    · exact hd u h⟩

/-- Every checkpoint of the journal `tx` seals a settled state: undoing the entries after
it, from any machine with live state `live` and active subjects `subjects`, leaves the live
state maintenance or reset (the states whose handlers add checkpoints) and none of the
toggled subjects active. -/
def SealedAt (tx : List (Appstate.UndoStep World)) (live : AppState)
    (subjects : Finset String) : Prop :=
  ∀ pre id post, tx = pre ++ Appstate.UndoStep.external (.checkpoint id) :: post →
    ∀ X : Appstate.Machine World Transition, X.activeState = live →
      X.world.subjects = subjects →
      ((post.foldr (fun st acc => Appstate.runUndo st acc) X).activeState =
          AppStateMaintenance ∨
        (post.foldr (fun st acc => Appstate.runUndo st acc) X).activeState =
          AppStateReset) ∧
        (post.foldr (fun st acc => Appstate.runUndo st acc) X).world.subjects ∩
          toggledSubjects = ∅

/-- The machine is settled: the handlers of `BuildAppStateService` are registered, the live
state is not boot, and of the subjects the handlers toggle exactly those of the live state
are active. -/
def Settled (agentEnv : Agent) (m : Appstate.Machine World Transition) : Prop :=
  m.stateHandlers = registry agentEnv ∧ m.activeState ≠ AppStateBoot ∧
    m.world.subjects ∩ toggledSubjects = expectedSubjects m.activeState

/-- A controller at start-up (live state `boot`) on a CPE whose store holds the persisted
state `active`; no call fails. -/
def sampleBootActive : Appstate.Machine World Transition :=
  { stateHandlers := registry { DeviceType := DeviceTypeCPE }
    activeState := AppStateBoot
    world := World.fresh
      { App := some sampleAppSet, AppState := some { State := AppStateActive } }
      allSucceed none
    tx := []
    trace := [] }

/-- The machine of a result of `setActiveStateFromBoot` or `Perform`, `m0` when there is
none. -/
def machineOr (o : Option (Appstate.Machine World Transition × Option GoError))
    (m0 : Appstate.Machine World Transition) : Appstate.Machine World Transition :=
  match o with
  | some (m1, _) => m1
  | none => m0

/-- The machine `setActiveStateFromBoot` leaves when it is started on `sampleBootActive`. -/
def sampleAfterBoot : Appstate.Machine World Transition :=
  machineOr (Appstate.setActiveStateFromBoot (services (fun _ execErr => execErr))
    Transition.ToState Transition.OnAfterBoot persistedState AppStateInit 2
    sampleBootActive) sampleBootActive

end Handlers

/-! ## Stored identity of the device (`App` section) -/

namespace Handlers

open Appstate (AppState AppStateBoot AppStateInit AppStateActive AppStateUpdateConfig
  AppStateMaintenance AppStateZTPSetup AppStateReset)

/-- The serial number and the orchestrator addresses of the stored App section. -/
def identityOf (cfg : Config) : Option (String × List String) :=
  cfg.App.map (fun app => (app.SerialNumber, app.OrchestratorAddrs))

/-- What the store records of the device: the serial number and the orchestrator addresses
of the App section, and the state of the AppState section. -/
def recordOf (cfg : Config) : Option (String × List String) × Option AppState :=
  (identityOf cfg, cfg.AppState.map (fun appState => appState.State))

/-- Invariant (i) of the configuration, the property of the stored App section: the serial
number is a non-empty string and the list of orchestrator addresses is non-empty. -/
def Identified (p : Option (String × List String)) : Prop :=
  ∃ serial addrs, p = some (serial, addrs) ∧ serial ≠ "" ∧ addrs ≠ []

/-- No serial number is stored: there is no App section, or its serial number is empty. -/
def Blank (p : Option (String × List String)) : Prop :=
  ∀ serial addrs, p = some (serial, addrs) → serial = ""

/-- The live states of a device that has been set up: active, and update_config and
maintenance, which are entered from active only. -/
def setUp (live : AppState) : Prop :=
  live = AppStateActive ∨ live = AppStateUpdateConfig ∨ live = AppStateMaintenance

/-- What is stored can be started from: a serial number is stored only together with an
orchestrator address, and without a serial number the recorded state is none of the states
of a device that has been set up. -/
def Safe (r : Option (String × List String) × Option AppState) : Prop :=
  Identified r.1 ∨ (Blank r.1 ∧ ∀ st, r.2 = some st → ¬ setUp st)

/-- What is stored fits the live state: it can be started from, and the serial number and
the addresses are set when the device is set up. -/
def StoredFor (live : AppState) (r : Option (String × List String) × Option AppState) :
    Prop :=
  Safe r ∧ (setUp live → Identified r.1)

/-- The undo entry leaves the App section and the AppState section as they are. -/
def Undo.sparesIdentity : Undo → Bool
  | .restoreSections _ touched => touched.App.isNone && touched.AppState.isNone
  | _ => true

/-- Between `s` and `s1` what the store records of the device stays, and no undo entry
appended touches the App section or the AppState section. -/
def IdQuiet (s s1 : HState) : Prop :=
  recordOf s1.world.store = recordOf s.world.store ∧
    ∃ entries, s1.undo = s.undo ++ entries ∧ ∀ u ∈ entries, u.sparesIdentity = true

instance : IsRefl HState IdQuiet :=
  ⟨fun _ => ⟨rfl, [], by simp, by simp⟩⟩

instance : IsTrans HState IdQuiet :=
  ⟨fun _ _ _ h1 h2 => by
    obtain ⟨ha, e1, hb, hc⟩ := h1
    obtain ⟨hd, e2, he, hf⟩ := h2
    refine ⟨hd.trans ha, e1 ++ e2, by rw [he, hb, List.append_assoc], ?_⟩
    intro u hu
    rcases List.mem_append.mp hu with h | h
    · exact hc u h
    · exact hf u h⟩

/-- The undo entries appended between `s` and `s1`, run last entry first on a world whose
store records what that of `s1` does, give back what the store of `s` records. -/
def IdRestores (s s1 : HState) : Prop :=
  ∃ entries, s1.undo = s.undo ++ entries ∧
    ∀ w : World, recordOf w.store = recordOf s1.world.store →
      recordOf (entries.foldr Undo.run w).store = recordOf s.world.store

instance : IsRefl HState IdRestores :=
  ⟨fun _ => ⟨[], by simp, fun _ h => h⟩⟩

instance : IsTrans HState IdRestores :=
  ⟨fun _ _ _ h1 h2 => by
    obtain ⟨e1, ha, hb⟩ := h1
    obtain ⟨e2, hc, hd⟩ := h2
    refine ⟨e1 ++ e2, by rw [hc, ha, List.append_assoc], ?_⟩
    intro w hw
    rw [List.foldr_append]
    exact hb _ (hd w hw)⟩

/-- What is stored can still be started from at `s1` when it could at `s`. -/
def SafeKept (s s1 : HState) : Prop :=
  Safe (recordOf s.world.store) → Safe (recordOf s1.world.store)

instance : IsRefl HState SafeKept :=
  ⟨fun _ h => h⟩

instance : IsTrans HState SafeKept :=
  ⟨fun _ _ _ h1 h2 h => h2 (h1 h)⟩

/-- Every undo entry appended between `s` and `s1` after a checkpoint leaves the App section
and the AppState section as they are. -/
def MarkSpares (s s1 : HState) : Prop :=
  ∃ entries, s1.undo = s.undo ++ entries ∧
    ∀ pre id post, entries = pre ++ Undo.checkpoint id :: post →
      ∀ u ∈ post, u.sparesIdentity = true

/-- The config of the transition carries no App section and no AppState section, as the
configs do that the request handlers build for `OnUpdateConfig` (`config/handler.go`,
`l3/handler.go`, `service/handler.go`) and for `OnZTPSetupConfig` (`ztp/mq_handler.go`). -/
def Transition.isBare : Transition → Bool
  | .OnUpdateConfig cfg => cfg.App.isNone && cfg.AppState.isNone
  | .OnZTPSetupConfig cfg => cfg.App.isNone && cfg.AppState.isNone
  | _ => true

/-- The transition makes its handler write the App section or the AppState section: first
setup, migration and reset by what they do, `OnUpdateConfig` and `OnZTPSetupConfig` when
their config carries one of the two. -/
def Transition.writesIdentity : Transition → Bool
  | .OnFirstSetup _ _ => true
  | .OnMigrateFromOldVersion _ _ => true
  | .OnReset => true
  | t => !t.isBare

/-- The transition can be performed on the stored config `cfg` without leaving a device that
is set up without its identity: a transition to active, update_config or maintenance that
does not write the identity finds it stored, a migration carries a serial number, and the
config of the transition is bare. -/
def Ready (cfg : Config) (t : Transition) : Prop :=
  (setUp t.ToState → t.writesIdentity = false → Identified (identityOf cfg)) ∧
    (∀ serialNumber orchestratorAddr,
      t = .OnMigrateFromOldVersion serialNumber orchestratorAddr → serialNumber ≠ "") ∧
    t.isBare = true

/-- Every checkpoint of the journal `tx` seals a state that can be left as it is: undoing the
entries after it, from any machine with live state `live` whose store records `r`, leaves a
store that fits the live state, which is not boot. -/
def IdSealedAt (tx : List (Appstate.UndoStep World)) (live : AppState)
    (r : Option (String × List String) × Option AppState) : Prop :=
  ∀ pre id post, tx = pre ++ Appstate.UndoStep.external (.checkpoint id) :: post →
    ∀ X : Appstate.Machine World Transition, X.activeState = live →
      recordOf X.world.store = r →
      StoredFor (post.foldr (fun st acc => Appstate.runUndo st acc) X).activeState
        (recordOf (post.foldr (fun st acc => Appstate.runUndo st acc) X).world.store) ∧
      (post.foldr (fun st acc => Appstate.runUndo st acc) X).activeState ≠ AppStateBoot

/-- Undoing all of the journal `tx`, from any machine whose store records `r`, leaves a
store that records `r0`. -/
def IdBack (tx : List (Appstate.UndoStep World))
    (r r0 : Option (String × List String) × Option AppState) : Prop :=
  ∀ X : Appstate.Machine World Transition, recordOf X.world.store = r →
    recordOf (tx.foldr (fun st acc => Appstate.runUndo st acc) X).world.store = r0

/-- The machine is at rest: the handlers of `BuildAppStateService` are registered, the live
state is not boot, and what is stored fits the live state. -/
def AtRest (agentEnv : Agent) (m : Appstate.Machine World Transition) : Prop :=
  m.stateHandlers = registry agentEnv ∧ m.activeState ≠ AppStateBoot ∧
    StoredFor m.activeState (recordOf m.world.store)

/-- Go: `deviceinit.Service.InitDevice` called with no first-init rendezvous pending
(`s.firstInitData == nil`), as the websocket handler `InitDevice` calls it in live state
active: the steps run in a transaction of their own, which the deferred `FinishTransaction`
rolls back when they fail. The result is the world the call leaves. -/
def initDeviceAlone (deviceType : String) (initConfig : InitConfig) (w : World) : World :=
  match StartTransaction w with
  | (w1, some _) => w1
  | (w1, none) =>
    match InitDevice deviceType initConfig { world := w1, undo := [] } with
    | (.ok none, s) => s.world
    | (_, s) => s.undo.foldr Undo.run s.world

/-- The machines the controller is in between two requests, from the first start of the
device on. `firstBoot`: the process starts in live state boot on the config the device is
created with, and `setActiveStateFromBoot` returns nil (on an error `main` exits).
`restart`: the process starts again on the store it left. `perform`: a request handler
passes one of its transitions to `Perform`, with the config it builds. `dial`: the websocket
publisher calls `BuildConn`. `initDevice`: the orchestrator sends `InitDevice` in live state
active while no first setup waits for it. `write`: another writer of the store (`trunk/handler.go`) leaves the App section and
the AppState section. -/
inductive ReachStored (agentEnv : Agent)
    (FinishStatus : World → Option GoError → Option GoError) :
    Appstate.Machine World Transition → Prop where
  | firstBoot (m0 m1 : Appstate.Machine World Transition) (fuel : Nat) :
    m0.stateHandlers = registry agentEnv → m0.activeState = AppStateBoot →
    m0.world.store = EmptyConfig →
    Appstate.setActiveStateFromBoot (services FinishStatus) Transition.ToState
      Transition.OnAfterBoot persistedState AppStateInit fuel m0 = some (m1, none) →
    ReachStored agentEnv FinishStatus m1
  | restart (m m0 m1 : Appstate.Machine World Transition) (fuel : Nat) :
    ReachStored agentEnv FinishStatus m →
    m0.stateHandlers = registry agentEnv → m0.activeState = AppStateBoot →
    m0.world.store = m.world.store →
    Appstate.setActiveStateFromBoot (services FinishStatus) Transition.ToState
      Transition.OnAfterBoot persistedState AppStateInit fuel m0 = some (m1, none) →
    ReachStored agentEnv FinishStatus m1
  | perform (m m1 : Appstate.Machine World Transition) (t : Transition) (fuel : Nat)
      (res : Option GoError) :
    ReachStored agentEnv FinishStatus m → t.isSubmitted = true → t.isBare = true →
    Appstate.Perform (services FinishStatus) Transition.ToState fuel m t = some (m1, res) →
    ReachStored agentEnv FinishStatus m1
  | dial (m : Appstate.Machine World Transition) (r : Except GoError Unit) (s1 : HState) :
    ReachStored agentEnv FinishStatus m →
    BuildConn { world := m.world, undo := [] } = (r, s1) →
    ReachStored agentEnv FinishStatus { m with world := s1.world }
  | initDevice (m : Appstate.Machine World Transition) (initConfig : InitConfig) :
    ReachStored agentEnv FinishStatus m → m.activeState = AppStateActive →
    m.world.firstInit = none →
    ReachStored agentEnv FinishStatus
      { m with world := initDeviceAlone agentEnv.DeviceType initConfig m.world }
  | write (m : Appstate.Machine World Transition) (w : World) :
    ReachStored agentEnv FinishStatus m → w.store.App = m.world.store.App →
    w.store.AppState = m.world.store.AppState →
    ReachStored agentEnv FinishStatus { m with world := w }

end Handlers

namespace Handlers

open Appstate (AppState AppStateBoot AppStateInit AppStateActive AppStateUpdateConfig
  AppStateMaintenance AppStateZTPSetup AppStateReset)

/-- A CPE at its first start: live state `boot`, the store is the config the device is
created with; no call fails, and the orchestrator sends `sampleInitConfig` when a first setup
waits for it. -/
def sampleFirstBoot : Appstate.Machine World Transition :=
  { stateHandlers := registry { DeviceType := DeviceTypeCPE }
    activeState := AppStateBoot
    world := World.fresh EmptyConfig allSucceed (some sampleInitConfig)
    tx := []
    trace := [] }

/-- The machine `setActiveStateFromBoot` leaves when it is started on `sampleFirstBoot`. -/
def sampleFirstBooted : Appstate.Machine World Transition :=
  machineOr (Appstate.setActiveStateFromBoot (services (fun _ execErr => execErr))
    Transition.ToState Transition.OnAfterBoot persistedState AppStateInit 2
    sampleFirstBoot) sampleFirstBoot

/-- The transition of the ZTP request that sets the WAN port `port1`. -/
def sampleSetPort : Transition :=
  .OnZTPSetupConfig { Port := some { PortConfigs := [{ Name := "port1" }] } }

/-- The machine after the WAN port has been set in `sampleFirstBooted`. -/
def samplePortSet : Appstate.Machine World Transition :=
  machineOr (Appstate.Perform (services (fun _ execErr => execErr))
    Transition.ToState 3 sampleFirstBooted sampleSetPort) sampleFirstBooted

/-- The machine after the first setup with serial number `SN1` in `samplePortSet`. -/
def sampleSetUp : Appstate.Machine World Transition :=
  machineOr (Appstate.Perform (services (fun _ execErr => execErr))
    Transition.ToState 2 samplePortSet (.OnFirstSetup "SN1" ["https://orch1"]))
    samplePortSet

end Handlers

/-! ## Theorems: app-state controller -/

namespace Appstate

variable {W τ : Type}

theorem exitActiveState_facts (s : Machine W τ) (t : τ) :
    ∃ (evs : List Event) (ext : List (JournalStep W)),
      (exitActiveState s t).1.trace = s.trace ++ evs ∧
      (exitActiveState s t).1.tx = s.tx ++ ext.map UndoStep.external ∧
      (exitActiveState s t).1.stateHandlers = s.stateHandlers ∧
      (exitActiveState s t).1.activeState = s.activeState ∧
      (∀ e ∈ evs, ∃ a, lookupHandler s.stateHandlers s.activeState = some a ∧
        e = Event.onExit a.StateID s.activeState) ∧
      ((exitActiveState s t).2 = none → ∀ a,
        lookupHandler s.stateHandlers s.activeState = some a →
          ∃ u, (a.OnExit s.world t).ret = .ok u) := by
  cases ha : lookupHandler s.stateHandlers s.activeState with
  | none => exact ⟨[], [], by simp [exitActiveState, ha]⟩
  | some a =>
    cases hr : (a.OnExit s.world t).ret with
    | error err =>
      exact ⟨[Event.onExit a.StateID s.activeState], (a.OnExit s.world t).undo,
        by simp [exitActiveState, ha, hr, absorb]⟩
    | ok u =>
      exact ⟨[Event.onExit a.StateID s.activeState], (a.OnExit s.world t).undo,
        by simp [exitActiveState, ha, hr, absorb]⟩

theorem updateAppState_facts (svc : Services W) (s : Machine W τ) (newStateID : AppState) :
    ∃ (ok : Bool) (ext : List (JournalStep W)),
      (updateAppState svc s newStateID).1.stateHandlers = s.stateHandlers ∧
      ((updateAppState svc s newStateID).2 = none ↔ ok = true) ∧
      (ok = false →
        (updateAppState svc s newStateID).1.trace =
          s.trace ++ [Event.updateConfigWithTx newStateID false] ∧
        (updateAppState svc s newStateID).1.tx = s.tx ++ ext.map UndoStep.external ∧
        (updateAppState svc s newStateID).1.activeState = s.activeState) ∧
      (ok = true →
        (updateAppState svc s newStateID).1.trace =
          s.trace ++ [Event.updateConfigWithTx newStateID true, Event.executeFunc] ∧
        (updateAppState svc s newStateID).1.tx =
          s.tx ++ ext.map UndoStep.external ++ [UndoStep.restoreState s.activeState] ∧
        (updateAppState svc s newStateID).1.activeState = newStateID) := by
  cases hr : (svc.UpdateConfigWithTx s.world newStateID).ret with
  | error err =>
    exact ⟨false, (svc.UpdateConfigWithTx s.world newStateID).undo,
      by simp [updateAppState, hr, absorb, Except.toBool]⟩
  | ok u =>
    exact ⟨true, (svc.UpdateConfigWithTx s.world newStateID).undo,
      by simp [updateAppState, hr, absorb, Except.toBool, ExecuteFunc]⟩

theorem external_map_isExternal (ext : List (JournalStep W)) :
    ∀ st ∈ ext.map UndoStep.external, UndoStep.isExternal st = true := by
  intro st hst
  obtain ⟨f, _, rfl⟩ := List.mem_map.mp hst
  rfl

theorem performTransition_facts (svc : Services W) (ToState : τ → AppState)
    (s : Machine W τ) (t : τ) :
    ∃ evs steps, StepFacts ToState s t (performTransition svc ToState s t).1 evs steps := by
  by_cases h1 : s.activeState = ToState t
  · refine ⟨[], [], ?_⟩
    constructor <;> simp [performTransition, h1]
  cases hto : lookupHandler s.stateHandlers (ToState t) with
  | none =>
    refine ⟨[], [], ?_⟩
    constructor <;> simp [performTransition, h1, hto]
  | some toState =>
    cases hv : toState.ValidateTransition s.activeState with
    | some err =>
      refine ⟨[Event.validateTransition toState.StateID s.activeState], [], ?_⟩
      constructor <;> simp [performTransition, h1, hto, hv, Event.isOuter]
    | none =>
      obtain ⟨evsE, extE, hEt, hEx, hEh, hEa, hEe, hEok⟩ := exitActiveState_facts
        ({ s with trace := s.trace ++
          [Event.validateTransition toState.StateID s.activeState] } : Machine W τ) t
      cases hx : exitActiveState ({ s with trace := s.trace ++
          [Event.validateTransition toState.StateID s.activeState] } : Machine W τ) t with
      | mk s2 r2 =>
        rw [hx] at hEt hEx hEh hEa hEok
        simp only at hEt hEx hEh hEa hEe hEok
        cases r2 with
        | some err =>
          refine ⟨Event.validateTransition toState.StateID s.activeState :: evsE,
            extE.map UndoStep.external, ?_⟩
          constructor
          · simp [performTransition, h1, hto, hv, hx, hEt]
          · simp [performTransition, h1, hto, hv, hx, hEx]
          · simp [performTransition, h1, hto, hv, hx, hEh]
          · intro e he
            rcases List.mem_cons.mp he with rfl | he
            · rfl
            · obtain ⟨a, _, rfl⟩ := hEe e he
              rfl
          · left
            exact ⟨by simp [performTransition, h1, hto, hv, hx, hEa],
              external_map_isExternal extE⟩
          · intro h live hmem
            rcases List.mem_cons.mp hmem with hh | hmem
            · cases hh
            · obtain ⟨a, _, ha⟩ := hEe _ hmem
              cases ha
          · intro h live hmem
            rcases List.mem_cons.mp hmem with hh | hmem
            · cases hh
            · obtain ⟨a, ha1, ha⟩ := hEe _ hmem
              cases ha
              exact ⟨rfl, a, ha1, rfl⟩
        | none =>
          have hEok2 := hEok rfl
          obtain ⟨ok, extU, hUh, hUr, hUf, hUt⟩ := updateAppState_facts svc s2 (ToState t)
          cases hu : updateAppState svc s2 (ToState t) with
          | mk s3 r3 =>
            rw [hu] at hUh hUr hUf hUt
            simp only at hUh hUr hUf hUt
            cases ok with
            | false =>
              obtain ⟨e3, rfl⟩ : ∃ e3, r3 = some e3 := by
                cases r3 with
                | none => simp at hUr
                | some e3 => exact ⟨e3, rfl⟩
              obtain ⟨hUt1, hUt2, hUt3⟩ := hUf rfl
              refine ⟨Event.validateTransition toState.StateID s.activeState ::
                (evsE ++ [Event.updateConfigWithTx (ToState t) false]),
                extE.map UndoStep.external ++ extU.map UndoStep.external, ?_⟩
              constructor
              · simp [performTransition, h1, hto, hv, hx, hu, hUt1, hEt]
              · simp [performTransition, h1, hto, hv, hx, hu, hUt2, hEx]
              · simp [performTransition, h1, hto, hv, hx, hu, hUh, hEh]
              · intro e he
                rcases List.mem_cons.mp he with rfl | he
                · rfl
                · rcases List.mem_append.mp he with he | he
                  · obtain ⟨a, _, rfl⟩ := hEe e he
                    rfl
                  · rw [List.mem_singleton.mp he]
                    rfl
              · left
                refine ⟨by simp [performTransition, h1, hto, hv, hx, hu, hUt3, hEa], ?_⟩
                intro st hst
                rcases List.mem_append.mp hst with hst | hst
                · exact external_map_isExternal extE st hst
                · exact external_map_isExternal extU st hst
              · intro h live hmem
                rcases List.mem_cons.mp hmem with hh | hmem
                · cases hh
                · rcases List.mem_append.mp hmem with hmem | hmem
                  · obtain ⟨a, _, ha⟩ := hEe _ hmem
                    cases ha
                  · cases List.mem_singleton.mp hmem
              · intro h live hmem
                rcases List.mem_cons.mp hmem with hh | hmem
                · cases hh
                · rcases List.mem_append.mp hmem with hmem | hmem
                  · obtain ⟨a, ha1, ha⟩ := hEe _ hmem
                    cases ha
                    exact ⟨rfl, a, ha1, rfl⟩
                  · cases List.mem_singleton.mp hmem
            | true =>
              obtain rfl : r3 = none := hUr.mpr rfl
              obtain ⟨hUt1, hUt2, hUt3⟩ := hUt rfl
              refine ⟨Event.validateTransition toState.StateID s.activeState ::
                (evsE ++ [Event.updateConfigWithTx (ToState t) true, Event.executeFunc,
                  Event.handle toState.StateID (ToState t)]),
                extE.map UndoStep.external ++ (extU.map UndoStep.external ++
                  UndoStep.restoreState s.activeState ::
                    (toState.Handle s3.world t).undo.map UndoStep.external), ?_⟩
              have hout : (performTransition svc ToState s t).1 =
                  absorb { s3 with trace := s3.trace ++
                    [Event.handle toState.StateID s3.activeState] }
                    (toState.Handle s3.world t) := by
                cases hh : (toState.Handle s3.world t).ret <;>
                  simp [performTransition, h1, hto, hv, hx, hu, hh]
              constructor
              · simp [hout, absorb, hUt1, hUt3, hEt]
              · simp [hout, absorb, hUt2, hEx, hEa]
              · simp [hout, absorb, hUh, hEh]
              · intro e he
                rcases List.mem_cons.mp he with rfl | he
                · rfl
                · rcases List.mem_append.mp he with he | he
                  · obtain ⟨a, _, rfl⟩ := hEe e he
                    rfl
                  · simp at he
                    rcases he with rfl | rfl | rfl <;> rfl
              · right
                exact ⟨extE.map UndoStep.external ++ extU.map UndoStep.external,
                  (toState.Handle s3.world t).undo.map UndoStep.external, by simp, by
                    intro st hst
                    rcases List.mem_append.mp hst with hst | hst
                    · exact external_map_isExternal extE st hst
                    · exact external_map_isExternal extU st hst⟩
              · intro h live hmem
                rcases List.mem_cons.mp hmem with hh | hmem
                · cases hh
                · rcases List.mem_append.mp hmem with hmem | hmem
                  · obtain ⟨a, _, ha⟩ := hEe _ hmem
                    cases ha
                  · simp at hmem
                    obtain ⟨rfl, rfl⟩ := hmem
                    exact ⟨toState, hto, rfl, hv, hEok2, by simp, rfl⟩
              · intro h live hmem
                rcases List.mem_cons.mp hmem with hh | hmem
                · cases hh
                · rcases List.mem_append.mp hmem with hmem | hmem
                  · obtain ⟨a, ha1, ha⟩ := hEe _ hmem
                    cases ha
                    exact ⟨rfl, a, ha1, rfl⟩
                  · simp at hmem


theorem foldr_runUndo_external (steps : List (UndoStep W)) (s : Machine W τ)
    (hext : ∀ st ∈ steps, UndoStep.isExternal st = true) :
    (steps.foldr (fun st acc => runUndo st acc) s).activeState = s.activeState := by
  induction steps with
  | nil => rfl
  | cons st rest ih =>
    have hrest := ih (fun x hx => hext x (List.mem_cons_of_mem _ hx))
    have hst := hext st (List.mem_cons_self _ _)
    cases st with
    | restoreState o => simp [UndoStep.isExternal] at hst
    | external f => simpa [runUndo] using hrest

theorem foldr_runUndo_restore (pre post : List (UndoStep W)) (a : AppState)
    (s : Machine W τ) (ha : a ≠ AppStateBoot)
    (hext : ∀ st ∈ pre, UndoStep.isExternal st = true) :
    ((pre ++ UndoStep.restoreState a :: post).foldr
      (fun st acc => runUndo st acc) s).activeState = a := by
  rw [List.foldr_append, foldr_runUndo_external pre _ hext]
  simp [runUndo, ha]

theorem runUndo_checkpoint (id : Nat) (s : Machine W τ) :
    runUndo (.external (.checkpoint id)) s = s := rfl

theorem runUndo_checkpointDeleted (id : Nat) (s : Machine W τ) :
    runUndo (.external (.checkpointDeleted id)) s = s := rfl

theorem unsealed_spec (r : List (UndoStep W)) (deleted : List Nat) (m : Machine W τ) :
    (activeCheckpoint r deleted = none ∧
      (unsealed r deleted).foldl (fun acc st => runUndo st acc) m =
        r.foldl (fun acc st => runUndo st acc) m) ∨
    (∃ a id b, r = a ++ UndoStep.external (.checkpoint id) :: b ∧
      activeCheckpoint r deleted = some id ∧
      (unsealed r deleted).foldl (fun acc st => runUndo st acc) m =
        a.foldl (fun acc st => runUndo st acc) m) := by
  induction r generalizing deleted m with
  | nil => exact Or.inl ⟨rfl, rfl⟩
  | cons st rest ih =>
    cases st with
    | restoreState o =>
      rcases ih deleted (runUndo (.restoreState o) m) with ⟨h1, h2⟩ | ⟨a, id, b, hr, h1, h2⟩
      · exact Or.inl ⟨by simpa [activeCheckpoint] using h1, by simpa [unsealed] using h2⟩
      · exact Or.inr ⟨UndoStep.restoreState o :: a, id, b, by simp [hr], by simpa [activeCheckpoint] using h1,
          by simpa [unsealed] using h2⟩
    | external e =>
      cases e with
      | undo f =>
        rcases ih deleted (runUndo (.external (.undo f)) m) with
          ⟨h1, h2⟩ | ⟨a, id, b, hr, h1, h2⟩
        · exact Or.inl ⟨by simpa [activeCheckpoint] using h1, by simpa [unsealed] using h2⟩
        · exact Or.inr ⟨UndoStep.external (.undo f) :: a, id, b, by simp [hr], by simpa [activeCheckpoint] using h1,
            by simpa [unsealed] using h2⟩
      | checkpoint id =>
        by_cases hd : id ∈ deleted
        · rcases ih deleted m with ⟨h1, h2⟩ | ⟨a, id2, b, hr, h1, h2⟩
          · exact Or.inl ⟨by simpa [activeCheckpoint, hd] using h1,
              by simpa [unsealed, hd, runUndo_checkpoint] using h2⟩
          · exact Or.inr ⟨UndoStep.external (.checkpoint id) :: a, id2, b, by simp [hr],
              by simpa [activeCheckpoint, hd] using h1,
              by simpa [unsealed, hd, runUndo_checkpoint] using h2⟩
        · exact Or.inr ⟨[], id, rest, rfl, by simp [activeCheckpoint, hd],
            by simp [unsealed, hd]⟩
      | checkpointDeleted id =>
        rcases ih (id :: deleted) m with ⟨h1, h2⟩ | ⟨a, id2, b, hr, h1, h2⟩
        · exact Or.inl ⟨by simpa [activeCheckpoint] using h1,
            by simpa [unsealed, runUndo_checkpointDeleted] using h2⟩
        · exact Or.inr ⟨UndoStep.external (.checkpointDeleted id) :: a, id2, b, by simp [hr], by simpa [activeCheckpoint] using h1,
            by simpa [unsealed, runUndo_checkpointDeleted] using h2⟩

/-- What the rollback undoes: every entry of the journal when no checkpoint is active, and
otherwise the entries after the last active checkpoint. -/
theorem rollback_cases (s : Machine W τ) :
    (activeCheckpoint s.tx.reverse [] = none ∧
      rollback s = { (s.tx.foldr (fun st acc => runUndo st acc) s) with tx := [] }) ∨
    (∃ pre id post, s.tx = pre ++ UndoStep.external (.checkpoint id) :: post ∧
      activeCheckpoint s.tx.reverse [] = some id ∧
      rollback s = { (post.foldr (fun st acc => runUndo st acc) s) with tx := [] }) := by
  rcases unsealed_spec s.tx.reverse [] s with ⟨h1, h2⟩ | ⟨a, id, b, hr, h1, h2⟩
  · refine Or.inl ⟨h1, ?_⟩
    unfold rollback
    rw [h2, List.foldl_reverse]
  · refine Or.inr ⟨b.reverse, id, a.reverse, ?_, h1, ?_⟩
    · have h3 := congrArg List.reverse hr
      simpa using h3
    · unfold rollback
      rw [h2, List.foldr_reverse]

theorem rollback_full (s : Machine W τ) (h : activeCheckpoint s.tx.reverse [] = none) :
    rollback s = { (s.tx.foldr (fun st acc => runUndo st acc) s) with tx := [] } := by
  rcases rollback_cases s with ⟨_, h2⟩ | ⟨_, _, _, _, h1, _⟩
  · exact h2
  · rw [h] at h1
    cases h1

theorem rollback_activeState (s : Machine W τ)
    (h : activeCheckpoint s.tx.reverse [] = none) :
    (rollback s).activeState =
      (s.tx.foldr (fun st acc => runUndo st acc) s).activeState := by
  rw [rollback_full s h]

theorem performTransition_chainInv (svc : Services W) (ToState : τ → AppState)
    (a0 : AppState) (s : Machine W τ) (t : τ) (hinv : ChainInv a0 s) :
    ChainInv a0 (performTransition svc ToState s t).1 := by
  obtain ⟨evs, steps, hf⟩ := performTransition_facts svc ToState s t
  rcases hinv with ⟨ha, hext⟩ | ⟨pre, post, htx, hpre⟩
  · rcases hf.undo with ⟨hact, hsteps⟩ | ⟨pre2, post2, hsteps, hpre2⟩
    · left
      refine ⟨hact.trans ha, ?_⟩
      intro st hst
      rw [hf.tx_eq] at hst
      rcases List.mem_append.mp hst with h | h
      · exact hext st h
      · exact hsteps st h
    · right
      refine ⟨s.tx ++ pre2, post2, ?_, ?_⟩
      · rw [hf.tx_eq, hsteps, ha]
        simp
      · intro st hst
        rcases List.mem_append.mp hst with h | h
        · exact hext st h
        · exact hpre2 st h
  · right
    refine ⟨pre, post ++ steps, ?_, hpre⟩
    rw [hf.tx_eq, htx]
    simp

theorem chainRun_chainInv (svc : Services W) (ToState : τ → AppState) (a0 : AppState)
    (s s1 : Machine W τ) (t : τ) (err : Option GoError)
    (hchain : ChainRun svc ToState s t s1 err) (hinv : ChainInv a0 s) :
    ChainInv a0 s1 := by
  induction hchain with
  | failed s t e _ => exact performTransition_chainInv svc ToState a0 s t hinv
  | finished s t r _ _ => exact performTransition_chainInv svc ToState a0 s t hinv
  | followUp s t next r s1 err _ _ _ ih =>
    exact ih (performTransition_chainInv svc ToState a0 s t hinv)

/-- C1 (amended). For every live state other than boot and every chain of transitions run
in one fresh transaction in which some step fails and which leaves no active checkpoint in
the journal, the rollback (the undo entries of the transaction run in reverse order) leaves
the live state equal to the state before the first transition. -/
theorem failed_chain_rollback_restores_live_state (svc : Services W)
    (ToState : τ → AppState) (s s1 : Machine W τ) (t : τ) (e : GoError)
    (hfresh : s.tx = []) (hboot : s.activeState ≠ AppStateBoot)
    (hchain : ChainRun svc ToState s t s1 (some e))
    (hcp : activeCheckpoint s1.tx.reverse [] = none) :
    (rollback s1).activeState = s.activeState := by
  have hinv : ChainInv s.activeState s := Or.inl ⟨rfl, by simp [hfresh]⟩
  have h1 := chainRun_chainInv svc ToState s.activeState s s1 t (some e) hchain hinv
  rw [rollback_activeState s1 hcp]
  rcases h1 with ⟨ha, hext⟩ | ⟨pre, post, htx, hpre⟩
  · rw [foldr_runUndo_external _ _ hext, ha]
  · rw [htx]
    exact foldr_runUndo_restore pre post s.activeState s1 hboot hpre

theorem lookupHandler_insertHandler (hs : List (AppState × IStateHandler W τ))
    (id k : AppState) (h : IStateHandler W τ) :
    lookupHandler (insertHandler hs id h) k =
      if id = k then some h else lookupHandler hs k := by
  induction hs with
  | nil => simp [insertHandler, lookupHandler]
  | cons p rest ih =>
    obtain ⟨k0, h0⟩ := p
    by_cases hk : k0 = id
    · subst hk
      by_cases hk2 : k0 = k <;> simp [insertHandler, lookupHandler, hk2]
    · by_cases hk2 : k0 = k
      · subst hk2
        have : ¬ id = k0 := fun h => hk h.symm
        simp [insertHandler, lookupHandler, hk, this]
      · simp [insertHandler, lookupHandler, hk, hk2, ih]

theorem buildHandlerMap_keys (handlers : List (IStateHandler W τ)) :
    ∀ (acc m : List (AppState × IStateHandler W τ)),
      (∀ k h, lookupHandler acc k = some h → h.StateID = k) →
      buildHandlerMap acc handlers = some m →
      ∀ k h, lookupHandler m k = some h → h.StateID = k := by
  induction handlers with
  | nil =>
    intro acc m hacc hb
    simp [buildHandlerMap] at hb
    subst hb
    exact hacc
  | cons hd rest ih =>
    intro acc m hacc hb
    simp only [buildHandlerMap] at hb
    split at hb
    · cases hb
    · refine ih _ m ?_ hb
      intro k h hk
      rw [lookupHandler_insertHandler] at hk
      split at hk
      · rename_i hid
        cases hk
        exact hid
      · exact hacc k h hk

/-- C2. In every execution of `performTransition` on a registry built by
`SetStateHandlers`, `Handle` is called only on the destination handler and only if its
`ValidateTransition(live state)` returned nil, `OnExit` of the live handler returned nil and
the state update succeeded; `OnExit` is called only on the handler registered for the state
that is live at the moment of the call. -/
theorem performTransition_calls_are_valid (svc : Services W) (ToState : τ → AppState)
    (handlers : List (IStateHandler W τ)) (s : Machine W τ) (t : τ)
    (hreg : buildHandlerMap [] handlers = some s.stateHandlers) :
    ∃ evs, (performTransition svc ToState s t).1.trace = s.trace ++ evs ∧
      (∀ h live, Event.handle h live ∈ evs →
        h = ToState t ∧
        (∃ toState, lookupHandler s.stateHandlers (ToState t) = some toState ∧
          toState.ValidateTransition s.activeState = none) ∧
        (∀ a, lookupHandler s.stateHandlers s.activeState = some a →
          ∃ u, (a.OnExit s.world t).ret = .ok u) ∧
        Event.updateConfigWithTx (ToState t) true ∈ evs) ∧
      (∀ h live, Event.onExit h live ∈ evs →
        h = live ∧ live = s.activeState ∧
        ∃ a, lookupHandler s.stateHandlers live = some a ∧ a.StateID = h) := by
  have hkeys := buildHandlerMap_keys handlers [] s.stateHandlers
    (by intro k h hk; simp [lookupHandler] at hk) hreg
  obtain ⟨evs, steps, hf⟩ := performTransition_facts svc ToState s t
  refine ⟨evs, hf.trace_eq, ?_, ?_⟩
  · intro h live hmem
    obtain ⟨toState, hto, hh, hv, hex, hup, _⟩ := hf.handle_only h live hmem
    exact ⟨hh.trans (hkeys _ _ hto), ⟨toState, hto, hv⟩, hex, hup⟩
  · intro h live hmem
    obtain ⟨hl, a, ha, hh⟩ := hf.exit_only h live hmem
    subst hl
    refine ⟨hh.trans (hkeys _ _ ha), rfl, a, ha, hh.symm⟩

/-- C3. `performTransition` rejects a transition whose destination is the live state or has
no registered handler: it returns an error and leaves the whole machine (live state, world,
transaction, call trace) as it was, so nothing was called. -/
theorem performTransition_rejects_same_or_unregistered (svc : Services W)
    (ToState : τ → AppState) (s : Machine W τ) (t : τ)
    (h : s.activeState = ToState t ∨ lookupHandler s.stateHandlers (ToState t) = none) :
    (performTransition svc ToState s t).1 = s ∧
      ∃ e, (performTransition svc ToState s t).2 = .error e := by
  unfold performTransition
  by_cases h1 : s.activeState = ToState t
  · simp [h1]
  · rcases h with h | h
    · exact absurd h h1
    · simp [h1, h]


theorem chainRun_runChain (svc : Services W) (ToState : τ → AppState)
    (s s1 : Machine W τ) (t : τ) (err : Option GoError)
    (hchain : ChainRun svc ToState s t s1 err) :
    ∃ fuel, ∀ n, fuel ≤ n → runChain svc ToState n s t = some (s1, err) := by
  induction hchain with
  | failed s t e he =>
    refine ⟨1, fun n hn => ?_⟩
    obtain ⟨m, rfl⟩ : ∃ m, n = m + 1 := ⟨n - 1, by omega⟩
    cases hp : performTransition svc ToState s t with
    | mk a b =>
      rw [hp] at he
      simp only at he
      subst he
      simp [runChain, hp]
  | finished s t r hr hnone =>
    refine ⟨1, fun n hn => ?_⟩
    obtain ⟨m, rfl⟩ : ∃ m, n = m + 1 := ⟨n - 1, by omega⟩
    cases hp : performTransition svc ToState s t with
    | mk a b =>
      rw [hp] at hr
      simp only at hr
      subst hr
      simp [runChain, hp, hnone]
  | followUp s t next r s1 err hr hnext _ ih =>
    obtain ⟨fuel, hfuel⟩ := ih
    refine ⟨fuel + 1, fun n hn => ?_⟩
    obtain ⟨m, rfl⟩ : ∃ m, n = m + 1 := ⟨n - 1, by omega⟩
    cases hp : performTransition svc ToState s t with
    | mk a b =>
      rw [hp] at hr hfuel
      simp only at hr hfuel
      subst hr
      simp only [runChain, hp, hnext]
      exact hfuel m (by omega)

theorem chainRun_trace (svc : Services W) (ToState : τ → AppState)
    (s s1 : Machine W τ) (t : τ) (err : Option GoError)
    (hchain : ChainRun svc ToState s t s1 err) :
    ∃ evs, s1.trace = s.trace ++ evs ∧ ∀ e ∈ evs, Event.isOuter e = false := by
  induction hchain with
  | failed s t e _ =>
    obtain ⟨evs, steps, hf⟩ := performTransition_facts svc ToState s t
    exact ⟨evs, hf.trace_eq, hf.inner⟩
  | finished s t r _ _ =>
    obtain ⟨evs, steps, hf⟩ := performTransition_facts svc ToState s t
    exact ⟨evs, hf.trace_eq, hf.inner⟩
  | followUp s t next r s1 err _ _ _ ih =>
    obtain ⟨evs, steps, hf⟩ := performTransition_facts svc ToState s t
    obtain ⟨evs2, h2, hin2⟩ := ih
    refine ⟨evs ++ evs2, ?_, ?_⟩
    · rw [h2, hf.trace_eq, List.append_assoc]
    · intro e he
      rcases List.mem_append.mp he with h | h
      · exact hf.inner e h
      · exact hin2 e h

theorem foldr_runUndo_trace (steps : List (UndoStep W)) (s : Machine W τ) :
    (steps.foldr (fun st acc => runUndo st acc) s).trace = s.trace := by
  induction steps with
  | nil => rfl
  | cons st rest ih =>
    rw [List.foldr_cons]
    cases st with
    | restoreState o =>
      by_cases ho : o = AppStateBoot
      · simpa [runUndo, ho] using ih
      · simpa [runUndo, ho] using ih
    | external f => simpa [runUndo] using ih

theorem rollback_trace (s : Machine W τ) : (rollback s).trace = s.trace := by
  rcases rollback_cases s with ⟨_, h⟩ | ⟨_, _, post, _, _, h⟩
  · rw [h]
    exact foldr_runUndo_trace s.tx s
  · rw [h]
    exact foldr_runUndo_trace post s

theorem finishTransaction_trace (svc : Services W) (s : Machine W τ)
    (execErr : Option GoError) :
    (FinishTransaction svc s execErr).1.trace =
      s.trace ++ [Event.finishTransaction execErr] := by
  cases execErr with
  | none => simp [FinishTransaction]
  | some e => simp [FinishTransaction, rollback_trace]

theorem count_start_inner (evs : List Event) (h : ∀ e ∈ evs, Event.isOuter e = false) :
    evs.count Event.startTransaction = 0 := by
  rw [List.count_eq_zero]
  intro hmem
  have := h _ hmem
  simp [Event.isOuter] at this

theorem countP_finish_inner (evs : List Event) (h : ∀ e ∈ evs, Event.isOuter e = false) :
    evs.countP Event.isFinish = 0 := by
  rw [List.countP_eq_zero]
  intro e hmem hfin
  have := h e hmem
  cases e <;> simp [Event.isOuter, Event.isFinish] at this hfin

/-- C4 (amended). For every `Perform` request whose `StartTransaction` succeeds and whose
chain of follow-ups ends, the worker starts one transaction, runs the submitted transition
and every follow-up in it, calls `FinishTransaction` exactly once, with the first error of
the chain (nil if there was none), and the reply, like the result of `Perform`, is nil
exactly when `FinishTransaction` returns nil. Enough fuel gives this result. -/
theorem serveRequest_runs_chain_then_finishes_once (svc : Services W)
    (ToState : τ → AppState) (s s1 : Machine W τ) (t : τ) (w : W) (err : Option GoError)
    (hstart : svc.StartTransaction s.world = (w, none))
    (hchain : ChainRun svc ToState
      { s with trace := s.trace ++ [Event.startTransaction], world := w, tx := [] } t s1 err) :
    ∃ fuel out r res evs,
      (∀ n, fuel ≤ n → serveRequest svc ToState n s t = some (out, r) ∧
        Perform svc ToState n s t = some (out, res)) ∧
      s1.trace = s.trace ++ Event.startTransaction :: evs ∧
      out.trace = s.trace ++ Event.startTransaction ::
        (evs ++ [Event.finishTransaction err, Event.reply r]) ∧
      (Event.startTransaction :: (evs ++ [Event.finishTransaction err, Event.reply r])).count
        Event.startTransaction = 1 ∧
      (Event.startTransaction :: (evs ++ [Event.finishTransaction err, Event.reply r])).countP
        Event.isFinish = 1 ∧
      (r = none ↔ (FinishTransaction svc s1 err).2 = none) ∧
      (res = none ↔ (FinishTransaction svc s1 err).2 = none) := by
  obtain ⟨fuel, hfuel⟩ := chainRun_runChain svc ToState _ s1 t err hchain
  obtain ⟨evs, htr, hin⟩ := chainRun_trace svc ToState _ s1 t err hchain
  have hft := finishTransaction_trace svc s1 err
  have hcount1 := count_start_inner evs hin
  have hcount2 := countP_finish_inner evs hin
  cases hfin : FinishTransaction svc s1 err with
  | mk s2 status =>
    rw [hfin] at hft
    simp only at hft
    cases status with
    | none =>
      refine ⟨fuel, { s2 with trace := s2.trace ++ [Event.reply none] }, none, none, evs,
        ?_, ?_, ?_, ?_, ?_, ?_, ?_⟩
      · intro n hn
        have := hfuel n hn
        simp [serveRequest, Perform, hstart, this, hfin]
      · simpa using htr
      · simp [hft, htr]
      · simp [List.count_cons, List.count_append, hcount1]
      · simp [List.countP_cons, List.countP_append, hcount2, Event.isFinish]
      · simp
      · simp
    | some e2 =>
      refine ⟨fuel, { s2 with trace := s2.trace ++ [Event.reply (some (.wrap "Run: " e2))] },
        some (.wrap "Run: " e2), some (.wrap "Perform: " (.wrap "Run: " e2)), evs,
        ?_, ?_, ?_, ?_, ?_, ?_, ?_⟩
      · intro n hn
        have := hfuel n hn
        simp [serveRequest, Perform, hstart, this, hfin]
      · simpa using htr
      · simp [hft, htr]
      · simp [List.count_cons, List.count_append, hcount1]
      · simp [List.countP_cons, List.countP_append, hcount2, Event.isFinish]
      · simp
      · simp

/-- Witness for C1: a chain `init → active → maintenance` whose last `Handle` fails. -/
theorem failed_chain_rollback_witness :
    sampleMachine.tx = [] ∧ sampleMachine.activeState ≠ AppStateBoot ∧
      (rollback (performTransition sampleServices id
        (performTransition sampleServices id sampleMachine "active").1
          "maintenance").1).activeState = sampleMachine.activeState :=
  ⟨rfl, by decide,
    failed_chain_rollback_restores_live_state sampleServices id sampleMachine _ "active"
      (.wrap "performTransition: " (.leaf "handle failed")) rfl (by decide)
      (ChainRun.followUp _ _ "maintenance" { Transition := some "maintenance" } _ _ rfl rfl
        (ChainRun.failed _ _ _ rfl)) rfl⟩

/-- Witness for C2 on the sample registry. -/
theorem performTransition_calls_witness :
    buildHandlerMap [] sampleHandlers = some sampleMachine.stateHandlers ∧
    ∃ evs, (performTransition sampleServices id sampleMachine "active").1.trace =
        sampleMachine.trace ++ evs ∧
      (∀ h live, Event.handle h live ∈ evs →
        h = id "active" ∧
        (∃ toState, lookupHandler sampleMachine.stateHandlers (id "active") = some toState ∧
          toState.ValidateTransition sampleMachine.activeState = none) ∧
        (∀ a, lookupHandler sampleMachine.stateHandlers sampleMachine.activeState = some a →
          ∃ u, (a.OnExit sampleMachine.world "active").ret = .ok u) ∧
        Event.updateConfigWithTx (id "active") true ∈ evs) ∧
      (∀ h live, Event.onExit h live ∈ evs →
        h = live ∧ live = sampleMachine.activeState ∧
        ∃ a, lookupHandler sampleMachine.stateHandlers live = some a ∧ a.StateID = h) :=
  ⟨rfl, performTransition_calls_are_valid sampleServices id sampleHandlers sampleMachine
    "active" rfl⟩

/-- Witness for C3: a transition to the live state `init`. -/
theorem performTransition_rejects_witness :
    (sampleMachine.activeState = id "init" ∨
        lookupHandler sampleMachine.stateHandlers (id "init") = none) ∧
      (performTransition sampleServices id sampleMachine "init").1 = sampleMachine ∧
      ∃ e, (performTransition sampleServices id sampleMachine "init").2 = .error e :=
  ⟨Or.inl rfl, performTransition_rejects_same_or_unregistered sampleServices id sampleMachine
    "init" (Or.inl rfl)⟩

theorem serveRequest_out_of_fuel (svc : Services W) (ToState : τ → AppState) (fuel : Nat)
    (s : Machine W τ) (t : τ) (w : W) (hstart : svc.StartTransaction s.world = (w, none))
    (h : runChain svc ToState fuel
      { s with trace := s.trace ++ [Event.startTransaction], world := w, tx := [] } t = none) :
    serveRequest svc ToState fuel s t = none := by
  simp [serveRequest, hstart, h]

theorem loopMachine_runChain (fuel : Nat) :
    ∀ (m : Machine Unit AppState) (t : AppState),
      m.stateHandlers = loopMachine.stateHandlers →
      ((m.activeState = "init" ∧ t = "ztp_setup") ∨
        (m.activeState = "ztp_setup" ∧ t = "init")) →
      runChain sampleServices id fuel m t = none := by
  induction fuel with
  | zero => intro m t _ _; rfl
  | succ n ih =>
    intro m t hreg hst
    rcases hst with ⟨ha, rfl⟩ | ⟨ha, rfl⟩
    · have hne : ¬ m.activeState = "ztp_setup" := by rw [ha]; decide
      simp only [runChain, performTransition, id, hne, if_false, hreg, loopMachine,
        lookupHandler, exitActiveState, ha, updateAppState, ExecuteFunc, absorb,
        sampleServices, sampleHandler]
      simp
      apply ih
      · simp [hreg, loopMachine, sampleHandler]
      · right
        exact ⟨rfl, rfl⟩
    · have hne : ¬ m.activeState = "init" := by rw [ha]; decide
      simp only [runChain, performTransition, id, hne, if_false, hreg, loopMachine,
        lookupHandler, exitActiveState, ha, updateAppState, ExecuteFunc, absorb,
        sampleServices, sampleHandler]
      simp
      apply ih
      · simp [hreg, loopMachine, sampleHandler]
      · left
        exact ⟨rfl, rfl⟩

/-- C4, counterexample: when `StartTransaction` fails, the worker replies with the error
and `FinishTransaction` is not called at all; and when the handlers hand over to each other
for ever, the chain loop does not end for any fuel, so `FinishTransaction` is never reached. -/
theorem serveRequest_start_failure_skips_finish :
    ((serveRequest sampleServicesNoStart id 3 sampleMachine "active").map
        (fun p => (p.1.trace, p.2)) =
      some ([Event.startTransaction,
          Event.reply (some (.wrap "Run: " (.leaf "store is closed")))],
        some (.wrap "Run: " (.leaf "store is closed"))) ∧
    ((serveRequest sampleServicesNoStart id 3 sampleMachine "active").map
        (fun p => p.1.trace.countP Event.isFinish)) = some 0) ∧
    ∀ fuel, serveRequest sampleServices id fuel loopMachine "ztp_setup" = none :=
  ⟨⟨rfl, rfl⟩, fun fuel =>
    serveRequest_out_of_fuel sampleServices id fuel loopMachine "ztp_setup" () rfl
      (loopMachine_runChain fuel _ "ztp_setup" rfl (Or.inl ⟨rfl, rfl⟩))⟩

/-- Witness for C4 (amended): the request `active` on the sample machine. -/
theorem serveRequest_chain_witness :
    sampleServices.StartTransaction sampleMachine.world = ((), none) ∧
    ∃ fuel out r res evs,
      (∀ n, fuel ≤ n → serveRequest sampleServices id n sampleMachine "active" = some (out, r) ∧
        Perform sampleServices id n sampleMachine "active" = some (out, res)) ∧
      (performTransition sampleServices id
        (performTransition sampleServices id
          { sampleMachine with trace := sampleMachine.trace ++ [Event.startTransaction],
                               world := (), tx := [] } "active").1 "maintenance").1.trace =
        sampleMachine.trace ++ Event.startTransaction :: evs ∧
      out.trace = sampleMachine.trace ++ Event.startTransaction ::
        (evs ++ [Event.finishTransaction
          (some (.wrap "performTransition: " (.leaf "handle failed"))), Event.reply r]) ∧
      (Event.startTransaction :: (evs ++ [Event.finishTransaction
          (some (.wrap "performTransition: " (.leaf "handle failed"))), Event.reply r])).count
        Event.startTransaction = 1 ∧
      (Event.startTransaction :: (evs ++ [Event.finishTransaction
          (some (.wrap "performTransition: " (.leaf "handle failed"))), Event.reply r])).countP
        Event.isFinish = 1 ∧
      (r = none ↔ (FinishTransaction sampleServices (performTransition sampleServices id
        (performTransition sampleServices id
          { sampleMachine with trace := sampleMachine.trace ++ [Event.startTransaction],
                               world := (), tx := [] } "active").1 "maintenance").1
          (some (.wrap "performTransition: " (.leaf "handle failed")))).2 = none) ∧
      (res = none ↔ (FinishTransaction sampleServices (performTransition sampleServices id
        (performTransition sampleServices id
          { sampleMachine with trace := sampleMachine.trace ++ [Event.startTransaction],
                               world := (), tx := [] } "active").1 "maintenance").1
          (some (.wrap "performTransition: " (.leaf "handle failed")))).2 = none) :=
  ⟨rfl, serveRequest_runs_chain_then_finishes_once sampleServices id sampleMachine _ "active"
    () (some (.wrap "performTransition: " (.leaf "handle failed"))) rfl
    (ChainRun.followUp _ _ "maintenance" { Transition := some "maintenance" } _ _ rfl rfl
      (ChainRun.failed _ _ _ rfl))⟩

end Appstate

/-! ## Theorems: primary discovery -/

namespace Discovery

theorem checkHost_host (CheckPrimary : String → Bool × Option GoError) (host : String) :
    (checkHost CheckPrimary host).Host = host := by
  unfold checkHost
  split <;> rfl

theorem checkHost_isPrimary (CheckPrimary : String → Bool × Option GoError) (host : String) :
    (checkHost CheckPrimary host).IsPrimary = answersPrimary CheckPrimary host := by
  unfold checkHost answersPrimary
  cases h : CheckPrimary host with
  | mk b e =>
    cases e with
    | some err => simp
    | none => cases b <;> simp

theorem scanResults_filter (results : List discoveryResult) (primary : String) :
    scanResults results primary =
      scanResults (results.filter (fun r => r.IsPrimary)) primary := by
  induction results generalizing primary with
  | nil => rfl
  | cons r rest ih =>
    by_cases hr : r.IsPrimary = true
    · by_cases hp : primary = ""
      · simp [scanResults, hr, hp, ih]
      · simp [scanResults, hr, hp]
    · simp [scanResults, hr, ih]

theorem filter_map_checkHost (CheckPrimary : String → Bool × Option GoError)
    (hosts : List String) :
    (hosts.map (checkHost CheckPrimary)).filter (fun r => r.IsPrimary) =
      (hosts.filter (answersPrimary CheckPrimary)).map (checkHost CheckPrimary) := by
  induction hosts with
  | nil => rfl
  | cons h rest ih =>
    by_cases hp : answersPrimary CheckPrimary h = true
    · simp [List.filter_cons, checkHost_isPrimary, hp, ih]
    · simp [List.filter_cons, checkHost_isPrimary, hp, ih]

theorem waited_primaries_perm (CheckPrimary : String → Bool × Option GoError)
    (wait : List discoveryResult → List discoveryResult)
    (hwait : ∀ l, List.Perm (wait l) l) (hosts : List String) :
    List.Perm ((wait (hosts.map (checkHost CheckPrimary))).filter (fun r => r.IsPrimary))
      ((hosts.filter (answersPrimary CheckPrimary)).map (checkHost CheckPrimary)) := by
  rw [← filter_map_checkHost]
  exact (hwait _).filter _

/-- C5 (amended). When exactly one host of the list answers primary, every other host
answering standby or failing, and the name of that host is not the empty string,
`FetchPrimary` returns that host and a nil error, whatever the order in which the pool
hands back the results. -/
theorem fetchPrimary_returns_single_primary
    (CheckPrimary : String → Bool × Option GoError)
    (wait : List discoveryResult → List discoveryResult)
    (hwait : ∀ l, List.Perm (wait l) l) (pre post : List String) (host : String)
    (hprim : answersPrimary CheckPrimary host = true)
    (hpre : ∀ h ∈ pre, answersPrimary CheckPrimary h = false)
    (hpost : ∀ h ∈ post, answersPrimary CheckPrimary h = false)
    (hname : host ≠ "") :
    FetchPrimary CheckPrimary wait (pre ++ host :: post) = some (host, none) := by
  have hperm := waited_primaries_perm CheckPrimary wait hwait (pre ++ host :: post)
  have hfilter : (pre ++ host :: post).filter (answersPrimary CheckPrimary) = [host] := by
    rw [List.filter_append, List.filter_cons]
    have h1 : pre.filter (answersPrimary CheckPrimary) = [] :=
      List.filter_eq_nil_iff.mpr (fun h hh => by simp [hpre h hh])
    have h2 : post.filter (answersPrimary CheckPrimary) = [] :=
      List.filter_eq_nil_iff.mpr (fun h hh => by simp [hpost h hh])
    simp [h1, h2, hprim]
  rw [hfilter] at hperm
  have hsing := List.perm_singleton.mp hperm
  have hlen : ¬ (pre ++ host :: post).length < 1 := by simp
  unfold FetchPrimary
  rw [if_neg hlen]
  simp only
  rw [scanResults_filter, hsing]
  simp [scanResults, checkHost_isPrimary, checkHost_host, hprim, hname]

/-- C6 (amended). When two or more hosts of the list answer primary and no host that
answers primary has the empty string as its name, `FetchPrimary` returns the error
`ErrSplitBrain`. -/
theorem fetchPrimary_split_brain
    (CheckPrimary : String → Bool × Option GoError)
    (wait : List discoveryResult → List discoveryResult)
    (hwait : ∀ l, List.Perm (wait l) l) (hosts : List String)
    (htwo : 2 ≤ (hosts.filter (answersPrimary CheckPrimary)).length)
    (hname : ∀ h ∈ hosts, answersPrimary CheckPrimary h = true → h ≠ "") :
    ∃ primary, FetchPrimary CheckPrimary wait hosts = some (primary, some ErrSplitBrain) := by
  have hperm := waited_primaries_perm CheckPrimary wait hwait hosts
  have hlen2 : 2 ≤ ((wait (hosts.map (checkHost CheckPrimary))).filter
      (fun r => r.IsPrimary)).length := by
    rw [hperm.length_eq]
    simpa using htwo
  have hall : ∀ r ∈ (wait (hosts.map (checkHost CheckPrimary))).filter
      (fun r => r.IsPrimary), r.IsPrimary = true ∧ r.Host ≠ "" := by
    intro r hr
    have hr2 := hperm.mem_iff.mp hr
    obtain ⟨h, hh, rfl⟩ := List.mem_map.mp hr2
    have hh2 := List.mem_filter.mp hh
    exact ⟨by rw [checkHost_isPrimary]; exact hh2.2,
      by rw [checkHost_host]; exact hname h hh2.1 hh2.2⟩
  have hlen : ¬ hosts.length < 1 := by
    intro hlt
    have : hosts = [] := List.length_eq_zero.mp (by omega)
    subst this
    simp at htwo
  unfold FetchPrimary
  rw [if_neg hlen]
  simp only
  rw [scanResults_filter]
  generalize (wait (hosts.map (checkHost CheckPrimary))).filter (fun r => r.IsPrimary) = l
    at hlen2 hall
  match l, hlen2, hall with
  | r1 :: r2 :: rest, _, hall =>
    have h1 := hall r1 (by simp)
    have h2 := hall r2 (by simp)
    exact ⟨r1.Host, by simp [scanResults, h1.1, h1.2, h2.1]⟩

/-- C7 (amended). For every non-empty host list in which no host answers primary,
`FetchPrimary` returns the empty string and an error that wraps `ErrPrimaryNotFound`. -/
theorem fetchPrimary_primary_not_found
    (CheckPrimary : String → Bool × Option GoError)
    (wait : List discoveryResult → List discoveryResult)
    (hwait : ∀ l, List.Perm (wait l) l) (hosts : List String)
    (hne : hosts ≠ [])
    (hnone : ∀ h ∈ hosts, answersPrimary CheckPrimary h = false) :
    ∃ err, FetchPrimary CheckPrimary wait hosts = some ("", some err) ∧
      err.Is ErrPrimaryNotFound = true := by
  have hperm := waited_primaries_perm CheckPrimary wait hwait hosts
  have hfilter : hosts.filter (answersPrimary CheckPrimary) = [] :=
    List.filter_eq_nil_iff.mpr (fun h hh => by simp [hnone h hh])
  rw [hfilter] at hperm
  have hnil := List.perm_nil.mp hperm
  have hlen : ¬ hosts.length < 1 := by
    intro hlt
    exact hne (List.length_eq_zero.mp (by omega))
  refine ⟨.wrap "FetchPrimary: " ErrPrimaryNotFound, ?_, by decide⟩
  unfold FetchPrimary
  rw [if_neg hlen]
  simp only
  rw [scanResults_filter, hnil]
  simp [scanResults]

/-- Witness for C5 (amended): the first test case of `Test_FetchPrimary`. -/
theorem fetchPrimary_single_primary_witness :
    FetchPrimary sampleCheckPrimary id ([] ++ "orch2.sdwan.lab" :: ["orch22.sdwan.lab"]) =
      some ("orch2.sdwan.lab", none) :=
  fetchPrimary_returns_single_primary sampleCheckPrimary id (fun l => List.Perm.refl l) []
    ["orch22.sdwan.lab"] "orch2.sdwan.lab" (by decide) (by simp) (by decide) (by decide)

/-- C5, counterexample: the only host of the list has the empty name and answers primary;
`FetchPrimary` reports that no primary was found. -/
theorem fetchPrimary_empty_name_not_found :
    answersPrimary sampleCheckAllPrimary "" = true ∧
      FetchPrimary sampleCheckAllPrimary id [""] =
        some ("", some (.wrap "FetchPrimary: " ErrPrimaryNotFound)) :=
  ⟨rfl, rfl⟩

/-- Witness for C6 (amended): the split-brain test case of `Test_FetchPrimary`. -/
theorem fetchPrimary_split_brain_witness :
    2 ≤ (["orch2.sdwan.lab", "orch22.sdwan.lab"].filter
        (answersPrimary sampleCheckAllPrimary)).length ∧
      ∃ primary, FetchPrimary sampleCheckAllPrimary id ["orch2.sdwan.lab", "orch22.sdwan.lab"] =
        some (primary, some ErrSplitBrain) :=
  ⟨by decide, fetchPrimary_split_brain sampleCheckAllPrimary id (fun l => List.Perm.refl l)
    ["orch2.sdwan.lab", "orch22.sdwan.lab"] (by decide) (by decide)⟩

/-- C6, counterexample: two hosts answer primary, the first has the empty name; no error
is returned. -/
theorem fetchPrimary_empty_name_hides_split_brain :
    (["", "orch22.sdwan.lab"].filter (answersPrimary sampleCheckAllPrimary)).length = 2 ∧
      FetchPrimary sampleCheckAllPrimary id ["", "orch22.sdwan.lab"] =
        some ("orch22.sdwan.lab", none) :=
  ⟨rfl, rfl⟩

/-- Witness for C7 (amended): the test case "two hosts down" of `Test_FetchPrimary`. -/
theorem fetchPrimary_not_found_witness :
    ["orch2.sdwan.lab", "orch22.sdwan.lab"] ≠ [] ∧
      ∃ err, FetchPrimary sampleCheckDown id ["orch2.sdwan.lab", "orch22.sdwan.lab"] =
          some ("", some err) ∧ err.Is ErrPrimaryNotFound = true :=
  ⟨by decide, fetchPrimary_primary_not_found sampleCheckDown id (fun l => List.Perm.refl l)
    ["orch2.sdwan.lab", "orch22.sdwan.lab"] (by decide) (by decide)⟩

/-- C7. On the empty host list `FetchPrimary` does not return the empty primary and an
error that wraps `ErrPrimaryNotFound`: the pool panics on `WithMaxGoroutines(0)`. -/
theorem fetchPrimary_empty_list_panics :
    FetchPrimary sampleCheckDown id [] = none :=
  rfl

end Discovery

/-! ## Theorems: discovery monitor -/

namespace Monitoring

/-- C8. On a tick on which the config is readable, the active orchestrator address is not
empty and the cached host list is not empty, `Reconnect` is called once when `FetchPrimary`
fails with `ErrSplitBrain`, or succeeds with a primary different from the active address
while the publisher is active, and is not called in every other case. -/
theorem tick_reconnects_exactly_when (env : TickEnv) (cfg : Config) (app : AppSection)
    (hcfg : env.GetConfig = .ok cfg) (happ : cfg.App = some app)
    (hactive : app.ActiveOrchestratorAddr ≠ "") (hhosts : env.GetHosts ≠ []) :
    ∃ n, tick env = some n ∧ n ≤ 1 ∧
      (n = 1 ↔
        ((∃ p e, env.FetchPrimary env.GetHosts = (p, some e) ∧ e.Is ErrSplitBrain = true) ∨
          (∃ p, env.FetchPrimary env.GetHosts = (p, none) ∧
            p ≠ app.ActiveOrchestratorAddr ∧ env.IsActive = true))) := by
  have hlen : ¬ env.GetHosts.length = 0 := fun h => hhosts (List.length_eq_zero.mp h)
  unfold tick
  rw [hcfg]
  simp only [happ, if_neg hactive, if_neg hlen]
  cases hf : env.FetchPrimary env.GetHosts with
  | mk p e =>
    cases e with
    | some err =>
      by_cases hs : err.Is ErrSplitBrain = true
      · exact ⟨1, by simp [hs], le_refl _, by
          simp only [true_iff]
          exact Or.inl ⟨p, err, rfl, hs⟩⟩
      · refine ⟨0, by simp [hs], by omega, ?_⟩
        simp only [zero_ne_one, false_iff]
        rintro (⟨p2, e2, h2, h3⟩ | ⟨p2, h2, _, _⟩)
        · cases h2
          exact hs h3
        · cases h2
    | none =>
      by_cases hp : p ≠ app.ActiveOrchestratorAddr ∧ env.IsActive = true
      · exact ⟨1, by simp [hp.1, hp.2], le_refl _, by
          simp only [true_iff]
          exact Or.inr ⟨p, rfl, hp.1, hp.2⟩⟩
      · refine ⟨0, ?_, by omega, ?_⟩
        · simp only [not_and_or, not_not] at hp
          rcases hp with hp | hp
          · simp [hp]
          · simp [hp]
        · simp only [zero_ne_one, false_iff]
          rintro (⟨p2, e2, h2, _⟩ | ⟨p2, h2, h3, h4⟩)
          · cases h2
          · cases h2
            exact hp ⟨h3, h4⟩

/-- Witness for C8: scenario S3 of the spec, both orchestrators answer primary. -/
theorem tick_reconnects_witness :
    sampleTickEnv.GetHosts ≠ [] ∧
    ∃ n, tick sampleTickEnv = some n ∧ n ≤ 1 ∧
      (n = 1 ↔
        ((∃ p e, sampleTickEnv.FetchPrimary sampleTickEnv.GetHosts = (p, some e) ∧
            e.Is ErrSplitBrain = true) ∨
          (∃ p, sampleTickEnv.FetchPrimary sampleTickEnv.GetHosts = (p, none) ∧
            p ≠ sampleApp.ActiveOrchestratorAddr ∧ sampleTickEnv.IsActive = true))) :=
  ⟨List.cons_ne_nil _ _, tick_reconnects_exactly_when sampleTickEnv { App := some sampleApp }
    sampleApp rfl rfl (by decide) (List.cons_ne_nil _ _)⟩

end Monitoring

/-! ## Theorems: hosts pinning -/

namespace Nslookup

theorem trimSpace_concat_space (l : List Char) (c : Char) (hc : isSpace c = true) :
    TrimSpace (l ++ [c]) = TrimSpace l := by
  induction l with
  | nil => simp [TrimSpace, List.dropWhile, hc]
  | cons a l ih =>
    by_cases ha : isSpace a = true
    · have h1 : TrimSpace (a :: l ++ [c]) = TrimSpace (l ++ [c]) := by
        simp [TrimSpace, List.dropWhile, ha]
      have h2 : TrimSpace (a :: l) = TrimSpace l := by
        simp [TrimSpace, List.dropWhile, ha]
      rw [h1, h2, ih]
    · have h1 : (a :: l ++ [c]).dropWhile isSpace = (a :: l) ++ [c] := by
        simp [List.dropWhile, ha]
      have h2 : (a :: l).dropWhile isSpace = a :: l := by
        simp [List.dropWhile, ha]
      unfold TrimSpace
      rw [h1, h2, List.rdropWhile_concat_pos _ _ _ hc]

theorem trimSpace_dropCR (s : List Char) : TrimSpace (dropCR s) = TrimSpace s := by
  unfold dropCR
  split
  · rename_i h
    obtain ⟨init, rfl⟩ : ∃ init, s = init ++ ['\r'] := by
      rcases List.eq_nil_or_concat s with rfl | ⟨init, c, rfl⟩
      · simp at h
      · simp at h
        exact ⟨init, by rw [h, List.concat_eq_append]⟩
    rw [List.dropLast_concat, trimSpace_concat_space _ _ (by decide)]
  · rfl

theorem scannerLines_map_trimSpace (data : List Char) :
    (scannerLines data).map TrimSpace = (rawLines data []).map TrimSpace := by
  simp [scannerLines, List.map_map, Function.comp_def, trimSpace_dropCR]


theorem mem_mapSet (m : List (List Char)) (key x : List Char) :
    x ∈ mapSet m key ↔ x ∈ m ∨ x = key := by
  unfold mapSet
  split
  · rename_i h
    constructor
    · exact Or.inl
    · rintro (h1 | rfl)
      · exact h1
      · exact h
  · simp

theorem resolveAddrs_ok (LookupIP : List Char → Except GoError (List (List Char)))
    (addrs : List String) :
    ∀ (acc newHosts : List hostPair) (om orchestratorMap : List (List Char)),
      resolveAddrs LookupIP addrs acc om = .ok (newHosts, orchestratorMap) →
      newHosts = acc ++ (addrs.map (fun addr =>
          (resolvedIPs LookupIP (stripScheme addr)).map
            (fun ip => newHostPair (stripScheme addr) ip))).flatten ∧
        (∀ x, x ∈ orchestratorMap ↔ x ∈ om ∨ x ∈ addrs.map stripScheme) := by
  induction addrs with
  | nil =>
    intro acc newHosts om orchestratorMap h
    simp only [resolveAddrs, Except.ok.injEq, Prod.mk.injEq] at h
    obtain ⟨rfl, rfl⟩ := h
    simp
  | cons addr rest ih =>
    intro acc newHosts om orchestratorMap h
    simp only [resolveAddrs] at h
    cases hl : LookupIP (stripScheme addr) with
    | error err => simp [hl] at h
    | ok ips =>
      simp only [hl] at h
      obtain ⟨h1, h2⟩ := ih _ _ _ _ h
      refine ⟨?_, ?_⟩
      · rw [h1]
        simp [resolvedIPs, hl]
      · intro x
        rw [h2 x, mem_mapSet]
        simp only [List.map_cons, List.mem_cons]
        tauto

theorem parseLine_buf (om fqdns : List (List Char)) (hom : ∀ x, x ∈ om ↔ x ∈ fqdns)
    (st : ParseState) (text : List Char) :
    (parseLine om st text).buf =
      st.buf ++ (if keptBySplit fqdns (TrimSpace text) = true then TrimSpace text ++ ['\n']
        else []) := by
  by_cases hm : TrimSpace text = sdwanSection
  · simp [parseLine, keptBySplit, hm]
  · cases hsp : Split ' ' (TrimSpace text) with
    | nil => simp [parseLine, keptBySplit, splitField, hsp, hm]
    | cons p0 tl =>
      cases tl with
      | nil => simp [parseLine, keptBySplit, splitField, hsp, hm]
      | cons p1 rest =>
        by_cases hf : TrimSpace p1 ∈ om
        · have hf2 := (hom _).mp hf
          simp [parseLine, keptBySplit, splitField, hsp, hm, hf, hf2]
        · have hf2 : TrimSpace p1 ∉ fqdns := fun h => hf ((hom _).mpr h)
          simp [parseLine, keptBySplit, splitField, hsp, hm, hf, hf2]

theorem foldl_parseLine_buf (om fqdns : List (List Char)) (hom : ∀ x, x ∈ om ↔ x ∈ fqdns)
    (lines : List (List Char)) (st : ParseState) :
    (lines.foldl (parseLine om) st).buf =
      st.buf ++ (((lines.map TrimSpace).filter (keptBySplit fqdns)).map
        (fun line => line ++ ['\n'])).flatten := by
  induction lines generalizing st with
  | nil => simp
  | cons l rest ih =>
    rw [List.foldl_cons, ih, parseLine_buf om fqdns hom]
    by_cases hk : keptBySplit fqdns (TrimSpace l) = true
    · simp [hk, List.filter_cons]
    · simp [hk, List.filter_cons]

theorem foldl_hostLines (newHosts : List hostPair) (buf : List Char) :
    newHosts.foldl (fun b newHost => b ++ newHost.buildHostLine ++ ['\n']) buf =
      buf ++ ((newHosts.map hostPair.buildHostLine).map
        (fun line => line ++ ['\n'])).flatten := by
  induction newHosts generalizing buf with
  | nil => simp
  | cons h rest ih =>
    rw [List.foldl_cons, ih]
    simp

theorem rewriteHosts_written (newHosts : List hostPair) (om : List (List Char))
    (file : HostsFile) (content : List Char)
    (h : (rewriteHosts newHosts om file).written = some content) :
    file.statErr = none ∧ file.readErr = none ∧ scannerErr file.data = none ∧
      hasChanges ((scannerLines file.data).foldl (parseLine om)
        { buf := [], existingHosts := [] }).existingHosts newHosts = true ∧
      content = newHosts.foldl (fun b newHost => b ++ newHost.buildHostLine ++ ['\n'])
        (((scannerLines file.data).foldl (parseLine om)
          { buf := [], existingHosts := [] }).buf ++ ['\n'] ++ sdwanSection ++ ['\n']) := by
  unfold rewriteHosts at h
  cases hs : file.statErr with
  | some e => simp [hs] at h
  | none =>
    cases hr : file.readErr with
    | some e => simp [hs, hr] at h
    | none =>
      cases hsc : scannerErr file.data with
      | some e => simp [hs, hr, hsc] at h
      | none =>
        simp only [hs, hr, hsc] at h
        by_cases hc : hasChanges ((scannerLines file.data).foldl (parseLine om)
            { buf := [], existingHosts := [] }).existingHosts newHosts = true
        · simp only [hc, Bool.not_true, Bool.false_eq_true, if_false] at h
          refine ⟨rfl, rfl, rfl, hc, ?_⟩
          cases hw : file.writeErr with
          | some e =>
            simp only [hw] at h
            exact (Option.some.inj h).symm
          | none =>
            simp only [hw] at h
            exact (Option.some.inj h).symm
        · simp [hc] at h

theorem syncHosts_written (GetConfig : Except GoError Config)
    (LookupIP : List Char → Except GoError (List (List Char))) (file : HostsFile)
    (content : List Char)
    (h : (SyncHosts GetConfig LookupIP file).written = some content) :
    ∃ cfg app newHosts om, GetConfig = .ok cfg ∧ cfg.App = some app ∧
      resolveAddrs LookupIP app.OrchestratorAddrs [] [] = .ok (newHosts, om) ∧
      SyncHosts GetConfig LookupIP file = rewriteHosts newHosts om file := by
  unfold SyncHosts at h ⊢
  cases hg : GetConfig with
  | error e => simp [hg] at h
  | ok cfg =>
    cases ha : cfg.App with
    | none => simp [hg, ha] at h
    | some app =>
      simp only [hg, ha] at h ⊢
      by_cases hl : app.OrchestratorAddrs.length = 0
      · simp [hl] at h
      · simp only [hl, if_false] at h ⊢
        cases hr : resolveAddrs LookupIP app.OrchestratorAddrs [] [] with
        | error e => simp [hr] at h
        | ok p =>
          obtain ⟨newHosts, om⟩ := p
          simp only [hr] at h ⊢
          by_cases hn : newHosts.length = 0
          · simp [hn] at h
          · simp only [hn, if_false]
            exact ⟨cfg, app, newHosts, om, rfl, ha, hr, rfl⟩

/-- Whenever `SyncHosts` rewrites the hosts file, the new content is `writtenContent`: the
lines of the original file that the split at single spaces does not recognise as an entry of
a configured orchestrator FQDN, trimmed and in order, each followed by a newline, then an
empty line, the marker line and one `ip fqdn` line per resolved address, in orchestrator
order and resolver order. -/
theorem syncHosts_written_content (GetConfig : Except GoError Config)
    (LookupIP : List Char → Except GoError (List (List Char))) (file : HostsFile)
    (content : List Char)
    (h : (SyncHosts GetConfig LookupIP file).written = some content) :
    ∃ cfg app, GetConfig = .ok cfg ∧ cfg.App = some app ∧
      content = writtenContent app.OrchestratorAddrs LookupIP file.data := by
  obtain ⟨cfg, app, newHosts, om, hg, ha, hr, hs⟩ := syncHosts_written _ _ _ _ h
  rw [hs] at h
  obtain ⟨_, _, _, _, hc⟩ := rewriteHosts_written _ _ _ _ h
  obtain ⟨hnew, hom⟩ := resolveAddrs_ok LookupIP _ _ _ _ _ hr
  refine ⟨cfg, app, hg, ha, ?_⟩
  have hom2 : ∀ x, x ∈ om ↔ x ∈ app.OrchestratorAddrs.map stripScheme := by
    intro x
    simpa using hom x
  rw [hc, foldl_hostLines, foldl_parseLine_buf om _ hom2, scannerLines_map_trimSpace, hnew]
  unfold writtenContent
  simp [List.map_flatten, List.map_map, Function.comp_def, hostPair.buildHostLine, newHostPair]


/-! ### Reading back a generated file -/

theorem rawLines_line (l : List Char) (hl : '\n' ∉ l) (rest cur : List Char) :
    rawLines (l ++ '\n' :: rest) cur = (cur ++ l) :: rawLines rest [] := by
  induction l generalizing cur with
  | nil => simp [rawLines]
  | cons c l ih =>
    have hc : c ≠ '\n' := fun h => hl (by simp [h])
    have hl2 : '\n' ∉ l := fun h => hl (List.mem_cons_of_mem _ h)
    have h := ih hl2 (cur ++ [c])
    rw [List.cons_append]
    simp only [rawLines, hc, if_false]
    rw [h]
    simp

theorem rawLines_flatten (ls : List (List Char)) (hls : ∀ l ∈ ls, '\n' ∉ l)
    (rest : List Char) :
    rawLines ((ls.map (fun line => line ++ ['\n'])).flatten ++ rest) [] =
      ls ++ rawLines rest [] := by
  induction ls with
  | nil => simp
  | cons l ls ih =>
    have h1 : '\n' ∉ l := hls l (List.mem_cons_self _ _)
    have h2 : ∀ x ∈ ls, '\n' ∉ x := fun x hx => hls x (List.mem_cons_of_mem _ hx)
    have h := rawLines_line l h1
      ((ls.map (fun line => line ++ ['\n'])).flatten ++ rest) []
    simp only [List.map_cons, List.flatten_cons, List.append_assoc, List.singleton_append,
      List.cons_append, List.nil_append]
    rw [h, ih h2]
    simp

theorem rawLines_no_newline (data : List Char) :
    ∀ cur, '\n' ∉ cur → ∀ x ∈ rawLines data cur, '\n' ∉ x := by
  induction data with
  | nil =>
    intro cur hcur x hx
    simp only [rawLines] at hx
    split at hx
    · simp at hx
    · rw [List.mem_singleton.mp hx]
      exact hcur
  | cons c cs ih =>
    intro cur hcur x hx
    simp only [rawLines] at hx
    split at hx
    · rcases List.mem_cons.mp hx with rfl | hx
      · exact hcur
      · exact ih [] (by simp) x hx
    · rename_i hc
      refine ih (cur ++ [c]) ?_ x hx
      intro hmem
      rcases List.mem_append.mp hmem with h | h
      · exact hcur h
      · exact hc (List.mem_singleton.mp h).symm

theorem mem_of_mem_trimSpace (s : List Char) (c : Char) (h : c ∈ TrimSpace s) : c ∈ s :=
  (List.dropWhile_sublist isSpace).subset
    ((List.rdropWhile_prefix isSpace (s.dropWhile isSpace)).sublist.subset h)

theorem trimSpace_of_trimmed (s : List Char) (h : Trimmed s) : TrimSpace s = s := by
  unfold TrimSpace
  rw [h.1, h.2]

theorem trimmed_of_trimSpace_eq (s : List Char) (h : TrimSpace s = s) : Trimmed s := by
  unfold TrimSpace at h
  have h1 : (s.dropWhile isSpace).length ≤ s.length := (List.dropWhile_sublist isSpace).length_le
  have h2 : ((s.dropWhile isSpace).rdropWhile isSpace).length ≤ (s.dropWhile isSpace).length :=
    (List.rdropWhile_prefix isSpace _).sublist.length_le
  have h3 : (s.dropWhile isSpace).length = s.length := by
    rw [h] at h2
    omega
  have h4 : s.dropWhile isSpace = s :=
    (List.dropWhile_sublist isSpace).eq_of_length h3
  exact ⟨h4, by rw [h4] at h; exact h⟩

theorem dropWhile_cons_self (a : Char) (s : List Char)
    (h : (a :: s).dropWhile isSpace = a :: s) : isSpace a = false := by
  by_contra hc
  have hc2 : isSpace a = true := by simpa using hc
  rw [List.dropWhile_cons_of_pos hc2] at h
  have := (List.dropWhile_sublist isSpace (l := s)).length_le
  rw [h] at this
  simp at this

theorem trimmed_trimSpace (s : List Char) : Trimmed (TrimSpace s) := by
  have hr : (TrimSpace s).rdropWhile isSpace = TrimSpace s := by
    unfold TrimSpace
    exact List.rdropWhile_idempotent _ _
  refine ⟨?_, hr⟩
  cases ht : TrimSpace s with
  | nil => rfl
  | cons a t =>
    have hpre : (a :: t) <+: s.dropWhile isSpace := by
      rw [← ht]
      exact List.rdropWhile_prefix isSpace _
    obtain ⟨suffix, hsuf⟩ := hpre
    have hne : s.dropWhile isSpace ≠ [] := by
      rw [← hsuf]
      simp
    have hhead := List.head_dropWhile_not isSpace s hne
    have ha : isSpace a = false := by
      have : (s.dropWhile isSpace).head hne = a := by
        simp [← hsuf]
      rw [this] at hhead
      simpa using hhead
    simp [List.dropWhile, ha]

theorem trimSpace_idem (s : List Char) : TrimSpace (TrimSpace s) = TrimSpace s :=
  trimSpace_of_trimmed _ (trimmed_trimSpace s)

theorem trimmed_join (x y : List Char) (c : Char) (hx : Trimmed x) (hy : Trimmed y)
    (hxne : x ≠ []) (hyne : y ≠ []) : Trimmed (x ++ c :: y) := by
  constructor
  · obtain ⟨a, x2, rfl⟩ := List.exists_cons_of_ne_nil hxne
    have ha := dropWhile_cons_self a x2 hx.1
    simp [List.dropWhile, ha]
  · rw [List.rdropWhile_eq_self_iff]
    intro hne
    have h2 := List.rdropWhile_eq_self_iff.mp hy.2 hyne
    have : (x ++ c :: y).getLast hne = y.getLast hyne := by
      rw [List.getLast_append' _ _ (by simp), List.getLast_cons hyne]
    rw [this]
    exact h2


theorem split_no_sep (sep : Char) (b : List Char) (hb : sep ∉ b) : Split sep b = [b] := by
  induction b with
  | nil => rfl
  | cons c b ih =>
    have hc : c ≠ sep := fun h => hb (by simp [h])
    have hb2 : sep ∉ b := fun h => hb (List.mem_cons_of_mem _ h)
    simp [Split, hc, ih hb2]

theorem split_at_sep (sep : Char) (a b : List Char) (ha : sep ∉ a) :
    Split sep (a ++ sep :: b) = a :: Split sep b := by
  induction a with
  | nil => simp [Split]
  | cons c a ih =>
    have hc : c ≠ sep := fun h => ha (by simp [h])
    have ha2 : sep ∉ a := fun h => ha (List.mem_cons_of_mem _ h)
    simp [Split, hc, ih ha2]

theorem cleanField_iff (x : List Char) :
    cleanField x = true ↔ x ≠ [] ∧ TrimSpace x = x ∧ ' ' ∉ x ∧ '\n' ∉ x := by
  simp [cleanField, and_assoc]

theorem split_hostLine (p : hostPair) (hf : cleanField p.fqdn = true)
    (hi : cleanField p.ip = true) : Split ' ' p.buildHostLine = [p.ip, p.fqdn] := by
  obtain ⟨_, _, hf3, _⟩ := (cleanField_iff _).mp hf
  obtain ⟨_, _, hi3, _⟩ := (cleanField_iff _).mp hi
  unfold hostPair.buildHostLine
  rw [split_at_sep _ _ _ hi3, split_no_sep _ _ hf3]

theorem hostLine_ne_marker (p : hostPair) (hf : cleanField p.fqdn = true)
    (hi : cleanField p.ip = true) : p.buildHostLine ≠ sdwanSection := by
  intro h
  have h1 := split_hostLine p hf hi
  rw [h] at h1
  have h2 : (Split ' ' sdwanSection).length = 4 := by decide
  rw [h1] at h2
  simp at h2

theorem trimSpace_hostLine (p : hostPair) (hf : cleanField p.fqdn = true)
    (hi : cleanField p.ip = true) : TrimSpace p.buildHostLine = p.buildHostLine := by
  obtain ⟨hf1, hf2, _, _⟩ := (cleanField_iff _).mp hf
  obtain ⟨hi1, hi2, _, _⟩ := (cleanField_iff _).mp hi
  exact trimSpace_of_trimmed _ (trimmed_join _ _ _ (trimmed_of_trimSpace_eq _ hi2)
    (trimmed_of_trimSpace_eq _ hf2) hi1 hf1)

theorem hostLine_no_newline (p : hostPair) (hf : cleanField p.fqdn = true)
    (hi : cleanField p.ip = true) : '\n' ∉ p.buildHostLine := by
  obtain ⟨_, _, _, hf4⟩ := (cleanField_iff _).mp hf
  obtain ⟨_, _, _, hi4⟩ := (cleanField_iff _).mp hi
  unfold hostPair.buildHostLine
  intro h
  rcases List.mem_append.mp h with h | h
  · exact hi4 h
  · rcases List.mem_cons.mp h with h | h
    · exact absurd h (by decide)
    · exact hf4 h

theorem hostLine_injective (p q : hostPair) (hpf : cleanField p.fqdn = true)
    (hpi : cleanField p.ip = true) (hqf : cleanField q.fqdn = true)
    (hqi : cleanField q.ip = true) (h : p.buildHostLine = q.buildHostLine) : p = q := by
  have h1 := split_hostLine p hpf hpi
  have h2 := split_hostLine q hqf hqi
  rw [h, h2] at h1
  simp only [List.cons.injEq, and_true] at h1
  cases p
  cases q
  simp only [hostPair.mk.injEq]
  exact ⟨h1.2.symm, h1.1.symm⟩

theorem parseLine_hostLine (om : List (List Char)) (st : ParseState) (p : hostPair)
    (hf : cleanField p.fqdn = true) (hi : cleanField p.ip = true) (hom : p.fqdn ∈ om) :
    parseLine om st p.buildHostLine =
      { st with existingHosts := mapSet st.existingHosts p.buildHostLine } := by
  obtain ⟨_, hf2, _, _⟩ := (cleanField_iff _).mp hf
  obtain ⟨_, hi2, _, _⟩ := (cleanField_iff _).mp hi
  unfold parseLine
  simp only [trimSpace_hostLine p hf hi, hostLine_ne_marker p hf hi, if_false,
    split_hostLine p hf hi, hf2, hi2, hom, if_true]
  rfl

theorem parseLine_kept (om fqdns : List (List Char)) (hom : ∀ x, x ∈ om ↔ x ∈ fqdns)
    (st : ParseState) (text : List Char) (hk : keptBySplit fqdns (TrimSpace text) = true) :
    parseLine om st text = { st with buf := st.buf ++ TrimSpace text ++ ['\n'] } := by
  have hm : TrimSpace text ≠ sdwanSection := by
    intro h
    simp [keptBySplit, h] at hk
  cases hsp : Split ' ' (TrimSpace text) with
  | nil => simp [parseLine, hsp, hm]
  | cons p0 tl =>
    cases tl with
    | nil => simp [parseLine, hsp, hm]
    | cons p1 rest =>
      have hf2 : TrimSpace p1 ∉ fqdns := by
        intro h
        simp [keptBySplit, splitField, hsp, h] at hk
      have hf : TrimSpace p1 ∉ om := fun h => hf2 ((hom _).mp h)
      simp [parseLine, hsp, hm, hf]

theorem parseLine_marker (om : List (List Char)) (st : ParseState) :
    parseLine om st sdwanSection = st := by
  have h : TrimSpace sdwanSection = sdwanSection := by decide
  simp [parseLine, h]

theorem parseLine_dropCR (om : List (List Char)) (st : ParseState) (text : List Char) :
    parseLine om st (dropCR text) = parseLine om st text := by
  simp only [parseLine, trimSpace_dropCR]

theorem foldl_parseLine_scannerLines (om : List (List Char)) (data : List Char)
    (st : ParseState) :
    (scannerLines data).foldl (parseLine om) st =
      (rawLines data []).foldl (parseLine om) st := by
  unfold scannerLines
  rw [List.foldl_map]
  simp only [parseLine_dropCR]


theorem foldl_parseLine_kept (om fqdns : List (List Char)) (hom : ∀ x, x ∈ om ↔ x ∈ fqdns)
    (ks : List (List Char)) (hks : ∀ t ∈ ks, keptBySplit fqdns (TrimSpace t) = true)
    (st : ParseState) :
    (ks.foldl (parseLine om) st).existingHosts = st.existingHosts := by
  induction ks generalizing st with
  | nil => rfl
  | cons t ks ih =>
    rw [List.foldl_cons, ih (fun x hx => hks x (List.mem_cons_of_mem _ hx)),
      parseLine_kept om fqdns hom st t (hks t (List.mem_cons_self _ _))]

theorem foldl_parseLine_hostLines (om : List (List Char)) (nh : List hostPair)
    (hclean : ∀ p ∈ nh, cleanField p.fqdn = true ∧ cleanField p.ip = true)
    (hmem : ∀ p ∈ nh, p.fqdn ∈ om) (st : ParseState) :
    ((nh.map hostPair.buildHostLine).foldl (parseLine om) st).existingHosts =
      (nh.map hostPair.buildHostLine).foldl mapSet st.existingHosts := by
  induction nh generalizing st with
  | nil => rfl
  | cons p nh ih =>
    have hp := hclean p (List.mem_cons_self _ _)
    simp only [List.map_cons, List.foldl_cons]
    rw [parseLine_hostLine om st p hp.1 hp.2 (hmem p (List.mem_cons_self _ _)),
      ih (fun x hx => hclean x (List.mem_cons_of_mem _ hx))
        (fun x hx => hmem x (List.mem_cons_of_mem _ hx))]

theorem foldl_mapSet_nodup (ls e : List (List Char)) (h : (e ++ ls).Nodup) :
    ls.foldl mapSet e = e ++ ls := by
  induction ls generalizing e with
  | nil => simp
  | cons l ls ih =>
    have hl : l ∉ e := by
      intro hmem
      have := List.nodup_append.mp h
      exact this.2.2 hmem (List.mem_cons_self _ _)
    have h2 : (e ++ [l] ++ ls).Nodup := by simpa using h
    rw [List.foldl_cons]
    simp only [mapSet, hl, if_false]
    rw [ih _ h2]
    simp

theorem foldl_mapDelete_mem (nh : List hostPair) (m : List (List Char)) (x : List Char)
    (hx : x ∈ nh.foldl (fun m newHost => mapDelete m newHost.buildHostLine) m) :
    x ∈ m ∧ x ∉ nh.map hostPair.buildHostLine := by
  induction nh generalizing m with
  | nil => exact ⟨hx, by simp⟩
  | cons p nh ih =>
    rw [List.foldl_cons] at hx
    obtain ⟨h1, h2⟩ := ih _ hx
    have h3 : x ∈ m ∧ x ≠ p.buildHostLine := by
      simpa [mapDelete] using h1
    refine ⟨h3.1, ?_⟩
    intro hmem
    rw [List.map_cons] at hmem
    rcases List.mem_cons.mp hmem with h | h
    · exact h3.2 h
    · exact h2 h

theorem hasChanges_same (nh : List hostPair) :
    hasChanges (nh.map hostPair.buildHostLine) nh = false := by
  unfold hasChanges
  have hnil : nh.foldl (fun m newHost => mapDelete m newHost.buildHostLine)
      (nh.map hostPair.buildHostLine) = [] := by
    apply List.eq_nil_iff_forall_not_mem.mpr
    intro x hx
    obtain ⟨h1, h2⟩ := foldl_mapDelete_mem nh _ x hx
    exact h2 h1
  simp [hnil]

theorem hostLines_nodup (nh : List hostPair)
    (hclean : ∀ p ∈ nh, cleanField p.fqdn = true ∧ cleanField p.ip = true)
    (hnd : nh.Nodup) : (nh.map hostPair.buildHostLine).Nodup := by
  refine List.Nodup.map_on ?_ hnd
  intro p hp q hq h
  exact hostLine_injective p q (hclean p hp).1 (hclean p hp).2 (hclean q hq).1
    (hclean q hq).2 h

/-- The content `rewriteHosts` hands to `os.WriteFile`, as a list of lines. -/
theorem written_as_lines (om fqdns : List (List Char)) (hom : ∀ x, x ∈ om ↔ x ∈ fqdns)
    (nh : List hostPair) (data : List Char) :
    nh.foldl (fun b newHost => b ++ newHost.buildHostLine ++ ['\n'])
        (((scannerLines data).foldl (parseLine om)
          { buf := [], existingHosts := [] }).buf ++ ['\n'] ++ sdwanSection ++ ['\n']) =
      (((((rawLines data []).map TrimSpace).filter (keptBySplit fqdns)) ++
          ([] :: sdwanSection :: nh.map hostPair.buildHostLine)).map
        (fun line => line ++ ['\n'])).flatten ++ [] := by
  rw [foldl_hostLines, foldl_parseLine_buf om fqdns hom, scannerLines_map_trimSpace]
  simp

theorem second_pass_no_changes (om fqdns : List (List Char))
    (hom : ∀ x, x ∈ om ↔ x ∈ fqdns) (nh : List hostPair) (data : List Char)
    (hclean : ∀ p ∈ nh, cleanField p.fqdn = true ∧ cleanField p.ip = true)
    (hmem : ∀ p ∈ nh, p.fqdn ∈ om) (hnd : nh.Nodup) :
    hasChanges ((scannerLines
      (nh.foldl (fun b newHost => b ++ newHost.buildHostLine ++ ['\n'])
        (((scannerLines data).foldl (parseLine om)
          { buf := [], existingHosts := [] }).buf ++ ['\n'] ++ sdwanSection ++ ['\n']))).foldl
      (parseLine om) { buf := [], existingHosts := [] }).existingHosts nh = false := by
  rw [foldl_parseLine_scannerLines, written_as_lines om fqdns hom, rawLines_flatten]
  · simp only [rawLines, if_true, List.append_nil, List.foldl_append, List.foldl_cons]
    have hkept : ∀ t ∈ ((rawLines data []).map TrimSpace).filter (keptBySplit fqdns),
        keptBySplit fqdns (TrimSpace t) = true := by
      intro t ht
      obtain ⟨ht1, ht2⟩ := List.mem_filter.mp ht
      obtain ⟨l, _, rfl⟩ := List.mem_map.mp ht1
      rw [trimSpace_idem]
      exact ht2
    have hempty : keptBySplit fqdns (TrimSpace []) = true := by
      simp [keptBySplit, splitField, TrimSpace, Split, sdwanSection]
    rw [foldl_parseLine_hostLines om nh hclean hmem, parseLine_marker,
      parseLine_kept om fqdns hom _ [] hempty]
    simp only
    rw [foldl_parseLine_kept om fqdns hom _ hkept]
    simp only
    rw [foldl_mapSet_nodup _ _ (by simpa using hostLines_nodup nh hclean hnd)]
    simpa using hasChanges_same nh
  · intro l hl
    rcases List.mem_append.mp hl with hl | hl
    · obtain ⟨ht1, _⟩ := List.mem_filter.mp hl
      obtain ⟨l0, hl0, rfl⟩ := List.mem_map.mp ht1
      intro hmem2
      exact rawLines_no_newline data [] (by simp) l0 hl0 (mem_of_mem_trimSpace _ _ hmem2)
    · rcases List.mem_cons.mp hl with rfl | hl
      · simp
      · rcases List.mem_cons.mp hl with rfl | hl
        · decide
        · obtain ⟨p, hp, rfl⟩ := List.mem_map.mp hl
          exact hostLine_no_newline p (hclean p hp).1 (hclean p hp).2


theorem rewriteHosts_no_changes (nh : List hostPair) (om : List (List Char))
    (file : HostsFile)
    (h : hasChanges ((scannerLines file.data).foldl (parseLine om)
      { buf := [], existingHosts := [] }).existingHosts nh = false) :
    (rewriteHosts nh om file).written = none := by
  unfold rewriteHosts
  cases file.statErr with
  | some e => rfl
  | none =>
    cases file.readErr with
    | some e => rfl
    | none =>
      cases scannerErr file.data with
      | some e => rfl
      | none => simp [h]

theorem rewriteHosts_quiet (nh : List hostPair) (om : List (List Char)) (file : HostsFile)
    (hw : (rewriteHosts nh om file).written = none)
    (he : (rewriteHosts nh om file).err = none) :
    hasChanges ((scannerLines file.data).foldl (parseLine om)
      { buf := [], existingHosts := [] }).existingHosts nh = false := by
  unfold rewriteHosts at hw he
  cases hs : file.statErr with
  | some e => simp [hs] at he
  | none =>
    cases hr : file.readErr with
    | some e => simp [hs, hr] at he
    | none =>
      cases hsc : scannerErr file.data with
      | some e => simp [hs, hr, hsc] at he
      | none =>
        by_cases hc : hasChanges ((scannerLines file.data).foldl (parseLine om)
            { buf := [], existingHosts := [] }).existingHosts nh = true
        · cases hwe : file.writeErr with
          | some e => simp [hs, hr, hsc, hc, hwe] at he
          | none => simp [hs, hr, hsc, hc, hwe] at hw
        · simpa using hc

theorem resolveAddrs_fqdn_mem (LookupIP : List Char → Except GoError (List (List Char)))
    (addrs : List String) (nh : List hostPair) (om : List (List Char))
    (h : resolveAddrs LookupIP addrs [] [] = .ok (nh, om)) :
    ∀ p ∈ nh, p.fqdn ∈ om := by
  obtain ⟨h1, h2⟩ := resolveAddrs_ok LookupIP addrs [] nh [] om h
  intro p hp
  rw [h1] at hp
  simp only [List.nil_append, List.mem_flatten, List.mem_map] at hp
  obtain ⟨l, ⟨addr, haddr, rfl⟩, hp2⟩ := hp
  obtain ⟨ip, _, rfl⟩ := List.mem_map.mp hp2
  rw [h2]
  right
  exact List.mem_map.mpr ⟨addr, haddr, rfl⟩

/-- C9 (amended). After a run of `SyncHosts` that returned no error, a second run with the
same config and the same resolver output does not write the file, so the file stays
byte-for-byte what the first run left, provided the resolved (fqdn, ip) pairs are pairwise
distinct and their fields are clean (not empty, no white space at the ends, no space and no
newline inside). -/
theorem syncHosts_second_run_keeps_file (GetConfig : Except GoError Config)
    (LookupIP : List Char → Except GoError (List (List Char))) (file1 file2 : HostsFile)
    (hok : (SyncHosts GetConfig LookupIP file1).err = none)
    (hdata : file2.data = fileAfter file1 (SyncHosts GetConfig LookupIP file1))
    (hdist : (resolvedPairs GetConfig LookupIP).Nodup)
    (hclean : ∀ p ∈ resolvedPairs GetConfig LookupIP,
      cleanField p.fqdn = true ∧ cleanField p.ip = true) :
    (SyncHosts GetConfig LookupIP file2).written = none ∧
      fileAfter file2 (SyncHosts GetConfig LookupIP file2) =
        fileAfter file1 (SyncHosts GetConfig LookupIP file1) := by
  have hmain : (SyncHosts GetConfig LookupIP file2).written = none := by
    cases hg : GetConfig with
    | error e => simp [SyncHosts]
    | ok cfg =>
      cases ha : cfg.App with
      | none => simp [SyncHosts, ha]
      | some app =>
        by_cases hl : app.OrchestratorAddrs.length = 0
        · simp [SyncHosts, ha, hl]
        · cases hr : resolveAddrs LookupIP app.OrchestratorAddrs [] [] with
          | error e => simp [SyncHosts, ha, hl, hr]
          | ok p =>
            obtain ⟨nh, om⟩ := p
            by_cases hn : nh.length = 0
            · simp [SyncHosts, ha, hl, hr, hn]
            · have hs : ∀ file, SyncHosts (.ok cfg) LookupIP file = rewriteHosts nh om file := by
                intro file
                simp [SyncHosts, ha, hl, hr, hn]
              have hpairs : resolvedPairs (.ok cfg) LookupIP = nh := by
                simp [resolvedPairs, ha, hr]
              rw [hg] at hok hdata hdist hclean
              rw [hpairs] at hdist hclean
              rw [hs] at hok hdata ⊢
              have hmem := resolveAddrs_fqdn_mem LookupIP _ nh om hr
              obtain ⟨_, hom⟩ := resolveAddrs_ok LookupIP _ [] nh [] om hr
              have hom2 : ∀ x, x ∈ om ↔ x ∈ app.OrchestratorAddrs.map stripScheme := by
                intro x
                simpa using hom x
              apply rewriteHosts_no_changes
              cases hw : (rewriteHosts nh om file1).written with
              | none =>
                have hd : file2.data = file1.data := by
                  rw [hdata]
                  simp [fileAfter, hw]
                rw [hd]
                exact rewriteHosts_quiet nh om file1 hw hok
              | some content =>
                obtain ⟨_, _, _, _, hc⟩ := rewriteHosts_written nh om file1 content hw
                have hd : file2.data = content := by
                  rw [hdata]
                  simp [fileAfter, hw]
                rw [hd, hc]
                exact second_pass_no_changes om _ hom2 nh file1.data hclean hmem hdist
  refine ⟨hmain, ?_⟩
  rw [← hdata]
  simp [fileAfter, hmain]


/-- On the sample file the stale entry, written with a single space, is dropped and the
three resolved addresses are appended. -/
theorem syncHosts_written_content_sample :
    (SyncHosts (.ok sampleConfig) sampleLookupIP sampleHostsFile).written =
        some ("127.0.0.1 localhost\n::1     ip6-localhost\n\n# SDWAN: generated section\n"
          ++ "192.168.132.12 test.sdwan.com\n192.168.80.90 test.sdwan.com\n"
          ++ "172.20.180.10 test.reserve.sdwan.com\n").toList ∧
      ∃ cfg app, (Except.ok sampleConfig : Except GoError Config) = .ok cfg ∧
        cfg.App = some app ∧
        ("127.0.0.1 localhost\n::1     ip6-localhost\n\n# SDWAN: generated section\n"
          ++ "192.168.132.12 test.sdwan.com\n192.168.80.90 test.sdwan.com\n"
          ++ "172.20.180.10 test.reserve.sdwan.com\n").toList =
          writtenContent app.OrchestratorAddrs sampleLookupIP sampleHostsFile.data :=
  ⟨by rfl, syncHosts_written_content (.ok sampleConfig) sampleLookupIP
    sampleHostsFile _ (by rfl)⟩

/-- Witness for C9 (amended): a second run on the file left by a first run on the sample
hosts file. -/
theorem syncHosts_second_run_witness :
    (SyncHosts (.ok sampleConfig) sampleLookupIP sampleHostsFile).err = none ∧
      (resolvedPairs (.ok sampleConfig) sampleLookupIP).Nodup ∧
      (SyncHosts (.ok sampleConfig) sampleLookupIP (sampleHostsFile.after
        (SyncHosts (.ok sampleConfig) sampleLookupIP sampleHostsFile))).written = none ∧
      fileAfter (sampleHostsFile.after
          (SyncHosts (.ok sampleConfig) sampleLookupIP sampleHostsFile))
        (SyncHosts (.ok sampleConfig) sampleLookupIP (sampleHostsFile.after
          (SyncHosts (.ok sampleConfig) sampleLookupIP sampleHostsFile))) =
        fileAfter sampleHostsFile (SyncHosts (.ok sampleConfig) sampleLookupIP sampleHostsFile) :=
  ⟨by rfl, by decide,
    syncHosts_second_run_keeps_file (.ok sampleConfig) sampleLookupIP sampleHostsFile
      (sampleHostsFile.after (SyncHosts (.ok sampleConfig) sampleLookupIP sampleHostsFile))
      (by rfl) (by rfl) (by decide) (by decide)⟩

/-- C9, counterexample: with the same orchestrator configured twice, and with an address
that ends in a space, the second run rewrites the file again and adds a line. -/
theorem syncHosts_second_run_changes_file :
    (fileAfter emptyHostsFile (SyncHosts (.ok sampleConfigTwice) sampleLookupOne emptyHostsFile) =
        "\n# SDWAN: generated section\n10.0.0.1 orch\n10.0.0.1 orch\n".toList ∧
      fileAfter (emptyHostsFile.after
          (SyncHosts (.ok sampleConfigTwice) sampleLookupOne emptyHostsFile))
        (SyncHosts (.ok sampleConfigTwice) sampleLookupOne (emptyHostsFile.after
          (SyncHosts (.ok sampleConfigTwice) sampleLookupOne emptyHostsFile))) =
        "\n\n# SDWAN: generated section\n10.0.0.1 orch\n10.0.0.1 orch\n".toList) ∧
    (fileAfter emptyHostsFile (SyncHosts (.ok sampleConfigSpace) sampleLookupOne emptyHostsFile) =
        "\n# SDWAN: generated section\n10.0.0.1 orch \n".toList ∧
      fileAfter (emptyHostsFile.after
          (SyncHosts (.ok sampleConfigSpace) sampleLookupOne emptyHostsFile))
        (SyncHosts (.ok sampleConfigSpace) sampleLookupOne (emptyHostsFile.after
          (SyncHosts (.ok sampleConfigSpace) sampleLookupOne emptyHostsFile))) =
        "\n10.0.0.1 orch\n\n# SDWAN: generated section\n10.0.0.1 orch \n".toList) := by
  refine ⟨⟨?_, ?_⟩, ?_, ?_⟩ <;> rfl

end Nslookup


/-! ## Theorems: hosts entries already present -/

namespace Nslookup

theorem split_mem_no_sep (sep : Char) (l : List Char) : ∀ p ∈ Split sep l, sep ∉ p := by
  induction l with
  | nil => simp [Split]
  | cons c cs ih =>
    unfold Split
    by_cases hc : c = sep
    · simp only [hc, if_true]
      intro p hp
      rcases List.mem_cons.mp hp with rfl | hp
      · simp
      · exact ih p hp
    · simp only [hc, if_false]
      cases hs : Split sep cs with
      | nil => simp [Ne.symm hc]
      | cons q qs =>
        rw [hs] at ih
        intro p hp
        rcases List.mem_cons.mp hp with rfl | hp
        · have := ih q (List.mem_cons_self _ _)
          simp [Ne.symm hc, this]
        · exact ih p (List.mem_cons_of_mem _ hp)

theorem lineEntry_ip_no_space (fqdns : List (List Char)) (text : List Char) (p : hostPair)
    (h : parsedEntry fqdns text = some p) : ' ' ∉ p.ip := by
  unfold parsedEntry at h
  simp only at h
  split at h
  · cases h
  · split at h
    · rename_i p0 p1 rest hs
      split at h
      · cases h
        intro hmem
        have h1 : ' ' ∈ p0 := mem_of_mem_trimSpace _ _ hmem
        have h2 := split_mem_no_sep ' ' (TrimSpace text) p0 (by rw [hs]; simp)
        exact h2 h1
      · cases h
    · cases h

theorem parseLine_existing (om fqdns : List (List Char)) (hom : ∀ x, x ∈ om ↔ x ∈ fqdns)
    (st : ParseState) (text : List Char) :
    (parseLine om st text).existingHosts =
      ((parsedEntry fqdns text).toList.map hostPair.buildHostLine).foldl mapSet
        st.existingHosts := by
  unfold parseLine parsedEntry
  simp only
  split
  · simp
  · split
    · rename_i p0 p1 rest hs
      by_cases hm : TrimSpace p1 ∈ om
      · have hm2 : TrimSpace p1 ∈ fqdns := (hom _).mp hm
        simp [hm, hm2]
      · have hm2 : TrimSpace p1 ∉ fqdns := fun h => hm ((hom _).mpr h)
        simp [hm, hm2]
    · simp

theorem foldl_parseLine_existing (om fqdns : List (List Char))
    (hom : ∀ x, x ∈ om ↔ x ∈ fqdns) (lines : List (List Char)) (st : ParseState) :
    (lines.foldl (parseLine om) st).existingHosts =
      ((lines.filterMap (parsedEntry fqdns)).map hostPair.buildHostLine).foldl mapSet
        st.existingHosts := by
  induction lines generalizing st with
  | nil => rfl
  | cons l ls ih =>
    rw [List.foldl_cons, ih, parseLine_existing om fqdns hom]
    cases h : parsedEntry fqdns l with
    | none => simp [List.filterMap_cons, h]
    | some p => simp [List.filterMap_cons, h]

theorem foldl_mapSet_mem (ks e : List (List Char)) (x : List Char) :
    x ∈ ks.foldl mapSet e ↔ x ∈ e ∨ x ∈ ks := by
  induction ks generalizing e with
  | nil => simp
  | cons k ks ih =>
    rw [List.foldl_cons, ih, mem_mapSet]
    simp only [List.mem_cons]
    tauto

theorem foldl_mapSet_keeps_nodup (ks e : List (List Char)) (h : e.Nodup) :
    (ks.foldl mapSet e).Nodup := by
  induction ks generalizing e with
  | nil => exact h
  | cons k ks ih =>
    rw [List.foldl_cons]
    apply ih
    unfold mapSet
    split
    · exact h
    · rename_i hk
      exact List.Nodup.append h (List.nodup_singleton k) (by simpa using hk)

theorem hostLine_injective_ip (p q : hostPair) (hp : ' ' ∉ p.ip) (hq : ' ' ∉ q.ip)
    (h : p.buildHostLine = q.buildHostLine) : p = q := by
  have h1 := congrArg (Split ' ') h
  unfold hostPair.buildHostLine at h h1
  rw [split_at_sep _ _ _ hp, split_at_sep _ _ _ hq] at h1
  have hip : p.ip = q.ip := (List.cons.inj h1).1
  rw [hip] at h
  have hf : p.fqdn = q.fqdn := by
    have := List.append_cancel_left h
    exact (List.cons.inj this).2
  cases p
  cases q
  simp_all

theorem hasChanges_perm (e : List (List Char)) (nh : List hostPair)
    (hlen : e.length = nh.length)
    (hsub : ∀ x ∈ e, x ∈ nh.map hostPair.buildHostLine) :
    hasChanges e nh = false := by
  unfold hasChanges
  have hnil : nh.foldl (fun m newHost => mapDelete m newHost.buildHostLine) e = [] := by
    apply List.eq_nil_iff_forall_not_mem.mpr
    intro x hx
    obtain ⟨h1, h2⟩ := foldl_mapDelete_mem nh _ x hx
    exact h2 (hsub x h1)
  simp [hnil, hlen]

/-- The scan loop finds no change when the file entries for the configured FQDNs are the
resolved pairs and these are pairwise distinct. -/
theorem entries_match_no_changes (om fqdns : List (List Char))
    (hom : ∀ x, x ∈ om ↔ x ∈ fqdns) (nh : List hostPair) (data : List Char)
    (hnd : nh.Nodup) (hset : ∀ p, p ∈ parsedEntries fqdns data ↔ p ∈ nh) :
    hasChanges ((scannerLines data).foldl (parseLine om)
      { buf := [], existingHosts := [] }).existingHosts nh = false := by
  rw [foldl_parseLine_existing om fqdns hom]
  have hip : ∀ p ∈ nh, ' ' ∉ p.ip := by
    intro p hp
    have hp2 : p ∈ parsedEntries fqdns data := (hset p).mpr hp
    unfold parsedEntries at hp2
    obtain ⟨text, _, ht⟩ := List.mem_filterMap.mp hp2
    exact lineEntry_ip_no_space fqdns text p ht
  have hnd2 : (nh.map hostPair.buildHostLine).Nodup := by
    refine List.Nodup.map_on ?_ hnd
    intro p hp q hq h
    exact hostLine_injective_ip p q (hip p hp) (hip q hq) h
  have hmem : ∀ x, x ∈ ((parsedEntries fqdns data).map hostPair.buildHostLine).foldl mapSet []
      ↔ x ∈ nh.map hostPair.buildHostLine := by
    intro x
    rw [foldl_mapSet_mem]
    simp only [List.not_mem_nil, false_or, List.mem_map]
    constructor
    · rintro ⟨p, hp, rfl⟩
      exact ⟨p, (hset p).mp hp, rfl⟩
    · rintro ⟨p, hp, rfl⟩
      exact ⟨p, (hset p).mpr hp, rfl⟩
  have hnd3 := foldl_mapSet_keeps_nodup ((parsedEntries fqdns data).map hostPair.buildHostLine)
    [] List.nodup_nil
  have hperm := (List.perm_ext_iff_of_nodup hnd3 hnd2).mpr hmem
  apply hasChanges_perm
  · have := hperm.length_eq
    simpa [parsedEntries] using this
  · intro x hx
    exact (hmem x).mp hx

/-- When the resolved (fqdn, ip) pairs are pairwise distinct and the pairs the scan loop
collects from the hosts file (`parsedEntries`, by the split at single spaces) are, as a set,
the resolved pairs, `SyncHosts` on a hosts file it can read returns nil and does not call
`os.WriteFile`, wherever the entries sit in the file; and when `GetConfig` fails, the config
has no App section or no orchestrator address, or a lookup fails, `os.WriteFile` is not
called. -/
theorem syncHosts_no_write_when_parsed_match (GetConfig : Except GoError Config)
    (LookupIP : List Char → Except GoError (List (List Char))) (file : HostsFile) :
    (∀ cfg app nh om, GetConfig = .ok cfg → cfg.App = some app →
        resolveAddrs LookupIP app.OrchestratorAddrs [] [] = .ok (nh, om) →
        nh.Nodup →
        (∀ p, p ∈ parsedEntries (app.OrchestratorAddrs.map stripScheme) file.data ↔ p ∈ nh) →
        file.statErr = none → file.readErr = none → scannerErr file.data = none →
        SyncHosts GetConfig LookupIP file = { err := none, written := none }) ∧
      (((∃ e, GetConfig = .error e) ∨
          (∃ cfg, GetConfig = .ok cfg ∧
            (cfg.App = none ∨
              ∃ app, cfg.App = some app ∧
                (app.OrchestratorAddrs = [] ∨
                  ∃ e, resolveAddrs LookupIP app.OrchestratorAddrs [] [] = .error e)))) →
        (SyncHosts GetConfig LookupIP file).written = none) := by
  constructor
  · intro cfg app nh om hG hApp hres hnd hset hstat hread hscan
    have hom : ∀ x, x ∈ om ↔ x ∈ app.OrchestratorAddrs.map stripScheme := by
      intro x
      have := (resolveAddrs_ok LookupIP app.OrchestratorAddrs [] nh [] om hres).2 x
      simpa using this
    have hch := entries_match_no_changes om _ hom nh file.data hnd hset
    unfold SyncHosts
    simp only [hG, hApp, hres]
    split
    · rfl
    · split
      · rfl
      · unfold rewriteHosts
        simp [hstat, hread, hscan, hch]
  · rintro (⟨e, hG⟩ | ⟨cfg, hG, hApp | ⟨app, hApp, hnil | ⟨e, hres⟩⟩⟩)
    · simp [SyncHosts, hG]
    · simp [SyncHosts, hG, hApp]
    · simp [SyncHosts, hG, hApp, hnil]
    · unfold SyncHosts
      simp only [hG, hApp, hres]
      split <;> rfl

/-- The entry of `sampleConfigOne` sits outside a generated section, written with single
spaces and with an alias behind the name: the file is not written. -/
theorem syncHosts_no_write_parsed_sample :
    SyncHosts (.ok sampleConfigOne) sampleLookupOne sampleSyncedFile =
      { err := none, written := none } :=
  (syncHosts_no_write_when_parsed_match (.ok sampleConfigOne) sampleLookupOne
    sampleSyncedFile).1 sampleConfigOne
    { SerialNumber := "SN1", OrchestratorAddrs := ["http://orch"],
      ActiveOrchestratorAddr := "" }
    [newHostPair "orch".toList "10.0.0.1".toList] ["orch".toList]
    rfl rfl rfl (by decide)
    (by
      have h : parsedEntries (["http://orch"].map stripScheme) sampleSyncedFile.data =
          [newHostPair "orch".toList "10.0.0.1".toList] := by rfl
      intro p
      rw [h])
    rfl rfl (by rfl)

/-- C10. The code at the failing input: the hosts file holds a stale entry of the configured
orchestrator `orch` whose ip and name are separated by a tab. Its second field is `orch`, so
the content of the claim drops the line; the split at single spaces finds one part only, and
`SyncHosts` writes the stale line back in front of the generated section. -/
theorem syncHosts_keeps_tab_separated_entry :
    (rawLines tabStaleFile.data []).map (fun line => secondField (TrimSpace line)) =
        [some "localhost".toList, some "orch".toList] ∧
      expectedContent ["http://orch"] sampleLookupOne tabStaleFile.data =
        "127.0.0.1\tlocalhost\n\n# SDWAN: generated section\n10.0.0.1 orch\n".toList ∧
      SyncHosts (.ok sampleConfigOne) sampleLookupOne tabStaleFile =
        { err := none,
          written := some ("127.0.0.1\tlocalhost\n10.0.0.9\torch\n\n"
            ++ "# SDWAN: generated section\n10.0.0.1 orch\n").toList } := by
  refine ⟨by decide!, by decide!, by decide!⟩

/-- C11. The code at the failing input: the hosts file holds the one resolved pair of the
configured orchestrator `orch`, ip and name separated by a tab. The resolved pairs are
pairwise distinct and the entries of the file for `orch` are the resolved pairs, yet the
split at single spaces does not find the entry and `SyncHosts` writes the file. -/
theorem syncHosts_rewrites_tab_separated_file :
    resolvedPairs (.ok sampleConfigOne) sampleLookupOne =
        [newHostPair "orch".toList "10.0.0.1".toList] ∧
      fileEntries (["http://orch"].map stripScheme) tabSyncedFile.data =
        [newHostPair "orch".toList "10.0.0.1".toList] ∧
      tabSyncedFile.statErr = none ∧ tabSyncedFile.readErr = none ∧
      scannerErr tabSyncedFile.data = none ∧
      SyncHosts (.ok sampleConfigOne) sampleLookupOne tabSyncedFile =
        { err := none,
          written := some ("127.0.0.1\tlocalhost\n10.0.0.1\torch\n\n"
            ++ "# SDWAN: generated section\n10.0.0.1 orch\n").toList } := by
  refine ⟨by decide!, by decide!, rfl, rfl, by decide!, by decide!⟩

end Nslookup


/-! ## Theorems: registry of state handlers -/

namespace Appstate

variable {W τ : Type}

/-- The loop of `SetStateHandlers` succeeds exactly on a list without a state id twice that
shares no state id with the map it starts from; the map it builds then answers with the
listed handler for a listed state id and as the starting map for every other. -/
theorem buildHandlerMap_spec (handlers : List (IStateHandler W τ)) :
    ∀ acc : List (AppState × IStateHandler W τ),
      (buildHandlerMap acc handlers = none ↔
        ¬ ((stateIDs handlers).Nodup ∧
          ∀ h ∈ handlers, lookupHandler acc h.StateID = none)) ∧
      (∀ m, buildHandlerMap acc handlers = some m →
        (∀ h ∈ handlers, lookupHandler m h.StateID = some h) ∧
        (∀ id, id ∉ stateIDs handlers → lookupHandler m id = lookupHandler acc id)) := by
  induction handlers with
  | nil =>
    intro acc
    simp [buildHandlerMap, stateIDs]
  | cons hd rest ih =>
    intro acc
    obtain ⟨ih1, ih2⟩ := ih (insertHandler acc hd.StateID hd)
    cases hl : lookupHandler acc hd.StateID with
    | some h0 =>
      constructor
      · simp only [buildHandlerMap, hl, Option.isSome_some, if_true, true_iff]
        rintro ⟨_, h2⟩
        have := h2 hd (List.mem_cons_self _ _)
        rw [hl] at this
        cases this
      · intro m hm
        simp [buildHandlerMap, hl] at hm
    | none =>
      have hb : buildHandlerMap acc (hd :: rest) =
          buildHandlerMap (insertHandler acc hd.StateID hd) rest := by
        simp [buildHandlerMap, hl]
      rw [hb]
      constructor
      · rw [ih1]
        apply not_congr
        simp only [stateIDs, List.map_cons, List.nodup_cons, List.mem_map, List.mem_cons,
          forall_eq_or_imp, hl, true_and, lookupHandler_insertHandler]
        constructor
        · rintro ⟨hnd, hall⟩
          refine ⟨⟨?_, hnd⟩, ?_⟩
          · rintro ⟨h, hmem, heq⟩
            have := hall h hmem
            simp [heq] at this
          · intro h hmem
            have := hall h hmem
            split at this
            · cases this
            · exact this
        · rintro ⟨⟨hnot, hnd⟩, hall⟩
          refine ⟨hnd, ?_⟩
          intro h hmem
          have hne : ¬ hd.StateID = h.StateID := fun heq => hnot ⟨h, hmem, heq.symm⟩
          simp [hne, hall h hmem]
      · intro m hm
        obtain ⟨h1, h2⟩ := ih2 m hm
        by_cases hin : hd.StateID ∈ stateIDs rest
        · -- then the loop has failed
          exfalso
          obtain ⟨h, hmem, heq⟩ := List.mem_map.mp hin
          have hnone : buildHandlerMap (insertHandler acc hd.StateID hd) rest = none := by
            rw [ih1]
            rintro ⟨_, hall⟩
            have := hall h hmem
            rw [lookupHandler_insertHandler] at this
            simp [heq] at this
          rw [hnone] at hm
          cases hm
        · constructor
          · intro h hmem
            rcases List.mem_cons.mp hmem with rfl | hmem
            · rw [h2 _ hin, lookupHandler_insertHandler]
              simp
            · exact h1 h hmem
          · intro id hid
            have hid1 : id ≠ hd.StateID := fun heq => hid (by simp [stateIDs, heq])
            have hid2 : id ∉ stateIDs rest := fun hmem => hid (by
              simp only [stateIDs, List.map_cons, List.mem_cons]
              exact Or.inr hmem)
            rw [h2 id hid2, lookupHandler_insertHandler]
            simp [Ne.symm hid1]

/-- Claim C17, as the code has it. `SetStateHandlers` takes the `log.Fatal` branch exactly
when the handler list holds a state id twice, or holds no handler for the state that is live
when it is called (boot, as set by `NewService`), or holds no handler for boot; no other
state is asked for. When it does not fail, the registry maps every state id of the list to
the handler given for it, maps no other state id, and the rest of the service is as
before. -/
theorem setStateHandlers_fatal_iff (s : Machine W τ)
    (stateHandlers : List (IStateHandler W τ)) :
    (SetStateHandlers s stateHandlers = none ↔
        (¬ (stateIDs stateHandlers).Nodup ∨ s.activeState ∉ stateIDs stateHandlers ∨
          AppStateBoot ∉ stateIDs stateHandlers)) ∧
      (SetStateHandlers (NewService s.world : Machine W τ) stateHandlers = none ↔
        (¬ (stateIDs stateHandlers).Nodup ∨ AppStateBoot ∉ stateIDs stateHandlers)) ∧
      (∀ s1, SetStateHandlers s stateHandlers = some s1 →
        (∀ h ∈ stateHandlers, lookupHandler s1.stateHandlers h.StateID = some h) ∧
        (∀ id, id ∉ stateIDs stateHandlers → lookupHandler s1.stateHandlers id = none) ∧
        s1 = { s with stateHandlers := s1.stateHandlers }) := by
  obtain ⟨hb1, hb2⟩ := buildHandlerMap_spec stateHandlers ([] : List (AppState × IStateHandler W τ))
  have hnil : ∀ id, lookupHandler ([] : List (AppState × IStateHandler W τ)) id = none :=
    fun _ => rfl
  have hlook : ∀ m, buildHandlerMap [] stateHandlers = some m → ∀ id,
      (lookupHandler m id).isNone = true ↔ id ∉ stateIDs stateHandlers := by
    intro m hm id
    obtain ⟨h1, h2⟩ := hb2 m hm
    constructor
    · intro hnone hmem
      obtain ⟨h, hmem2, heq⟩ := List.mem_map.mp hmem
      have := h1 h hmem2
      rw [heq] at this
      rw [this] at hnone
      cases hnone
    · intro hnot
      rw [h2 id hnot, hnil]
      rfl
  have key : ∀ s0 : Machine W τ, SetStateHandlers s0 stateHandlers = none ↔
      (¬ (stateIDs stateHandlers).Nodup ∨ s0.activeState ∉ stateIDs stateHandlers ∨
        AppStateBoot ∉ stateIDs stateHandlers) := by
    intro s0
    unfold SetStateHandlers
    cases hm : buildHandlerMap [] stateHandlers with
    | none =>
      have := hb1.mp hm
      simp only [hnil, implies_true, and_true] at this
      simp [this]
    | some m =>
      have hnd : (stateIDs stateHandlers).Nodup := by
        by_contra hnd
        have : buildHandlerMap [] stateHandlers = none := hb1.mpr (fun h => hnd h.1)
        rw [this] at hm
        cases hm
      have ha := hlook m hm s0.activeState
      have hbo := hlook m hm AppStateBoot
      by_cases h1 : (lookupHandler m s0.activeState).isNone = true
      · simp [h1, ha.mp h1]
      · by_cases h2 : (lookupHandler m AppStateBoot).isNone = true
        · simp [h1, h2, hbo.mp h2]
        · have h1n : ¬ s0.activeState ∉ stateIDs stateHandlers := fun h => h1 (ha.mpr h)
          have h2n : ¬ AppStateBoot ∉ stateIDs stateHandlers := fun h => h2 (hbo.mpr h)
          simp [h1, h2, hnd, h1n, h2n]
  refine ⟨key s, ?_, ?_⟩
  · rw [key]
    simp only [NewService]
    tauto
  · intro s1 hs1
    unfold SetStateHandlers at hs1
    cases hm : buildHandlerMap [] stateHandlers with
    | none => simp [hm] at hs1
    | some m =>
      simp only [hm] at hs1
      split at hs1
      · cases hs1
      · split at hs1
        · cases hs1
        · cases hs1
          obtain ⟨h1, h2⟩ := hb2 m hm
          refine ⟨h1, ?_, rfl⟩
          intro id hid
          rw [h2 id hid, hnil]

/-- C17. A handler list that holds one handler for each of boot, active, update_config,
maintenance, ztp_setup and reset and none for init does not take the fatal branch of
`SetStateHandlers` on the service `NewService` returns: the check whose message is "init
state handler not found" looks up `s.activeState`, which is boot. -/
theorem setStateHandlers_accepts_list_without_init :
    stateIDs [sampleHandler AppStateBoot none false, sampleHandler AppStateActive none false,
        sampleHandler AppStateUpdateConfig none false,
        sampleHandler AppStateMaintenance none false,
        sampleHandler AppStateZTPSetup none false, sampleHandler AppStateReset none false] =
        [AppStateBoot, AppStateActive, AppStateUpdateConfig, AppStateMaintenance,
          AppStateZTPSetup, AppStateReset] ∧
      AppStateInit ∉ [AppStateBoot, AppStateActive, AppStateUpdateConfig,
        AppStateMaintenance, AppStateZTPSetup, AppStateReset] ∧
      (NewService () : Machine Unit AppState).activeState = AppStateBoot ∧
      (SetStateHandlers (NewService () : Machine Unit AppState)
        [sampleHandler AppStateBoot none false, sampleHandler AppStateActive none false,
          sampleHandler AppStateUpdateConfig none false,
          sampleHandler AppStateMaintenance none false,
          sampleHandler AppStateZTPSetup none false,
          sampleHandler AppStateReset none false]).isSome = true := by
  refine ⟨rfl, by decide, rfl, rfl⟩

/-- The handler list that holds the boot handler alone, and so lacks the handlers of init,
active, update_config, maintenance, ztp_setup and reset, does not take the fatal branch
either. -/
theorem setStateHandlers_accepts_boot_only :
    stateIDs [sampleHandler AppStateBoot none false] = [AppStateBoot] ∧
      AppStateInit ∉ stateIDs [sampleHandler AppStateBoot none false] ∧
      (SetStateHandlers (NewService () : Machine Unit AppState)
        [sampleHandler AppStateBoot none false]).isSome = true := by
  refine ⟨rfl, by decide, rfl⟩

end Appstate


/-! ## Theorems: state handlers -/

namespace Handlers

@[simp] theorem Act.bind_apply {α β : Type} (x : Act α) (f : α → Act β) (s : HState) :
    (x >>= f) s = match x s with
      | (.ok a, s1) => f a s1
      | (.error e, s1) => (.error e, s1) := rfl

@[simp] theorem Act.pure_apply {α : Type} (a : α) (s : HState) :
    (Pure.pure a : Act α) s = (.ok a, s) := rfl

/-- Writing six empty service sections and then the six service sections read before
leaves every section that was non-nil as it was and every nil one empty. -/
theorem mergeConfig_rebuild (c : Config) :
    mergeConfig (mergeConfig c emptyServiceSections)
      { Trunk := c.Trunk, P2P := c.P2P, Bridge := c.Bridge, L3 := c.L3, ISB := c.ISB,
        FW := c.FW } = withServiceSections c := by
  obtain ⟨app, appState, port, adminState, wan, loopback, ipRule, wireguard, pony, trunk, p2p,
    bridge, l3, isb, fw⟩ := c
  cases trunk <;> cases p2p <;> cases bridge <;> cases l3 <;> cases isb <;> cases fw <;> rfl

theorem withServiceSections_of_has (c : Config) (h : hasServiceSections c = true) :
    withServiceSections c = c := by
  obtain ⟨app, appState, port, adminState, wan, loopback, ipRule, wireguard, pony, trunk, p2p,
    bridge, l3, isb, fw⟩ := c
  simp only [hasServiceSections, Bool.and_eq_true] at h
  obtain ⟨⟨⟨⟨⟨h1, h2⟩, h3⟩, h4⟩, h5⟩, h6⟩ := h
  cases trunk <;> cases p2p <;> cases bridge <;> cases l3 <;> cases isb <;> cases fw <;>
    simp_all [withServiceSections]

/-- Claim C20, as the code has it. A successful `rebuildServices` leaves the stored config
with every section that was non-nil before the call equal to its value before, and with
every service section (Trunk, P2P, Bridge, L3, ISB, FW) that was nil before the call as the
empty section written by the first update; so the stored config is the one before the call
when all six service sections were non-nil. If the first write fails, the second write is
not issued and the stored config is unchanged. -/
theorem rebuildServices_keeps_non_nil_sections (s : HState) :
    (∀ s1, UpdateConfigStateHandler.rebuildServices s = (.ok (), s1) →
        s1.world.store = withServiceSections s.world.store ∧
        (hasServiceSections s.world.store = true → s1.world.store = s.world.store)) ∧
      (∀ e, s.world.outcome s.world.calls .GetConfig = none →
        s.world.outcome (s.world.calls ++ [⟨.GetConfig, none⟩])
          (.UpdateConfigWithTx emptyServiceSections false) = some e →
        (UpdateConfigStateHandler.rebuildServices s).1 =
            .error (.wrap "rebuildServices: " e) ∧
          (UpdateConfigStateHandler.rebuildServices s).2.world.calls =
            s.world.calls ++ [⟨.GetConfig, none⟩,
              ⟨.UpdateConfigWithTx emptyServiceSections false, some e⟩] ∧
          (UpdateConfigStateHandler.rebuildServices s).2.world.store = s.world.store) := by
  constructor
  · intro s1 h
    have hstore : s1.world.store = withServiceSections s.world.store := by
      rw [← mergeConfig_rebuild]
      cases h1 : s.world.outcome s.world.calls .GetConfig with
      | some e =>
        simp [UpdateConfigStateHandler.rebuildServices, Act.wrapErr, GetConfig, call, h1] at h
      | none =>
        cases h2 : s.world.outcome (s.world.calls ++ [⟨.GetConfig, none⟩])
            (.UpdateConfigWithTx emptyServiceSections false) with
        | some e =>
          simp [UpdateConfigStateHandler.rebuildServices, Act.wrapErr, GetConfig, call,
            getWorld, UpdateConfigWithTx, emptyServiceSections, h1] at h h2
          simp [h2] at h
        | none =>
          simp only [UpdateConfigStateHandler.rebuildServices, Act.wrapErr, GetConfig, call,
            getWorld, UpdateConfigWithTx, emptyServiceSections, modifyWorld, pushUndo, h1,
            Act.bind_apply, Act.pure_apply] at h h2
          simp only [h2] at h
          split at h
          · rename_i heq
            split at heq
            · rename_i heq2
              split at heq2
              · cases heq2
                cases heq
                cases h
                rfl
              · cases heq2
            · cases heq
          · cases h
    exact ⟨hstore, fun hall => by rw [hstore, withServiceSections_of_has _ hall]⟩
  · intro e h1 h2
    simp only [emptyServiceSections] at h2
    simp [UpdateConfigStateHandler.rebuildServices, Act.wrapErr, GetConfig, call,
      getWorld, UpdateConfigWithTx, emptyServiceSections, h1, h2]

/-- Witness for C20: a store with all six service sections is the same after a successful
`rebuildServices`. -/
theorem rebuildServices_keeps_witness :
    hasServiceSections sampleStoreServices = true ∧
      (UpdateConfigStateHandler.rebuildServices (sampleHState sampleStoreServices)).1 =
        .ok () ∧
      (UpdateConfigStateHandler.rebuildServices
        (sampleHState sampleStoreServices)).2.world.store = sampleStoreServices :=
  ⟨rfl, rfl,
    ((rebuildServices_keeps_non_nil_sections (sampleHState sampleStoreServices)).1
      (UpdateConfigStateHandler.rebuildServices (sampleHState sampleStoreServices)).2
      rfl).2 rfl⟩

/-- Counterexample for C20: the stored config has no Trunk section (a nil pointer);
`rebuildServices` succeeds and leaves the empty Trunk section in the store, so the stored
config is not the one before the call. -/
theorem rebuildServices_fills_nil_section :
    (sampleHState sampleStore).world.store.Trunk = none ∧
      (UpdateConfigStateHandler.rebuildServices (sampleHState sampleStore)).1 = .ok () ∧
      (UpdateConfigStateHandler.rebuildServices (sampleHState sampleStore)).2.world.store.Trunk
        = some {} ∧
      (UpdateConfigStateHandler.rebuildServices (sampleHState sampleStore)).2.world.store ≠
        (sampleHState sampleStore).world.store := by
  refine ⟨rfl, rfl, rfl, ?_⟩
  intro h
  have h2 := congrArg Config.Trunk h
  revert h2
  decide

end Handlers


/-! ## Theorems: relations kept by handler functions -/

namespace Handlers

section Inv

variable {R : HState → HState → Prop}

theorem inv_pure [IsRefl HState R] {α : Type} (a : α) : Act.Inv R (Pure.pure a : Act α) :=
  ⟨fun s => IsRefl.refl s⟩

theorem inv_fail [IsRefl HState R] {α : Type} (e : GoError) :
    Act.Inv R (Act.fail e : Act α) :=
  ⟨fun s => IsRefl.refl s⟩

theorem inv_getWorld [IsRefl HState R] : Act.Inv R getWorld :=
  ⟨fun s => IsRefl.refl s⟩

theorem inv_bind [IsTrans HState R] {α β : Type} {x : Act α} {f : α → Act β}
    (hx : Act.Inv R x) (hf : ∀ a, Act.Inv R (f a)) : Act.Inv R (x >>= f) := by
  constructor
  intro s
  have h1 := hx.run s
  simp only [Act.bind_apply]
  cases hxs : x s with
  | mk r s1 =>
    rw [hxs] at h1
    cases r with
    | error e => exact h1
    | ok a => exact IsTrans.trans s s1 _ h1 ((hf a).run s1)

theorem inv_wrapErr {α : Type} {x : Act α} (msg : String) (hx : Act.Inv R x) :
    Act.Inv R (x.wrapErr msg) := by
  constructor
  intro s
  have h1 := hx.run s
  unfold Act.wrapErr
  cases hxs : x s with
  | mk r s1 =>
    rw [hxs] at h1
    cases r <;> exact h1

theorem inv_attempt {α : Type} {x : Act α} (hx : Act.Inv R x) :
    Act.Inv R x.attempt := by
  constructor
  intro s
  have h1 := hx.run s
  unfold Act.attempt
  cases hxs : x s with
  | mk r s1 =>
    rw [hxs] at h1
    cases r <;> exact h1

theorem inv_call (hR : ∀ s c err, R s (s.record c err)) (c : Call) :
    Act.Inv R (call c) := by
  constructor
  intro s
  have h1 := hR s c (s.world.outcome s.world.calls c)
  unfold Handlers.call
  cases h : s.world.outcome s.world.calls c <;> simpa [HState.record, h] using h1

theorem inv_note (hR : ∀ s c err, R s (s.record c err)) (c : Call) :
    Act.Inv R (note c) :=
  ⟨fun s => hR s c none⟩

theorem inv_modifyWorld (f : World → World)
    (hR : ∀ s : HState, R s { s with world := f s.world }) : Act.Inv R (modifyWorld f) :=
  ⟨fun s => hR s⟩

theorem inv_pushUndo (u : Undo)
    (hR : ∀ s : HState, R s { s with undo := s.undo ++ [u] }) : Act.Inv R (pushUndo u) :=
  ⟨fun s => hR s⟩

theorem inv_nilDeref {α : Type}
    (hR : ∀ s : HState, R s { s with world := { s.world with panicked := true } }) :
    Act.Inv R (Act.nilDeref : Act α) :=
  ⟨fun s => hR s⟩

end Inv

end Handlers

/-! ## Theorems: first setup -/

namespace Handlers

theorem callsExtend_record (s : HState) (c : Call) (err : Option GoError) :
    CallsExtend s (s.record c err) :=
  ⟨[⟨c, err⟩], rfl⟩

theorem subscribeLoop_callsExtend (l : List String) :
    Act.Inv CallsExtend (subscribeLoop l) := by
  induction l with
  | nil => exact inv_pure _
  | cons a l ih =>
    unfold subscribeLoop
    repeat' first
      | intro _
      | exact ih
      | exact inv_pure _
      | apply inv_bind
      | apply inv_wrapErr
      | exact inv_call callsExtend_record _
      | (apply inv_modifyWorld; intro s; exact ⟨[], by simp⟩)
      | (apply inv_pushUndo; intro s; exact ⟨[], by simp⟩)

theorem unsubscribeLoop_callsExtend (l : List String) :
    Act.Inv CallsExtend (unsubscribeLoop l) := by
  induction l with
  | nil => exact inv_pure _
  | cons a l ih =>
    unfold unsubscribeLoop
    repeat' first
      | intro _
      | exact ih
      | exact inv_pure _
      | apply inv_bind
      | apply inv_wrapErr
      | exact inv_call callsExtend_record _
      | (apply inv_modifyWorld; intro s; exact ⟨[], by simp⟩)
      | (apply inv_pushUndo; intro s; exact ⟨[], by simp⟩)

theorem checkSchemes_eq (addrs : List String) (s : HState) :
    ActiveStateHandler.checkSchemes addrs s =
      if addrs.all hasScheme then (.ok (), s)
      else (.error (.leaf "runFirstSetup: orchestrator address has no schema"), s) := by
  induction addrs with
  | nil => rfl
  | cons a l ih =>
    unfold ActiveStateHandler.checkSchemes
    by_cases h : hasScheme a = true
    · have h2 : (!ActiveStateHandler.HasPrefix a "http://" &&
          !ActiveStateHandler.HasPrefix a "https://") = false := by
        simp only [hasScheme, Bool.or_eq_true] at h
        rcases h with h | h <;> simp [h]
      simp only [h2, List.all_cons, h, Bool.true_and]
      exact ih
    · have h2 : (!ActiveStateHandler.HasPrefix a "http://" &&
          !ActiveStateHandler.HasPrefix a "https://") = true := by
        simp only [hasScheme, Bool.or_eq_true, not_or, Bool.not_eq_true] at h
        simp [h.1, h.2]
      simp only [h2, List.all_cons, h]
      simp [Act.fail]

theorem firstCall_bind {α β : Type} {c : Call} {x : Act α} {f : α → Act β}
    (hx : Act.FirstCall c x) (hf : ∀ a, Act.Inv CallsExtend (f a)) :
    Act.FirstCall c (x >>= f) := by
  constructor
  intro s
  obtain ⟨err, rest, h1⟩ := hx.run s
  simp only [Act.bind_apply]
  cases hxs : x s with
  | mk r s1 =>
    rw [hxs] at h1
    cases r with
    | error e => exact ⟨err, rest, h1⟩
    | ok a =>
      obtain ⟨rest2, h2⟩ := (hf a).run s1
      refine ⟨err, rest ++ rest2, ?_⟩
      have h3 : s1.world.calls = s.world.calls ++ ⟨c, err⟩ :: rest := h1
      simp only [h2, h3, List.append_assoc, List.cons_append]

theorem firstCall_wrapErr {α : Type} {c : Call} {x : Act α} (msg : String)
    (hx : Act.FirstCall c x) : Act.FirstCall c (x.wrapErr msg) := by
  constructor
  intro s
  obtain ⟨err, rest, h1⟩ := hx.run s
  unfold Act.wrapErr
  cases hxs : x s with
  | mk r s1 =>
    rw [hxs] at h1
    cases r <;> exact ⟨err, rest, h1⟩

theorem updateConfigWithTx_firstCall (cfg : Config) (skipGenerators : Bool) :
    Act.FirstCall (.UpdateConfigWithTx cfg skipGenerators)
      (UpdateConfigWithTx cfg skipGenerators) := by
  constructor
  intro s
  cases h : s.world.outcome s.world.calls (.UpdateConfigWithTx cfg skipGenerators) with
  | none => exact ⟨none, [], by simp [UpdateConfigWithTx, getWorld, call, h, modifyWorld, pushUndo]⟩
  | some e => exact ⟨some e, [], by simp [UpdateConfigWithTx, getWorld, call, h]⟩

theorem Act.bind_ok {α β : Type} {x : Act α} {f : α → Act β} {s s1 : HState} {a : α}
    (h : x s = (.ok a, s1)) : (x >>= f) s = f a s1 := by
  simp only [Act.bind_apply, h]

theorem Act.bind_error {α β : Type} {x : Act α} {f : α → Act β} {s s1 : HState} {e : GoError}
    (h : x s = (.error e, s1)) : (x >>= f) s = (.error e, s1) := by
  simp only [Act.bind_apply, h]

theorem getConfig_eq (s : HState) :
    GetConfig s = match s.world.outcome s.world.calls .GetConfig with
      | none => (.ok s.world.store, s.record .GetConfig none)
      | some e => (.error e, s.record .GetConfig (some e)) := by
  cases h : s.world.outcome s.world.calls .GetConfig <;>
    simp [GetConfig, call, getWorld, h, HState.record]

end Handlers


/-! ## Theorems: device update -/

namespace Handlers

theorem inv_callOf {R : HState → HState → Prop} (c : Call)
    (hR : ∀ s err, R s (s.record c err)) : Act.Inv R (Handlers.call c) := by
  constructor
  intro s
  have h1 := hR s (s.world.outcome s.world.calls c)
  unfold Handlers.call
  cases h : s.world.outcome s.world.calls c <;> simpa [HState.record, h] using h1

theorem inv_noteOf {R : HState → HState → Prop} (c : Call)
    (hR : ∀ s err, R s (s.record c err)) : Act.Inv R (Handlers.note c) :=
  ⟨fun s => hR s none⟩

theorem callsOnly_record (p : Call → Bool) (c : Call) (hc : p c = true) (s : HState)
    (err : Option GoError) : CallsOnly p s (s.record c err) :=
  ⟨[⟨c, err⟩], rfl, by simpa using hc⟩

theorem updateConfigWithTx_eq (cfg : Config) (skipGenerators : Bool) (s : HState) :
    UpdateConfigWithTx cfg skipGenerators s =
      match s.world.outcome s.world.calls (.UpdateConfigWithTx cfg skipGenerators) with
      | none => (.ok (), s.afterUpdate cfg skipGenerators)
      | some e => (.error e, s.record (.UpdateConfigWithTx cfg skipGenerators) (some e)) := by
  cases h : s.world.outcome s.world.calls (.UpdateConfigWithTx cfg skipGenerators) <;>
    simp [UpdateConfigWithTx, call, getWorld, modifyWorld, pushUndo, h, HState.record,
      HState.afterUpdate]

theorem addCheckPoint_eq (s : HState) :
    AddCheckPoint s =
      match s.world.outcome s.world.calls .AddCheckPoint with
      | none => (.ok s.world.checkpointCount, s.afterCheckPoint)
      | some e => (.error e, s.record .AddCheckPoint (some e)) := by
  cases h : s.world.outcome s.world.calls .AddCheckPoint <;>
    simp [AddCheckPoint, call, getWorld, modifyWorld, pushUndo, h, HState.record,
      HState.afterCheckPoint]

theorem deleteCheckPoint_attempt_calls (checkpointID : Nat) (s : HState) :
    ∃ err, ((DeleteCheckPoint checkpointID).attempt s).2.world.calls =
      s.world.calls ++ [⟨.DeleteCheckPoint checkpointID, err⟩] := by
  cases h : s.world.outcome s.world.calls (.DeleteCheckPoint checkpointID) with
  | none =>
    exact ⟨none, by simp [DeleteCheckPoint, Act.attempt, call, modifyWorld, pushUndo, h]⟩
  | some e => exact ⟨some e, by simp [DeleteCheckPoint, Act.attempt, call, h]⟩

theorem requestInstall_callsOnly (request : InstallPackageRequest) :
    Act.Inv (CallsOnly (fun c => !isCheckpointCall c))
      (MaintenanceStateHandler.requestInstall request) := by
  unfold MaintenanceStateHandler.requestInstall
  repeat' first
    | intro _
    | exact inv_pure _
    | exact inv_fail _
    | apply inv_bind
    | apply inv_wrapErr
    | apply inv_attempt
    | (apply inv_callOf; intro s err; exact callsOnly_record _ _ rfl s err)
    | split

theorem requestInstall_firstCall (request : InstallPackageRequest) :
    Act.FirstCall (.Request MQUpdateManagerInstall request)
      (MaintenanceStateHandler.requestInstall request) := by
  unfold MaintenanceStateHandler.requestInstall
  apply firstCall_bind
  · apply firstCall_wrapErr
    constructor
    intro s
    cases h : s.world.outcome s.world.calls (.Request MQUpdateManagerInstall request) with
    | none => exact ⟨none, [], by simp [call, h]⟩
    | some e => exact ⟨some e, [], by simp [call, h]⟩
  · repeat' first
      | intro _
      | exact inv_pure _
      | exact inv_fail _
      | apply inv_bind
      | apply inv_wrapErr
      | apply inv_attempt
      | exact inv_call callsExtend_record _
      | split

/-- The calls of `requestInstall`: the install request first, then no checkpoint call. -/
theorem requestInstall_calls (request : InstallPackageRequest) (s : HState) :
    ∃ err rest, (MaintenanceStateHandler.requestInstall request s).2.world.calls =
        s.world.calls ++ ⟨.Request MQUpdateManagerInstall request, err⟩ :: rest ∧
      ∀ r ∈ rest, isCheckpointCall r.call = false := by
  obtain ⟨err, rest, h1⟩ := (requestInstall_firstCall request).run s
  obtain ⟨rest2, h2, hp⟩ := (requestInstall_callsOnly request).run s
  refine ⟨err, rest, h1, ?_⟩
  rw [h1] at h2
  have h3 := List.append_cancel_left h2
  intro r hr
  have := hp r (by rw [← h3]; exact List.mem_cons_of_mem _ hr)
  simpa using this

theorem Act.wrapErr_ok {α : Type} {x : Act α} {s s1 : HState} {a : α} (msg : String)
    (h : x s = (.ok a, s1)) : (x.wrapErr msg) s = (.ok a, s1) := by
  simp only [Act.wrapErr, h]

theorem Act.wrapErr_error {α : Type} {x : Act α} {s s1 : HState} {e : GoError} (msg : String)
    (h : x s = (.error e, s1)) : (x.wrapErr msg) s = (.error (.wrap msg e), s1) := by
  simp only [Act.wrapErr, h]

theorem Act.attempt_of_ok {α : Type} {x : Act α} {s s1 : HState} {a : α}
    (h : x s = (.ok a, s1)) : x.attempt s = (.ok none, s1) := by
  simp only [Act.attempt, h]

theorem Act.attempt_of_error {α : Type} {x : Act α} {s s1 : HState} {e : GoError}
    (h : x s = (.error e, s1)) : x.attempt s = (.ok (some e), s1) := by
  simp only [Act.attempt, h]

theorem Act.attempt_then_fail {α β : Type} (x : Act α) (e : GoError) (s : HState) :
    (x.attempt >>= fun _ => (Act.fail e : Act β)) s = (.error e, (x.attempt s).2) := by
  simp only [Act.bind_apply, Act.attempt, Act.fail]
  cases x s with
  | mk r s1 => cases r <;> rfl

/-- Claim C15. In `updateDevice`, once the update-manager package has been handled and
removed from the request: when the request contains `sdwan-agent`, the calls that follow
are the config update that writes the six empty service sections, then `AddCheckPoint`, then
the install request to the update manager, each made only if the one before returned nil;
after a successful `AddCheckPoint`, which returns the number of the checkpoint it adds (the
checkpoint count of the state after the config update), `DeleteCheckPoint` is called with
that number exactly when `updateDevice` returns an error, and with no other number; when the
request does not contain `sdwan-agent`, no checkpoint is added or deleted. -/
theorem updateDevice_checkpoint_order (request : InstallPackageRequest)
    (s : HState) (req : InstallPackageRequest) (s1 : HState)
    (hscript : MaintenanceStateHandler.installUpdateManager request s = (.ok req, s1)) :
    (hasAgentPackage req = true →
      ∃ tail, (MaintenanceStateHandler.updateDevice request s).2.world.calls =
          s1.world.calls ++ tail ∧
        ((∃ e, tail = [⟨.UpdateConfigWithTx emptyServiceSections false, some e⟩]) ∨
          (∃ e, tail = [⟨.UpdateConfigWithTx emptyServiceSections false, none⟩,
            ⟨.AddCheckPoint, some e⟩]) ∨
          (∃ err rest, tail = ⟨.UpdateConfigWithTx emptyServiceSections false, none⟩ ::
              ⟨.AddCheckPoint, none⟩ :: ⟨.Request MQUpdateManagerInstall req, err⟩ :: rest ∧
            (AddCheckPoint (s1.afterUpdate emptyServiceSections false)).1 =
              .ok (s1.afterUpdate emptyServiceSections false).world.checkpointCount ∧
            (∀ r ∈ rest, r.call ≠ .AddCheckPoint) ∧
            (∀ r ∈ rest, ∀ checkpointID, r.call = .DeleteCheckPoint checkpointID →
              checkpointID = (s1.afterUpdate emptyServiceSections false).world.checkpointCount) ∧
            ((∃ r ∈ rest, r.call = .DeleteCheckPoint
                (s1.afterUpdate emptyServiceSections false).world.checkpointCount) ↔
              ∃ e, (MaintenanceStateHandler.updateDevice request s).1 = .error e)))) ∧
      (hasAgentPackage req = false →
        ∃ tail, (MaintenanceStateHandler.updateDevice request s).2.world.calls =
            s1.world.calls ++ tail ∧
          ∀ r ∈ tail, isCheckpointCall r.call = false) := by
  constructor
  · intro hagent
    have hany : req.PackagesToInstall.any (fun item =>
        decide (item.Name = SdwanAgentPackageName ∨ item.Name = SdwanBGPAdapterPackageName ∨
          item.Name = SdwanBGPDPackageName)) = true := by
      unfold hasAgentPackage at hagent
      rw [List.any_eq_true] at hagent ⊢
      obtain ⟨x, hx, hx2⟩ := hagent
      exact ⟨x, hx, by simp at hx2; simp [hx2]⟩
    unfold hasAgentPackage at hagent
    unfold MaintenanceStateHandler.updateDevice
    rw [Act.bind_ok (Act.wrapErr_ok _ hscript)]
    simp only [hany, hagent, if_true]
    have hd := updateConfigWithTx_eq emptyServiceSections false s1
    cases ho : s1.world.outcome s1.world.calls
        (.UpdateConfigWithTx emptyServiceSections false) with
    | some e =>
      rw [ho] at hd
      have hd2 : (Act.wrapErr "updateDevice: " MaintenanceStateHandler.deleteServices) s1 =
          (.error (.wrap "updateDevice: " (.wrap "deleteServices: " e)),
            s1.record (.UpdateConfigWithTx emptyServiceSections false) (some e)) :=
        Act.wrapErr_error _ (Act.wrapErr_error _ hd)
      rw [Act.bind_error hd2]
      exact ⟨_, rfl, Or.inl ⟨e, rfl⟩⟩
    | none =>
      rw [ho] at hd
      have hd2 := Act.wrapErr_ok "updateDevice: " (Act.wrapErr_ok "deleteServices: " hd)
      have hd3 : (Act.wrapErr "updateDevice: " MaintenanceStateHandler.deleteServices) s1 = _ :=
        hd2
      rw [Act.bind_ok hd3]
      generalize hs2 : s1.afterUpdate emptyServiceSections false = s2
      have hc2 : s2.world.calls = s1.world.calls ++
          [⟨.UpdateConfigWithTx emptyServiceSections false, none⟩] := by
        rw [← hs2]
        rfl
      have ha := addCheckPoint_eq s2
      cases hoa : s2.world.outcome s2.world.calls .AddCheckPoint with
      | some e =>
        rw [hoa] at ha
        rw [Act.bind_error (Act.wrapErr_error _ ha)]
        refine ⟨_, ?_, Or.inr (Or.inl ⟨e, rfl⟩)⟩
        simp [HState.record, hc2]
      | none =>
        rw [hoa] at ha
        have hret : (AddCheckPoint s2).1 = .ok s2.world.checkpointCount := by rw [ha]
        rw [Act.bind_ok (Act.wrapErr_ok _ ha)]
        generalize hs3 : s2.afterCheckPoint = s3
        have hc3 : s3.world.calls = s1.world.calls ++
            [⟨.UpdateConfigWithTx emptyServiceSections false, none⟩,
              ⟨.AddCheckPoint, none⟩] := by
          rw [← hs3]
          simp [HState.record, HState.afterCheckPoint, hc2]
        obtain ⟨err, rest, hcalls, hrest⟩ := requestInstall_calls req s3
        cases hr : MaintenanceStateHandler.requestInstall req s3 with
        | mk r s4 =>
          rw [hr] at hcalls
          cases r with
          | ok u =>
            rw [Act.bind_ok (Act.attempt_of_ok hr)]
            refine ⟨_, ?_, Or.inr (Or.inr ⟨err, rest, rfl, hret, ?_, ?_, ?_⟩)⟩
            · show s4.world.calls = _
              rw [hcalls, hc3]
              simp
            · intro r hr2 hc
              have := hrest r hr2
              rw [hc] at this
              cases this
            · intro r hr2 id hc
              have := hrest r hr2
              rw [hc] at this
              cases this
            · constructor
              · rintro ⟨r, hr2, hc⟩
                have := hrest r hr2
                rw [hc] at this
                cases this
              · rintro ⟨e, he⟩
                cases he
          | error e =>
            rw [Act.bind_ok (Act.attempt_of_error hr)]
            simp only []
            rw [Act.attempt_then_fail]
            obtain ⟨derr, hdel⟩ := deleteCheckPoint_attempt_calls s2.world.checkpointCount s4
            refine ⟨_, ?_, Or.inr (Or.inr ⟨err, rest ++
              [⟨.DeleteCheckPoint s2.world.checkpointCount, derr⟩], rfl, hret, ?_, ?_, ?_⟩)⟩
            · show ((DeleteCheckPoint s2.world.checkpointCount).attempt s4).2.world.calls = _
              rw [hdel]
              have h4 : s4.world.calls = _ := hcalls
              rw [h4, hc3]
              simp
            · intro r hr2 hc
              rcases List.mem_append.mp hr2 with h | h
              · have := hrest r h
                rw [hc] at this
                cases this
              · simp only [List.mem_singleton] at h
                rw [h] at hc
                cases hc
            · intro r hr2 id hc
              rcases List.mem_append.mp hr2 with h | h
              · have := hrest r h
                rw [hc] at this
                cases this
              · simp only [List.mem_singleton] at h
                rw [h] at hc
                cases hc
                rfl
            · constructor
              · intro _
                exact ⟨e, rfl⟩
              · intro _
                exact ⟨_, List.mem_append_right _ (List.mem_singleton_self _), rfl⟩
  · intro hagent
    unfold hasAgentPackage at hagent
    unfold MaintenanceStateHandler.updateDevice
    rw [Act.bind_ok (Act.wrapErr_ok _ hscript)]
    simp only [hagent, Bool.false_eq_true, if_false]
    have key : ∀ y : Act Unit, Act.Inv (CallsOnly (fun c => !isCheckpointCall c)) y →
        ∃ tail, (y s1).2.world.calls = s1.world.calls ++ tail ∧
          ∀ r ∈ tail, isCheckpointCall r.call = false := by
      intro y hy
      obtain ⟨rest, h1, h2⟩ := hy.run s1
      exact ⟨rest, h1, fun r hr => by simpa using h2 r hr⟩
    apply key
    repeat' first
      | intro _
      | exact requestInstall_callsOnly _
      | exact inv_pure _
      | exact inv_fail _
      | exact inv_getWorld
      | apply inv_bind
      | apply inv_wrapErr
      | apply inv_attempt
      | (apply inv_callOf; intro s err; exact callsOnly_record _ _ rfl s err)
      | (apply inv_modifyWorld; intro s; exact ⟨[], by simp, by simp⟩)
      | (apply inv_pushUndo; intro s; exact ⟨[], by simp, by simp⟩)
      | split

/-- Witness for C15: the request holds the update manager and the agent, and the install
request fails; the checkpoint that was added is deleted again. -/
theorem updateDevice_checkpoint_witness :
    hasAgentPackage sampleAgentRequest = true ∧
      (MaintenanceStateHandler.updateDevice sampleInstallRequest sampleUpdateState).2.world.calls
        = [⟨.installUpdateManagerScript "2" "1", none⟩,
            ⟨.UpdateConfigWithTx emptyServiceSections false, none⟩,
            ⟨.AddCheckPoint, none⟩,
            ⟨.Request MQUpdateManagerInstall sampleAgentRequest, some (.leaf "nats: timeout")⟩,
            ⟨.DeleteCheckPoint 0, none⟩] ∧
      ∃ tail, (MaintenanceStateHandler.updateDevice sampleInstallRequest
          sampleUpdateState).2.world.calls =
          (MaintenanceStateHandler.installUpdateManager sampleInstallRequest
            sampleUpdateState).2.world.calls ++ tail ∧
        ((∃ e, tail = [⟨.UpdateConfigWithTx emptyServiceSections false, some e⟩]) ∨
          (∃ e, tail = [⟨.UpdateConfigWithTx emptyServiceSections false, none⟩,
            ⟨.AddCheckPoint, some e⟩]) ∨
          (∃ err rest, tail = ⟨.UpdateConfigWithTx emptyServiceSections false, none⟩ ::
              ⟨.AddCheckPoint, none⟩ ::
              ⟨.Request MQUpdateManagerInstall sampleAgentRequest, err⟩ :: rest ∧
            (AddCheckPoint ((MaintenanceStateHandler.installUpdateManager sampleInstallRequest
                sampleUpdateState).2.afterUpdate emptyServiceSections false)).1 =
              .ok ((MaintenanceStateHandler.installUpdateManager sampleInstallRequest
                sampleUpdateState).2.afterUpdate emptyServiceSections
                  false).world.checkpointCount ∧
            (∀ r ∈ rest, r.call ≠ .AddCheckPoint) ∧
            (∀ r ∈ rest, ∀ checkpointID, r.call = .DeleteCheckPoint checkpointID →
              checkpointID = ((MaintenanceStateHandler.installUpdateManager
                sampleInstallRequest sampleUpdateState).2.afterUpdate emptyServiceSections
                  false).world.checkpointCount) ∧
            ((∃ r ∈ rest, r.call = .DeleteCheckPoint
                ((MaintenanceStateHandler.installUpdateManager sampleInstallRequest
                  sampleUpdateState).2.afterUpdate emptyServiceSections
                    false).world.checkpointCount) ↔
              ∃ e, (MaintenanceStateHandler.updateDevice sampleInstallRequest
                sampleUpdateState).1 = .error e))) :=
  ⟨rfl, rfl,
    (updateDevice_checkpoint_order sampleInstallRequest sampleUpdateState sampleAgentRequest
      (MaintenanceStateHandler.installUpdateManager sampleInstallRequest sampleUpdateState).2
      rfl).1 rfl⟩

end Handlers


/-! ## Theorems: a failed device update -/

namespace Handlers

open Appstate (AppState AppStateBoot AppStateInit AppStateActive AppStateUpdateConfig
  AppStateMaintenance AppStateZTPSetup AppStateReset)

theorem finishUpdate_ok (updErr : Option GoError) (s : HState) :
    ∃ updErr1, (MaintenanceStateHandler.finishUpdate updErr s).1 =
        .ok { Transition := some (.OnUpdateDeviceFinished updErr1) } ∧
      (updErr ≠ none → updErr1 ≠ none) := by
  unfold MaintenanceStateHandler.finishUpdate
  cases h : MaintenanceStateHandler.sendInstallFinished updErr s with
  | mk r s1 =>
    cases r with
    | ok u =>
      rw [Act.bind_ok (Act.attempt_of_ok h)]
      exact ⟨updErr, rfl, id⟩
    | error e =>
      rw [Act.bind_ok (Act.attempt_of_error h)]
      refine ⟨GoError.Join updErr (some e), rfl, ?_⟩
      intro _
      cases updErr <;> simp [GoError.Join]

/-- Claim C14, as the code has it. When `updateDevice` fails, `Handle` of the maintenance
handler still returns nil: it sends the finish notice and returns the follow-up
`OnUpdateDeviceFinished` that carries a non-nil error; and `Handle` of the active handler
does for `OnUpdateDeviceFinished` with an error exactly what it does for one with nil. So
the failure of `updateDevice` is not an error of the chain. -/
theorem maintenance_handle_swallows_update_error (request : InstallPackageRequest)
    (s : HState) :
    (∃ updErr, (MaintenanceStateHandler.Handle (.OnUpdateDevice request) s).1 =
          .ok { Transition := some (.OnUpdateDeviceFinished updErr) } ∧
        ((∃ e, (MaintenanceStateHandler.updateDevice request s).1 = .error e) →
          updErr ≠ none)) ∧
      (∀ (deviceType : String) (err : Option GoError),
        ActiveStateHandler.Handle deviceType (.OnUpdateDeviceFinished err) =
          ActiveStateHandler.Handle deviceType (.OnUpdateDeviceFinished none)) := by
  constructor
  · have hH : MaintenanceStateHandler.Handle (.OnUpdateDevice request) =
        ((MaintenanceStateHandler.updateDevice request).attempt >>=
          MaintenanceStateHandler.finishUpdate) := rfl
    rw [hH]
    cases h : MaintenanceStateHandler.updateDevice request s with
    | mk r s1 =>
      cases r with
      | ok u =>
        rw [Act.bind_ok (Act.attempt_of_ok h)]
        obtain ⟨e1, h1, _⟩ := finishUpdate_ok none s1
        exact ⟨e1, h1, fun ⟨e, he⟩ => by cases he⟩
      | error e =>
        rw [Act.bind_ok (Act.attempt_of_error h)]
        obtain ⟨e1, h1, h2⟩ := finishUpdate_ok (some e) s1
        exact ⟨e1, h1, fun _ => h2 (by simp)⟩
  · intro deviceType err
    rfl

/-- Counterexample for C14: live state `active`, the request holds the agent package and
the install request to the update manager fails, so `updateDevice` fails (the finish notice
carries its error text). The chain goes on to `active`, `FinishTransaction` is called with
nil, `Perform` returns nil, and the Trunk section emptied by `updateDevice` stays empty. -/
theorem onUpdateDevice_failure_finishes_with_nil :
    sampleStoreServices.Trunk = some { items := ["trunk1"] } ∧
      (Appstate.Perform sampleServices Transition.ToState 3
          (sampleActiveMachine sampleStoreServices installRequestFails)
          (.OnUpdateDevice sampleInstallRequest)).map
        (fun p => (p.2, p.1.activeState, p.1.world.store.Trunk,
          decide (Appstate.Event.finishTransaction none ∈ p.1.trace),
          decide ((⟨.Request MQUpdateManagerInstall sampleAgentRequest,
            some (.leaf "nats: timeout")⟩ : CallRecord) ∈ p.1.world.calls),
          decide ((⟨.PublishRequest "install_device_packages_finished"
            "updateDevice: nats: timeout", none⟩ : CallRecord) ∈ p.1.world.calls))) =
        some (none, AppStateActive, some {}, true, true, true) := by
  refine ⟨rfl, by decide!⟩

end Handlers


/-! ## Theorems: one transition, step by step -/

namespace Appstate

variable {W τ : Type}

theorem exitActiveState_eq (s : Machine W τ) (t : τ) :
    (exitActiveState s t).1.world = (exitEffect s t).world ∧
      (exitActiveState s t).1.tx = s.tx ++ (exitEffect s t).undo.map UndoStep.external ∧
      (exitActiveState s t).1.activeState = s.activeState ∧
      (exitActiveState s t).1.stateHandlers = s.stateHandlers ∧
      ((exitActiveState s t).2 = none ↔ ∃ u, (exitEffect s t).ret = .ok u) := by
  unfold exitActiveState exitEffect
  cases ha : lookupHandler s.stateHandlers s.activeState with
  | none => simp
  | some a =>
    cases hr : (a.OnExit s.world t).ret with
    | error e => simp [absorb, hr]
    | ok u => simp [absorb, hr]

theorem updateAppState_eq (svc : Services W) (s : Machine W τ) (newStateID : AppState) :
    (updateAppState svc s newStateID).1.world = (svc.UpdateConfigWithTx s.world newStateID).world ∧
      (updateAppState svc s newStateID).1.stateHandlers = s.stateHandlers ∧
      ((∃ e, (svc.UpdateConfigWithTx s.world newStateID).ret = .error e) →
        (updateAppState svc s newStateID).2 ≠ none ∧
        (updateAppState svc s newStateID).1.activeState = s.activeState ∧
        (updateAppState svc s newStateID).1.tx = s.tx ++
          (svc.UpdateConfigWithTx s.world newStateID).undo.map UndoStep.external) ∧
      ((∃ u, (svc.UpdateConfigWithTx s.world newStateID).ret = .ok u) →
        (updateAppState svc s newStateID).2 = none ∧
        (updateAppState svc s newStateID).1.activeState = newStateID ∧
        (updateAppState svc s newStateID).1.tx = s.tx ++
          (svc.UpdateConfigWithTx s.world newStateID).undo.map UndoStep.external ++
          [UndoStep.restoreState s.activeState]) := by
  unfold updateAppState
  cases hr : (svc.UpdateConfigWithTx s.world newStateID).ret with
  | error e => simp [absorb, hr]
  | ok u => simp [absorb, hr, ExecuteFunc]

/-- What one `performTransition` leaves behind, by the step at which it ends: the world is
that of the last collaborator call made, the transaction has grown by the undo entries of
the calls made, and the live state has changed exactly when the config update succeeded. -/
theorem performTransition_steps (svc : Services W) (ToState : τ → AppState)
    (s : Machine W τ) (t : τ) (toState : IStateHandler W τ)
    (hne : s.activeState ≠ ToState t)
    (hto : lookupHandler s.stateHandlers (ToState t) = some toState)
    (hv : toState.ValidateTransition s.activeState = none) :
    (performTransition svc ToState s t).1.stateHandlers = s.stateHandlers ∧
    ((∃ e, (exitEffect s t).ret = .error e) →
      (∃ e, (performTransition svc ToState s t).2 = .error e) ∧
      (performTransition svc ToState s t).1.world = (exitEffect s t).world ∧
      (performTransition svc ToState s t).1.activeState = s.activeState ∧
      (performTransition svc ToState s t).1.tx =
        s.tx ++ (exitEffect s t).undo.map UndoStep.external) ∧
    ((∃ u, (exitEffect s t).ret = .ok u) →
      ((∃ e, (svc.UpdateConfigWithTx (exitEffect s t).world (ToState t)).ret = .error e) →
        (∃ e, (performTransition svc ToState s t).2 = .error e) ∧
        (performTransition svc ToState s t).1.world =
          (svc.UpdateConfigWithTx (exitEffect s t).world (ToState t)).world ∧
        (performTransition svc ToState s t).1.activeState = s.activeState ∧
        (performTransition svc ToState s t).1.tx =
          s.tx ++ (exitEffect s t).undo.map UndoStep.external ++
            (svc.UpdateConfigWithTx (exitEffect s t).world (ToState t)).undo.map
              UndoStep.external) ∧
      ((∃ u, (svc.UpdateConfigWithTx (exitEffect s t).world (ToState t)).ret = .ok u) →
        (performTransition svc ToState s t).1.world =
          (toState.Handle (svc.UpdateConfigWithTx (exitEffect s t).world (ToState t)).world
            t).world ∧
        (performTransition svc ToState s t).1.activeState = ToState t ∧
        (performTransition svc ToState s t).1.tx =
          s.tx ++ (exitEffect s t).undo.map UndoStep.external ++
            (svc.UpdateConfigWithTx (exitEffect s t).world (ToState t)).undo.map
              UndoStep.external ++ [UndoStep.restoreState s.activeState] ++
            (toState.Handle (svc.UpdateConfigWithTx (exitEffect s t).world (ToState t)).world
              t).undo.map UndoStep.external ∧
        (∀ r, (performTransition svc ToState s t).2 = .ok r ↔
          ∃ hr, (toState.Handle (svc.UpdateConfigWithTx (exitEffect s t).world
            (ToState t)).world t).ret = .ok hr ∧ r = { Transition := hr.Transition }))) := by
  have hE := exitActiveState_eq
    { s with trace := s.trace ++ [Event.validateTransition toState.StateID s.activeState] } t
  have hx : exitEffect
      { s with trace := s.trace ++ [Event.validateTransition toState.StateID s.activeState] } t
      = exitEffect s t := rfl
  rw [hx] at hE
  have hperf : performTransition svc ToState s t =
      match exitActiveState
        { s with trace := s.trace ++ [Event.validateTransition toState.StateID s.activeState] }
        t with
      | (s2, some err) => (s2, .error (.wrap "performTransition: " err))
      | (s2, none) =>
        match updateAppState svc s2 (ToState t) with
        | (s3, some err) => (s3, .error (.wrap "performTransition: " err))
        | (s3, none) =>
          match (toState.Handle s3.world t).ret with
          | .error err =>
            (absorb { s3 with trace := s3.trace ++
              [Event.handle toState.StateID s3.activeState] } (toState.Handle s3.world t),
              .error (.wrap "performTransition: " err))
          | .ok handleResult =>
            (absorb { s3 with trace := s3.trace ++
              [Event.handle toState.StateID s3.activeState] } (toState.Handle s3.world t),
              .ok { Transition := handleResult.Transition }) := by
    simp only [performTransition, hne, hto, hv, if_false]
  rw [hperf]
  cases hex : exitActiveState
      { s with trace := s.trace ++ [Event.validateTransition toState.StateID s.activeState] }
      t with
  | mk s2 err =>
    rw [hex] at hE
    obtain ⟨hEw, hEtx, hEa, hEh, hEr⟩ := hE
    simp only at hEw hEtx hEa hEh hEr
    cases err with
    | some e =>
      dsimp only
      refine ⟨hEh, fun _ => ⟨⟨_, rfl⟩, hEw, hEa, hEtx⟩, fun ⟨u, hu⟩ => ?_⟩
      have := hEr.mpr ⟨u, hu⟩
      cases this
    | none =>
      dsimp only
      have hU := updateAppState_eq svc s2 (ToState t)
      rw [hEw] at hU
      cases hup : updateAppState svc s2 (ToState t) with
      | mk s3 err3 =>
        rw [hup] at hU
        obtain ⟨hUw, hUh, hUe, hUo⟩ := hU
        simp only at hUw hUh hUe hUo
        have hexit_ok : ∃ u, (exitEffect s t).ret = .ok u := hEr.mp rfl
        cases err3 with
        | some e3 =>
          dsimp only
          refine ⟨hUh.trans hEh, fun ⟨e, he⟩ => ?_, fun _ => ⟨fun hue => ?_, fun huo => ?_⟩⟩
          · obtain ⟨u, hu⟩ := hexit_ok
            rw [hu] at he
            cases he
          · obtain ⟨_, h2, h3⟩ := hUe hue
            exact ⟨⟨_, rfl⟩, hUw, h2.trans hEa, by rw [h3, hEtx]⟩
          · have := (hUo huo).1
            cases this
        | none =>
          dsimp only
          refine ⟨?_, fun ⟨e, he⟩ => ?_, fun _ => ⟨fun hue => ?_, fun huo => ?_⟩⟩
          · cases (toState.Handle s3.world t).ret <;> exact hUh.trans hEh
          · obtain ⟨u, hu⟩ := hexit_ok
            rw [hu] at he
            cases he
          · exact absurd rfl (hUe hue).1
          · obtain ⟨_, h2, h3⟩ := hUo huo
            rw [← hUw]
            cases hH : (toState.Handle s3.world t).ret with
            | error e =>
              refine ⟨rfl, h2, ?_, ?_⟩
              · simp [absorb, h3, hEtx, hEa]
              · intro r
                simp
            | ok hr =>
              refine ⟨rfl, h2, ?_, ?_⟩
              · simp [absorb, h3, hEtx, hEa]
              · intro r
                constructor
                · intro h
                  cases h
                  exact ⟨hr, rfl, rfl⟩
                · rintro ⟨hr2, h5, rfl⟩
                  cases h5
                  rfl

end Appstate


/-! ## Theorems: subjects during ZTP setup -/

namespace Handlers

open Appstate (AppState AppStateBoot AppStateInit AppStateActive AppStateUpdateConfig
  AppStateMaintenance AppStateZTPSetup AppStateReset)

theorem lookup_registry (agentEnv : Agent) (id : AppState) :
    Appstate.lookupHandler (registry agentEnv) id =
      if AppStateBoot = id then some bootStateHandler
      else if AppStateInit = id then some (initStateHandler agentEnv)
      else if AppStateActive = id then some (activeStateHandler agentEnv)
      else if AppStateUpdateConfig = id then some (updateConfigStateHandler agentEnv)
      else if AppStateMaintenance = id then some maintenanceStateHandler
      else if AppStateZTPSetup = id then some ztpSetupHandler
      else if AppStateReset = id then some (resetStateHandler agentEnv)
      else none := by
  rfl

theorem updateConfigWithTx_subjectsKept (cfg : Config) (skipGenerators : Bool) :
    Act.Inv SubjectsKept (UpdateConfigWithTx cfg skipGenerators) := by
  unfold UpdateConfigWithTx
  repeat' first
    | intro _
    | exact inv_pure _
    | exact inv_getWorld
    | apply inv_bind
    | (apply inv_callOf; intro s err; rfl)
    | (apply inv_modifyWorld; intro s; rfl)
    | (apply inv_pushUndo; intro s; rfl)

theorem ztpSetup_handle_subjectsKept (t : Transition) :
    Act.Inv SubjectsKept (ZTPSetupHandler.Handle t) := by
  unfold ZTPSetupHandler.Handle
  repeat' first
    | intro _
    | exact updateConfigWithTx_subjectsKept _ _
    | exact inv_pure _
    | exact inv_fail _
    | exact inv_getWorld
    | apply inv_bind
    | apply inv_wrapErr
    | apply inv_attempt
    | (apply inv_callOf; intro s err; rfl)
    | (apply inv_pushUndo; intro s; rfl)
    | split

theorem unsubscribeLoop_subjects (l : List String) (s : HState)
    (h : (unsubscribeLoop l s).1 = .ok ()) :
    (unsubscribeLoop l s).2.world.subjects = s.world.subjects \ l.toFinset := by
  induction l generalizing s with
  | nil => simp [unsubscribeLoop]
  | cons a l ih =>
    unfold unsubscribeLoop at h ⊢
    cases ho : s.world.outcome s.world.calls (.DeactivateHandler a) with
    | some e =>
      simp [ExecuteFunc, DeactivateHandler, call, Act.wrapErr, ho] at h
    | none =>
      have hstep : (ExecuteFunc (DeactivateHandler a) (.ActivateHandler a)).wrapErr
          "unsubscribeQueueSubjects: " s =
          (.ok (), { world := { (s.record (.DeactivateHandler a) none).world with
                        subjects := s.world.subjects.erase a },
                     undo := s.undo ++ [.ActivateHandler a] }) := by
        simp [ExecuteFunc, DeactivateHandler, call, Act.wrapErr, ho, modifyWorld, pushUndo,
          HState.record]
      rw [Act.bind_ok hstep] at h ⊢
      rw [ih _ h]
      simp only [List.toFinset_cons]
      ext x
      simp only [Finset.mem_sdiff, Finset.mem_erase, Finset.mem_insert]
      tauto

theorem toEffect_world {α : Type} (x : Act α) (w : World) :
    (x.toEffect w).world = (x { world := w, undo := [] }).2.world := rfl

theorem toEffect_ret {α : Type} (x : Act α) (w : World) :
    (x.toEffect w).ret = (x { world := w, undo := [] }).1 := rfl

theorem toEffect_undo {α : Type} (x : Act α) (w : World) :
    (x.toEffect w).undo = (x { world := w, undo := [] }).2.undo.map Undo.toStep := rfl

/-- Claim C19, as the code has it. A transition out of `init` into `ztp_setup` runs `OnExit`
of the init handler first, which deactivates the seven init subjects, and `Handle` of the
ztp_setup handler toggles no subject: when the transition succeeds, the live state is
`ztp_setup` and none of the seven init subjects is active (the active subjects are those
that were active before, less the seven). -/
theorem ztp_setup_has_no_init_subjects (agentEnv : Agent)
    (FinishStatus : World → Option GoError → Option GoError)
    (m : Appstate.Machine World Transition) (t : Transition)
    (r : Appstate.StateHandleResult Transition)
    (hreg : m.stateHandlers = registry agentEnv) (hlive : m.activeState = AppStateInit)
    (hto : t.ToState = AppStateZTPSetup)
    (hok : (Appstate.performTransition (services FinishStatus) Transition.ToState m t).2 =
      .ok r) :
    (∀ s, (ZTPSetupHandler.Handle t s).2.world.subjects = s.world.subjects) ∧
      (Appstate.performTransition (services FinishStatus) Transition.ToState m t).1.activeState
        = AppStateZTPSetup ∧
      (Appstate.performTransition (services FinishStatus) Transition.ToState m
        t).1.world.subjects = m.world.subjects \ initSubjects ∧
      ∀ subject ∈ InitStateHandler.mqSubjects, subject ∉
        (Appstate.performTransition (services FinishStatus) Transition.ToState m
          t).1.world.subjects := by
  have hne : m.activeState ≠ t.ToState := by
    rw [hlive, hto]
    decide
  have hlook : Appstate.lookupHandler m.stateHandlers t.ToState = some ztpSetupHandler := by
    rw [hreg, hto, lookup_registry]
    rfl
  have hv : ztpSetupHandler.ValidateTransition m.activeState = none := by
    rw [hlive]
    rfl
  obtain ⟨_, hExitErr, hExitOk⟩ := Appstate.performTransition_steps (services FinishStatus)
    Transition.ToState m t ztpSetupHandler hne hlook hv
  have hexit : Appstate.exitEffect m t =
      ((unsubscribeLoop InitStateHandler.mqSubjects).wrapErr "OnExit: ").toEffect m.world := by
    unfold Appstate.exitEffect
    rw [hreg, hlive, lookup_registry]
    cases t <;> first
      | rfl
      | (exfalso; simp [Transition.ToState, AppStateActive, AppStateZTPSetup] at hto)
  cases hxr : (Appstate.exitEffect m t).ret with
  | error e =>
    obtain ⟨⟨e2, he2⟩, _⟩ := hExitErr ⟨e, hxr⟩
    rw [he2] at hok
    cases hok
  | ok u =>
    obtain ⟨hUpdErr, hUpdOk⟩ := hExitOk ⟨u, hxr⟩
    cases hur : ((services FinishStatus).UpdateConfigWithTx (Appstate.exitEffect m t).world
        t.ToState).ret with
    | error e =>
      obtain ⟨⟨e2, he2⟩, _⟩ := hUpdErr ⟨e, hur⟩
      rw [he2] at hok
      cases hok
    | ok u2 =>
      obtain ⟨hw, ha, _, _⟩ := hUpdOk ⟨u2, hur⟩
      have hkeepH := fun s => (ztpSetup_handle_subjectsKept t).run s
      have hsub : (Appstate.performTransition (services FinishStatus) Transition.ToState m
          t).1.world.subjects = m.world.subjects \ initSubjects := by
        rw [hw]
        have h1 : (ztpSetupHandler.Handle ((services FinishStatus).UpdateConfigWithTx
            (Appstate.exitEffect m t).world t.ToState).world t).world.subjects =
            ((services FinishStatus).UpdateConfigWithTx
              (Appstate.exitEffect m t).world t.ToState).world.subjects :=
          hkeepH _
        rw [h1]
        have h2 : ((services FinishStatus).UpdateConfigWithTx
            (Appstate.exitEffect m t).world t.ToState).world.subjects =
            (Appstate.exitEffect m t).world.subjects :=
          (updateConfigWithTx_subjectsKept _ _).run _
        rw [h2, hexit, toEffect_world]
        rw [hexit, toEffect_ret] at hxr
        have h3 : (unsubscribeLoop InitStateHandler.mqSubjects
            { world := m.world, undo := [] }).1 = .ok () := by
          unfold Act.wrapErr at hxr
          cases hl : unsubscribeLoop InitStateHandler.mqSubjects
              { world := m.world, undo := [] } with
          | mk r1 s1 =>
            rw [hl] at hxr
            cases r1 with
            | ok u3 => rfl
            | error e => cases hxr
        have h4 := unsubscribeLoop_subjects _ _ h3
        unfold Act.wrapErr
        cases hl : unsubscribeLoop InitStateHandler.mqSubjects
            { world := m.world, undo := [] } with
        | mk r1 s1 =>
          rw [hl] at h4
          cases r1 <;> exact h4
      refine ⟨hkeepH, by rw [ha, hto], hsub, ?_⟩
      intro subject hsubj
      rw [hsub]
      simp [initSubjects, hsubj]

/-- Witness for C19: from `init` with the seven subjects active, the transition
`OnZTPSetupConfig` succeeds. -/
theorem ztp_setup_no_init_subjects_witness :
    (Appstate.performTransition (services (fun _ execErr => execErr)) Transition.ToState
        (sampleInitMachine sampleStoreNoPort allSucceed)
        (.OnZTPSetupConfig sampleZTPConfig)).1.world.subjects =
      (sampleInitMachine sampleStoreNoPort allSucceed).world.subjects \ initSubjects :=
  have hok : (Appstate.performTransition (services (fun _ execErr => execErr))
      Transition.ToState (sampleInitMachine sampleStoreNoPort allSucceed)
      (.OnZTPSetupConfig sampleZTPConfig)).2 =
      .ok { Transition := some .OnZTPSetupFinished } := by decide!
  (ztp_setup_has_no_init_subjects { DeviceType := DeviceTypeCPE } (fun _ execErr => execErr)
    (sampleInitMachine sampleStoreNoPort allSucceed) (.OnZTPSetupConfig sampleZTPConfig)
    { Transition := some .OnZTPSetupFinished } rfl rfl rfl hok).2.2.1

/-- Counterexample for C19: live state `init` with the seven init subjects active; after
the transition `OnZTPSetupConfig` the live state is `ztp_setup` and no subject is active, so
`agent.ztp.first_setup`, for one, is not active while the live state is `ztp_setup`. -/
theorem ztp_setup_deactivates_init_subjects :
    (sampleInitMachine sampleStoreNoPort allSucceed).world.subjects = initSubjects ∧
      (Appstate.performTransition sampleServices Transition.ToState
        (sampleInitMachine sampleStoreNoPort allSucceed)
        (.OnZTPSetupConfig sampleZTPConfig)).1.activeState = AppStateZTPSetup ∧
      (Appstate.performTransition sampleServices Transition.ToState
        (sampleInitMachine sampleStoreNoPort allSucceed)
        (.OnZTPSetupConfig sampleZTPConfig)).1.world.subjects = ∅ ∧
      MQAgentZTPFirstSetup ∉ (Appstate.performTransition sampleServices Transition.ToState
        (sampleInitMachine sampleStoreNoPort allSucceed)
        (.OnZTPSetupConfig sampleZTPConfig)).1.world.subjects := by
  refine ⟨rfl, by decide!, by decide!, by decide!⟩

end Handlers


/-! ## Theorems: after boot in state reset -/

namespace Handlers

open Appstate (AppState AppStateBoot AppStateInit AppStateActive AppStateUpdateConfig
  AppStateMaintenance AppStateZTPSetup AppStateReset)

theorem call_ok (c : Call) (s : HState) (h : s.world.outcome = allSucceed) :
    call c s = (.ok (), s.record c none) := by
  simp [call, h, allSucceed, HState.record]

theorem subscribeLoop_ok (l : List String) (s : HState) (h : s.world.outcome = allSucceed) :
    (subscribeLoop l s).1 = .ok () := by
  induction l generalizing s with
  | nil => rfl
  | cons a l ih =>
    unfold subscribeLoop
    have hstep : (ExecuteFunc (ActivateHandler a) (.DeactivateHandler a)).wrapErr
        "subscribeQueueSubjects: " s =
        (.ok (), { world := { (s.record (.ActivateHandler a) none).world with
                      subjects := insert a s.world.subjects },
                   undo := s.undo ++ [.DeactivateHandler a] }) := by
      simp [ExecuteFunc, ActivateHandler, call, Act.wrapErr, h, allSucceed, modifyWorld,
        pushUndo, HState.record]
    rw [Act.bind_ok hstep]
    exact ih _ h

theorem restoreActiveState_ok (s : HState) (h : s.world.outcome = allSucceed) :
    (ActiveStateHandler.restoreActiveState s).1 = .ok () := by
  cases hw : s.world.websocketStarted <;>
  simp [ActiveStateHandler.restoreActiveState, ActiveStateHandler.activateServices,
    TryStartServiceWithTx, TryStopServiceWithTx, call, Act.wrapErr, h, allSucceed, pushUndo,
    IsStarted, getWorld, hw, ExecuteFunc, websocketStart, note, modifyWorld,
    ActiveStateHandler.subscribeQueueSubjects, ActiveStateHandler.mqSubjects, subscribeLoop,
    ActivateHandler]

theorem restoreInitState_ok (agentEnv : Agent) (s : HState)
    (h : s.world.outcome = allSucceed) :
    (InitStateHandler.restoreInitState agentEnv s).1 = .ok () := by
  by_cases hd : agentEnv.DeviceType = DeviceTypeHub <;>
  simp [InitStateHandler.restoreInitState, InitStateHandler.subscribeQueueSubjects,
    InitStateHandler.mqSubjects, subscribeLoop, TryStartServiceWithTx, call, Act.wrapErr,
    Act.attempt, h, allSucceed, pushUndo, ExecuteFunc, modifyWorld, ActivateHandler, hd]

theorem resetHandle_afterBoot (deviceType : String) (toState : AppState) (s : HState)
    (app : AppSection) (hget : s.world.outcome s.world.calls .GetConfig = none)
    (happ : s.world.store.App = some app) :
    ResetStateHandler.Handle deviceType (.OnAfterBoot toState) s =
      (.ok { Transition := some (resetFollowUp app.SerialNumber) },
        s.record .GetConfig none) := by
  by_cases hs : app.SerialNumber = "" <;>
  simp [ResetStateHandler.Handle, ResetStateHandler.wasInitState, GetConfig, call, getWorld,
    Act.wrapErr, hget, happ, hs, resetFollowUp, HState.record]

theorem updateAppState_effect (FinishStatus : World → Option GoError → Option GoError)
    (w : World) (newStateID : AppState) (h : w.outcome = allSucceed) :
    ((services FinishStatus).UpdateConfigWithTx w newStateID).ret = .ok () ∧
      ((services FinishStatus).UpdateConfigWithTx w newStateID).world.outcome = allSucceed ∧
      ((services FinishStatus).UpdateConfigWithTx w newStateID).world.store.App = w.store.App
      := by
  simp [services, Act.toEffect, UpdateConfigWithTx, call, getWorld, modifyWorld, pushUndo, h,
    allSucceed, mergeConfig, mergeSection]

end Handlers

namespace Appstate

variable {W τ : Type}

theorem runChain_step (svc : Services W) (ToState : τ → AppState) (fuel : Nat)
    (s : Machine W τ) (t : τ) (r : StateHandleResult τ)
    (h : (performTransition svc ToState s t).2 = .ok r) :
    runChain svc ToState (fuel + 1) s t =
      match r.Transition with
      | none => some ((performTransition svc ToState s t).1, none)
      | some next => runChain svc ToState fuel (performTransition svc ToState s t).1 next := by
  conv_lhs => rw [runChain]
  cases hp : performTransition svc ToState s t with
  | mk s1 res =>
    rw [hp] at h
    simp only at h
    subst h
    rfl

theorem performTransition_ok (svc : Services W) (ToState : τ → AppState)
    (s : Machine W τ) (t : τ) (toState : IStateHandler W τ) (hr : StateHandleResult τ)
    (hne : s.activeState ≠ ToState t)
    (hto : lookupHandler s.stateHandlers (ToState t) = some toState)
    (hv : toState.ValidateTransition s.activeState = none)
    (hexit : (exitEffect s t).ret = .ok ())
    (hupd : (svc.UpdateConfigWithTx (exitEffect s t).world (ToState t)).ret = .ok ())
    (hH : (toState.Handle (svc.UpdateConfigWithTx (exitEffect s t).world (ToState t)).world
      t).ret = .ok hr) :
    (performTransition svc ToState s t).2 = .ok { Transition := hr.Transition } ∧
      (performTransition svc ToState s t).1.activeState = ToState t ∧
      (performTransition svc ToState s t).1.stateHandlers = s.stateHandlers ∧
      (performTransition svc ToState s t).1.world =
        (toState.Handle (svc.UpdateConfigWithTx (exitEffect s t).world (ToState t)).world
          t).world := by
  obtain ⟨h1, _, h3⟩ := performTransition_steps svc ToState s t toState hne hto hv
  obtain ⟨hw, ha, _, hret⟩ := (h3 ⟨_, hexit⟩).2 ⟨_, hupd⟩
  exact ⟨(hret _).mpr ⟨hr, hH, rfl⟩, ha, h1, hw⟩

end Appstate

namespace Handlers

open Appstate (AppState AppStateBoot AppStateInit AppStateActive AppStateUpdateConfig
  AppStateMaintenance AppStateZTPSetup AppStateReset)

theorem startTransaction_ok (w : World) (h : w.outcome = allSucceed) :
    (StartTransaction w).2 = none ∧ (StartTransaction w).1.outcome = allSucceed ∧
      (StartTransaction w).1.store = w.store := by
  simp [StartTransaction, call, h, allSucceed]

theorem persistedState_ok (w : World) (h : w.outcome = allSucceed) :
    (persistedState w).2 = .ok (w.store.AppState.map (fun appState => appState.State)) ∧
      (persistedState w).1.outcome = allSucceed ∧ (persistedState w).1.store = w.store := by
  simp [persistedState, GetConfig, call, getWorld, h, allSucceed]

theorem initHandle_fallback_ok (agentEnv : Agent) (s : HState)
    (h : s.world.outcome = allSucceed) :
    (InitStateHandler.Handle agentEnv .OnInitFallback s).1 = .ok { Transition := none } := by
  have hH : InitStateHandler.Handle agentEnv .OnInitFallback =
      ((InitStateHandler.restoreInitState agentEnv).wrapErr "Handle: " >>=
        fun _ => pure { Transition := none }) := rfl
  have h1 := restoreInitState_ok agentEnv s h
  rw [hH]
  cases hr : InitStateHandler.restoreInitState agentEnv s with
  | mk r s1 =>
    rw [hr] at h1
    simp only at h1
    subst h1
    rw [Act.bind_ok (Act.wrapErr_ok _ hr)]
    rfl

theorem activeHandle_fallback_ok (deviceType : String) (s : HState)
    (h : s.world.outcome = allSucceed) :
    (ActiveStateHandler.Handle deviceType .OnFallback s).1 = .ok { Transition := none } := by
  have hH : ActiveStateHandler.Handle deviceType .OnFallback =
      (ActiveStateHandler.restoreActiveState.wrapErr "Handle: " >>=
        fun _ => pure { Transition := none }) := rfl
  have h1 := restoreActiveState_ok s h
  rw [hH]
  cases hr : ActiveStateHandler.restoreActiveState s with
  | mk r s1 =>
    rw [hr] at h1
    simp only at h1
    subst h1
    rw [Act.bind_ok (Act.wrapErr_ok _ hr)]
    rfl

/-- Claim C16. With the stored App section present and `GetConfig` answering, `Handle` of
the reset handler on `OnAfterBoot` returns nil with the follow-up `OnInitFallback` when the
stored `App.SerialNumber` is empty and `OnFallback` when it is set. The after-boot chain
started from the persisted state `reset` then passes validation (reset accepts a transition
from boot, init and active accept one from reset) and, when no collaborator call fails, ends
without error with the live state `init`, respectively `active`. -/
theorem reset_after_boot_falls_back (agentEnv : Agent)
    (FinishStatus : World → Option GoError → Option GoError)
    (m : Appstate.Machine World Transition) (app : AppSection) (fuel : Nat)
    (hreg : m.stateHandlers = registry agentEnv) (hlive : m.activeState = AppStateBoot)
    (hout : m.world.outcome = allSucceed)
    (hstate : m.world.store.AppState = some { State := AppStateReset })
    (happ : m.world.store.App = some app) :
    (∀ (s : HState) (toState : AppState), s.world.outcome s.world.calls .GetConfig = none →
        s.world.store.App = some app →
        (ResetStateHandler.Handle agentEnv.DeviceType (.OnAfterBoot toState) s).1 =
          .ok { Transition :=
            some (if app.SerialNumber = "" then .OnInitFallback else .OnFallback) }) ∧
      ResetStateHandler.ValidateTransition AppStateBoot = none ∧
      InitStateHandler.ValidateTransition AppStateReset = none ∧
      ActiveStateHandler.ValidateTransition AppStateReset = none ∧
      ∃ m1, Appstate.setActiveStateFromBoot (services FinishStatus) Transition.ToState
          Transition.OnAfterBoot persistedState AppStateInit (fuel + 2) m =
          some (m1, FinishStatus m1.world none) ∧
        m1.activeState = if app.SerialNumber = "" then AppStateInit else AppStateActive := by
  refine ⟨?_, rfl, rfl, rfl, ?_⟩
  · intro s toState hget happ2
    rw [resetHandle_afterBoot _ _ s app hget happ2]
    rfl
  obtain ⟨hs1, hs2, hs3⟩ := startTransaction_ok m.world hout
  cases hst : StartTransaction m.world with
  | mk w1 e1 =>
    rw [hst] at hs1 hs2 hs3
    simp only at hs1 hs2 hs3
    subst hs1
    obtain ⟨hp1, hp2, hp3⟩ := persistedState_ok w1 hs2
    cases hps : persistedState w1 with
    | mk w2 r2 =>
      rw [hps] at hp1 hp2 hp3
      simp only at hp1 hp2 hp3
      rw [hs3, hstate] at hp1
      simp only [Option.map_some'] at hp1
      subst hp1
      have hne0 : AppStateReset ≠ "" := by decide
      have hsab : Appstate.setActiveStateFromBoot (services FinishStatus) Transition.ToState
          Transition.OnAfterBoot persistedState AppStateInit (fuel + 2) m =
          match Appstate.runChain (services FinishStatus) Transition.ToState (fuel + 2)
            { m with trace := m.trace ++ [Appstate.Event.startTransaction], world := w2,
                     tx := [] } (.OnAfterBoot AppStateReset) with
          | none => none
          | some (s2, some err) =>
            some (Appstate.FinishTransaction (services FinishStatus) s2
              (some (.wrap "setActiveStateFromBoot: " err)))
          | some (s2, none) =>
            some (Appstate.FinishTransaction (services FinishStatus) s2 none) := by
        unfold Appstate.setActiveStateFromBoot
        have h1 : (services FinishStatus).StartTransaction m.world = (w1, none) := hst
        simp only [h1, hps, if_pos hne0]
        cases Appstate.runChain (services FinishStatus) Transition.ToState (fuel + 2)
            { m with trace := m.trace ++ [Appstate.Event.startTransaction], world := w2,
                     tx := [] } (.OnAfterBoot AppStateReset) with
        | none => rfl
        | some p =>
          obtain ⟨s2, e⟩ := p
          cases e <;> rfl
      rw [hsab]
      obtain ⟨m2, hm2⟩ : ∃ m2 : Appstate.Machine World Transition, m2 =
          { m with trace := m.trace ++ [Appstate.Event.startTransaction], world := w2,
                   tx := [] } := ⟨_, rfl⟩
      rw [← hm2]
      have hm2reg : m2.stateHandlers = registry agentEnv := by rw [hm2]; exact hreg
      have hm2live : m2.activeState = AppStateBoot := by rw [hm2]; exact hlive
      have hm2world : m2.world = w2 := by rw [hm2]
      -- first transition: boot to reset
      have hex1 : Appstate.exitEffect m2 (.OnAfterBoot AppStateReset) =
          (BootStateHandler.OnExit (.OnAfterBoot AppStateReset)).toEffect m2.world := by
        unfold Appstate.exitEffect
        rw [hm2reg, hm2live, lookup_registry]
        rfl
      have hex1w : (Appstate.exitEffect m2 (.OnAfterBoot AppStateReset)).world = w2 := by
        rw [hex1, ← hm2world]
        rfl
      obtain ⟨hu1, hu2, hu3⟩ := updateAppState_effect FinishStatus w2 AppStateReset hp2
      have hH1 := resetHandle_afterBoot agentEnv.DeviceType AppStateReset
        { world := ((services FinishStatus).UpdateConfigWithTx w2 AppStateReset).world,
          undo := [] } app
        (by simp only [hu2]; rfl) (by rw [hu3, hp3, hs3]; exact happ)
      obtain ⟨hr1, ha1, hh1, hw1⟩ := Appstate.performTransition_ok (services FinishStatus)
        Transition.ToState m2 (.OnAfterBoot AppStateReset) (resetStateHandler agentEnv)
        { Transition := some (resetFollowUp app.SerialNumber) }
        (by rw [hm2live]; decide)
        (by rw [hm2reg, lookup_registry]; rfl)
        (by rw [hm2live]; rfl)
        (by rw [hex1]; rfl)
        (by rw [hex1w]; exact hu1)
        (by
          rw [hex1w]
          exact congrArg Prod.fst hH1)
      rw [Appstate.runChain_step _ _ _ _ _ _ hr1]
      simp only
      generalize hm3 : (Appstate.performTransition (services FinishStatus) Transition.ToState
        m2 (.OnAfterBoot AppStateReset)).1 = m3 at ha1 hh1 hw1 ⊢
      have hm3reg : m3.stateHandlers = registry agentEnv := hh1.trans hm2reg
      have hm3live : m3.activeState = AppStateReset := ha1
      have hm3out : m3.world.outcome = allSucceed := by
        rw [hw1, hex1w]
        exact (congrArg (fun p => p.2.world.outcome) hH1).trans hu2
      -- second transition: reset to init or active
      have hex2 : ∀ t, Appstate.exitEffect m3 t =
          (ResetStateHandler.OnExit t).toEffect m3.world := by
        intro t
        unfold Appstate.exitEffect
        rw [hm3reg, hm3live, lookup_registry]
        rfl
      have hex2w : ∀ t, (Appstate.exitEffect m3 t).world = m3.world := by
        intro t
        rw [hex2]
        rfl
      have hfin : ∀ m4 : Appstate.Machine World Transition,
          Appstate.FinishTransaction (services FinishStatus) m4 none =
            ((Appstate.FinishTransaction (services FinishStatus) m4 none).1,
              FinishStatus (Appstate.FinishTransaction (services FinishStatus) m4
                none).1.world none) := fun _ => rfl
      by_cases hs : app.SerialNumber = ""
      · have hf : resetFollowUp app.SerialNumber = .OnInitFallback := by
          simp [resetFollowUp, hs]
        rw [hf]
        obtain ⟨hv1, hv2, _⟩ := updateAppState_effect FinishStatus m3.world AppStateInit hm3out
        obtain ⟨hr2, ha2, _, _⟩ := Appstate.performTransition_ok (services FinishStatus)
          Transition.ToState m3 .OnInitFallback (initStateHandler agentEnv)
          { Transition := none }
          (by rw [hm3live]; decide)
          (by rw [hm3reg, lookup_registry]; rfl)
          (by rw [hm3live]; rfl)
          (by rw [hex2]; rfl)
          (by rw [hex2w]; exact hv1)
          (by
            rw [hex2w]
            exact initHandle_fallback_ok agentEnv _ hv2)
        rw [Appstate.runChain_step _ _ _ _ _ _ hr2]
        simp only
        refine ⟨_, congrArg some (hfin _), ?_⟩
        simp only [hs, if_true]
        exact ha2
      · have hf : resetFollowUp app.SerialNumber = .OnFallback := by
          simp [resetFollowUp, hs]
        rw [hf]
        obtain ⟨hv1, hv2, _⟩ := updateAppState_effect FinishStatus m3.world AppStateActive
          hm3out
        obtain ⟨hr2, ha2, _, _⟩ := Appstate.performTransition_ok (services FinishStatus)
          Transition.ToState m3 .OnFallback (activeStateHandler agentEnv)
          { Transition := none }
          (by rw [hm3live]; decide)
          (by rw [hm3reg, lookup_registry]; rfl)
          (by rw [hm3live]; rfl)
          (by rw [hex2]; rfl)
          (by rw [hex2w]; exact hv1)
          (by
            rw [hex2w]
            exact activeHandle_fallback_ok agentEnv.DeviceType _ hv2)
        rw [Appstate.runChain_step _ _ _ _ _ _ hr2]
        simp only
        refine ⟨_, congrArg some (hfin _), ?_⟩
        simp only [hs, if_false]
        exact ha2

/-- Witness for C16: the stored serial number is set; the after-boot chain from the
persisted state `reset` ends in `active`. -/
theorem reset_after_boot_witness :
    ∃ m1, Appstate.setActiveStateFromBoot (services (fun _ execErr => execErr))
        Transition.ToState Transition.OnAfterBoot persistedState AppStateInit 2
        (sampleBootMachine sampleAppSet) = some (m1, none) ∧
      m1.activeState = AppStateActive :=
  (reset_after_boot_falls_back { DeviceType := DeviceTypeCPE } (fun _ execErr => execErr)
    (sampleBootMachine sampleAppSet) sampleAppSet 0 rfl rfl rfl rfl rfl).2.2.2.2

end Handlers


/-! ## Theorems: what first setup and migration store -/

namespace Handlers

open Appstate (AppState AppStateBoot AppStateInit AppStateActive AppStateUpdateConfig
  AppStateMaintenance AppStateZTPSetup AppStateReset)

theorem Act.bind_eq_ok {α β : Type} {x : Act α} {f : α → Act β} {s s1 : HState} {b : β}
    (h : (x >>= f) s = (.ok b, s1)) : ∃ a s2, x s = (.ok a, s2) ∧ f a s2 = (.ok b, s1) := by
  simp only [Act.bind_apply] at h
  cases hx : x s with
  | mk r s2 =>
    rw [hx] at h
    cases r with
    | ok a => exact ⟨a, s2, rfl, h⟩
    | error e => cases h

theorem Act.wrapErr_eq_ok {α : Type} {x : Act α} {msg : String} {s s1 : HState} {a : α}
    (h : (x.wrapErr msg) s = (.ok a, s1)) : x s = (.ok a, s1) := by
  unfold Act.wrapErr at h
  cases hx : x s with
  | mk r s2 =>
    rw [hx] at h
    cases r with
    | ok a2 => exact h
    | error e => cases h

theorem Act.attempt_eq_none {α : Type} {x : Act α} {s s1 : HState}
    (h : x.attempt s = (.ok none, s1)) : ∃ a, x s = (.ok a, s1) := by
  unfold Act.attempt at h
  cases hx : x s with
  | mk r s2 =>
    rw [hx] at h
    cases r with
    | ok a2 =>
      cases h
      exact ⟨a2, rfl⟩
    | error e => cases h

theorem inv_of_eq {α : Type} {R : HState → HState → Prop} {x : Act α} {s s1 : HState}
    {r : Except GoError α} (hinv : Act.Inv R x) (h : x s = (r, s1)) : R s s1 := by
  have := hinv.run s
  rw [h] at this
  exact this

theorem inv_ite {α : Type} {R : HState → HState → Prop} (c : Prop) [Decidable c]
    {x y : Act α} (hx : Act.Inv R x) (hy : Act.Inv R y) :
    Act.Inv R (if c then x else y) := by
  split
  · exact hx
  · exact hy

theorem subscribeLoop_appKept (l : List String) : Act.Inv AppKept (subscribeLoop l) := by
  induction l with
  | nil => exact inv_pure _
  | cons a l ih =>
    unfold subscribeLoop
    repeat' first
      | intro _
      | exact ih
      | exact inv_pure _
      | apply inv_bind
      | apply inv_wrapErr
      | apply inv_ite
      | (apply inv_callOf; intro s err; exact ⟨rfl, rfl⟩)
      | (apply inv_noteOf; intro s err; exact ⟨rfl, rfl⟩)
      | (apply inv_modifyWorld; intro s; exact ⟨rfl, rfl⟩)
      | (apply inv_pushUndo; intro s; exact ⟨rfl, rfl⟩)

theorem mergeConfig_app_none (stored new : Config) (h : new.App = none) :
    (mergeConfig stored new).App = stored.App := by
  simp [mergeConfig, mergeSection, h]

/-- What a successful `initDeviceSteps` leaves in the App section. -/
theorem initDeviceSteps_app (deviceType : String) (initConfig : InitConfig)
    (s s1 : HState) (app0 : AppSection) (happ : s.world.store.App = some app0)
    (h : initDeviceSteps deviceType initConfig s = (.ok (), s1)) :
    s1.world.store.App = some { app0 with
        OrchestratorTunnelAddr := hostOf initConfig.OFControllerAddr,
        OrchestratorAddrs :=
          defineNewAddrs initConfig.OrchestratorAddrs app0.OrchestratorAddrs } ∧
      s1.world.initRequest = s.world.initRequest := by
  unfold initDeviceSteps at h
  obtain ⟨_, s2, h2, h⟩ := Act.bind_eq_ok h
  have hs2 : s2 = s.record .ponyPause none := by
    cases h2
    rfl
  obtain ⟨cfg, s3, h3, h⟩ := Act.bind_eq_ok h
  have h3b := Act.wrapErr_eq_ok h3
  rw [getConfig_eq] at h3b
  have hcfg : cfg = s.world.store ∧ s3.world.store = s.world.store ∧
      s3.world.initRequest = s.world.initRequest := by
    cases ho : s2.world.outcome s2.world.calls .GetConfig with
    | none =>
      rw [ho] at h3b
      cases h3b
      rw [hs2]
      exact ⟨rfl, rfl, rfl⟩
    | some e =>
      rw [ho] at h3b
      cases h3b
  obtain ⟨hc1, hc2, hc3⟩ := hcfg
  subst hc1
  rw [happ] at h
  simp only at h
  obtain ⟨_, s4, h4, h⟩ := Act.bind_eq_ok h
  have h4b := Act.wrapErr_eq_ok h4
  rw [updateConfigWithTx_eq] at h4b
  have hs4 : s4.world.store.App = some { app0 with
        OrchestratorTunnelAddr := hostOf initConfig.OFControllerAddr,
        OrchestratorAddrs :=
          defineNewAddrs initConfig.OrchestratorAddrs app0.OrchestratorAddrs } ∧
      s4.world.initRequest = s.world.initRequest := by
    split at h4b
    · cases h4b
      exact ⟨rfl, hc3⟩
    · cases h4b
  have hrest : AppKept s4 s1 := by
    refine inv_of_eq ?_ h
    repeat' first
      | intro _
      | exact inv_pure _
      | exact inv_fail _
      | exact inv_getWorld
      | apply inv_bind
      | apply inv_wrapErr
      | (apply inv_callOf; intro s err; exact ⟨rfl, rfl⟩)
      | (apply inv_modifyWorld; intro s; exact ⟨mergeConfig_app_none _ _ rfl, rfl⟩)
      | (apply inv_pushUndo; intro s; exact ⟨rfl, rfl⟩)
      | split
      | unfold checkHubTunnels
  exact ⟨hrest.1.trans hs4.1, hrest.2.trans hs4.2⟩

theorem initDevice_app (deviceType : String) (initConfig : InitConfig)
    (s s1 : HState) (app0 : AppSection) (happ : s.world.store.App = some app0)
    (h : InitDevice deviceType initConfig s = (.ok none, s1)) :
    s1.world.store.App = some { app0 with
        OrchestratorTunnelAddr := hostOf initConfig.OFControllerAddr,
        OrchestratorAddrs :=
          defineNewAddrs initConfig.OrchestratorAddrs app0.OrchestratorAddrs } := by
  unfold InitDevice at h
  obtain ⟨w, s2, h2, h⟩ := Act.bind_eq_ok h
  cases h2
  split at h
  · obtain ⟨_, s3, h3, h⟩ := Act.bind_eq_ok h
    cases h
  · obtain ⟨_, s3, h3, h⟩ := Act.bind_eq_ok h
    cases h3
    obtain ⟨err, s4, h4, h⟩ := Act.bind_eq_ok h
    obtain ⟨_, s5, h5, h⟩ := Act.bind_eq_ok h
    cases h5
    obtain ⟨_, s6, h6, h⟩ := Act.bind_eq_ok h
    cases h6
    cases h
    obtain ⟨_, h7⟩ := Act.attempt_eq_none h4
    exact (initDeviceSteps_app deviceType initConfig _ s4 app0 (by exact happ) h7).1

theorem migrateFromOldVersion_app (serialNumber orchestratorAddr : String) (s s1 : HState)
    (h : ActiveStateHandler.migrateFromOldVersion serialNumber orchestratorAddr s =
      (.ok (), s1)) :
    ∃ app0, s.world.store.App = some app0 ∧
      s1.world.store.App = some { app0 with SerialNumber := serialNumber,
                                            OrchestratorAddrs := [orchestratorAddr] } := by
  unfold ActiveStateHandler.migrateFromOldVersion at h
  obtain ⟨cfg, s2, h2, h⟩ := Act.bind_eq_ok h
  have h2b := Act.wrapErr_eq_ok h2
  rw [getConfig_eq] at h2b
  have hcfg : cfg = s.world.store ∧ s2.world.store = s.world.store := by
    split at h2b
    · cases h2b
      exact ⟨rfl, rfl⟩
    · cases h2b
  obtain ⟨hc1, hc2⟩ := hcfg
  rw [hc1] at h
  cases happ : s.world.store.App with
  | none =>
    rw [happ] at h
    cases h
  | some app0 =>
    rw [happ] at h
    simp only at h
    obtain ⟨_, s3, h3, h⟩ := Act.bind_eq_ok h
    have h3b := Act.wrapErr_eq_ok h3
    rw [updateConfigWithTx_eq] at h3b
    have hs3 : s3.world.store.App = some { app0 with
        SerialNumber := serialNumber,
        OrchestratorAddrs := [orchestratorAddr] } := by
      split at h3b
      · cases h3b
        rfl
      · cases h3b
    have k : AppKept s3 s1 := by
      refine inv_of_eq ?_ h
      unfold ActiveStateHandler.activateServices ActiveStateHandler.subscribeQueueSubjects
        TryStartServiceWithTx ExecuteFunc websocketStart
      repeat' first
        | intro _
        | exact inv_pure _
        | exact inv_fail _
        | exact inv_getWorld
        | exact subscribeLoop_appKept _
        | apply inv_bind
        | apply inv_wrapErr
        | apply inv_ite
        | (apply inv_callOf; intro s err; exact ⟨rfl, rfl⟩)
        | (apply inv_noteOf; intro s err; exact ⟨rfl, rfl⟩)
        | (apply inv_modifyWorld; intro s; exact ⟨rfl, rfl⟩)
        | (apply inv_pushUndo; intro s; exact ⟨rfl, rfl⟩)
        | split
    exact ⟨app0, rfl, k.1.trans hs3⟩

end Handlers


/-! ## Theorems: subject toggles and rollback -/

namespace Handlers

open Appstate (AppState AppStateBoot AppStateInit AppStateActive AppStateUpdateConfig
  AppStateMaintenance AppStateZTPSetup AppStateReset)

theorem run_subjects (u : Undo) (w : World) :
    (u.run w).subjects = u.runSubjects w.subjects := by
  cases u <;> rfl

theorem rollSubjects_append (e1 e2 : List Undo) (S : Finset String) :
    rollSubjects (e1 ++ e2) S = rollSubjects e1 (rollSubjects e2 S) := by
  simp [rollSubjects, List.foldr_append]

theorem rollSubjects_neutral (entries : List Undo) (S : Finset String)
    (h : ∀ u ∈ entries, u.isToggle = false) : rollSubjects entries S = S := by
  induction entries with
  | nil => rfl
  | cons u rest ih =>
    have hu := h u (List.mem_cons_self _ _)
    have hrest := ih (fun v hv => h v (List.mem_cons_of_mem _ hv))
    simp only [rollSubjects, List.foldr_cons] at hrest ⊢
    rw [hrest]
    cases u <;> first | rfl | simp [Undo.isToggle] at hu

theorem restores_refl (s : HState) : Restores s s :=
  ⟨[], by simp, rfl⟩

theorem restores_trans {s s1 s2 : HState} (h1 : Restores s s1) (h2 : Restores s1 s2) :
    Restores s s2 := by
  obtain ⟨e1, ha, hb⟩ := h1
  obtain ⟨e2, hc, hd⟩ := h2
  refine ⟨e1 ++ e2, by rw [hc, ha, List.append_assoc], ?_⟩
  rw [rollSubjects_append, hd, hb]

theorem restores_of_neutral {s s1 : HState} (h : Neutral s s1) : Restores s s1 := by
  obtain ⟨ha, e, hb, hc⟩ := h
  exact ⟨e, hb, by rw [rollSubjects_neutral e _ hc, ha]⟩

theorem ht_pure {α : Type} (X : Finset String) (a : α) (Q : α → Finset String → Prop)
    (h : Q a X) : HT X (pure a : Act α) Q := by
  constructor
  intro s hs
  refine ⟨restores_refl s, ?_⟩
  intro b hb
  cases hb
  rw [← hs] at h
  exact h

theorem ht_fail {α : Type} (X : Finset String) (e : GoError)
    (Q : α → Finset String → Prop) : HT X (Act.fail e : Act α) Q := by
  constructor
  intro s _
  refine ⟨restores_refl s, ?_⟩
  intro b hb
  cases hb

theorem ht_bind {α β : Type} {X : Finset String} {x : Act α} {f : α → Act β}
    {Q : α → Finset String → Prop} {Q2 : β → Finset String → Prop}
    (hx : HT X x Q) (hf : ∀ a Y, Q a Y → HT Y (f a) Q2) : HT X (x >>= f) Q2 := by
  constructor
  intro s hs
  obtain ⟨h1, h2⟩ := hx.run s hs
  simp only [Act.bind_apply]
  cases hxs : x s with
  | mk r s1 =>
    rw [hxs] at h1 h2
    cases r with
    | error e =>
      refine ⟨h1, ?_⟩
      intro b hb
      cases hb
    | ok a =>
      obtain ⟨h3, h4⟩ := (hf a _ (h2 a rfl)).run s1 rfl
      exact ⟨restores_trans h1 h3, h4⟩

theorem ht_wrapErr {α : Type} {X : Finset String} {x : Act α} {msg : String}
    {Q : α → Finset String → Prop} (hx : HT X x Q) : HT X (x.wrapErr msg) Q := by
  constructor
  intro s hs
  obtain ⟨h1, h2⟩ := hx.run s hs
  unfold Act.wrapErr
  cases hxs : x s with
  | mk r s1 =>
    rw [hxs] at h1 h2
    cases r with
    | error e =>
      refine ⟨h1, ?_⟩
      intro b hb
      cases hb
    | ok a => exact ⟨h1, h2⟩

theorem ht_of_inv {α : Type} (X : Finset String) {x : Act α} (hx : Act.Inv Neutral x) :
    HT X x (fun _ Y => Y = X) := by
  constructor
  intro s hs
  have h := hx.run s
  refine ⟨restores_of_neutral h, ?_⟩
  intro a _
  rw [h.1, hs]

theorem ht_conseq {α : Type} {X : Finset String} {x : Act α}
    {Q Q2 : α → Finset String → Prop} (hx : HT X x Q) (h : ∀ a Y, Q a Y → Q2 a Y) :
    HT X x Q2 := by
  constructor
  intro s hs
  obtain ⟨h1, h2⟩ := hx.run s hs
  exact ⟨h1, fun a ha => h a _ (h2 a ha)⟩

theorem ht_neutral_bind {α β : Type} {X : Finset String} {x : Act α} {f : α → Act β}
    {Q : β → Finset String → Prop} (hx : Act.Inv Neutral x) (hf : ∀ a, HT X (f a) Q) :
    HT X (x >>= f) Q :=
  ht_bind (ht_of_inv X hx) (fun a Y hY => by rw [hY]; exact hf a)

theorem ht_bind_neutral {α β : Type} {X : Finset String} {x : Act α} {f : α → Act β}
    {Q : Finset String → Prop} (hx : HT X x (fun _ Y => Q Y))
    (hf : ∀ a, Act.Inv Neutral (f a)) : HT X (x >>= f) (fun _ Y => Q Y) :=
  ht_bind hx (fun a Y hY => ht_conseq (ht_of_inv Y (hf a)) (fun _ Z hZ => by rw [hZ]; exact hY))

theorem ht_subscribeLoop (l : List String) (X : Finset String) (hnd : l.Nodup)
    (hout : ∀ a ∈ l, a ∉ X) :
    HT X (subscribeLoop l) (fun _ Y => Y = X ∪ l.toFinset) := by
  induction l generalizing X with
  | nil => exact ht_pure X () _ (by simp)
  | cons a rest ih =>
    unfold subscribeLoop
    have ha : a ∉ X := hout a (List.mem_cons_self _ _)
    have hstep : HT X ((ExecuteFunc (ActivateHandler a) (.DeactivateHandler a)).wrapErr
        "subscribeQueueSubjects: ") (fun _ Y => Y = insert a X) := by
      apply ht_wrapErr
      constructor
      intro s hs
      cases ho : s.world.outcome s.world.calls (.ActivateHandler a) with
      | some e =>
        have hrun : ExecuteFunc (ActivateHandler a) (.DeactivateHandler a) s =
            (.error e, s.record (.ActivateHandler a) (some e)) := by
          simp [ExecuteFunc, ActivateHandler, call, ho, HState.record]
        rw [hrun]
        refine ⟨⟨[], by simp [HState.record], rfl⟩, ?_⟩
        intro b hb
        cases hb
      | none =>
        have hrun : ExecuteFunc (ActivateHandler a) (.DeactivateHandler a) s =
            (.ok (), { world := { (s.record (.ActivateHandler a) none).world with
                         subjects := insert a s.world.subjects },
                       undo := s.undo ++ [.DeactivateHandler a] }) := by
          simp [ExecuteFunc, ActivateHandler, call, ho, HState.record, modifyWorld, pushUndo]
        rw [hrun]
        refine ⟨⟨[.DeactivateHandler a], rfl, ?_⟩, ?_⟩
        · simp only [rollSubjects, List.foldr_cons, List.foldr_nil, Undo.runSubjects]
          rw [hs]
          exact Finset.erase_insert ha
        · intro b _
          simp only
          rw [hs]
    refine ht_bind hstep ?_
    intro _ Y hY
    rw [hY]
    have hrest := ih (insert a X) (List.nodup_cons.mp hnd).2 (by
      intro b hb hmem
      rcases Finset.mem_insert.mp hmem with h | h
      · rw [h] at hb
        exact (List.nodup_cons.mp hnd).1 hb
      · exact hout b (List.mem_cons_of_mem _ hb) h)
    refine ht_conseq hrest ?_
    intro _ Z hZ
    rw [hZ]
    ext c
    simp only [Finset.mem_union, Finset.mem_insert, List.mem_toFinset, List.mem_cons]
    tauto

theorem ht_unsubscribeLoop (l : List String) (X : Finset String) (hnd : l.Nodup)
    (hin : ∀ a ∈ l, a ∈ X) :
    HT X (unsubscribeLoop l) (fun _ Y => Y = X \ l.toFinset) := by
  induction l generalizing X with
  | nil => exact ht_pure X () _ (by simp)
  | cons a rest ih =>
    unfold unsubscribeLoop
    have ha : a ∈ X := hin a (List.mem_cons_self _ _)
    have hstep : HT X ((ExecuteFunc (DeactivateHandler a) (.ActivateHandler a)).wrapErr
        "unsubscribeQueueSubjects: ") (fun _ Y => Y = X.erase a) := by
      apply ht_wrapErr
      constructor
      intro s hs
      cases ho : s.world.outcome s.world.calls (.DeactivateHandler a) with
      | some e =>
        have hrun : ExecuteFunc (DeactivateHandler a) (.ActivateHandler a) s =
            (.error e, s.record (.DeactivateHandler a) (some e)) := by
          simp [ExecuteFunc, DeactivateHandler, call, ho, HState.record]
        rw [hrun]
        refine ⟨⟨[], by simp [HState.record], rfl⟩, ?_⟩
        intro b hb
        cases hb
      | none =>
        have hrun : ExecuteFunc (DeactivateHandler a) (.ActivateHandler a) s =
            (.ok (), { world := { (s.record (.DeactivateHandler a) none).world with
                         subjects := s.world.subjects.erase a },
                       undo := s.undo ++ [.ActivateHandler a] }) := by
          simp [ExecuteFunc, DeactivateHandler, call, ho, HState.record, modifyWorld,
            pushUndo]
        rw [hrun]
        refine ⟨⟨[.ActivateHandler a], rfl, ?_⟩, ?_⟩
        · simp only [rollSubjects, List.foldr_cons, List.foldr_nil, Undo.runSubjects]
          rw [hs]
          exact Finset.insert_erase ha
        · intro b _
          simp only
          rw [hs]
    refine ht_bind hstep ?_
    intro _ Y hY
    rw [hY]
    have hrest := ih (X.erase a) (List.nodup_cons.mp hnd).2 (by
      intro b hb
      refine Finset.mem_erase.mpr ⟨?_, hin b (List.mem_cons_of_mem _ hb)⟩
      intro h
      rw [h] at hb
      exact (List.nodup_cons.mp hnd).1 hb)
    refine ht_conseq hrest ?_
    intro _ Z hZ
    rw [hZ]
    ext c
    simp only [Finset.mem_sdiff, Finset.mem_erase, List.mem_toFinset, List.mem_cons]
    tauto

theorem neutral_world (s : HState) (w : World) (h : w.subjects = s.world.subjects) :
    Neutral s { s with world := w } :=
  ⟨h, [], by simp, by simp⟩

theorem neutral_push (s : HState) (u : Undo) (h : u.isToggle = false) :
    Neutral s { s with undo := s.undo ++ [u] } :=
  ⟨rfl, [u], rfl, by simpa using h⟩

theorem neutral_checkSchemes (addrs : List String) :
    Act.Inv Neutral (ActiveStateHandler.checkSchemes addrs) := by
  constructor
  intro s
  rw [checkSchemes_eq]
  split <;> exact IsRefl.refl s

theorem neutral_boot_handle (t : Transition) :
    Act.Inv Neutral (BootStateHandler.Handle t) := by
  unfold BootStateHandler.Handle
  repeat' first
    | intro _
    | exact inv_pure _
    | exact inv_fail _
    | exact inv_getWorld
    | exact neutral_checkSchemes _
    | apply inv_bind
    | apply inv_wrapErr
    | apply inv_attempt
    | apply inv_ite
    | (apply inv_callOf; intro s err; exact neutral_world s _ rfl)
    | (apply inv_noteOf; intro s err; exact neutral_world s _ rfl)
    | (apply inv_modifyWorld; intro s; exact neutral_world s _ rfl)
    | (apply inv_pushUndo; intro s; exact neutral_push s _ rfl)
    | (apply inv_nilDeref; intro s; exact neutral_world s _ rfl)
    | split
    | unfold checkHubTunnels
    | unfold UpdateConfigStateHandler.checkHubTunnels
    | unfold MaintenanceStateHandler.installUpdateManager

theorem neutral_updateConfig_handle (deviceType : String) (t : Transition) :
    Act.Inv Neutral (UpdateConfigStateHandler.Handle deviceType t) := by
  unfold UpdateConfigStateHandler.Handle
  repeat' first
    | intro _
    | exact inv_pure _
    | exact inv_fail _
    | exact inv_getWorld
    | exact neutral_checkSchemes _
    | apply inv_bind
    | apply inv_wrapErr
    | apply inv_attempt
    | apply inv_ite
    | (apply inv_callOf; intro s err; exact neutral_world s _ rfl)
    | (apply inv_noteOf; intro s err; exact neutral_world s _ rfl)
    | (apply inv_modifyWorld; intro s; exact neutral_world s _ rfl)
    | (apply inv_pushUndo; intro s; exact neutral_push s _ rfl)
    | (apply inv_nilDeref; intro s; exact neutral_world s _ rfl)
    | split
    | unfold checkHubTunnels
    | unfold UpdateConfigStateHandler.checkHubTunnels
    | unfold MaintenanceStateHandler.installUpdateManager

theorem neutral_maintenance_handle (t : Transition) :
    Act.Inv Neutral (MaintenanceStateHandler.Handle t) := by
  unfold MaintenanceStateHandler.Handle
  repeat' first
    | intro _
    | exact inv_pure _
    | exact inv_fail _
    | exact inv_getWorld
    | exact neutral_checkSchemes _
    | apply inv_bind
    | apply inv_wrapErr
    | apply inv_attempt
    | apply inv_ite
    | (apply inv_callOf; intro s err; exact neutral_world s _ rfl)
    | (apply inv_noteOf; intro s err; exact neutral_world s _ rfl)
    | (apply inv_modifyWorld; intro s; exact neutral_world s _ rfl)
    | (apply inv_pushUndo; intro s; exact neutral_push s _ rfl)
    | (apply inv_nilDeref; intro s; exact neutral_world s _ rfl)
    | split
    | unfold checkHubTunnels
    | unfold UpdateConfigStateHandler.checkHubTunnels
    | unfold MaintenanceStateHandler.installUpdateManager

theorem neutral_ztpSetup_handle (t : Transition) :
    Act.Inv Neutral (ZTPSetupHandler.Handle t) := by
  unfold ZTPSetupHandler.Handle
  repeat' first
    | intro _
    | exact inv_pure _
    | exact inv_fail _
    | exact inv_getWorld
    | exact neutral_checkSchemes _
    | apply inv_bind
    | apply inv_wrapErr
    | apply inv_attempt
    | apply inv_ite
    | (apply inv_callOf; intro s err; exact neutral_world s _ rfl)
    | (apply inv_noteOf; intro s err; exact neutral_world s _ rfl)
    | (apply inv_modifyWorld; intro s; exact neutral_world s _ rfl)
    | (apply inv_pushUndo; intro s; exact neutral_push s _ rfl)
    | (apply inv_nilDeref; intro s; exact neutral_world s _ rfl)
    | split
    | unfold checkHubTunnels
    | unfold UpdateConfigStateHandler.checkHubTunnels
    | unfold MaintenanceStateHandler.installUpdateManager

theorem neutral_reset_handle (deviceType : String) (t : Transition) :
    Act.Inv Neutral (ResetStateHandler.Handle deviceType t) := by
  unfold ResetStateHandler.Handle
  repeat' first
    | intro _
    | exact inv_pure _
    | exact inv_fail _
    | exact inv_getWorld
    | exact neutral_checkSchemes _
    | apply inv_bind
    | apply inv_wrapErr
    | apply inv_attempt
    | apply inv_ite
    | (apply inv_callOf; intro s err; exact neutral_world s _ rfl)
    | (apply inv_noteOf; intro s err; exact neutral_world s _ rfl)
    | (apply inv_modifyWorld; intro s; exact neutral_world s _ rfl)
    | (apply inv_pushUndo; intro s; exact neutral_push s _ rfl)
    | (apply inv_nilDeref; intro s; exact neutral_world s _ rfl)
    | split
    | unfold checkHubTunnels
    | unfold UpdateConfigStateHandler.checkHubTunnels
    | unfold MaintenanceStateHandler.installUpdateManager

theorem neutral_updateConfigWithTx (cfg : Config) (skipGenerators : Bool) :
    Act.Inv Neutral (UpdateConfigWithTx cfg skipGenerators) := by
  unfold UpdateConfigWithTx
  repeat' first
    | intro _
    | exact inv_pure _
    | exact inv_fail _
    | exact inv_getWorld
    | exact neutral_checkSchemes _
    | apply inv_bind
    | apply inv_wrapErr
    | apply inv_attempt
    | apply inv_ite
    | (apply inv_callOf; intro s err; exact neutral_world s _ rfl)
    | (apply inv_noteOf; intro s err; exact neutral_world s _ rfl)
    | (apply inv_modifyWorld; intro s; exact neutral_world s _ rfl)
    | (apply inv_pushUndo; intro s; exact neutral_push s _ rfl)
    | (apply inv_nilDeref; intro s; exact neutral_world s _ rfl)
    | split
    | unfold checkHubTunnels
    | unfold UpdateConfigStateHandler.checkHubTunnels
    | unfold MaintenanceStateHandler.installUpdateManager

theorem neutral_waitDeviceInit (deviceType : String) (waitInitChan : InitChan) :
    Act.Inv Neutral (ActiveStateHandler.waitDeviceInit deviceType waitInitChan) := by
  unfold ActiveStateHandler.waitDeviceInit
  repeat' first
    | intro _
    | exact inv_pure _
    | exact inv_fail _
    | exact inv_getWorld
    | exact neutral_checkSchemes _
    | apply inv_bind
    | apply inv_wrapErr
    | apply inv_attempt
    | apply inv_ite
    | (apply inv_callOf; intro s err; exact neutral_world s _ rfl)
    | (apply inv_noteOf; intro s err; exact neutral_world s _ rfl)
    | (apply inv_modifyWorld; intro s; exact neutral_world s _ rfl)
    | (apply inv_pushUndo; intro s; exact neutral_push s _ rfl)
    | (apply inv_nilDeref; intro s; exact neutral_world s _ rfl)
    | split
    | unfold checkHubTunnels
    | unfold UpdateConfigStateHandler.checkHubTunnels
    | unfold MaintenanceStateHandler.installUpdateManager

theorem ht_ite {α : Type} {X : Finset String} (c : Prop) [Decidable c] {x y : Act α}
    {Q : α → Finset String → Prop} (hx : HT X x Q) (hy : HT X y Q) :
    HT X (if c then x else y) Q := by
  split
  · exact hx
  · exact hy

theorem ht_nilDeref {α : Type} (X : Finset String) (Q : α → Finset String → Prop) :
    HT X (Act.nilDeref : Act α) Q := by
  constructor
  intro s _
  refine ⟨⟨[], by simp [Act.nilDeref], rfl⟩, ?_⟩
  intro b hb
  cases hb

theorem ht_restoreInitState (agentEnv : Agent) (X : Finset String)
    (hout : ∀ a ∈ InitStateHandler.mqSubjects, a ∉ X) :
    HT X (InitStateHandler.restoreInitState agentEnv)
      (fun _ Y => Y = X ∪ InitStateHandler.mqSubjects.toFinset) := by
  have hsub := ht_subscribeLoop InitStateHandler.mqSubjects X (by decide) hout
  unfold InitStateHandler.restoreInitState
  repeat' first
    | intro _
    | exact ht_fail _ _ _
    | exact ht_nilDeref _ _
    | exact hsub
    | apply ht_wrapErr
    | apply ht_ite
    | (apply ht_neutral_bind
       focus
         repeat' first
           | intro _
           | exact inv_pure _
           | exact inv_fail _
           | exact inv_getWorld
           | exact neutral_checkSchemes _
           | exact neutral_waitDeviceInit _ _
           | apply inv_bind
           | apply inv_wrapErr
           | apply inv_attempt
           | apply inv_ite
           | (apply inv_callOf; intro s err; exact neutral_world s _ rfl)
           | (apply inv_noteOf; intro s err; exact neutral_world s _ rfl)
           | (apply inv_modifyWorld; intro s; exact neutral_world s _ rfl)
           | (apply inv_pushUndo; intro s; exact neutral_push s _ rfl)
           | (apply inv_nilDeref; intro s; exact neutral_world s _ rfl)
           | split
           | unfold checkHubTunnels
           | unfold UpdateConfigStateHandler.checkHubTunnels
           | unfold MaintenanceStateHandler.installUpdateManager
         done)
    | (apply ht_bind_neutral
       rotate_left
       focus
         intro _
         repeat' first
           | intro _
           | exact inv_pure _
           | exact inv_fail _
           | exact inv_getWorld
           | exact neutral_checkSchemes _
           | exact neutral_waitDeviceInit _ _
           | apply inv_bind
           | apply inv_wrapErr
           | apply inv_attempt
           | apply inv_ite
           | (apply inv_callOf; intro s err; exact neutral_world s _ rfl)
           | (apply inv_noteOf; intro s err; exact neutral_world s _ rfl)
           | (apply inv_modifyWorld; intro s; exact neutral_world s _ rfl)
           | (apply inv_pushUndo; intro s; exact neutral_push s _ rfl)
           | (apply inv_nilDeref; intro s; exact neutral_world s _ rfl)
           | split
           | unfold checkHubTunnels
           | unfold UpdateConfigStateHandler.checkHubTunnels
           | unfold MaintenanceStateHandler.installUpdateManager
         done)
    | split
    | unfold ActiveStateHandler.subscribeQueueSubjects
    | unfold InitStateHandler.subscribeQueueSubjects

theorem ht_restoreActiveState (X : Finset String)
    (hout : ∀ a ∈ ActiveStateHandler.mqSubjects, a ∉ X) :
    HT X ActiveStateHandler.restoreActiveState
      (fun _ Y => Y = X ∪ ActiveStateHandler.mqSubjects.toFinset) := by
  have hsub := ht_subscribeLoop ActiveStateHandler.mqSubjects X (by decide) hout
  unfold ActiveStateHandler.restoreActiveState
  repeat' first
    | intro _
    | exact ht_fail _ _ _
    | exact ht_nilDeref _ _
    | exact hsub
    | apply ht_wrapErr
    | apply ht_ite
    | (apply ht_neutral_bind
       focus
         repeat' first
           | intro _
           | exact inv_pure _
           | exact inv_fail _
           | exact inv_getWorld
           | exact neutral_checkSchemes _
           | exact neutral_waitDeviceInit _ _
           | apply inv_bind
           | apply inv_wrapErr
           | apply inv_attempt
           | apply inv_ite
           | (apply inv_callOf; intro s err; exact neutral_world s _ rfl)
           | (apply inv_noteOf; intro s err; exact neutral_world s _ rfl)
           | (apply inv_modifyWorld; intro s; exact neutral_world s _ rfl)
           | (apply inv_pushUndo; intro s; exact neutral_push s _ rfl)
           | (apply inv_nilDeref; intro s; exact neutral_world s _ rfl)
           | split
           | unfold checkHubTunnels
           | unfold UpdateConfigStateHandler.checkHubTunnels
           | unfold MaintenanceStateHandler.installUpdateManager
         done)
    | (apply ht_bind_neutral
       rotate_left
       focus
         intro _
         repeat' first
           | intro _
           | exact inv_pure _
           | exact inv_fail _
           | exact inv_getWorld
           | exact neutral_checkSchemes _
           | exact neutral_waitDeviceInit _ _
           | apply inv_bind
           | apply inv_wrapErr
           | apply inv_attempt
           | apply inv_ite
           | (apply inv_callOf; intro s err; exact neutral_world s _ rfl)
           | (apply inv_noteOf; intro s err; exact neutral_world s _ rfl)
           | (apply inv_modifyWorld; intro s; exact neutral_world s _ rfl)
           | (apply inv_pushUndo; intro s; exact neutral_push s _ rfl)
           | (apply inv_nilDeref; intro s; exact neutral_world s _ rfl)
           | split
           | unfold checkHubTunnels
           | unfold UpdateConfigStateHandler.checkHubTunnels
           | unfold MaintenanceStateHandler.installUpdateManager
         done)
    | split
    | unfold ActiveStateHandler.subscribeQueueSubjects
    | unfold InitStateHandler.subscribeQueueSubjects

theorem ht_migrateFromOldVersion (serialNumber orchestratorAddr : String)
    (X : Finset String) (hout : ∀ a ∈ ActiveStateHandler.mqSubjects, a ∉ X) :
    HT X (ActiveStateHandler.migrateFromOldVersion serialNumber orchestratorAddr)
      (fun _ Y => Y = X ∪ ActiveStateHandler.mqSubjects.toFinset) := by
  have hsub := ht_subscribeLoop ActiveStateHandler.mqSubjects X (by decide) hout
  unfold ActiveStateHandler.migrateFromOldVersion
  repeat' first
    | intro _
    | exact ht_fail _ _ _
    | exact ht_nilDeref _ _
    | exact hsub
    | apply ht_wrapErr
    | apply ht_ite
    | (apply ht_neutral_bind
       focus
         repeat' first
           | intro _
           | exact inv_pure _
           | exact inv_fail _
           | exact inv_getWorld
           | exact neutral_checkSchemes _
           | exact neutral_waitDeviceInit _ _
           | apply inv_bind
           | apply inv_wrapErr
           | apply inv_attempt
           | apply inv_ite
           | (apply inv_callOf; intro s err; exact neutral_world s _ rfl)
           | (apply inv_noteOf; intro s err; exact neutral_world s _ rfl)
           | (apply inv_modifyWorld; intro s; exact neutral_world s _ rfl)
           | (apply inv_pushUndo; intro s; exact neutral_push s _ rfl)
           | (apply inv_nilDeref; intro s; exact neutral_world s _ rfl)
           | split
           | unfold checkHubTunnels
           | unfold UpdateConfigStateHandler.checkHubTunnels
           | unfold MaintenanceStateHandler.installUpdateManager
         done)
    | (apply ht_bind_neutral
       rotate_left
       focus
         intro _
         repeat' first
           | intro _
           | exact inv_pure _
           | exact inv_fail _
           | exact inv_getWorld
           | exact neutral_checkSchemes _
           | exact neutral_waitDeviceInit _ _
           | apply inv_bind
           | apply inv_wrapErr
           | apply inv_attempt
           | apply inv_ite
           | (apply inv_callOf; intro s err; exact neutral_world s _ rfl)
           | (apply inv_noteOf; intro s err; exact neutral_world s _ rfl)
           | (apply inv_modifyWorld; intro s; exact neutral_world s _ rfl)
           | (apply inv_pushUndo; intro s; exact neutral_push s _ rfl)
           | (apply inv_nilDeref; intro s; exact neutral_world s _ rfl)
           | split
           | unfold checkHubTunnels
           | unfold UpdateConfigStateHandler.checkHubTunnels
           | unfold MaintenanceStateHandler.installUpdateManager
         done)
    | split
    | unfold ActiveStateHandler.subscribeQueueSubjects
    | unfold InitStateHandler.subscribeQueueSubjects

theorem ht_runFirstSetup (deviceType serialNumber : String)
    (orchestratorAddrs : List String)
    (X : Finset String) (hout : ∀ a ∈ ActiveStateHandler.mqSubjects, a ∉ X) :
    HT X (ActiveStateHandler.runFirstSetup deviceType serialNumber orchestratorAddrs)
      (fun _ Y => Y = X ∪ ActiveStateHandler.mqSubjects.toFinset) := by
  have hsub := ht_subscribeLoop ActiveStateHandler.mqSubjects X (by decide) hout
  unfold ActiveStateHandler.runFirstSetup
  repeat' first
    | intro _
    | exact ht_fail _ _ _
    | exact ht_nilDeref _ _
    | exact hsub
    | apply ht_wrapErr
    | apply ht_ite
    | (apply ht_neutral_bind
       focus
         repeat' first
           | intro _
           | exact inv_pure _
           | exact inv_fail _
           | exact inv_getWorld
           | exact neutral_checkSchemes _
           | exact neutral_waitDeviceInit _ _
           | apply inv_bind
           | apply inv_wrapErr
           | apply inv_attempt
           | apply inv_ite
           | (apply inv_callOf; intro s err; exact neutral_world s _ rfl)
           | (apply inv_noteOf; intro s err; exact neutral_world s _ rfl)
           | (apply inv_modifyWorld; intro s; exact neutral_world s _ rfl)
           | (apply inv_pushUndo; intro s; exact neutral_push s _ rfl)
           | (apply inv_nilDeref; intro s; exact neutral_world s _ rfl)
           | split
           | unfold checkHubTunnels
           | unfold UpdateConfigStateHandler.checkHubTunnels
           | unfold MaintenanceStateHandler.installUpdateManager
         done)
    | (apply ht_bind_neutral
       rotate_left
       focus
         intro _
         repeat' first
           | intro _
           | exact inv_pure _
           | exact inv_fail _
           | exact inv_getWorld
           | exact neutral_checkSchemes _
           | exact neutral_waitDeviceInit _ _
           | apply inv_bind
           | apply inv_wrapErr
           | apply inv_attempt
           | apply inv_ite
           | (apply inv_callOf; intro s err; exact neutral_world s _ rfl)
           | (apply inv_noteOf; intro s err; exact neutral_world s _ rfl)
           | (apply inv_modifyWorld; intro s; exact neutral_world s _ rfl)
           | (apply inv_pushUndo; intro s; exact neutral_push s _ rfl)
           | (apply inv_nilDeref; intro s; exact neutral_world s _ rfl)
           | split
           | unfold checkHubTunnels
           | unfold UpdateConfigStateHandler.checkHubTunnels
           | unfold MaintenanceStateHandler.installUpdateManager
         done)
    | split
    | unfold ActiveStateHandler.subscribeQueueSubjects
    | unfold InitStateHandler.subscribeQueueSubjects

theorem ht_init_handle (agentEnv : Agent) (t : Transition) (X : Finset String)
    (hout : ∀ a ∈ InitStateHandler.mqSubjects, a ∉ X) :
    HT X (InitStateHandler.Handle agentEnv t)
      (fun r Y => (r.Transition = none ∧ Y = X ∪ InitStateHandler.mqSubjects.toFinset) ∨
        ((r.Transition.map Transition.isMigrate) = some true ∧ Y = X)) := by
  have hsub := ht_subscribeLoop InitStateHandler.mqSubjects X (by decide) hout
  have hres := ht_restoreInitState agentEnv X hout
  unfold InitStateHandler.Handle
  split
  · split
    · exact ht_pure _ _ _ (Or.inr ⟨rfl, rfl⟩)
    · exact ht_bind (ht_wrapErr hres) (fun _ Y hY => ht_pure _ _ _ (Or.inl ⟨rfl, hY⟩))
  · exact ht_bind (ht_wrapErr hres) (fun _ Y hY => ht_pure _ _ _ (Or.inl ⟨rfl, hY⟩))
  · exact ht_bind (ht_wrapErr hres) (fun _ Y hY => ht_pure _ _ _ (Or.inl ⟨rfl, hY⟩))
  · exact ht_bind (ht_wrapErr hsub) (fun _ Y hY => ht_pure _ _ _ (Or.inl ⟨rfl, hY⟩))
  · exact ht_bind (ht_wrapErr hsub) (fun _ Y hY => ht_pure _ _ _ (Or.inl ⟨rfl, hY⟩))
  · exact ht_fail _ _ _

theorem neutral_activateServices : Act.Inv Neutral ActiveStateHandler.activateServices := by
  unfold ActiveStateHandler.activateServices
  repeat' first
    | intro _
    | exact inv_pure _
    | exact inv_fail _
    | exact inv_getWorld
    | exact neutral_checkSchemes _
    | apply inv_bind
    | apply inv_wrapErr
    | apply inv_attempt
    | apply inv_ite
    | (apply inv_callOf; intro s err; exact neutral_world s _ rfl)
    | (apply inv_noteOf; intro s err; exact neutral_world s _ rfl)
    | (apply inv_modifyWorld; intro s; exact neutral_world s _ rfl)
    | (apply inv_pushUndo; intro s; exact neutral_push s _ rfl)
    | (apply inv_nilDeref; intro s; exact neutral_world s _ rfl)
    | split
    | unfold checkHubTunnels
    | unfold UpdateConfigStateHandler.checkHubTunnels
    | unfold MaintenanceStateHandler.installUpdateManager

theorem ht_active_handle (deviceType : String) (t : Transition) (X : Finset String)
    (hout : ∀ a ∈ ActiveStateHandler.mqSubjects, a ∉ X) :
    HT X (ActiveStateHandler.Handle deviceType t)
      (fun r Y => r.Transition = none ∧ Y = X ∪ ActiveStateHandler.mqSubjects.toFinset) := by
  have hsub := ht_subscribeLoop ActiveStateHandler.mqSubjects X (by decide) hout
  have hres := ht_restoreActiveState X hout
  unfold ActiveStateHandler.Handle
  split
  · exact ht_bind (ht_wrapErr hres) (fun _ Y hY => ht_pure _ _ _ ⟨rfl, hY⟩)
  · exact ht_bind (ht_wrapErr (ht_runFirstSetup _ _ _ X hout))
      (fun _ Y hY => ht_pure _ _ _ ⟨rfl, hY⟩)
  · exact ht_bind (ht_wrapErr (ht_migrateFromOldVersion _ _ X hout))
      (fun _ Y hY => ht_pure _ _ _ ⟨rfl, hY⟩)
  · exact ht_bind (ht_wrapErr hres) (fun _ Y hY => ht_pure _ _ _ ⟨rfl, hY⟩)
  · exact ht_bind (ht_wrapErr hsub) (fun _ Y hY => ht_pure _ _ _ ⟨rfl, hY⟩)
  · refine ht_bind (ht_wrapErr hsub) (fun _ Y hY => ?_)
    refine ht_bind (ht_of_inv Y (inv_wrapErr _ neutral_activateServices)) (fun _ Z hZ => ?_)
    exact ht_pure _ _ _ ⟨rfl, hZ.trans hY⟩
  · exact ht_fail _ _ _

theorem ht_init_onExit (t : Transition) (X : Finset String)
    (hin : t.isMigrate = false → ∀ a ∈ InitStateHandler.mqSubjects, a ∈ X) :
    HT X (InitStateHandler.OnExit t)
      (fun _ Y => Y = if t.isMigrate = true then X
        else X \ InitStateHandler.mqSubjects.toFinset) := by
  unfold InitStateHandler.OnExit
  split
  · exact ht_pure _ _ _ rfl
  · rename_i hne
    have hm : t.isMigrate = false := by
      cases t <;> first | rfl | exact absurd rfl (hne _ _)
    rw [hm]
    exact ht_wrapErr (ht_unsubscribeLoop InitStateHandler.mqSubjects X (by decide) (hin hm))

theorem ht_active_onExit (t : Transition) (X : Finset String)
    (hin : ∀ a ∈ ActiveStateHandler.mqSubjects, a ∈ X) :
    HT X (ActiveStateHandler.OnExit t)
      (fun _ Y => Y = X \ ActiveStateHandler.mqSubjects.toFinset) :=
  ht_wrapErr (ht_unsubscribeLoop ActiveStateHandler.mqSubjects X (by decide) hin)

theorem undoWorld_append (a b : List (Appstate.UndoStep World)) (w : World) :
    Appstate.undoWorld (a ++ b) w = Appstate.undoWorld a (Appstate.undoWorld b w) := by
  simp [Appstate.undoWorld, List.foldr_append]

theorem undoWorld_external (entries : List Undo) (w : World) :
    (Appstate.undoWorld ((entries.map Undo.toStep).map Appstate.UndoStep.external) w).subjects =
      rollSubjects entries w.subjects := by
  induction entries with
  | nil => rfl
  | cons u rest ih =>
    have h : Appstate.undoWorld
        (((u :: rest).map Undo.toStep).map Appstate.UndoStep.external) w =
        u.run (Appstate.undoWorld
          ((rest.map Undo.toStep).map Appstate.UndoStep.external) w) := by
      cases u <;> rfl
    rw [h, run_subjects, ih]
    rfl

theorem undoes_nil (S : Finset String) : Undoes [] S S :=
  fun _ hw => hw

theorem undoes_append {a b : List (Appstate.UndoStep World)} {S S1 S2 : Finset String}
    (ha : Undoes a S1 S) (hb : Undoes b S2 S1) : Undoes (a ++ b) S2 S := by
  intro w hw
  rw [undoWorld_append]
  exact ha _ (hb w hw)

theorem undoes_restoreState (oldStateID : AppState) (S : Finset String) :
    Undoes [Appstate.UndoStep.restoreState oldStateID] S S :=
  fun _ hw => hw

theorem toEffect_undoes {α : Type} {X : Finset String} {x : Act α}
    {Q : α → Finset String → Prop} (h : HT X x Q) (w : World) (hw : w.subjects = X) :
    Undoes ((x.toEffect w).undo.map Appstate.UndoStep.external)
        (x.toEffect w).world.subjects X ∧
      ∀ a, (x.toEffect w).ret = .ok a → Q a (x.toEffect w).world.subjects := by
  obtain ⟨⟨entries, h1, h2⟩, h3⟩ := h.run { world := w, undo := [] } hw
  refine ⟨?_, h3⟩
  intro w1 hw1
  rw [toEffect_undo, h1, List.nil_append, undoWorld_external, hw1, toEffect_world, h2]
  exact hw

theorem mem_of_inter_eq (X T : Finset String) (l : List String)
    (h : X ∩ T = l.toFinset) : ∀ a ∈ l, a ∈ X := by
  intro a ha
  have : a ∈ X ∩ T := by
    rw [h]
    exact List.mem_toFinset.mpr ha
  exact (Finset.mem_inter.mp this).1

theorem sdiff_inter_eq_empty (X T : Finset String) (l : List String)
    (h : X ∩ T = l.toFinset) : (X \ l.toFinset) ∩ T = ∅ := by
  rw [← h]
  ext a
  simp only [Finset.mem_inter, Finset.mem_sdiff, Finset.not_mem_empty, iff_false]
  tauto

theorem not_mem_of_inter_empty (X T : Finset String) (l : List String)
    (h : X ∩ T = ∅) (hl : l.toFinset ⊆ T) : ∀ a ∈ l, a ∉ X := by
  intro a ha hX
  have : a ∈ X ∩ T := Finset.mem_inter.mpr ⟨hX, hl (List.mem_toFinset.mpr ha)⟩
  rw [h] at this
  exact Finset.not_mem_empty a this

theorem union_inter_eq (X T : Finset String) (l : List String)
    (h : X ∩ T = ∅) (hl : l.toFinset ⊆ T) : (X ∪ l.toFinset) ∩ T = l.toFinset := by
  rw [Finset.union_inter_distrib_right, h, Finset.empty_union]
  exact Finset.inter_eq_left.mpr hl

theorem init_subset_toggled : InitStateHandler.mqSubjects.toFinset ⊆ toggledSubjects :=
  Finset.subset_union_left

theorem active_subset_toggled : ActiveStateHandler.mqSubjects.toFinset ⊆ toggledSubjects :=
  Finset.subset_union_right

theorem subjectsMatch_other (live : AppState) (t : Transition) (S : Finset String)
    (h1 : live ≠ AppStateInit) (h2 : live ≠ AppStateActive) :
    SubjectsMatch live t S ↔ S ∩ toggledSubjects = ∅ := by
  simp [SubjectsMatch, expectedSubjects, h1, h2]

theorem subjectsMatch_init (t : Transition) (S : Finset String) :
    SubjectsMatch AppStateInit t S ↔
      S ∩ toggledSubjects =
        if t.isMigrate = true then ∅ else InitStateHandler.mqSubjects.toFinset := by
  simp [SubjectsMatch, expectedSubjects]

theorem subjectsMatch_active (t : Transition) (S : Finset String) :
    SubjectsMatch AppStateActive t S ↔
      S ∩ toggledSubjects = ActiveStateHandler.mqSubjects.toFinset := by
  have h : AppStateActive ≠ AppStateInit := by decide
  simp [SubjectsMatch, expectedSubjects, h]

theorem neutral_effect {α : Type} (x : Act α) (hx : Act.Inv Neutral x) (w : World) :
    Undoes ((x.toEffect w).undo.map Appstate.UndoStep.external)
        (x.toEffect w).world.subjects w.subjects ∧
      (x.toEffect w).world.subjects = w.subjects := by
  obtain ⟨h1, h2⟩ := toEffect_undoes (ht_of_inv w.subjects hx) w rfl
  refine ⟨h1, ?_⟩
  have h := (hx.run { world := w, undo := [] }).1
  exact h

theorem exitEffect_subjects (agentEnv : Agent) (m : Appstate.Machine World Transition)
    (t : Transition) (hreg : m.stateHandlers = registry agentEnv)
    (hpre : SubjectsMatch m.activeState t m.world.subjects) :
    Undoes ((Appstate.exitEffect m t).undo.map Appstate.UndoStep.external)
        (Appstate.exitEffect m t).world.subjects m.world.subjects ∧
      ∀ u, (Appstate.exitEffect m t).ret = .ok u →
        (Appstate.exitEffect m t).world.subjects ∩ toggledSubjects = ∅ := by
  have hother : ∀ (x : Act Unit), Act.Inv Neutral x → m.activeState ≠ AppStateInit →
      m.activeState ≠ AppStateActive →
      Undoes ((x.toEffect m.world).undo.map Appstate.UndoStep.external)
          (x.toEffect m.world).world.subjects m.world.subjects ∧
        ∀ u, (x.toEffect m.world).ret = .ok u →
          (x.toEffect m.world).world.subjects ∩ toggledSubjects = ∅ := by
    intro x hx h1 h2
    obtain ⟨h3, h4⟩ := neutral_effect x hx m.world
    refine ⟨h3, fun _ _ => ?_⟩
    rw [h4]
    exact (subjectsMatch_other _ t _ h1 h2).mp hpre
  unfold Appstate.exitEffect
  rw [hreg, lookup_registry]
  split_ifs with h1 h2 h3 h4 h5 h6 h7
  · exact hother (BootStateHandler.OnExit t) (inv_pure _) (by rw [← h1]; decide)
      (by rw [← h1]; decide)
  · rw [← h2] at hpre
    rw [subjectsMatch_init] at hpre
    have hin : t.isMigrate = false → ∀ a ∈ InitStateHandler.mqSubjects, a ∈ m.world.subjects := by
      intro hm
      rw [hm] at hpre
      exact mem_of_inter_eq _ _ _ hpre
    obtain ⟨h8, h9⟩ := toEffect_undoes (ht_init_onExit t m.world.subjects hin) m.world rfl
    refine ⟨h8, fun u hu => ?_⟩
    have h10 := h9 u hu
    cases hm : t.isMigrate with
    | true =>
      rw [hm] at hpre h10
      simp only [if_true] at hpre h10
      exact (congrArg (fun S => S ∩ toggledSubjects) h10).trans hpre
    | false =>
      rw [hm] at hpre h10
      simp only [Bool.false_eq_true, if_false] at hpre h10
      have h11 := sdiff_inter_eq_empty _ _ _ hpre
      exact (congrArg (fun S => S ∩ toggledSubjects) h10).trans h11
  · rw [← h3] at hpre
    rw [subjectsMatch_active] at hpre
    obtain ⟨h8, h9⟩ := toEffect_undoes
      (ht_active_onExit t m.world.subjects (mem_of_inter_eq _ _ _ hpre)) m.world rfl
    refine ⟨h8, fun u hu => ?_⟩
    have h11 := sdiff_inter_eq_empty _ _ _ hpre
    exact (congrArg (fun S => S ∩ toggledSubjects) (h9 u hu)).trans h11
  · exact hother (UpdateConfigStateHandler.OnExit t) (inv_pure _) (by rw [← h4]; decide)
      (by rw [← h4]; decide)
  · exact hother (MaintenanceStateHandler.OnExit t) (inv_pure _) (by rw [← h5]; decide)
      (by rw [← h5]; decide)
  · exact hother (ZTPSetupHandler.OnExit t) (inv_pure _) (by rw [← h6]; decide)
      (by rw [← h6]; decide)
  · exact hother (ResetStateHandler.OnExit t) (inv_pure _) (by rw [← h7]; decide)
      (by rw [← h7]; decide)
  · exact hother (pure ()) (inv_pure _) (fun h => h2 h.symm) (fun h => h3 h.symm)

theorem expectedSubjects_other (live : AppState) (h1 : live ≠ AppStateInit)
    (h2 : live ≠ AppStateActive) : expectedSubjects live = ∅ := by
  simp [expectedSubjects, h1, h2]

theorem handle_subjects (agentEnv : Agent) (id : AppState)
    (toState : Appstate.IStateHandler World Transition)
    (hlook : Appstate.lookupHandler (registry agentEnv) id = some toState)
    (w : World) (t : Transition) (hw : w.subjects ∩ toggledSubjects = ∅) :
    Undoes ((toState.Handle w t).undo.map Appstate.UndoStep.external)
        (toState.Handle w t).world.subjects w.subjects ∧
      ∀ r, (toState.Handle w t).ret = .ok r →
        (∀ next, r.Transition = some next →
          SubjectsMatch id next (toState.Handle w t).world.subjects) ∧
        (r.Transition = none →
          (toState.Handle w t).world.subjects ∩ toggledSubjects = expectedSubjects id) := by
  have hother : ∀ (x : Act (Appstate.StateHandleResult Transition)), Act.Inv Neutral x →
      id ≠ AppStateInit → id ≠ AppStateActive →
      Undoes ((x.toEffect w).undo.map Appstate.UndoStep.external)
          (x.toEffect w).world.subjects w.subjects ∧
        ∀ r, (x.toEffect w).ret = .ok r →
          (∀ next, r.Transition = some next →
            SubjectsMatch id next (x.toEffect w).world.subjects) ∧
          (r.Transition = none →
            (x.toEffect w).world.subjects ∩ toggledSubjects = expectedSubjects id) := by
    intro x hx h1 h2
    obtain ⟨h3, h4⟩ := neutral_effect x hx w
    refine ⟨h3, fun r _ => ⟨fun next _ => ?_, fun _ => ?_⟩⟩
    · rw [h4]
      exact (subjectsMatch_other _ next _ h1 h2).mpr hw
    · rw [h4, expectedSubjects_other id h1 h2]
      exact hw
  rw [lookup_registry] at hlook
  split_ifs at hlook with h1 h2 h3 h4 h5 h6 h7
  · cases hlook
    exact hother (BootStateHandler.Handle t) (neutral_boot_handle t) (by rw [← h1]; decide)
      (by rw [← h1]; decide)
  · cases hlook
    subst h2
    obtain ⟨h8, h9⟩ := toEffect_undoes
      (ht_init_handle agentEnv t w.subjects
        (not_mem_of_inter_empty _ _ _ hw init_subset_toggled)) w rfl
    refine ⟨h8, fun r hr => ?_⟩
    rcases h9 r hr with ⟨hn, hY⟩ | ⟨hm, hY⟩
    · refine ⟨fun next hnext => ?_, fun _ => ?_⟩
      · rw [hn] at hnext
        cases hnext
      · have h10 := union_inter_eq _ _ _ hw init_subset_toggled
        exact ((congrArg (fun S => S ∩ toggledSubjects) hY).trans h10).trans
          (by simp [expectedSubjects])
    · refine ⟨fun next hnext => ?_, fun hnone => ?_⟩
      · rw [hnext] at hm
        have hm2 : next.isMigrate = true := by simpa using hm
        rw [subjectsMatch_init, hm2, if_pos rfl]
        exact (congrArg (fun S => S ∩ toggledSubjects) hY).trans hw
      · rw [hnone] at hm
        simp at hm
  · cases hlook
    subst h3
    obtain ⟨h8, h9⟩ := toEffect_undoes
      (ht_active_handle agentEnv.DeviceType t w.subjects
        (not_mem_of_inter_empty _ _ _ hw active_subset_toggled)) w rfl
    refine ⟨h8, fun r hr => ?_⟩
    obtain ⟨hn, hY⟩ := h9 r hr
    refine ⟨fun next hnext => ?_, fun _ => ?_⟩
    · rw [hn] at hnext
      cases hnext
    · have h10 := union_inter_eq _ _ _ hw active_subset_toggled
      have h11 : AppStateActive ≠ AppStateInit := by decide
      exact ((congrArg (fun S => S ∩ toggledSubjects) hY).trans h10).trans
        (by simp [expectedSubjects, h11])
  · cases hlook
    exact hother (UpdateConfigStateHandler.Handle agentEnv.DeviceType t)
      (neutral_updateConfig_handle _ t) (by rw [← h4]; decide) (by rw [← h4]; decide)
  · cases hlook
    exact hother (MaintenanceStateHandler.Handle t) (neutral_maintenance_handle t)
      (by rw [← h5]; decide) (by rw [← h5]; decide)
  · cases hlook
    exact hother (ZTPSetupHandler.Handle t) (neutral_ztpSetup_handle t)
      (by rw [← h6]; decide) (by rw [← h6]; decide)
  · cases hlook
    exact hother (ResetStateHandler.Handle agentEnv.DeviceType t)
      (neutral_reset_handle _ t) (by rw [← h7]; decide) (by rw [← h7]; decide)

theorem updateState_subjects (FinishStatus : World → Option GoError → Option GoError)
    (w : World) (newStateID : AppState) :
    Undoes (((services FinishStatus).UpdateConfigWithTx w newStateID).undo.map
          Appstate.UndoStep.external)
        ((services FinishStatus).UpdateConfigWithTx w newStateID).world.subjects
        w.subjects ∧
      ((services FinishStatus).UpdateConfigWithTx w newStateID).world.subjects =
        w.subjects :=
  neutral_effect _ (neutral_updateConfigWithTx _ _) w

theorem performTransition_subjects (agentEnv : Agent)
    (FinishStatus : World → Option GoError → Option GoError)
    (m : Appstate.Machine World Transition) (t : Transition) (before : Finset String)
    (hreg : m.stateHandlers = registry agentEnv) (hK : ChainSubjects before m)
    (hpre : SubjectsMatch m.activeState t m.world.subjects) :
    ChainSubjects before
        (Appstate.performTransition (services FinishStatus) Transition.ToState m t).1 ∧
      (Appstate.performTransition (services FinishStatus) Transition.ToState m
        t).1.stateHandlers = registry agentEnv ∧
      ∀ r, (Appstate.performTransition (services FinishStatus) Transition.ToState m t).2 =
          .ok r →
        (∀ next, r.Transition = some next →
          SubjectsMatch
            (Appstate.performTransition (services FinishStatus) Transition.ToState m
              t).1.activeState next
            (Appstate.performTransition (services FinishStatus) Transition.ToState m
              t).1.world.subjects) ∧
        (r.Transition = none →
          (Appstate.performTransition (services FinishStatus) Transition.ToState m
              t).1.world.subjects ∩ toggledSubjects =
            expectedSubjects
              (Appstate.performTransition (services FinishStatus) Transition.ToState m
                t).1.activeState) := by
  by_cases hne : m.activeState = t.ToState
  · have h : Appstate.performTransition (services FinishStatus) Transition.ToState m t =
        (m, .error (.leaf ("performTransition: already in state " ++ m.activeState))) := by
      simp [Appstate.performTransition, hne]
    rw [h]
    exact ⟨hK, hreg, fun r hr => by cases hr⟩
  · cases hto : Appstate.lookupHandler m.stateHandlers t.ToState with
    | none =>
      have h : Appstate.performTransition (services FinishStatus) Transition.ToState m t =
          (m, .error (.leaf ("performTransition: handler for state " ++ t.ToState ++
            " not found"))) := by
        simp [Appstate.performTransition, hne, hto]
      rw [h]
      exact ⟨hK, hreg, fun r hr => by cases hr⟩
    | some toState =>
      cases hv : toState.ValidateTransition m.activeState with
      | some err =>
        have h : ∃ e, Appstate.performTransition (services FinishStatus) Transition.ToState
            m t = ({ m with trace := m.trace ++
              [Appstate.Event.validateTransition toState.StateID m.activeState] },
              .error e) := by
          simp [Appstate.performTransition, hne, hto, hv]
        obtain ⟨e, h⟩ := h
        rw [h]
        exact ⟨hK, hreg, fun r hr => by cases hr⟩
      | none =>
        obtain ⟨hh, hexitErr, hexitOk⟩ := Appstate.performTransition_steps
          (services FinishStatus) Transition.ToState m t toState hne hto hv
        obtain ⟨hE1, hE2⟩ := exitEffect_subjects agentEnv m t hreg hpre
        refine ⟨?_, hh.trans hreg, ?_⟩
        · cases hre : (Appstate.exitEffect m t).ret with
          | error e =>
            obtain ⟨_, hw, _, htx⟩ := hexitErr ⟨e, hre⟩
            unfold ChainSubjects
            rw [htx, hw]
            exact undoes_append hK hE1
          | ok u =>
            obtain ⟨hcfgErr, hcfgOk⟩ := hexitOk ⟨u, hre⟩
            obtain ⟨hC1, hC2⟩ := updateState_subjects FinishStatus
              (Appstate.exitEffect m t).world t.ToState
            cases hrc : ((services FinishStatus).UpdateConfigWithTx
                (Appstate.exitEffect m t).world t.ToState).ret with
            | error e =>
              obtain ⟨_, hw, _, htx⟩ := hcfgErr ⟨e, hrc⟩
              unfold ChainSubjects
              rw [htx, hw]
              exact undoes_append (undoes_append hK hE1) hC1
            | ok u2 =>
              obtain ⟨hw, _, htx, _⟩ := hcfgOk ⟨u2, hrc⟩
              have hlook : Appstate.lookupHandler (registry agentEnv) t.ToState =
                  some toState := by
                rw [← hreg]
                exact hto
              obtain ⟨hH1, _⟩ := handle_subjects agentEnv t.ToState toState hlook
                ((services FinishStatus).UpdateConfigWithTx
                  (Appstate.exitEffect m t).world t.ToState).world t
                (by rw [hC2]; exact hE2 u hre)
              unfold ChainSubjects
              rw [htx, hw]
              exact undoes_append (undoes_append (undoes_append
                (undoes_append hK hE1) hC1) (undoes_restoreState _ _)) hH1
        · intro r hr
          cases hre : (Appstate.exitEffect m t).ret with
          | error e =>
            obtain ⟨⟨e2, he2⟩, _⟩ := hexitErr ⟨e, hre⟩
            rw [he2] at hr
            cases hr
          | ok u =>
            obtain ⟨hcfgErr, hcfgOk⟩ := hexitOk ⟨u, hre⟩
            obtain ⟨_, hC2⟩ := updateState_subjects FinishStatus
              (Appstate.exitEffect m t).world t.ToState
            cases hrc : ((services FinishStatus).UpdateConfigWithTx
                (Appstate.exitEffect m t).world t.ToState).ret with
            | error e =>
              obtain ⟨⟨e2, he2⟩, _⟩ := hcfgErr ⟨e, hrc⟩
              rw [he2] at hr
              cases hr
            | ok u2 =>
              obtain ⟨hw, ha, _, hres⟩ := hcfgOk ⟨u2, hrc⟩
              have hlook : Appstate.lookupHandler (registry agentEnv) t.ToState =
                  some toState := by
                rw [← hreg]
                exact hto
              obtain ⟨_, hH2⟩ := handle_subjects agentEnv t.ToState toState hlook
                ((services FinishStatus).UpdateConfigWithTx
                  (Appstate.exitEffect m t).world t.ToState).world t
                (by rw [hC2]; exact hE2 u hre)
              obtain ⟨hr2, hhr, hreq⟩ := (hres r).mp hr
              rw [ha, hw]
              have h3 := hH2 hr2 hhr
              rw [hreq]
              exact h3

theorem chainRun_subjects (agentEnv : Agent)
    (FinishStatus : World → Option GoError → Option GoError) (before : Finset String)
    (m m1 : Appstate.Machine World Transition) (t : Transition) (err : Option GoError)
    (hchain : Appstate.ChainRun (services FinishStatus) Transition.ToState m t m1 err)
    (hreg : m.stateHandlers = registry agentEnv) (hK : ChainSubjects before m)
    (hpre : SubjectsMatch m.activeState t m.world.subjects) :
    ChainSubjects before m1 ∧
      (err = none → m1.world.subjects ∩ toggledSubjects = expectedSubjects m1.activeState) := by
  induction hchain with
  | failed s t e _ =>
    exact ⟨(performTransition_subjects agentEnv FinishStatus s t before hreg hK hpre).1,
      fun h => by cases h⟩
  | finished s t r hr hnone =>
    have h := performTransition_subjects agentEnv FinishStatus s t before hreg hK hpre
    exact ⟨h.1, fun _ => (h.2.2 r hr).2 hnone⟩
  | followUp s t next r s1 err hr hnext _ ih =>
    have h := performTransition_subjects agentEnv FinishStatus s t before hreg hK hpre
    exact ih h.2.1 h.1 ((h.2.2 r hr).1 next hnext)

theorem foldr_runUndo_world (tx : List (Appstate.UndoStep World))
    (s : Appstate.Machine World Transition) :
    (tx.foldr (fun st acc => Appstate.runUndo st acc) s).world =
      Appstate.undoWorld tx s.world := by
  induction tx with
  | nil => rfl
  | cons st rest ih =>
    cases st with
    | restoreState o =>
      simp only [List.foldr_cons, Appstate.runUndo, Appstate.undoWorld]
      split
      · exact ih
      · exact ih
    | external f =>
      simp only [List.foldr_cons, Appstate.runUndo, Appstate.undoWorld]
      exact congrArg f.run ih

theorem rollback_world (m : Appstate.Machine World Transition)
    (hcp : Appstate.activeCheckpoint m.tx.reverse [] = none) :
    (Appstate.rollback m).world = Appstate.undoWorld m.tx m.world := by
  rw [Appstate.rollback_full m hcp]
  exact foldr_runUndo_world m.tx m

theorem paired_call (c : Call) (hc : c.isToggle = false) (s : HState)
    (err : Option GoError) : Paired s (s.record c err) := by
  refine ⟨[⟨c, err⟩], [], rfl, by simp [HState.record], ?_⟩
  cases c <;> first | rfl | simp [Call.isToggle] at hc

theorem paired_world (s : HState) (w : World) (h : w.calls = s.world.calls) :
    Paired s { s with world := w } :=
  ⟨[], [], by simp [h], by simp, rfl⟩

theorem paired_push (s : HState) (u : Undo) (h : u.isToggle = false) :
    Paired s { s with undo := s.undo ++ [u] } :=
  ⟨[], [u], by simp, rfl, by simp [h]⟩

theorem paired_checkSchemes (addrs : List String) :
    Act.Inv Paired (ActiveStateHandler.checkSchemes addrs) := by
  constructor
  intro s
  rw [checkSchemes_eq]
  split <;> exact IsRefl.refl s

theorem paired_subscribeLoop (l : List String) : Act.Inv Paired (subscribeLoop l) := by
  induction l with
  | nil => exact inv_pure _
  | cons a rest ih =>
    unfold subscribeLoop
    refine inv_bind (inv_wrapErr _ ?_) (fun _ => ih)
    constructor
    intro s
    cases ho : s.world.outcome s.world.calls (.ActivateHandler a) with
    | some e =>
      refine ⟨[⟨.ActivateHandler a, some e⟩], [], ?_, ?_, rfl⟩ <;>
        simp [ExecuteFunc, ActivateHandler, call, ho]
    | none =>
      refine ⟨[⟨.ActivateHandler a, none⟩], [.DeactivateHandler a], ?_, ?_, rfl⟩ <;>
        simp [ExecuteFunc, ActivateHandler, call, ho, modifyWorld, pushUndo]

theorem paired_unsubscribeLoop (l : List String) : Act.Inv Paired (unsubscribeLoop l) := by
  induction l with
  | nil => exact inv_pure _
  | cons a rest ih =>
    unfold unsubscribeLoop
    refine inv_bind (inv_wrapErr _ ?_) (fun _ => ih)
    constructor
    intro s
    cases ho : s.world.outcome s.world.calls (.DeactivateHandler a) with
    | some e =>
      refine ⟨[⟨.DeactivateHandler a, some e⟩], [], ?_, ?_, rfl⟩ <;>
        simp [ExecuteFunc, DeactivateHandler, call, ho]
    | none =>
      refine ⟨[⟨.DeactivateHandler a, none⟩], [.ActivateHandler a], ?_, ?_, rfl⟩ <;>
        simp [ExecuteFunc, DeactivateHandler, call, ho, modifyWorld, pushUndo]

theorem paired_init_handle (agentEnv : Agent) (t : Transition) :
    Act.Inv Paired (InitStateHandler.Handle agentEnv t) := by
  unfold InitStateHandler.Handle
  repeat' first
    | intro _
    | exact inv_pure _
    | exact inv_fail _
    | exact inv_getWorld
    | exact paired_checkSchemes _
    | exact paired_subscribeLoop _
    | exact paired_unsubscribeLoop _
    | apply inv_bind
    | apply inv_wrapErr
    | apply inv_attempt
    | apply inv_ite
    | (apply inv_callOf; intro s err; exact paired_call _ (by rfl) s err)
    | (apply inv_noteOf; intro s err; exact paired_call _ (by rfl) s err)
    | (apply inv_modifyWorld; intro s; exact paired_world s _ rfl)
    | (apply inv_pushUndo; intro s; exact paired_push s _ (by rfl))
    | (apply inv_nilDeref; intro s; exact paired_world s _ rfl)
    | split
    | unfold checkHubTunnels
    | unfold ActiveStateHandler.waitDeviceInit
    | unfold BuildConn
    | unfold writeActiveAddr
    | unfold UpdateConfig
    | unfold ActiveStateHandler.subscribeQueueSubjects
    | unfold InitStateHandler.subscribeQueueSubjects
    | unfold ActiveStateHandler.unsubscribeQueueSubjects
    | unfold InitStateHandler.unsubscribeQueueSubjects

theorem paired_init_onExit (t : Transition) : Act.Inv Paired (InitStateHandler.OnExit t) := by
  unfold InitStateHandler.OnExit
  repeat' first
    | intro _
    | exact inv_pure _
    | exact inv_fail _
    | exact inv_getWorld
    | exact paired_checkSchemes _
    | exact paired_subscribeLoop _
    | exact paired_unsubscribeLoop _
    | apply inv_bind
    | apply inv_wrapErr
    | apply inv_attempt
    | apply inv_ite
    | (apply inv_callOf; intro s err; exact paired_call _ (by rfl) s err)
    | (apply inv_noteOf; intro s err; exact paired_call _ (by rfl) s err)
    | (apply inv_modifyWorld; intro s; exact paired_world s _ rfl)
    | (apply inv_pushUndo; intro s; exact paired_push s _ (by rfl))
    | (apply inv_nilDeref; intro s; exact paired_world s _ rfl)
    | split
    | unfold checkHubTunnels
    | unfold ActiveStateHandler.waitDeviceInit
    | unfold BuildConn
    | unfold writeActiveAddr
    | unfold UpdateConfig
    | unfold ActiveStateHandler.subscribeQueueSubjects
    | unfold InitStateHandler.subscribeQueueSubjects
    | unfold ActiveStateHandler.unsubscribeQueueSubjects
    | unfold InitStateHandler.unsubscribeQueueSubjects

theorem paired_active_handle (deviceType : String) (t : Transition) :
    Act.Inv Paired (ActiveStateHandler.Handle deviceType t) := by
  unfold ActiveStateHandler.Handle
  repeat' first
    | intro _
    | exact inv_pure _
    | exact inv_fail _
    | exact inv_getWorld
    | exact paired_checkSchemes _
    | exact paired_subscribeLoop _
    | exact paired_unsubscribeLoop _
    | apply inv_bind
    | apply inv_wrapErr
    | apply inv_attempt
    | apply inv_ite
    | (apply inv_callOf; intro s err; exact paired_call _ (by rfl) s err)
    | (apply inv_noteOf; intro s err; exact paired_call _ (by rfl) s err)
    | (apply inv_modifyWorld; intro s; exact paired_world s _ rfl)
    | (apply inv_pushUndo; intro s; exact paired_push s _ (by rfl))
    | (apply inv_nilDeref; intro s; exact paired_world s _ rfl)
    | split
    | unfold checkHubTunnels
    | unfold ActiveStateHandler.waitDeviceInit
    | unfold BuildConn
    | unfold writeActiveAddr
    | unfold UpdateConfig
    | unfold ActiveStateHandler.subscribeQueueSubjects
    | unfold InitStateHandler.subscribeQueueSubjects
    | unfold ActiveStateHandler.unsubscribeQueueSubjects
    | unfold InitStateHandler.unsubscribeQueueSubjects

theorem paired_active_onExit (t : Transition) :
    Act.Inv Paired (ActiveStateHandler.OnExit t) := by
  unfold ActiveStateHandler.OnExit
  repeat' first
    | intro _
    | exact inv_pure _
    | exact inv_fail _
    | exact inv_getWorld
    | exact paired_checkSchemes _
    | exact paired_subscribeLoop _
    | exact paired_unsubscribeLoop _
    | apply inv_bind
    | apply inv_wrapErr
    | apply inv_attempt
    | apply inv_ite
    | (apply inv_callOf; intro s err; exact paired_call _ (by rfl) s err)
    | (apply inv_noteOf; intro s err; exact paired_call _ (by rfl) s err)
    | (apply inv_modifyWorld; intro s; exact paired_world s _ rfl)
    | (apply inv_pushUndo; intro s; exact paired_push s _ (by rfl))
    | (apply inv_nilDeref; intro s; exact paired_world s _ rfl)
    | split
    | unfold checkHubTunnels
    | unfold ActiveStateHandler.waitDeviceInit
    | unfold BuildConn
    | unfold writeActiveAddr
    | unfold UpdateConfig
    | unfold ActiveStateHandler.subscribeQueueSubjects
    | unfold InitStateHandler.subscribeQueueSubjects
    | unfold ActiveStateHandler.unsubscribeQueueSubjects
    | unfold InitStateHandler.unsubscribeQueueSubjects

/-- The agreement of active subjects and live state that `SubjectsMatch` asks for at the
start of a chain holds again when the chain has completed without error, for every
transition other than the follow-up `OnMigrateFromOldVersion`. -/
theorem chain_keeps_subjectsMatch (agentEnv : Agent)
    (FinishStatus : World → Option GoError → Option GoError)
    (m m1 : Appstate.Machine World Transition) (t next : Transition)
    (hreg : m.stateHandlers = registry agentEnv) (htx : m.tx = [])
    (hpre : SubjectsMatch m.activeState t m.world.subjects)
    (hchain : Appstate.ChainRun (services FinishStatus) Transition.ToState m t m1 none)
    (hnext : next.isMigrate = false) :
    SubjectsMatch m1.activeState next m1.world.subjects := by
  have hK : ChainSubjects m.world.subjects m := by
    unfold ChainSubjects
    rw [htx]
    exact undoes_nil _
  have h := (chainRun_subjects agentEnv FinishStatus m.world.subjects m m1 t none hchain
    hreg hK hpre).2 rfl
  simp only [SubjectsMatch, hnext, Bool.false_eq_true, and_false, if_false]
  exact h

end Handlers


/-! ## Theorems: the first-init rendezvous and nil sections -/

namespace Handlers

open Appstate (AppState AppStateBoot AppStateInit AppStateActive AppStateUpdateConfig
  AppStateMaintenance AppStateZTPSetup AppStateReset)

/-- C21. While a rendezvous is pending, `WaitFirstInit` returns a channel that already holds
an error and leaves the whole state, the pending rendezvous included, as it was. When none
is pending it records the given transaction together with a channel made by this call,
whose number no channel made before has, and returns that channel, on which nothing has
been sent; nothing else changes. -/
theorem waitFirstInit_pending_or_fresh (tx : Nat) (s : HState) :
    (∀ pending, s.world.firstInit = some pending →
      ∃ err, WaitFirstInit tx s = (.ok (.holding err), s)) ∧
    (s.world.firstInit = none →
      WaitFirstInit tx s = (.ok (.waiting s.world.chanCount),
        { s with world := { s.world with
            firstInit := some { tx := tx, chan := s.world.chanCount },
            chanCount := s.world.chanCount + 1 } }) ∧
      s.world.chanCount < (WaitFirstInit tx s).2.world.chanCount) := by
  constructor
  · intro pending hp
    refine ⟨.leaf "WaitFirstInit: already waiting first init", ?_⟩
    simp [WaitFirstInit, getWorld, hp]
  · intro hn
    have h : WaitFirstInit tx s = (.ok (.waiting s.world.chanCount),
        { s with world := { s.world with
            firstInit := some { tx := tx, chan := s.world.chanCount },
            chanCount := s.world.chanCount + 1 } }) := by
      simp [WaitFirstInit, getWorld, hn, modifyWorld]
    refine ⟨h, ?_⟩
    rw [h]
    exact Nat.lt_succ_self _

/-- Witness for C21: a second call while the rendezvous of transaction 4 is pending, and a
first call on a state without pending rendezvous. -/
theorem waitFirstInit_witness :
    (∃ err, WaitFirstInit 5 samplePendingState = (.ok (.holding err), samplePendingState)) ∧
      (WaitFirstInit 5 (sampleHState sampleStoreInit)).1 = .ok (.waiting 0) ∧
      (WaitFirstInit 5 (sampleHState sampleStoreInit)).2.world.firstInit =
        some { tx := 5, chan := 0 } :=
  ⟨(waitFirstInit_pending_or_fresh 5 samplePendingState).1 { tx := 4, chan := 0 } rfl,
    congrArg Prod.fst
      ((waitFirstInit_pending_or_fresh 5 (sampleHState sampleStoreInit)).2 rfl).1,
    congrArg (fun p => p.2.world.firstInit)
      ((waitFirstInit_pending_or_fresh 5 (sampleHState sampleStoreInit)).2 rfl).1⟩

/-- C25, the code at the failing input: live state `init`, no `InitDevice` request arrives.
The first `OnFirstSetup` ends with the device-init timeout and, after the rollback, the
rendezvous it registered is still pending; the second `OnFirstSetup` fails in
`WaitFirstInit` with "already waiting first init". -/
theorem first_setup_timeout_keeps_slot :
    (Appstate.Perform sampleServices Transition.ToState 3
        (sampleInitMachine sampleStoreInit allSucceed)
        (.OnFirstSetup "SN1" ["http://orch"])).map
      (fun p => (p.2, p.1.world.firstInit)) =
      some (some (.wrap "Perform: " (.wrap "Run: " (.wrap "performTransition: "
        (.wrap "Handle: " (.wrap "runFirstSetup: " (.leaf "device init timeout")))))),
        some { tx := 1, chan := 0 }) ∧
    ((Appstate.Perform sampleServices Transition.ToState 3
        (sampleInitMachine sampleStoreInit allSucceed)
        (.OnFirstSetup "SN1" ["http://orch"])).bind
      (fun p => Appstate.Perform sampleServices Transition.ToState 3 p.1
        (.OnFirstSetup "SN1" ["http://orch"]))).map (fun p => p.2) =
      some (some (.wrap "Perform: " (.wrap "Run: " (.wrap "performTransition: "
        (.wrap "Handle: " (.wrap "runFirstSetup: "
          (.leaf "WaitFirstInit: already waiting first init"))))))) := by
  refine ⟨by decide!, by decide!⟩

/-- C28, the code at the failing input: the stored config has no App section. `Handle` of
the reset handler on `OnAfterBoot` and `migrateFromOldVersion` of the active handler
dereference the nil section: the goroutine panics. -/
theorem nil_app_section_panics :
    (ResetStateHandler.Handle DeviceTypeCPE (.OnAfterBoot AppStateReset)
        (sampleHState {})).2.world.panicked = true ∧
      (ActiveStateHandler.migrateFromOldVersion "SN1" "http://orch"
        (sampleHState {})).2.world.panicked = true := by
  refine ⟨by decide!, by decide!⟩

end Handlers


/-! ## Theorems: DHCP lease table -/

namespace Dhcp

/-- C29, the code at the failing input: a line made of a single word gives a row of two
cells (the row number and the word), and a line made of the keyword `MAC` only gives a row of
one cell; the index expression `row[ipColumnIndex]` is out of range on both and the function
panics, with or without link filter. A lease line in key-value form is formatted. -/
theorem formatDHCPLeaseToTable_short_row_panics :
    buildRow 1 "hello".toList = [.num 1, .text "hello".toList] ∧
      formatDHCPLeaseToTable sampleNet "hello\n".toList none = none ∧
      formatDHCPLeaseToTable sampleNet "MAC\n".toList (some "10.0.0.0/24".toList) = none ∧
      formatDHCPLeaseToTable sampleNet "MAC aa:bb IP 10.0.0.5 HOSTNAME h1\n".toList none =
        some (.ok [[.num 1, .text "aa:bb".toList, .text "10.0.0.5".toList,
          .text "h1".toList]]) := by
  refine ⟨by decide!, by decide!, by decide!, by decide!⟩

end Dhcp


/-! ## Theorems: reset of the env file -/

namespace Handlers

namespace ResetStateHandler

open Nslookup (TrimSpace scannerLines scannerErr rawLines dropCR utf8Len MaxScanTokenSize
  rawLines_flatten rawLines_no_newline)

theorem resetEnvLine_eq (sb line : List Char) :
    resetEnvLine sb line = if line = [] then sb else sb ++ expectedLine line ++ ['\n'] := by
  unfold resetEnvLine expectedLine assignedName
  by_cases h0 : line = []
  · simp [h0]
  · simp only [h0, if_false]
    cases hc : line.contains '='
    · simp
    · simp only [Bool.not_true, Bool.false_eq_true, if_false, if_true]
      split
      · simp
      · split
        · simp
        · rfl

theorem foldl_resetEnvLine (ls : List (List Char)) (sb : List Char) :
    ls.foldl resetEnvLine sb =
      sb ++ (((ls.filter (fun line => line ≠ [])).map expectedLine).map
        (fun line => line ++ ['\n'])).flatten := by
  induction ls generalizing sb with
  | nil => simp
  | cons l ls ih =>
    rw [List.foldl_cons, ih, resetEnvLine_eq]
    by_cases h0 : l = []
    · simp [h0]
    · simp [h0]

theorem expectedLine_cases (line : List Char) :
    expectedLine line = "AGENT_ENDPOINT=\"\"".toList ∨
      expectedLine line = "AGENT_ID=\"\"".toList ∨ expectedLine line = line := by
  unfold expectedLine
  split
  · split
    · exact Or.inl rfl
    · split
      · exact Or.inr (Or.inl rfl)
      · exact Or.inr (Or.inr rfl)
  · exact Or.inr (Or.inr rfl)

theorem expectedLine_idem (line : List Char) :
    expectedLine (expectedLine line) = expectedLine line := by
  rcases expectedLine_cases line with h | h | h
  · rw [h]
    decide
  · rw [h]
    decide
  · rw [h]
    exact h

theorem expectedLine_ne_nil (line : List Char) (h : line ≠ []) : expectedLine line ≠ [] := by
  rcases expectedLine_cases line with h1 | h1 | h1
  · rw [h1]
    decide
  · rw [h1]
    decide
  · rw [h1]
    exact h

theorem expectedLine_no_newline (line : List Char) (h : '\n' ∉ line) :
    '\n' ∉ expectedLine line := by
  rcases expectedLine_cases line with h1 | h1 | h1
  · rw [h1]
    decide
  · rw [h1]
    decide
  · rw [h1]
    exact h

theorem expectedLine_dropCR (line : List Char) (h : dropCR line = line) :
    dropCR (expectedLine line) = expectedLine line := by
  rcases expectedLine_cases line with h1 | h1 | h1
  · rw [h1]
    decide
  · rw [h1]
    decide
  · rw [h1]
    exact h

theorem utf8Len_dropCR (line : List Char) : utf8Len (dropCR line) ≤ utf8Len line := by
  unfold dropCR
  split
  · unfold utf8Len
    exact List.Sublist.sum_le_sum ((List.dropLast_sublist line).map _) (fun _ _ => Nat.zero_le _)
  · exact Nat.le_refl _

theorem utf8Len_expectedLine (line : List Char) (h : utf8Len line < MaxScanTokenSize) :
    utf8Len (expectedLine line) < MaxScanTokenSize := by
  rcases expectedLine_cases line with h1 | h1 | h1
  · rw [h1]
    decide
  · rw [h1]
    decide
  · rw [h1]
    exact h

theorem dropCR_no_newline (line : List Char) (h : '\n' ∉ line) : '\n' ∉ dropCR line := by
  unfold dropCR
  split
  · exact fun hm => h ((List.dropLast_sublist line).subset hm)
  · exact h

theorem rawLines_joined (ls : List (List Char)) (hls : ∀ l ∈ ls, '\n' ∉ l) :
    rawLines (ls.map (fun line => line ++ ['\n'])).flatten [] = ls := by
  have h := rawLines_flatten ls hls []
  simpa [rawLines] using h

theorem tryResetEnv_ok (file : EnvFile) (hstat : file.statErr = none)
    (hread : file.readErr = none) (hscan : scannerErr file.data = none)
    (hwrite : file.writeErr = none) :
    tryResetEnv file = { err := none, written := some (expectedEnv file.data, file.perm) } := by
  unfold tryResetEnv
  rw [hstat, hread, hscan, hwrite]
  simp only [foldl_resetEnvLine, List.nil_append]
  rfl

theorem expectedEnv_lines (data : List Char)
    (hcr : ∀ l ∈ scannerLines data, dropCR l = l) :
    (∀ l ∈ ((scannerLines data).filter (fun line => line ≠ [])).map expectedLine,
        '\n' ∉ l ∧ dropCR l = l ∧ l ≠ [] ∧ expectedLine l = l) := by
  intro l hl
  obtain ⟨k, hk, rfl⟩ := List.mem_map.mp hl
  obtain ⟨hk1, hk2⟩ := List.mem_filter.mp hk
  have hk3 : k ≠ [] := by simpa using hk2
  have hk4 : '\n' ∉ k := by
    unfold scannerLines at hk1
    obtain ⟨r, hr, rfl⟩ := List.mem_map.mp hk1
    exact dropCR_no_newline r (rawLines_no_newline data [] (by simp) r hr)
  exact ⟨expectedLine_no_newline k hk4, expectedLine_dropCR k (hcr k hk1),
    expectedLine_ne_nil k hk3, expectedLine_idem k⟩

theorem expectedEnv_idem (data : List Char)
    (hcr : ∀ l ∈ scannerLines data, dropCR l = l) :
    expectedEnv (expectedEnv data) = expectedEnv data := by
  have hl := expectedEnv_lines data hcr
  generalize hls : ((scannerLines data).filter (fun line => line ≠ [])).map expectedLine = ls
    at hl
  have h1 : expectedEnv data = (ls.map (fun line => line ++ ['\n'])).flatten := by
    rw [← hls]
    rfl
  rw [h1]
  unfold expectedEnv scannerLines
  rw [rawLines_joined ls (fun l h => (hl l h).1)]
  have h2 : ls.map dropCR = ls := by
    conv_rhs => rw [← List.map_id ls]
    exact List.map_congr_left (fun l h => (hl l h).2.1)
  have h3 : ls.filter (fun line => line ≠ []) = ls :=
    List.filter_eq_self.mpr (fun l h => by simpa using (hl l h).2.2.1)
  have h4 : ls.map expectedLine = ls := by
    conv_rhs => rw [← List.map_id ls]
    exact List.map_congr_left (fun l h => (hl l h).2.2.2)
  rw [h2, h3, h4]

theorem scannerErr_expectedEnv (data : List Char) (hscan : scannerErr data = none) :
    scannerErr (expectedEnv data) = none := by
  have hraw : ∀ r ∈ rawLines data [], utf8Len r < MaxScanTokenSize := by
    intro r hr
    unfold scannerErr at hscan
    by_contra hlt
    have hany : (rawLines data []).any (fun l => decide (MaxScanTokenSize ≤ utf8Len l)) = true :=
      List.any_eq_true.mpr ⟨r, hr, by simpa using Nat.le_of_not_lt hlt⟩
    rw [hany] at hscan
    simp at hscan
  have hl : ∀ l ∈ ((scannerLines data).filter (fun line => line ≠ [])).map expectedLine,
      '\n' ∉ l ∧ utf8Len l < MaxScanTokenSize := by
    intro l hl
    obtain ⟨k, hk, rfl⟩ := List.mem_map.mp hl
    obtain ⟨hk1, _⟩ := List.mem_filter.mp hk
    unfold scannerLines at hk1
    obtain ⟨r, hr, rfl⟩ := List.mem_map.mp hk1
    exact ⟨expectedLine_no_newline _
        (dropCR_no_newline r (rawLines_no_newline data [] (by simp) r hr)),
      utf8Len_expectedLine _ (Nat.lt_of_le_of_lt (utf8Len_dropCR r) (hraw r hr))⟩
  unfold scannerErr expectedEnv
  rw [rawLines_joined _ (fun l h => (hl l h).1)]
  have hnone : (((scannerLines data).filter (fun line => line ≠ [])).map expectedLine).any
      (fun l => decide (MaxScanTokenSize ≤ utf8Len l)) = false := by
    rw [List.any_eq_false]
    intro l h
    simpa using (hl l h).2
  rw [hnone]
  rfl

/-- C22 (corrected). When the env file can be read and written and none of its lines is too
long for the scanner, `tryResetEnv` writes, with the permission bits of the file, for every
non-empty line in order: the assignment of the empty string to `AGENT_ENDPOINT` (to
`AGENT_ID`) when the line has an `=` and the name before it, trimmed, starts with
`AGENT_ENDPOINT` (with `AGENT_ID`); the line itself otherwise. Empty lines are dropped. When
furthermore no line still ends in a carriage return after the scanner has dropped one, a
second run on the rewritten file writes the same content again. -/
theorem tryResetEnv_rewrites_by_name_prefix (file : EnvFile) (hstat : file.statErr = none)
    (hread : file.readErr = none) (hscan : scannerErr file.data = none)
    (hwrite : file.writeErr = none) :
    tryResetEnv file = { err := none, written := some (expectedEnv file.data, file.perm) } ∧
      ((∀ l ∈ scannerLines file.data, dropCR l = l) →
        tryResetEnv (file.after (tryResetEnv file)) =
          { err := none, written := some (expectedEnv file.data, file.perm) }) := by
  have h1 := tryResetEnv_ok file hstat hread hscan hwrite
  refine ⟨h1, fun hcr => ?_⟩
  rw [h1]
  have h2 := tryResetEnv_ok
    { file with data := expectedEnv file.data, perm := file.perm } hstat hread
    (scannerErr_expectedEnv file.data hscan) hwrite
  simp only [EnvFile.after]
  rw [h2]
  simp only [expectedEnv_idem file.data hcr]

/-- Witness for C22 on the sample env file. -/
theorem tryResetEnv_rewrites_witness :
    (tryResetEnv sampleEnvFile).written =
      some ("AGENT_ENDPOINT=\"\"\nLOG_LEVEL=debug\n# agent\nAGENT_ID=\"\"\n".toList, 420) ∧
    (tryResetEnv (sampleEnvFile.after (tryResetEnv sampleEnvFile))).written =
      (tryResetEnv sampleEnvFile).written := by
  have h := tryResetEnv_rewrites_by_name_prefix sampleEnvFile rfl rfl (by decide!) rfl
  have hcr : ∀ l ∈ scannerLines sampleEnvFile.data, dropCR l = l := by decide!
  refine ⟨?_, ?_⟩
  · rw [h.1]
    decide!
  · rw [h.2 hcr, h.1]

/-- Counterexample for C22: the assignment of `AGENT_ID_BACKUP` is not kept, it is replaced
by an assignment to `AGENT_ID`; and on a file whose line ends in two carriage returns the
second run writes another content than the first. -/
theorem tryResetEnv_replaces_other_variable :
    (tryResetEnv sampleEnvFilePrefix).written = some ("AGENT_ID=\"\"\n".toList, 420) ∧
      (tryResetEnv sampleEnvFileCR).written = some ("LOG_LEVEL=debug\r\n".toList, 420) ∧
      (tryResetEnv (sampleEnvFileCR.after (tryResetEnv sampleEnvFileCR))).written =
        some ("LOG_LEVEL=debug\n".toList, 420) := by
  refine ⟨by decide!, by decide!, by decide!⟩

end ResetStateHandler

end Handlers


/-! ## Theorems: pause and resume around a config update -/

namespace Handlers

namespace UpdateConfigStateHandler

theorem emits_pure {α : Type} (a : α) : Emits (pure a : Act α) [] :=
  ⟨fun _ => ⟨[], by simp, rfl⟩⟩

theorem emits_fail {α : Type} (e : GoError) : Emits (Act.fail e : Act α) [] :=
  ⟨fun _ => ⟨[], by simp [Act.fail], rfl⟩⟩

theorem total_pure {α : Type} (a : α) : Total (pure a : Act α) :=
  ⟨fun _ => ⟨a, rfl⟩⟩

theorem total_note (c : Call) : Total (note c) :=
  ⟨fun _ => ⟨(), rfl⟩⟩

theorem total_attempt {α : Type} (x : Act α) : Total x.attempt := by
  constructor
  intro s
  unfold Act.attempt
  cases hx : x s with
  | mk r s1 =>
    cases r with
    | ok a => exact ⟨none, rfl⟩
    | error e => exact ⟨some e, rfl⟩

theorem emits_note (c : Call) : Emits (note c) (if isMonitorCall c then [c] else []) := by
  constructor
  intro s
  refine ⟨[⟨c, none⟩], rfl, ?_⟩
  cases h : isMonitorCall c <;> simp [h]

theorem emits_call (c : Call) : Emits (call c) (if isMonitorCall c then [c] else []) := by
  constructor
  intro s
  refine ⟨[⟨c, s.world.outcome s.world.calls c⟩], ?_, ?_⟩
  · unfold Handlers.call
    cases s.world.outcome s.world.calls c <;> rfl
  · cases h : isMonitorCall c <;> simp [h]

theorem emits_attempt {α : Type} {x : Act α} {l : List Call} (hx : Emits x l) :
    Emits x.attempt l := by
  constructor
  intro s
  obtain ⟨cs, h1, h2⟩ := hx.run s
  refine ⟨cs, ?_, h2⟩
  unfold Act.attempt
  cases hxs : x s with
  | mk r s1 =>
    rw [hxs] at h1
    cases r <;> exact h1

theorem emits_wrapErr {α : Type} {x : Act α} {l : List Call} (msg : String)
    (hx : Emits x l) : Emits (x.wrapErr msg) l := by
  constructor
  intro s
  obtain ⟨cs, h1, h2⟩ := hx.run s
  refine ⟨cs, ?_, h2⟩
  unfold Act.wrapErr
  cases hxs : x s with
  | mk r s1 =>
    rw [hxs] at h1
    cases r <;> exact h1

theorem emits_bind_total {α β : Type} {x : Act α} {f : α → Act β} {k l : List Call}
    (ht : Total x) (hx : Emits x k) (hf : ∀ a, Emits (f a) l) :
    Emits (x >>= f) (k ++ l) := by
  constructor
  intro s
  obtain ⟨a, ha⟩ := ht.run s
  obtain ⟨c1, h1, h2⟩ := hx.run s
  simp only [Act.bind_apply]
  cases hxs : x s with
  | mk r s1 =>
    rw [hxs] at ha h1
    simp only at ha
    subst ha
    obtain ⟨c2, h3, h4⟩ := (hf a).run s1
    refine ⟨c1 ++ c2, ?_, ?_⟩
    · simp only
      rw [h3, h1, List.append_assoc]
    · rw [List.map_append, List.filter_append, h2, h4]

theorem emits_bind_nil {α β : Type} {x : Act α} {f : α → Act β}
    (hx : Emits x []) (hf : ∀ a, Emits (f a) []) : Emits (x >>= f) [] := by
  constructor
  intro s
  obtain ⟨c1, h1, h2⟩ := hx.run s
  simp only [Act.bind_apply]
  cases hxs : x s with
  | mk r s1 =>
    rw [hxs] at h1
    cases r with
    | error e => exact ⟨c1, h1, h2⟩
    | ok a =>
      obtain ⟨c2, h3, h4⟩ := (hf a).run s1
      refine ⟨c1 ++ c2, ?_, ?_⟩
      · simp only
        rw [h3, h1, List.append_assoc]
      · rw [List.map_append, List.filter_append, h2, h4]
        rfl

theorem emits_ite {α : Type} (c : Prop) [Decidable c] {x y : Act α} {l : List Call}
    (hx : Emits x l) (hy : Emits y l) : Emits (if c then x else y) l := by
  split
  · exact hx
  · exact hy

theorem total_ite {α : Type} (c : Prop) [Decidable c] {x y : Act α}
    (hx : Total x) (hy : Total y) : Total (if c then x else y) := by
  split
  · exact hx
  · exact hy

theorem total_bind {α β : Type} {x : Act α} {f : α → Act β}
    (hx : Total x) (hf : ∀ a, Total (f a)) : Total (x >>= f) := by
  constructor
  intro s
  obtain ⟨a, ha⟩ := hx.run s
  simp only [Act.bind_apply]
  cases hxs : x s with
  | mk r s1 =>
    rw [hxs] at ha
    simp only at ha
    subst ha
    exact (hf a).run s1

theorem monitorCalls_of_emits {α : Type} {x : Act α} {l : List Call} (hx : Emits x l)
    (s : HState) : monitorCalls s (x s).2 = l := by
  obtain ⟨cs, h1, h2⟩ := hx.run s
  unfold monitorCalls
  rw [h1, List.drop_left]
  exact h2

theorem updateConfig_eq_with (deviceType : String) (newCfg : Config) :
    updateConfig deviceType newCfg =
      updateConfigWith (note .ponyPause) (note .ponyResume) websocketStop websocketStart
        deviceType newCfg := rfl

theorem emits_of_quiet {α : Type} {x : Act α}
    (hx : Act.Inv (CallsOnly (fun c => !isMonitorCall c)) x) : Emits x [] := by
  constructor
  intro s
  obtain ⟨rest, h1, h2⟩ := hx.run s
  refine ⟨rest, h1, ?_⟩
  rw [List.filter_eq_nil_iff]
  intro c hc
  obtain ⟨r, hr, rfl⟩ := List.mem_map.mp hc
  simpa using h2 r hr

theorem emits_updateConfigWithTx (cfg : Config) (skipGenerators : Bool) :
    Emits (UpdateConfigWithTx cfg skipGenerators) [] := by
  apply emits_of_quiet
  unfold UpdateConfigWithTx
  repeat' first
    | intro _
    | exact inv_pure _
    | exact inv_getWorld
    | apply inv_bind
    | (apply inv_callOf; intro s err; exact callsOnly_record _ _ rfl s err)
    | (apply inv_modifyWorld; intro s; exact ⟨[], by simp, by simp⟩)
    | (apply inv_pushUndo; intro s; exact ⟨[], by simp, by simp⟩)

theorem emits_checkHubTunnels (pony : PonySection) : Emits (checkHubTunnels pony) [] := by
  unfold checkHubTunnels
  split
  · exact emits_pure _
  · exact emits_call _

theorem emits_hubCheck (deviceType : String) (newCfg : Config) :
    Emits (Act.attempt (do
      if deviceType = DeviceTypeCPE then
        match newCfg.Pony with
        | some pony => (checkHubTunnels pony).wrapErr "updateConfig: "
        | none => pure ())) [] := by
  apply emits_attempt
  apply emits_ite
  · split
    · exact emits_wrapErr _ (emits_checkHubTunnels _)
    · exact emits_pure _
  · exact emits_pure _

theorem emits_updateConfigFrom (deviceType : String) (oldCfg newCfg : Config) :
    Emits (updateConfigFrom (note .ponyPause) (note .ponyResume) (call .publisherStop)
        (call .publisherStart) deviceType oldCfg newCfg)
      (if isPortConfigurationChanged oldCfg newCfg then
        [.ponyPause, .publisherStop, .ponyResume, .publisherStart] else []) := by
  unfold updateConfigFrom
  cases hch : isPortConfigurationChanged oldCfg newCfg
  · simp only [Bool.false_eq_true, if_false, Bool.not_false, if_true]
    repeat' first
      | intro _
      | exact emits_pure _
      | exact emits_fail _
      | exact emits_attempt (emits_updateConfigWithTx _ _)
      | exact emits_attempt (emits_call _)
      | apply emits_bind_nil
      | apply emits_ite
      | split
  · simp only [if_true, Bool.not_true, Bool.false_eq_true, if_false]
    have htail : ∀ _u : PUnit, Emits (do
        note .ponyResume
        let err ← (do
          if deviceType = DeviceTypeCPE then
            match newCfg.Pony with
            | some pony => (checkHubTunnels pony).wrapErr "updateConfig: "
            | none => pure ()).attempt
        let _ ← (call .publisherStart).attempt
        match err with
        | some e => Act.fail e
        | none => pure ()) [.ponyResume, .publisherStart] := by
      intro _
      refine emits_bind_total (k := [.ponyResume]) (l := [.publisherStart])
        (total_note _) (emits_note _) (fun _ => ?_)
      refine emits_bind_total (k := []) (l := [.publisherStart])
        (total_attempt _) (emits_hubCheck deviceType newCfg) (fun err => ?_)
      refine emits_bind_total (k := [.publisherStart]) (l := [])
        (total_attempt _) (emits_attempt (emits_call _)) (fun _ => ?_)
      split
      · exact emits_fail _
      · exact emits_pure _
    refine emits_bind_total (k := [.ponyPause])
      (l := [.publisherStop, .ponyResume, .publisherStart])
      (total_note _) (emits_note _) (fun _ => ?_)
    refine emits_bind_total (k := [.publisherStop]) (l := [.ponyResume, .publisherStart])
      (total_attempt _) (emits_attempt (emits_call _)) (fun _ => ?_)
    refine emits_bind_total (k := []) (l := [.ponyResume, .publisherStart])
      (total_pure _) (emits_pure _) (fun _ => ?_)
    refine emits_bind_total (k := []) (l := [.ponyResume, .publisherStart])
      (total_attempt _) (emits_attempt (emits_updateConfigWithTx _ _)) (fun r => ?_)
    split
    · refine emits_bind_total (k := [.ponyResume]) (l := [.publisherStart])
        (total_note _) (emits_note _) (fun _ => ?_)
      refine emits_bind_total (k := [.publisherStart]) (l := [])
        (total_attempt _) (emits_attempt (emits_call _)) (fun _ => ?_)
      exact emits_bind_nil (emits_pure _) (fun _ => emits_fail _)
    · apply emits_ite
      · apply emits_ite
        · refine emits_bind_total (k := []) (l := [.ponyResume, .publisherStart])
            (total_attempt _) (emits_attempt (emits_call _)) (fun _ => ?_)
          exact emits_bind_total (k := []) (l := [.ponyResume, .publisherStart])
            (total_pure _) (emits_pure _) htail
        · exact emits_bind_total (k := []) (l := [.ponyResume, .publisherStart])
            (total_pure _) (emits_pure _) htail
      · exact emits_bind_total (k := []) (l := [.ponyResume, .publisherStart])
          (total_pure _) (emits_pure _) htail

/-- C30. `updateConfig` is `updateConfigWith` run with the tunnel monitor and the publisher of
the agent. Run with a monitor and a publisher whose calls are recorded and answered by the
environment, from any state in which `GetConfig` returns the stored config: when the new
config carries a Port section or an AdminState section that differs from the stored one, the
calls to monitor and publisher are exactly `Pause`, `Stop`, `Resume`, `Start`, in this order,
whatever `Stop`, the config update, the hub-tunnel check and `Start` return; otherwise none
of the four is called. When `GetConfig` fails none of the four is called either. -/
theorem updateConfig_pause_resume_balanced (deviceType : String) (newCfg : Config)
    (s : HState) :
    updateConfig deviceType newCfg =
        updateConfigWith (note .ponyPause) (note .ponyResume) websocketStop websocketStart
          deviceType newCfg ∧
      (s.world.outcome s.world.calls .GetConfig = none →
        monitorCalls s (updateConfigWith (note .ponyPause) (note .ponyResume)
            (call .publisherStop) (call .publisherStart) deviceType newCfg s).2 =
          if isPortConfigurationChanged s.world.store newCfg then
            [.ponyPause, .publisherStop, .ponyResume, .publisherStart] else []) ∧
      (∀ e, s.world.outcome s.world.calls .GetConfig = some e →
        monitorCalls s (updateConfigWith (note .ponyPause) (note .ponyResume)
            (call .publisherStop) (call .publisherStart) deviceType newCfg s).2 = []) := by
  refine ⟨rfl, ?_, ?_⟩
  · intro hok
    have hget : (GetConfig).wrapErr "updateConfig: " s =
        (.ok s.world.store, s.record .GetConfig none) := by
      unfold Act.wrapErr
      rw [getConfig_eq, hok]
    have hrun : updateConfigWith (note .ponyPause) (note .ponyResume)
        (call .publisherStop) (call .publisherStart) deviceType newCfg s =
        updateConfigFrom (note .ponyPause) (note .ponyResume)
          (call .publisherStop) (call .publisherStart) deviceType s.world.store newCfg
          (s.record .GetConfig none) := by
      unfold updateConfigWith
      rw [Act.bind_apply, hget]
    rw [hrun]
    obtain ⟨cs, h1, h2⟩ := (emits_updateConfigFrom deviceType s.world.store newCfg).run
      (s.record .GetConfig none)
    unfold monitorCalls
    rw [h1]
    have h3 : (s.record .GetConfig none).world.calls ++ cs =
        s.world.calls ++ (⟨.GetConfig, none⟩ :: cs) := by
      simp [HState.record]
    rw [h3, List.drop_left, List.map_cons, List.filter_cons_of_neg (by decide)]
    exact h2
  · intro e herr
    have hget : (GetConfig).wrapErr "updateConfig: " s =
        (.error (.wrap "updateConfig: " e), s.record .GetConfig (some e)) := by
      unfold Act.wrapErr
      rw [getConfig_eq, herr]
    have hrun : updateConfigWith (note .ponyPause) (note .ponyResume)
        (call .publisherStop) (call .publisherStart) deviceType newCfg s =
        (.error (.wrap "updateConfig: " e), s.record .GetConfig (some e)) := by
      unfold updateConfigWith
      rw [Act.bind_apply, hget]
    rw [hrun]
    unfold monitorCalls
    have h3 : (s.record .GetConfig (some e)).world.calls =
        s.world.calls ++ [⟨.GetConfig, some e⟩] := rfl
    rw [h3, List.drop_left]
    rfl

/-- Witness for C30: the new config changes the Port section, `Stop` fails and the config
update fails; the four calls are made once each, in order. -/
theorem updateConfig_pause_resume_witness :
    monitorCalls sampleUpdateFailsState
        (updateConfigWith (note .ponyPause) (note .ponyResume) (call .publisherStop)
          (call .publisherStart) DeviceTypeCPE samplePortChange sampleUpdateFailsState).2 =
      [.ponyPause, .publisherStop, .ponyResume, .publisherStart] := by
  have h := (updateConfig_pause_resume_balanced DeviceTypeCPE samplePortChange
    sampleUpdateFailsState).2.1 rfl
  rw [h]
  decide!

end UpdateConfigStateHandler

end Handlers


/-! ## Theorems: the transitions a handler recognises -/

namespace Handlers

open Appstate (AppState AppStateBoot AppStateInit AppStateActive AppStateUpdateConfig
  AppStateMaintenance AppStateZTPSetup AppStateReset)

theorem foreign_wrap (msg : String) (e : GoError) (h : Foreign e) :
    Foreign (.wrap msg e) := by
  unfold Foreign ErrInvalidTransitionType at h ⊢
  simp [GoError.Is, h]

theorem foreign_wrap_iff (msg : String) (e : GoError) :
    Foreign (.wrap msg e) ↔ Foreign e := by
  unfold Foreign ErrInvalidTransitionType
  simp [GoError.Is]

theorem foreign_leaf (text : String) : Foreign (.leaf text) := by
  simp [Foreign, GoError.Is, ErrInvalidTransitionType]

theorem scanResults_error (results : List Discovery.discoveryResult)
    (primary found : String) (err : GoError)
    (h : Discovery.scanResults results primary = .error (found, err)) :
    err = ErrSplitBrain := by
  induction results generalizing primary with
  | nil => cases h
  | cons r rest ih =>
    unfold Discovery.scanResults at h
    split at h
    · split at h
      · cases h
        rfl
      · exact ih _ h
    · exact ih _ h

/-- The errors of `FetchPrimary` are its two sentinels. -/
theorem fetchPrimary_err_foreign (CheckPrimary : String → Bool × Option GoError)
    (wait : List Discovery.discoveryResult → List Discovery.discoveryResult)
    (hosts : List String) (primary : String) (err : GoError)
    (h : Discovery.FetchPrimary CheckPrimary wait hosts = some (primary, some err)) :
    Foreign err := by
  unfold Discovery.FetchPrimary at h
  split at h
  · cases h
  · simp only at h
    split at h
    · rename_i p e hs
      cases h
      rw [scanResults_error _ _ _ _ hs]
      unfold Foreign
      decide
    · split at h
      · cases h
        unfold Foreign
        decide
      · cases h

theorem post_pure {α : Type} [HasErr α] (a : α) (h : ∀ e ∈ HasErr.errs a, Foreign e) :
    Post (pure a : Act α) := by
  constructor
  intro s hs
  refine ⟨hs, ?_, ?_⟩
  · intro b hb
    cases hb
    exact h
  · intro e he
    cases he

theorem post_fail {α : Type} [HasErr α] (e : GoError) (h : Foreign e) :
    Post (Act.fail e : Act α) := by
  constructor
  intro s hs
  refine ⟨hs, ?_, ?_⟩
  · intro b hb
    cases hb
  · intro e2 he
    cases he
    exact h

theorem post_bind {α β : Type} [HasErr α] [HasErr β] {x : Act α} {f : α → Act β}
    (hx : Post x) (hf : ∀ a, (∀ e ∈ HasErr.errs a, Foreign e) → Post (f a)) :
    Post (x >>= f) := by
  constructor
  intro s hs
  obtain ⟨h1, h2, h3⟩ := hx.run s hs
  simp only [Act.bind_apply]
  cases hxs : x s with
  | mk r s1 =>
    rw [hxs] at h1 h2 h3
    cases r with
    | error e =>
      refine ⟨h1, ?_, ?_⟩
      · intro b hb
        cases hb
      · intro e2 he
        cases he
        exact h3 e rfl
    | ok a => exact (hf a (h2 a rfl)).run s1 h1

theorem post_wrapErr {α : Type} [HasErr α] {x : Act α} (msg : String) (hx : Post x) :
    Post (x.wrapErr msg) := by
  constructor
  intro s hs
  obtain ⟨h1, h2, h3⟩ := hx.run s hs
  unfold Act.wrapErr
  cases hxs : x s with
  | mk r s1 =>
    rw [hxs] at h1 h2 h3
    cases r with
    | error e =>
      refine ⟨h1, ?_, ?_⟩
      · intro b hb
        cases hb
      · intro e2 he
        cases he
        exact foreign_wrap msg e (h3 e rfl)
    | ok a => exact ⟨h1, h2, h3⟩

theorem post_attempt {α : Type} [HasErr α] {x : Act α} (hx : Post x) : Post x.attempt := by
  constructor
  intro s hs
  obtain ⟨h1, h2, h3⟩ := hx.run s hs
  unfold Act.attempt
  cases hxs : x s with
  | mk r s1 =>
    rw [hxs] at h1 h2 h3
    cases r with
    | error e =>
      refine ⟨h1, ?_, ?_⟩
      · intro b hb e2 he2
        cases hb
        simp only [HasErr.errs, Option.toList, List.mem_singleton] at he2
        rw [he2]
        exact h3 e rfl
      · intro e2 he
        cases he
    | ok a =>
      refine ⟨h1, ?_, ?_⟩
      · intro b hb e2 he2
        cases hb
        simp [HasErr.errs] at he2
      · intro e2 he
        cases he

theorem post_call (c : Call) : Post (call c) := by
  constructor
  intro s hs
  unfold Handlers.call
  cases h : s.world.outcome s.world.calls c with
  | none =>
    refine ⟨hs, ?_, ?_⟩
    · intro b _ e he
      simp [HasErr.errs] at he
    · intro e he
      cases he
  | some err =>
    refine ⟨hs, ?_, ?_⟩
    · intro b hb
      cases hb
    · intro e he
      cases he
      exact hs _ _ _ h

theorem post_note (c : Call) : Post (note c) := by
  constructor
  intro s hs
  refine ⟨hs, ?_, ?_⟩
  · intro b _ e he
    simp [HasErr.errs] at he
  · intro e he
    cases he

theorem post_getWorld : Post getWorld := by
  constructor
  intro s hs
  refine ⟨hs, ?_, ?_⟩
  · intro b _ e he
    simp [HasErr.errs] at he
  · intro e he
    cases he

theorem post_modifyWorld (f : World → World) (hf : ∀ w, (f w).outcome = w.outcome) :
    Post (modifyWorld f) := by
  constructor
  intro s hs
  refine ⟨?_, ?_, ?_⟩
  · intro calls c e he
    have h : (f s.world).outcome calls c = some e := he
    rw [hf] at h
    exact hs calls c e h
  · intro b _ e he
    simp [HasErr.errs] at he
  · intro e he
    cases he

theorem post_pushUndo (u : Undo) : Post (pushUndo u) := by
  constructor
  intro s hs
  refine ⟨hs, ?_, ?_⟩
  · intro b _ e he
    simp [HasErr.errs] at he
  · intro e he
    cases he

theorem post_nilDeref {α : Type} [HasErr α] : Post (Act.nilDeref : Act α) := by
  constructor
  intro s hs
  refine ⟨hs, ?_, ?_⟩
  · intro b hb
    cases hb
  · intro e he
    cases he
    exact foreign_leaf _

theorem post_ite {α : Type} [HasErr α] (c : Prop) [Decidable c] {x y : Act α}
    (hx : Post x) (hy : Post y) : Post (if c then x else y) := by
  split
  · exact hx
  · exact hy

theorem post_checkSchemes (addrs : List String) :
    Post (ActiveStateHandler.checkSchemes addrs) := by
  constructor
  intro s hs
  rw [checkSchemes_eq]
  split
  · refine ⟨hs, ?_, ?_⟩
    · intro b _ e he
      simp [HasErr.errs] at he
    · intro e he
      cases he
  · refine ⟨hs, ?_, ?_⟩
    · intro b hb
      cases hb
    · intro e he
      cases he
      exact foreign_leaf _

theorem post_subscribeLoop (l : List String) : Post (subscribeLoop l) := by
  induction l with
  | nil => exact post_pure _ (by intro e he; simp [HasErr.errs] at he)
  | cons a rest ih =>
    unfold subscribeLoop ExecuteFunc ActivateHandler
    repeat' first
      | intro _
      | exact ih
      | exact post_getWorld
      | exact post_call _
      | exact post_note _
      | exact post_pushUndo _
      | exact post_nilDeref
      | (apply post_modifyWorld; intro w; rfl)
      | (apply post_pure
         first
           | assumption
           | (intro e he; simp [HasErr.errs] at he; done)
           | (intro e he
              simp_all [HasErr.errs, foreign_wrap_iff, foreign_leaf]
              done))
      | (apply post_fail
         simp_all [HasErr.errs, foreign_wrap_iff, foreign_leaf]
         done)
      | apply post_bind
      | apply post_wrapErr
      | apply post_attempt
      | apply post_ite
      | split
      | unfold checkHubTunnels
      | unfold UpdateConfigStateHandler.checkHubTunnels
      | unfold MaintenanceStateHandler.installUpdateManager
      | unfold ActiveStateHandler.waitDeviceInit
      | unfold BuildConn
      | unfold writeActiveAddr
      | unfold UpdateConfig
      | dsimp only

theorem post_unsubscribeLoop (l : List String) : Post (unsubscribeLoop l) := by
  induction l with
  | nil => exact post_pure _ (by intro e he; simp [HasErr.errs] at he)
  | cons a rest ih =>
    unfold unsubscribeLoop ExecuteFunc DeactivateHandler
    repeat' first
      | intro _
      | exact ih
      | exact post_getWorld
      | exact post_call _
      | exact post_note _
      | exact post_pushUndo _
      | exact post_nilDeref
      | (apply post_modifyWorld; intro w; rfl)
      | (apply post_pure
         first
           | assumption
           | (intro e he; simp [HasErr.errs] at he; done)
           | (intro e he
              simp_all [HasErr.errs, foreign_wrap_iff, foreign_leaf]
              done))
      | (apply post_fail
         simp_all [HasErr.errs, foreign_wrap_iff, foreign_leaf]
         done)
      | apply post_bind
      | apply post_wrapErr
      | apply post_attempt
      | apply post_ite
      | split
      | unfold checkHubTunnels
      | unfold UpdateConfigStateHandler.checkHubTunnels
      | unfold MaintenanceStateHandler.installUpdateManager
      | unfold ActiveStateHandler.waitDeviceInit
      | unfold BuildConn
      | unfold writeActiveAddr
      | unfold UpdateConfig
      | dsimp only

theorem post_boot_handle (t : Transition) : Post (BootStateHandler.Handle t) := by
  unfold BootStateHandler.Handle
  repeat' first
    | intro _
    | exact post_checkSchemes _
    | exact post_subscribeLoop _
    | exact post_unsubscribeLoop _
    | exact post_getWorld
    | exact post_call _
    | exact post_note _
    | exact post_pushUndo _
    | exact post_nilDeref
    | (apply post_modifyWorld; intro w; rfl)
    | (apply post_pure
       first
         | assumption
         | (intro e he; simp [HasErr.errs] at he; done)
         | (intro e he
            simp_all [HasErr.errs, foreign_wrap_iff, foreign_leaf]
            done))
    | (apply post_fail
       simp_all [HasErr.errs, foreign_wrap_iff, foreign_leaf]
       done)
    | apply post_bind
    | apply post_wrapErr
    | apply post_attempt
    | apply post_ite
    | split
    | unfold checkHubTunnels
    | unfold UpdateConfigStateHandler.checkHubTunnels
    | unfold MaintenanceStateHandler.installUpdateManager
    | unfold ActiveStateHandler.waitDeviceInit
    | unfold BuildConn
    | unfold writeActiveAddr
    | unfold UpdateConfig
    | dsimp only

theorem post_init_handle (agentEnv : Agent) (t : Transition)
    (h : t.ToState = AppStateInit) : Post (InitStateHandler.Handle agentEnv t) := by
  cases t <;> first
    | (simp [Transition.ToState, AppStateBoot, AppStateInit, AppStateActive,
        AppStateUpdateConfig, AppStateMaintenance, AppStateZTPSetup, AppStateReset] at h
       done)
    | skip
  all_goals unfold InitStateHandler.Handle
  all_goals simp only
  repeat' first
    | intro _
    | exact post_checkSchemes _
    | exact post_subscribeLoop _
    | exact post_unsubscribeLoop _
    | exact post_getWorld
    | exact post_call _
    | exact post_note _
    | exact post_pushUndo _
    | exact post_nilDeref
    | (apply post_modifyWorld; intro w; rfl)
    | (apply post_pure
       first
         | assumption
         | (intro e he; simp [HasErr.errs] at he; done)
         | (intro e he
            simp_all [HasErr.errs, foreign_wrap_iff, foreign_leaf]
            done))
    | (apply post_fail
       simp_all [HasErr.errs, foreign_wrap_iff, foreign_leaf]
       done)
    | apply post_bind
    | apply post_wrapErr
    | apply post_attempt
    | apply post_ite
    | split
    | unfold checkHubTunnels
    | unfold UpdateConfigStateHandler.checkHubTunnels
    | unfold MaintenanceStateHandler.installUpdateManager
    | unfold ActiveStateHandler.waitDeviceInit
    | unfold BuildConn
    | unfold writeActiveAddr
    | unfold UpdateConfig
    | dsimp only

set_option maxHeartbeats 1600000 in
theorem post_active_handle (deviceType : String) (t : Transition)
    (h : t.ToState = AppStateActive) : Post (ActiveStateHandler.Handle deviceType t) := by
  cases t <;> first
    | (simp [Transition.ToState, AppStateBoot, AppStateInit, AppStateActive,
        AppStateUpdateConfig, AppStateMaintenance, AppStateZTPSetup, AppStateReset] at h
       done)
    | skip
  all_goals unfold ActiveStateHandler.Handle
  all_goals simp only
  repeat' first
    | intro _
    | exact post_checkSchemes _
    | exact post_subscribeLoop _
    | exact post_unsubscribeLoop _
    | exact post_getWorld
    | exact post_call _
    | exact post_note _
    | exact post_pushUndo _
    | exact post_nilDeref
    | (apply post_modifyWorld; intro w; rfl)
    | (apply post_pure
       first
         | assumption
         | (intro e he; simp [HasErr.errs] at he; done)
         | (intro e he
            simp_all [HasErr.errs, foreign_wrap_iff, foreign_leaf]
            done))
    | (apply post_fail
       simp_all [HasErr.errs, foreign_wrap_iff, foreign_leaf]
       done)
    | (apply post_fail
       rw [foreign_wrap_iff]
       exact fetchPrimary_err_foreign _ _ _ _ _ (by assumption))
    | apply post_bind
    | apply post_wrapErr
    | apply post_attempt
    | apply post_ite
    | split
    | unfold checkHubTunnels
    | unfold UpdateConfigStateHandler.checkHubTunnels
    | unfold MaintenanceStateHandler.installUpdateManager
    | unfold ActiveStateHandler.waitDeviceInit
    | unfold BuildConn
    | unfold writeActiveAddr
    | unfold UpdateConfig
    | dsimp only

theorem post_updateConfig_handle (deviceType : String) (t : Transition)
    (h : t.ToState = AppStateUpdateConfig) :
    Post (UpdateConfigStateHandler.Handle deviceType t) := by
  cases t <;> first
    | (simp [Transition.ToState, AppStateBoot, AppStateInit, AppStateActive,
        AppStateUpdateConfig, AppStateMaintenance, AppStateZTPSetup, AppStateReset] at h
       done)
    | skip
  all_goals unfold UpdateConfigStateHandler.Handle
  all_goals simp only
  repeat' first
    | intro _
    | exact post_checkSchemes _
    | exact post_subscribeLoop _
    | exact post_unsubscribeLoop _
    | exact post_getWorld
    | exact post_call _
    | exact post_note _
    | exact post_pushUndo _
    | exact post_nilDeref
    | (apply post_modifyWorld; intro w; rfl)
    | (apply post_pure
       first
         | assumption
         | (intro e he; simp [HasErr.errs] at he; done)
         | (intro e he
            simp_all [HasErr.errs, foreign_wrap_iff, foreign_leaf]
            done))
    | (apply post_fail
       simp_all [HasErr.errs, foreign_wrap_iff, foreign_leaf]
       done)
    | apply post_bind
    | apply post_wrapErr
    | apply post_attempt
    | apply post_ite
    | split
    | unfold checkHubTunnels
    | unfold UpdateConfigStateHandler.checkHubTunnels
    | unfold MaintenanceStateHandler.installUpdateManager
    | unfold ActiveStateHandler.waitDeviceInit
    | unfold BuildConn
    | unfold writeActiveAddr
    | unfold UpdateConfig
    | dsimp only

theorem post_maintenance_handle (t : Transition) (h : t.ToState = AppStateMaintenance) :
    Post (MaintenanceStateHandler.Handle t) := by
  cases t <;> first
    | (simp [Transition.ToState, AppStateBoot, AppStateInit, AppStateActive,
        AppStateUpdateConfig, AppStateMaintenance, AppStateZTPSetup, AppStateReset] at h
       done)
    | skip
  all_goals unfold MaintenanceStateHandler.Handle
  all_goals simp only
  repeat' first
    | intro _
    | exact post_checkSchemes _
    | exact post_subscribeLoop _
    | exact post_unsubscribeLoop _
    | exact post_getWorld
    | exact post_call _
    | exact post_note _
    | exact post_pushUndo _
    | exact post_nilDeref
    | (apply post_modifyWorld; intro w; rfl)
    | (apply post_pure
       first
         | assumption
         | (intro e he; simp [HasErr.errs] at he; done)
         | (intro e he
            simp_all [HasErr.errs, foreign_wrap_iff, foreign_leaf]
            done))
    | (apply post_fail
       simp_all [HasErr.errs, foreign_wrap_iff, foreign_leaf]
       done)
    | apply post_bind
    | apply post_wrapErr
    | apply post_attempt
    | apply post_ite
    | split
    | unfold checkHubTunnels
    | unfold UpdateConfigStateHandler.checkHubTunnels
    | unfold MaintenanceStateHandler.installUpdateManager
    | unfold ActiveStateHandler.waitDeviceInit
    | unfold BuildConn
    | unfold writeActiveAddr
    | unfold UpdateConfig
    | dsimp only

theorem post_ztpSetup_handle (t : Transition) (h : t.ToState = AppStateZTPSetup) :
    Post (ZTPSetupHandler.Handle t) := by
  cases t <;> first
    | (simp [Transition.ToState, AppStateBoot, AppStateInit, AppStateActive,
        AppStateUpdateConfig, AppStateMaintenance, AppStateZTPSetup, AppStateReset] at h
       done)
    | skip
  all_goals unfold ZTPSetupHandler.Handle
  all_goals simp only
  repeat' first
    | intro _
    | exact post_checkSchemes _
    | exact post_subscribeLoop _
    | exact post_unsubscribeLoop _
    | exact post_getWorld
    | exact post_call _
    | exact post_note _
    | exact post_pushUndo _
    | exact post_nilDeref
    | (apply post_modifyWorld; intro w; rfl)
    | (apply post_pure
       first
         | assumption
         | (intro e he; simp [HasErr.errs] at he; done)
         | (intro e he
            simp_all [HasErr.errs, foreign_wrap_iff, foreign_leaf]
            done))
    | (apply post_fail
       simp_all [HasErr.errs, foreign_wrap_iff, foreign_leaf]
       done)
    | apply post_bind
    | apply post_wrapErr
    | apply post_attempt
    | apply post_ite
    | split
    | unfold checkHubTunnels
    | unfold UpdateConfigStateHandler.checkHubTunnels
    | unfold MaintenanceStateHandler.installUpdateManager
    | unfold ActiveStateHandler.waitDeviceInit
    | unfold BuildConn
    | unfold writeActiveAddr
    | unfold UpdateConfig
    | dsimp only

theorem post_reset_handle (deviceType : String) (t : Transition)
    (h : t.ToState = AppStateReset) : Post (ResetStateHandler.Handle deviceType t) := by
  cases t <;> first
    | (simp [Transition.ToState, AppStateBoot, AppStateInit, AppStateActive,
        AppStateUpdateConfig, AppStateMaintenance, AppStateZTPSetup, AppStateReset] at h
       done)
    | skip
  all_goals unfold ResetStateHandler.Handle
  all_goals simp only
  repeat' first
    | intro _
    | exact post_checkSchemes _
    | exact post_subscribeLoop _
    | exact post_unsubscribeLoop _
    | exact post_getWorld
    | exact post_call _
    | exact post_note _
    | exact post_pushUndo _
    | exact post_nilDeref
    | (apply post_modifyWorld; intro w; rfl)
    | (apply post_pure
       first
         | assumption
         | (intro e he; simp [HasErr.errs] at he; done)
         | (intro e he
            simp_all [HasErr.errs, foreign_wrap_iff, foreign_leaf]
            done))
    | (apply post_fail
       simp_all [HasErr.errs, foreign_wrap_iff, foreign_leaf]
       done)
    | apply post_bind
    | apply post_wrapErr
    | apply post_attempt
    | apply post_ite
    | split
    | unfold checkHubTunnels
    | unfold UpdateConfigStateHandler.checkHubTunnels
    | unfold MaintenanceStateHandler.installUpdateManager
    | unfold ActiveStateHandler.waitDeviceInit
    | unfold BuildConn
    | unfold writeActiveAddr
    | unfold UpdateConfig
    | dsimp only

/-- C23. For every transition `t` and the handler registered for `t.ToState` (its `StateID`
is `t.ToState`; for `OnAfterBoot` this is any of the seven states): `Handle` run on `t` in an
environment whose collaborators return no error that is or wraps `ErrInvalidTransitionType`
returns no such error, so it does not answer `t` with `ErrInvalidTransitionType`. -/
theorem handlers_recognise_their_transitions (agentEnv : Agent) (t : Transition)
    (toState : Appstate.IStateHandler World Transition)
    (hlook : Appstate.lookupHandler (registry agentEnv) t.ToState = some toState)
    (w : World) (henv : EnvForeign w) :
    toState.StateID = t.ToState ∧
      ∀ e, (toState.Handle w t).ret = .error e → e.Is ErrInvalidTransitionType = false := by
  have key : ∀ (x : Act (Appstate.StateHandleResult Transition)), Post x →
      ∀ e, (x.toEffect w).ret = .error e → e.Is ErrInvalidTransitionType = false := by
    intro x hx e he
    exact (hx.run { world := w, undo := [] } henv).2.2 e he
  rw [lookup_registry] at hlook
  split_ifs at hlook with h1 h2 h3 h4 h5 h6 h7
  · cases hlook
    exact ⟨h1, key _ (post_boot_handle t)⟩
  · cases hlook
    exact ⟨h2, key _ (post_init_handle agentEnv t h2.symm)⟩
  · cases hlook
    exact ⟨h3, key _ (post_active_handle agentEnv.DeviceType t h3.symm)⟩
  · cases hlook
    exact ⟨h4, key _ (post_updateConfig_handle agentEnv.DeviceType t h4.symm)⟩
  · cases hlook
    exact ⟨h5, key _ (post_maintenance_handle t h5.symm)⟩
  · cases hlook
    exact ⟨h6, key _ (post_ztpSetup_handle t h6.symm)⟩
  · cases hlook
    exact ⟨h7, key _ (post_reset_handle agentEnv.DeviceType t h7.symm)⟩

/-- Witness for C23: the active handler on `OnFirstSetup` with an address without scheme;
`Handle` fails, and not with `ErrInvalidTransitionType`. -/
theorem handlers_recognise_witness :
    (activeStateHandler { DeviceType := DeviceTypeCPE }).StateID = AppStateActive ∧
      (∃ e, ((activeStateHandler { DeviceType := DeviceTypeCPE }).Handle
          (World.fresh sampleStoreInit allSucceed none)
          (.OnFirstSetup "SN1" ["orch"])).ret = .error e ∧
        e.Is ErrInvalidTransitionType = false) := by
  have h := handlers_recognise_their_transitions { DeviceType := DeviceTypeCPE }
    (.OnFirstSetup "SN1" ["orch"]) (activeStateHandler { DeviceType := DeviceTypeCPE }) rfl
    (World.fresh sampleStoreInit allSucceed none) (fun _ _ _ he => by cases he)
  have herr : ((activeStateHandler { DeviceType := DeviceTypeCPE }).Handle
      (World.fresh sampleStoreInit allSucceed none) (.OnFirstSetup "SN1" ["orch"])).ret =
      .error (.wrap "Handle: "
        (.leaf "runFirstSetup: orchestrator address has no schema")) := by
    decide!
  exact ⟨h.1, _, herr, h.2 _ herr⟩

end Handlers

/-! ## Theorems: chains end after two transitions -/

namespace Appstate

variable {W τ : Type}

theorem performTransition_ok_handle (svc : Services W) (ToState : τ → AppState)
    (s : Machine W τ) (t : τ) (r : StateHandleResult τ)
    (h : (performTransition svc ToState s t).2 = .ok r) :
    ∃ toState w hr, lookupHandler s.stateHandlers (ToState t) = some toState ∧
      s.activeState ≠ ToState t ∧ toState.ValidateTransition s.activeState = none ∧
      (toState.Handle w t).ret = .ok hr ∧ r.Transition = hr.Transition ∧
      (performTransition svc ToState s t).1.stateHandlers = s.stateHandlers ∧
      (performTransition svc ToState s t).1.activeState = ToState t := by
  by_cases hne : s.activeState = ToState t
  · simp [performTransition, hne] at h
  cases hto : lookupHandler s.stateHandlers (ToState t) with
  | none => simp [performTransition, hne, hto] at h
  | some toState =>
    cases hv : toState.ValidateTransition s.activeState with
    | some err => simp [performTransition, hne, hto, hv] at h
    | none =>
      obtain ⟨h1, h2, h3⟩ := performTransition_steps svc ToState s t toState hne hto hv
      cases hx : (exitEffect s t).ret with
      | error e =>
        obtain ⟨⟨e1, he1⟩, _⟩ := h2 ⟨e, hx⟩
        rw [he1] at h
        cases h
      | ok u =>
        obtain ⟨h4, h5⟩ := h3 ⟨u, hx⟩
        cases hu : (svc.UpdateConfigWithTx (exitEffect s t).world (ToState t)).ret with
        | error e =>
          obtain ⟨⟨e1, he1⟩, _⟩ := h4 ⟨e, hu⟩
          rw [he1] at h
          cases h
        | ok u1 =>
          obtain ⟨_, ha, _, hret⟩ := h5 ⟨u1, hu⟩
          obtain ⟨hr, hH, hrr⟩ := (hret r).mp h
          exact ⟨toState, _, hr, rfl, hne, hv, hH, by rw [hrr], h1, ha⟩

end Appstate

namespace Handlers

open Appstate (AppState AppStateBoot AppStateInit AppStateActive AppStateUpdateConfig
  AppStateMaintenance AppStateZTPSetup AppStateReset)

theorem ret_pure {α : Type} {V : α → Prop} {a : α} (h : V a) :
    Act.Ret (pure a : Act α) V := by
  constructor
  intro s b hb
  cases hb
  exact h

theorem ret_fail {α : Type} {V : α → Prop} (e : GoError) : Act.Ret (Act.fail e : Act α) V := by
  constructor
  intro s b hb
  cases hb

theorem ret_bind {α β : Type} {V : β → Prop} {x : Act α} {f : α → Act β}
    (h : ∀ a, Act.Ret (f a) V) : Act.Ret (x >>= f) V := by
  constructor
  intro s b hb
  change (Act.bind x f s).1 = .ok b at hb
  unfold Act.bind at hb
  cases hx : x s with
  | mk r s1 =>
    rw [hx] at hb
    cases r with
    | error e => cases hb
    | ok a => exact (h a).run s1 b hb

theorem ret_ite {α : Type} {V : α → Prop} {c : Prop} [Decidable c] {x y : Act α}
    (hx : Act.Ret x V) (hy : Act.Ret y V) : Act.Ret (if c then x else y) V := by
  split
  · exact hx
  · exact hy

theorem ret_boot_handle (t : Transition) :
    Act.Ret (BootStateHandler.Handle t) (fun r => r.Transition = none) := by
  unfold BootStateHandler.Handle
  exact ret_pure rfl

theorem ret_active_handle (deviceType : String) (t : Transition) :
    Act.Ret (ActiveStateHandler.Handle deviceType t) (fun r => r.Transition = none) := by
  unfold ActiveStateHandler.Handle
  cases t
  all_goals simp only
  all_goals repeat' first
    | intro _
    | exact ret_fail _
    | exact ret_pure rfl
    | apply ret_bind

theorem ret_init_handle (agentEnv : Agent) (t : Transition) :
    Act.Ret (InitStateHandler.Handle agentEnv t) (fun r =>
      ∀ next, r.Transition = some next →
        isFollowUpOf AppStateInit next = true ∧ ∃ toState, t = .OnAfterBoot toState) := by
  unfold InitStateHandler.Handle
  cases t
  all_goals simp only
  all_goals repeat' first
    | intro _
    | exact ret_fail _
    | (apply ret_pure
       intro next hnext
       simp at hnext
       done)
    | (apply ret_pure
       intro next hnext
       simp at hnext
       subst hnext
       exact ⟨rfl, _, rfl⟩)
    | apply ret_bind
    | apply ret_ite

theorem ret_updateConfig_handle (deviceType : String) (t : Transition) :
    Act.Ret (UpdateConfigStateHandler.Handle deviceType t) (fun r =>
      ∀ next, r.Transition = some next → isFollowUpOf AppStateUpdateConfig next = true) := by
  unfold UpdateConfigStateHandler.Handle
  cases t
  all_goals simp only
  all_goals repeat' first
    | intro _
    | exact ret_fail _
    | (apply ret_pure
       intro next hnext
       simp at hnext
       subst hnext
       rfl)
    | apply ret_bind

theorem ret_maintenance_handle (t : Transition) :
    Act.Ret (MaintenanceStateHandler.Handle t) (fun r =>
      ∀ next, r.Transition = some next → isFollowUpOf AppStateMaintenance next = true) := by
  unfold MaintenanceStateHandler.Handle MaintenanceStateHandler.finishUpdate
  cases t
  all_goals simp only
  all_goals repeat' first
    | intro _
    | exact ret_fail _
    | (apply ret_pure
       intro next hnext
       simp at hnext
       subst hnext
       rfl)
    | apply ret_bind

theorem ret_ztpSetup_handle (t : Transition) :
    Act.Ret (ZTPSetupHandler.Handle t) (fun r =>
      ∀ next, r.Transition = some next → isFollowUpOf AppStateZTPSetup next = true) := by
  unfold ZTPSetupHandler.Handle
  cases t
  all_goals simp only
  all_goals repeat' first
    | intro _
    | exact ret_fail _
    | (apply ret_pure
       intro next hnext
       simp at hnext
       subst hnext
       rfl)
    | apply ret_bind

theorem ret_reset_handle (deviceType : String) (t : Transition) :
    Act.Ret (ResetStateHandler.Handle deviceType t) (fun r =>
      ∀ next, r.Transition = some next → isFollowUpOf AppStateReset next = true) := by
  unfold ResetStateHandler.Handle
  cases t
  all_goals simp only
  all_goals repeat' first
    | intro _
    | exact ret_fail _
    | (apply ret_pure
       intro next hnext
       simp at hnext
       done)
    | (apply ret_pure
       intro next hnext
       simp at hnext
       subst hnext
       rfl)
    | apply ret_bind
    | apply ret_ite

theorem handle_followUp (agentEnv : Agent)
    (emitter : Appstate.IStateHandler World Transition)
    (hmem : emitter ∈ stateHandlers agentEnv) (t : Transition) (w : World)
    (r : Appstate.StateHandleResult Transition) (next : Transition)
    (hret : (emitter.Handle w t).ret = .ok r) (hnext : r.Transition = some next) :
    isFollowUpOf emitter.StateID next = true := by
  simp only [stateHandlers, List.mem_cons, List.mem_singleton, List.not_mem_nil,
    or_false] at hmem
  rcases hmem with h | h | h | h | h | h | h
  all_goals subst h
  · have h1 := (ret_boot_handle t).run { world := w, undo := [] } r hret
    rw [h1] at hnext
    cases hnext
  · exact ((ret_init_handle agentEnv t).run { world := w, undo := [] } r hret next hnext).1
  · have h1 := (ret_active_handle agentEnv.DeviceType t).run { world := w, undo := [] } r hret
    rw [h1] at hnext
    cases hnext
  · exact (ret_updateConfig_handle agentEnv.DeviceType t).run { world := w, undo := [] } r hret next hnext
  · exact (ret_maintenance_handle t).run { world := w, undo := [] } r hret next hnext
  · exact (ret_ztpSetup_handle t).run { world := w, undo := [] } r hret next hnext
  · exact (ret_reset_handle agentEnv.DeviceType t).run { world := w, undo := [] } r hret next hnext

theorem followUp_target (agentEnv : Agent) (emitter : AppState) (next : Transition)
    (h : isFollowUpOf emitter next = true) :
    next.ToState ≠ emitter ∧
      ∃ target, Appstate.lookupHandler (registry agentEnv) next.ToState = some target ∧
        target.ValidateTransition emitter = none ∧
        ∀ w r, (target.Handle w next).ret = .ok r → r.Transition = none := by
  have hactive : ∀ w r, ((activeStateHandler agentEnv).Handle w next).ret = .ok r →
      r.Transition = none := fun w r hr => (ret_active_handle agentEnv.DeviceType next).run { world := w, undo := [] } r hr
  have hinit : (∀ toState, next ≠ .OnAfterBoot toState) →
      ∀ w r, ((initStateHandler agentEnv).Handle w next).ret = .ok r →
        r.Transition = none := by
    intro hn w r hr
    cases hT : r.Transition with
    | none => rfl
    | some next1 =>
      obtain ⟨_, toState, ht⟩ := (ret_init_handle agentEnv next).run { world := w, undo := [] } r hr next1 hT
      exact absurd ht (hn toState)
  cases next <;> simp [isFollowUpOf] at h
  case OnMigrateFromOldVersion serialNumber orchestratorAddr =>
    subst h
    have hne : AppStateActive ≠ AppStateInit := by decide
    exact ⟨hne, activeStateHandler agentEnv, rfl, rfl, hactive⟩
  case OnFallback =>
    rcases h with h | h
    · subst h
      have hne : AppStateActive ≠ AppStateUpdateConfig := by decide
      exact ⟨hne, activeStateHandler agentEnv, rfl, rfl, hactive⟩
    · subst h
      have hne : AppStateActive ≠ AppStateReset := by decide
      exact ⟨hne, activeStateHandler agentEnv, rfl, rfl, hactive⟩
  case OnUpdateConfigFinished =>
    subst h
    have hne : AppStateActive ≠ AppStateUpdateConfig := by decide
    exact ⟨hne, activeStateHandler agentEnv, rfl, rfl, hactive⟩
  case OnUpdateDeviceFinished err =>
    subst h
    have hne : AppStateActive ≠ AppStateMaintenance := by decide
    exact ⟨hne, activeStateHandler agentEnv, rfl, rfl, hactive⟩
  case OnInitFallback =>
    subst h
    have hne : AppStateInit ≠ AppStateReset := by decide
    have hv : InitStateHandler.ValidateTransition AppStateReset = none := by decide
    exact ⟨hne, initStateHandler agentEnv, rfl, hv, hinit (fun _ hn => by cases hn)⟩
  case OnHubResetFinished =>
    subst h
    have hne : AppStateInit ≠ AppStateReset := by decide
    have hv : InitStateHandler.ValidateTransition AppStateReset = none := by decide
    exact ⟨hne, initStateHandler agentEnv, rfl, hv, hinit (fun _ hn => by cases hn)⟩
  case OnZTPSetupInterrupted =>
    subst h
    have hne : AppStateInit ≠ AppStateZTPSetup := by decide
    have hv : InitStateHandler.ValidateTransition AppStateZTPSetup = none := by decide
    exact ⟨hne, initStateHandler agentEnv, rfl, hv, hinit (fun _ hn => by cases hn)⟩
  case OnZTPSetupFinished =>
    subst h
    have hne : AppStateInit ≠ AppStateZTPSetup := by decide
    have hv : InitStateHandler.ValidateTransition AppStateZTPSetup = none := by decide
    exact ⟨hne, initStateHandler agentEnv, rfl, hv, hinit (fun _ hn => by cases hn)⟩

theorem lookup_registry_mem (agentEnv : Agent) (id : AppState)
    (toState : Appstate.IStateHandler World Transition)
    (h : Appstate.lookupHandler (registry agentEnv) id = some toState) :
    toState ∈ stateHandlers agentEnv := by
  rw [lookup_registry] at h
  split_ifs at h
  all_goals cases h
  all_goals simp [stateHandlers]

theorem runChain_two (agentEnv : Agent) (svc : Appstate.Services World)
    (m : Appstate.Machine World Transition) (hreg : m.stateHandlers = registry agentEnv)
    (t : Transition) :
    ∃ out, Appstate.runChain svc Transition.ToState 2 m t = some out := by
  cases hres : (Appstate.performTransition svc Transition.ToState m t).2 with
  | error e =>
    refine ⟨((Appstate.performTransition svc Transition.ToState m t).1, some e), ?_⟩
    rw [Appstate.runChain]
    cases hp : Appstate.performTransition svc Transition.ToState m t with
    | mk s1 res =>
      rw [hp] at hres
      simp only at hres
      subst hres
      rfl
  | ok r =>
    rw [Appstate.runChain_step svc Transition.ToState 1 m t r hres]
    cases hT : r.Transition with
    | none => exact ⟨_, rfl⟩
    | some next =>
      simp only
      obtain ⟨toState, w, hr, hto, _, _, hH, hrr, hh, _⟩ :=
        Appstate.performTransition_ok_handle svc Transition.ToState m t r hres
      rw [hreg] at hto
      rw [hT] at hrr
      have hf := handle_followUp agentEnv toState (lookup_registry_mem agentEnv _ _ hto)
        t w hr next hH hrr.symm
      obtain ⟨_, target, htarget, _, hnone⟩ := followUp_target agentEnv _ next hf
      cases hres2 : (Appstate.performTransition svc Transition.ToState
          (Appstate.performTransition svc Transition.ToState m t).1 next).2 with
      | error e =>
        refine ⟨((Appstate.performTransition svc Transition.ToState
          (Appstate.performTransition svc Transition.ToState m t).1 next).1, some e), ?_⟩
        rw [Appstate.runChain]
        cases hp : Appstate.performTransition svc Transition.ToState
            (Appstate.performTransition svc Transition.ToState m t).1 next with
        | mk s1 res =>
          rw [hp] at hres2
          simp only at hres2
          subst hres2
          rfl
      | ok r2 =>
        rw [Appstate.runChain_step svc Transition.ToState 0 _ next r2 hres2]
        obtain ⟨toState2, w2, hr2, hto2, _, _, hH2, hrr2, _, _⟩ :=
          Appstate.performTransition_ok_handle svc Transition.ToState _ next r2 hres2
        rw [hh, hreg, htarget] at hto2
        cases hto2
        rw [hnone w2 hr2 hH2] at hrr2
        rw [hrr2]
        exact ⟨_, rfl⟩

/-- C27. With the handlers of `BuildAppStateService` registered, from every live state and
for every transition the chaining loop ends within two transitions (`runChain` with fuel 2
returns), and every follow-up a handler returns targets a state other than the handler's,
is accepted there by `ValidateTransition` from the handler's state, and is answered by the
target's `Handle` without a further follow-up. -/
theorem chains_end_after_two_transitions (agentEnv : Agent) (svc : Appstate.Services World)
    (m : Appstate.Machine World Transition) (hreg : m.stateHandlers = registry agentEnv)
    (t : Transition) :
    (∃ out, Appstate.runChain svc Transition.ToState 2 m t = some out) ∧
      ∀ emitter ∈ stateHandlers agentEnv, ∀ w r next,
        (emitter.Handle w t).ret = .ok r → r.Transition = some next →
        next.ToState ≠ emitter.StateID ∧
          ∃ target, Appstate.lookupHandler m.stateHandlers next.ToState = some target ∧
            target.ValidateTransition emitter.StateID = none ∧
            ∀ w1 r1, (target.Handle w1 next).ret = .ok r1 → r1.Transition = none := by
  refine ⟨runChain_two agentEnv svc m hreg t, ?_⟩
  intro emitter hmem w r next hret hnext
  rw [hreg]
  exact followUp_target agentEnv _ next (handle_followUp agentEnv emitter hmem t w r next
    hret hnext)

/-- Witness for C27: a CPE in live state `init` and the submitted `OnZTPSetupConfig`. -/
theorem chains_end_witness :
    (sampleInitMachine sampleStore allSucceed).stateHandlers =
        registry { DeviceType := DeviceTypeCPE } ∧
      (∃ out, Appstate.runChain sampleServices Transition.ToState 2
        (sampleInitMachine sampleStore allSucceed) (.OnZTPSetupConfig sampleZTPConfig)
          = some out) :=
  ⟨rfl, (chains_end_after_two_transitions { DeviceType := DeviceTypeCPE } sampleServices
    (sampleInitMachine sampleStore allSucceed) rfl (.OnZTPSetupConfig sampleZTPConfig)).1⟩

end Handlers

/-! ## Theorems: the active subjects follow the live state -/

namespace Handlers

open Appstate (AppState AppStateBoot AppStateInit AppStateActive AppStateUpdateConfig
  AppStateMaintenance AppStateZTPSetup AppStateReset)

theorem own_call (c : Call) (hc : c.toggled = none) (s : HState) (err : Option GoError) :
    OwnToggles s (s.record c err) := by
  refine ⟨⟨[⟨c, err⟩], rfl, ?_⟩, ⟨[], by simp [HState.record], by simp⟩, rfl⟩
  intro r hr subject hs
  simp only [List.mem_singleton] at hr
  subst hr
  rw [hc] at hs
  cases hs

theorem own_world (s : HState) (w : World) (h1 : w.calls = s.world.calls)
    (h2 : w.subjects = s.world.subjects) : OwnToggles s { s with world := w } :=
  ⟨⟨[], by simp [h1], by simp⟩, ⟨[], by simp, by simp⟩, by simp [h2]⟩

theorem own_push (s : HState) (u : Undo) (h : u.toggled = none) :
    OwnToggles s { s with undo := s.undo ++ [u] } := by
  refine ⟨⟨[], by simp, by simp⟩, ⟨[u], rfl, ?_⟩, rfl⟩
  intro v hv subject hs
  simp only [List.mem_singleton] at hv
  subst hv
  rw [h] at hs
  cases hs

theorem own_checkSchemes (addrs : List String) :
    Act.Inv OwnToggles (ActiveStateHandler.checkSchemes addrs) := by
  constructor
  intro s
  rw [checkSchemes_eq]
  split <;> exact IsRefl.refl s

theorem insert_sdiff_own (a : String) (S T : Finset String) (ha : a ∈ T) :
    insert a S \ T = S \ T := by
  ext x
  simp only [Finset.mem_sdiff, Finset.mem_insert]
  constructor
  · rintro ⟨h | h, hx⟩
    · subst h
      exact absurd ha hx
    · exact ⟨h, hx⟩
  · rintro ⟨h, hx⟩
    exact ⟨Or.inr h, hx⟩

theorem erase_sdiff_own (a : String) (S T : Finset String) (ha : a ∈ T) :
    S.erase a \ T = S \ T := by
  ext x
  simp only [Finset.mem_sdiff, Finset.mem_erase]
  constructor
  · rintro ⟨⟨_, h⟩, hx⟩
    exact ⟨h, hx⟩
  · rintro ⟨h, hx⟩
    refine ⟨⟨?_, h⟩, hx⟩
    intro hxa
    subst hxa
    exact hx ha

theorem own_subscribeLoop (l : List String) (hl : ∀ a ∈ l, a ∈ toggledSubjects) :
    Act.Inv OwnToggles (subscribeLoop l) := by
  induction l with
  | nil => exact inv_pure _
  | cons a rest ih =>
    unfold subscribeLoop
    refine inv_bind (inv_wrapErr _ ?_) (fun _ => ih (fun b hb => hl b (List.mem_cons_of_mem _ hb)))
    have ha := hl a (List.mem_cons_self _ _)
    constructor
    intro s
    cases ho : s.world.outcome s.world.calls (.ActivateHandler a) with
    | some e =>
      refine ⟨⟨[⟨.ActivateHandler a, some e⟩], ?_, ?_⟩, ⟨[], ?_, by simp⟩, ?_⟩
      · simp [ExecuteFunc, ActivateHandler, call, ho]
      · intro r hr subject hs
        simp only [List.mem_singleton] at hr
        subst hr
        cases hs
        exact ha
      · simp [ExecuteFunc, ActivateHandler, call, ho]
      · simp [ExecuteFunc, ActivateHandler, call, ho]
    | none =>
      refine ⟨⟨[⟨.ActivateHandler a, none⟩], ?_, ?_⟩, ⟨[.DeactivateHandler a], ?_, ?_⟩, ?_⟩
      · simp [ExecuteFunc, ActivateHandler, call, ho, modifyWorld, pushUndo]
      · intro r hr subject hs
        simp only [List.mem_singleton] at hr
        subst hr
        cases hs
        exact ha
      · simp [ExecuteFunc, ActivateHandler, call, ho, modifyWorld, pushUndo]
      · intro u hu subject hs
        simp only [List.mem_singleton] at hu
        subst hu
        cases hs
        exact ha
      · simp [ExecuteFunc, ActivateHandler, call, ho, modifyWorld, pushUndo]
        exact insert_sdiff_own a _ _ ha

theorem own_unsubscribeLoop (l : List String) (hl : ∀ a ∈ l, a ∈ toggledSubjects) :
    Act.Inv OwnToggles (unsubscribeLoop l) := by
  induction l with
  | nil => exact inv_pure _
  | cons a rest ih =>
    unfold unsubscribeLoop
    refine inv_bind (inv_wrapErr _ ?_) (fun _ => ih (fun b hb => hl b (List.mem_cons_of_mem _ hb)))
    have ha := hl a (List.mem_cons_self _ _)
    constructor
    intro s
    cases ho : s.world.outcome s.world.calls (.DeactivateHandler a) with
    | some e =>
      refine ⟨⟨[⟨.DeactivateHandler a, some e⟩], ?_, ?_⟩, ⟨[], ?_, by simp⟩, ?_⟩
      · simp [ExecuteFunc, DeactivateHandler, call, ho]
      · intro r hr subject hs
        simp only [List.mem_singleton] at hr
        subst hr
        cases hs
        exact ha
      · simp [ExecuteFunc, DeactivateHandler, call, ho]
      · simp [ExecuteFunc, DeactivateHandler, call, ho]
    | none =>
      refine ⟨⟨[⟨.DeactivateHandler a, none⟩], ?_, ?_⟩, ⟨[.ActivateHandler a], ?_, ?_⟩, ?_⟩
      · simp [ExecuteFunc, DeactivateHandler, call, ho, modifyWorld, pushUndo]
      · intro r hr subject hs
        simp only [List.mem_singleton] at hr
        subst hr
        cases hs
        exact ha
      · simp [ExecuteFunc, DeactivateHandler, call, ho, modifyWorld, pushUndo]
      · intro u hu subject hs
        simp only [List.mem_singleton] at hu
        subst hu
        cases hs
        exact ha
      · simp [ExecuteFunc, DeactivateHandler, call, ho, modifyWorld, pushUndo]
        exact erase_sdiff_own a _ _ ha

theorem init_mem_toggled : ∀ a ∈ InitStateHandler.mqSubjects, a ∈ toggledSubjects :=
  fun _ ha => init_subset_toggled (List.mem_toFinset.mpr ha)

theorem active_mem_toggled : ∀ a ∈ ActiveStateHandler.mqSubjects, a ∈ toggledSubjects :=
  fun _ ha => active_subset_toggled (List.mem_toFinset.mpr ha)

theorem own_boot_handle (t : Transition) :
    Act.Inv OwnToggles (BootStateHandler.Handle t) := by
  unfold BootStateHandler.Handle
  repeat' first
    | intro _
    | exact inv_pure _
    | exact inv_fail _
    | exact inv_getWorld
    | exact own_checkSchemes _
    | (apply own_subscribeLoop
       first | exact init_mem_toggled | exact active_mem_toggled)
    | (apply own_unsubscribeLoop
       first | exact init_mem_toggled | exact active_mem_toggled)
    | apply inv_bind
    | apply inv_wrapErr
    | apply inv_attempt
    | apply inv_ite
    | (apply inv_callOf; intro s err; exact own_call _ (by rfl) s err)
    | (apply inv_noteOf; intro s err; exact own_call _ (by rfl) s err)
    | (apply inv_modifyWorld; intro s; exact own_world s _ rfl rfl)
    | (apply inv_pushUndo; intro s; exact own_push s _ (by rfl))
    | (apply inv_nilDeref; intro s; exact own_world s _ rfl rfl)
    | split
    | unfold checkHubTunnels
    | unfold UpdateConfigStateHandler.checkHubTunnels
    | unfold MaintenanceStateHandler.installUpdateManager
    | unfold ActiveStateHandler.waitDeviceInit
    | unfold BuildConn
    | unfold writeActiveAddr
    | unfold UpdateConfig
    | unfold ActiveStateHandler.subscribeQueueSubjects
    | unfold InitStateHandler.subscribeQueueSubjects
    | unfold ActiveStateHandler.unsubscribeQueueSubjects
    | unfold InitStateHandler.unsubscribeQueueSubjects

theorem own_init_handle (agentEnv : Agent) (t : Transition) :
    Act.Inv OwnToggles (InitStateHandler.Handle agentEnv t) := by
  unfold InitStateHandler.Handle
  repeat' first
    | intro _
    | exact inv_pure _
    | exact inv_fail _
    | exact inv_getWorld
    | exact own_checkSchemes _
    | (apply own_subscribeLoop
       first | exact init_mem_toggled | exact active_mem_toggled)
    | (apply own_unsubscribeLoop
       first | exact init_mem_toggled | exact active_mem_toggled)
    | apply inv_bind
    | apply inv_wrapErr
    | apply inv_attempt
    | apply inv_ite
    | (apply inv_callOf; intro s err; exact own_call _ (by rfl) s err)
    | (apply inv_noteOf; intro s err; exact own_call _ (by rfl) s err)
    | (apply inv_modifyWorld; intro s; exact own_world s _ rfl rfl)
    | (apply inv_pushUndo; intro s; exact own_push s _ (by rfl))
    | (apply inv_nilDeref; intro s; exact own_world s _ rfl rfl)
    | split
    | unfold checkHubTunnels
    | unfold UpdateConfigStateHandler.checkHubTunnels
    | unfold MaintenanceStateHandler.installUpdateManager
    | unfold ActiveStateHandler.waitDeviceInit
    | unfold BuildConn
    | unfold writeActiveAddr
    | unfold UpdateConfig
    | unfold ActiveStateHandler.subscribeQueueSubjects
    | unfold InitStateHandler.subscribeQueueSubjects
    | unfold ActiveStateHandler.unsubscribeQueueSubjects
    | unfold InitStateHandler.unsubscribeQueueSubjects

theorem own_active_handle (deviceType : String) (t : Transition) :
    Act.Inv OwnToggles (ActiveStateHandler.Handle deviceType t) := by
  unfold ActiveStateHandler.Handle
  repeat' first
    | intro _
    | exact inv_pure _
    | exact inv_fail _
    | exact inv_getWorld
    | exact own_checkSchemes _
    | (apply own_subscribeLoop
       first | exact init_mem_toggled | exact active_mem_toggled)
    | (apply own_unsubscribeLoop
       first | exact init_mem_toggled | exact active_mem_toggled)
    | apply inv_bind
    | apply inv_wrapErr
    | apply inv_attempt
    | apply inv_ite
    | (apply inv_callOf; intro s err; exact own_call _ (by rfl) s err)
    | (apply inv_noteOf; intro s err; exact own_call _ (by rfl) s err)
    | (apply inv_modifyWorld; intro s; exact own_world s _ rfl rfl)
    | (apply inv_pushUndo; intro s; exact own_push s _ (by rfl))
    | (apply inv_nilDeref; intro s; exact own_world s _ rfl rfl)
    | split
    | unfold checkHubTunnels
    | unfold UpdateConfigStateHandler.checkHubTunnels
    | unfold MaintenanceStateHandler.installUpdateManager
    | unfold ActiveStateHandler.waitDeviceInit
    | unfold BuildConn
    | unfold writeActiveAddr
    | unfold UpdateConfig
    | unfold ActiveStateHandler.subscribeQueueSubjects
    | unfold InitStateHandler.subscribeQueueSubjects
    | unfold ActiveStateHandler.unsubscribeQueueSubjects
    | unfold InitStateHandler.unsubscribeQueueSubjects

theorem own_updateConfig_handle (deviceType : String) (t : Transition) :
    Act.Inv OwnToggles (UpdateConfigStateHandler.Handle deviceType t) := by
  unfold UpdateConfigStateHandler.Handle
  repeat' first
    | intro _
    | exact inv_pure _
    | exact inv_fail _
    | exact inv_getWorld
    | exact own_checkSchemes _
    | (apply own_subscribeLoop
       first | exact init_mem_toggled | exact active_mem_toggled)
    | (apply own_unsubscribeLoop
       first | exact init_mem_toggled | exact active_mem_toggled)
    | apply inv_bind
    | apply inv_wrapErr
    | apply inv_attempt
    | apply inv_ite
    | (apply inv_callOf; intro s err; exact own_call _ (by rfl) s err)
    | (apply inv_noteOf; intro s err; exact own_call _ (by rfl) s err)
    | (apply inv_modifyWorld; intro s; exact own_world s _ rfl rfl)
    | (apply inv_pushUndo; intro s; exact own_push s _ (by rfl))
    | (apply inv_nilDeref; intro s; exact own_world s _ rfl rfl)
    | split
    | unfold checkHubTunnels
    | unfold UpdateConfigStateHandler.checkHubTunnels
    | unfold MaintenanceStateHandler.installUpdateManager
    | unfold ActiveStateHandler.waitDeviceInit
    | unfold BuildConn
    | unfold writeActiveAddr
    | unfold UpdateConfig
    | unfold ActiveStateHandler.subscribeQueueSubjects
    | unfold InitStateHandler.subscribeQueueSubjects
    | unfold ActiveStateHandler.unsubscribeQueueSubjects
    | unfold InitStateHandler.unsubscribeQueueSubjects

theorem own_maintenance_handle (t : Transition) :
    Act.Inv OwnToggles (MaintenanceStateHandler.Handle t) := by
  unfold MaintenanceStateHandler.Handle
  repeat' first
    | intro _
    | exact inv_pure _
    | exact inv_fail _
    | exact inv_getWorld
    | exact own_checkSchemes _
    | (apply own_subscribeLoop
       first | exact init_mem_toggled | exact active_mem_toggled)
    | (apply own_unsubscribeLoop
       first | exact init_mem_toggled | exact active_mem_toggled)
    | apply inv_bind
    | apply inv_wrapErr
    | apply inv_attempt
    | apply inv_ite
    | (apply inv_callOf; intro s err; exact own_call _ (by rfl) s err)
    | (apply inv_noteOf; intro s err; exact own_call _ (by rfl) s err)
    | (apply inv_modifyWorld; intro s; exact own_world s _ rfl rfl)
    | (apply inv_pushUndo; intro s; exact own_push s _ (by rfl))
    | (apply inv_nilDeref; intro s; exact own_world s _ rfl rfl)
    | split
    | unfold checkHubTunnels
    | unfold UpdateConfigStateHandler.checkHubTunnels
    | unfold MaintenanceStateHandler.installUpdateManager
    | unfold ActiveStateHandler.waitDeviceInit
    | unfold BuildConn
    | unfold writeActiveAddr
    | unfold UpdateConfig
    | unfold ActiveStateHandler.subscribeQueueSubjects
    | unfold InitStateHandler.subscribeQueueSubjects
    | unfold ActiveStateHandler.unsubscribeQueueSubjects
    | unfold InitStateHandler.unsubscribeQueueSubjects

theorem own_ztpSetup_handle (t : Transition) :
    Act.Inv OwnToggles (ZTPSetupHandler.Handle t) := by
  unfold ZTPSetupHandler.Handle
  repeat' first
    | intro _
    | exact inv_pure _
    | exact inv_fail _
    | exact inv_getWorld
    | exact own_checkSchemes _
    | (apply own_subscribeLoop
       first | exact init_mem_toggled | exact active_mem_toggled)
    | (apply own_unsubscribeLoop
       first | exact init_mem_toggled | exact active_mem_toggled)
    | apply inv_bind
    | apply inv_wrapErr
    | apply inv_attempt
    | apply inv_ite
    | (apply inv_callOf; intro s err; exact own_call _ (by rfl) s err)
    | (apply inv_noteOf; intro s err; exact own_call _ (by rfl) s err)
    | (apply inv_modifyWorld; intro s; exact own_world s _ rfl rfl)
    | (apply inv_pushUndo; intro s; exact own_push s _ (by rfl))
    | (apply inv_nilDeref; intro s; exact own_world s _ rfl rfl)
    | split
    | unfold checkHubTunnels
    | unfold UpdateConfigStateHandler.checkHubTunnels
    | unfold MaintenanceStateHandler.installUpdateManager
    | unfold ActiveStateHandler.waitDeviceInit
    | unfold BuildConn
    | unfold writeActiveAddr
    | unfold UpdateConfig
    | unfold ActiveStateHandler.subscribeQueueSubjects
    | unfold InitStateHandler.subscribeQueueSubjects
    | unfold ActiveStateHandler.unsubscribeQueueSubjects
    | unfold InitStateHandler.unsubscribeQueueSubjects

theorem own_reset_handle (deviceType : String) (t : Transition) :
    Act.Inv OwnToggles (ResetStateHandler.Handle deviceType t) := by
  unfold ResetStateHandler.Handle
  repeat' first
    | intro _
    | exact inv_pure _
    | exact inv_fail _
    | exact inv_getWorld
    | exact own_checkSchemes _
    | (apply own_subscribeLoop
       first | exact init_mem_toggled | exact active_mem_toggled)
    | (apply own_unsubscribeLoop
       first | exact init_mem_toggled | exact active_mem_toggled)
    | apply inv_bind
    | apply inv_wrapErr
    | apply inv_attempt
    | apply inv_ite
    | (apply inv_callOf; intro s err; exact own_call _ (by rfl) s err)
    | (apply inv_noteOf; intro s err; exact own_call _ (by rfl) s err)
    | (apply inv_modifyWorld; intro s; exact own_world s _ rfl rfl)
    | (apply inv_pushUndo; intro s; exact own_push s _ (by rfl))
    | (apply inv_nilDeref; intro s; exact own_world s _ rfl rfl)
    | split
    | unfold checkHubTunnels
    | unfold UpdateConfigStateHandler.checkHubTunnels
    | unfold MaintenanceStateHandler.installUpdateManager
    | unfold ActiveStateHandler.waitDeviceInit
    | unfold BuildConn
    | unfold writeActiveAddr
    | unfold UpdateConfig
    | unfold ActiveStateHandler.subscribeQueueSubjects
    | unfold InitStateHandler.subscribeQueueSubjects
    | unfold ActiveStateHandler.unsubscribeQueueSubjects
    | unfold InitStateHandler.unsubscribeQueueSubjects

theorem own_init_onExit (t : Transition) :
    Act.Inv OwnToggles (InitStateHandler.OnExit t) := by
  unfold InitStateHandler.OnExit
  repeat' first
    | intro _
    | exact inv_pure _
    | exact inv_fail _
    | exact inv_getWorld
    | exact own_checkSchemes _
    | (apply own_subscribeLoop
       first | exact init_mem_toggled | exact active_mem_toggled)
    | (apply own_unsubscribeLoop
       first | exact init_mem_toggled | exact active_mem_toggled)
    | apply inv_bind
    | apply inv_wrapErr
    | apply inv_attempt
    | apply inv_ite
    | (apply inv_callOf; intro s err; exact own_call _ (by rfl) s err)
    | (apply inv_noteOf; intro s err; exact own_call _ (by rfl) s err)
    | (apply inv_modifyWorld; intro s; exact own_world s _ rfl rfl)
    | (apply inv_pushUndo; intro s; exact own_push s _ (by rfl))
    | (apply inv_nilDeref; intro s; exact own_world s _ rfl rfl)
    | split
    | unfold checkHubTunnels
    | unfold UpdateConfigStateHandler.checkHubTunnels
    | unfold MaintenanceStateHandler.installUpdateManager
    | unfold ActiveStateHandler.waitDeviceInit
    | unfold BuildConn
    | unfold writeActiveAddr
    | unfold UpdateConfig
    | unfold ActiveStateHandler.subscribeQueueSubjects
    | unfold InitStateHandler.subscribeQueueSubjects
    | unfold ActiveStateHandler.unsubscribeQueueSubjects
    | unfold InitStateHandler.unsubscribeQueueSubjects

theorem own_active_onExit (t : Transition) :
    Act.Inv OwnToggles (ActiveStateHandler.OnExit t) := by
  unfold ActiveStateHandler.OnExit
  repeat' first
    | intro _
    | exact inv_pure _
    | exact inv_fail _
    | exact inv_getWorld
    | exact own_checkSchemes _
    | (apply own_subscribeLoop
       first | exact init_mem_toggled | exact active_mem_toggled)
    | (apply own_unsubscribeLoop
       first | exact init_mem_toggled | exact active_mem_toggled)
    | apply inv_bind
    | apply inv_wrapErr
    | apply inv_attempt
    | apply inv_ite
    | (apply inv_callOf; intro s err; exact own_call _ (by rfl) s err)
    | (apply inv_noteOf; intro s err; exact own_call _ (by rfl) s err)
    | (apply inv_modifyWorld; intro s; exact own_world s _ rfl rfl)
    | (apply inv_pushUndo; intro s; exact own_push s _ (by rfl))
    | (apply inv_nilDeref; intro s; exact own_world s _ rfl rfl)
    | split
    | unfold checkHubTunnels
    | unfold UpdateConfigStateHandler.checkHubTunnels
    | unfold MaintenanceStateHandler.installUpdateManager
    | unfold ActiveStateHandler.waitDeviceInit
    | unfold BuildConn
    | unfold writeActiveAddr
    | unfold UpdateConfig
    | unfold ActiveStateHandler.subscribeQueueSubjects
    | unfold InitStateHandler.subscribeQueueSubjects
    | unfold ActiveStateHandler.unsubscribeQueueSubjects
    | unfold InitStateHandler.unsubscribeQueueSubjects

theorem own_updateConfigWithTx (cfg : Config) (skipGenerators : Bool) :
    Act.Inv OwnToggles (UpdateConfigWithTx cfg skipGenerators) := by
  unfold UpdateConfigWithTx
  repeat' first
    | intro _
    | exact inv_pure _
    | exact inv_fail _
    | exact inv_getWorld
    | exact own_checkSchemes _
    | (apply own_subscribeLoop
       first | exact init_mem_toggled | exact active_mem_toggled)
    | (apply own_unsubscribeLoop
       first | exact init_mem_toggled | exact active_mem_toggled)
    | apply inv_bind
    | apply inv_wrapErr
    | apply inv_attempt
    | apply inv_ite
    | (apply inv_callOf; intro s err; exact own_call _ (by rfl) s err)
    | (apply inv_noteOf; intro s err; exact own_call _ (by rfl) s err)
    | (apply inv_modifyWorld; intro s; exact own_world s _ rfl rfl)
    | (apply inv_pushUndo; intro s; exact own_push s _ (by rfl))
    | (apply inv_nilDeref; intro s; exact own_world s _ rfl rfl)
    | split
    | unfold checkHubTunnels
    | unfold UpdateConfigStateHandler.checkHubTunnels
    | unfold MaintenanceStateHandler.installUpdateManager
    | unfold ActiveStateHandler.waitDeviceInit
    | unfold BuildConn
    | unfold writeActiveAddr
    | unfold UpdateConfig
    | unfold ActiveStateHandler.subscribeQueueSubjects
    | unfold InitStateHandler.subscribeQueueSubjects
    | unfold ActiveStateHandler.unsubscribeQueueSubjects
    | unfold InitStateHandler.unsubscribeQueueSubjects

theorem own_effect {α : Type} (x : Act α) (hx : Act.Inv OwnToggles x) (subject : String)
    (hs : subject ∉ toggledSubjects) (w : World) : Spares subject w (x.toEffect w) := by
  obtain ⟨⟨calls, hc, hcp⟩, ⟨entries, he, hep⟩, hsd⟩ := hx.run { world := w, undo := [] }
  refine ⟨⟨calls, hc, ?_⟩, ?_, ?_⟩
  · intro r hr
    constructor
    · intro h
      exact hs (hcp r hr subject (by rw [h]; rfl))
    · intro h
      exact hs (hcp r hr subject (by rw [h]; rfl))
  · have h := Finset.ext_iff.mp hsd subject
    simp only [Finset.mem_sdiff, hs, not_false_eq_true, and_true] at h
    exact h
  · intro f hf w1
    simp only [Act.toEffect, he, List.nil_append, List.mem_map] at hf
    obtain ⟨u, hu, rfl⟩ := hf
    have hu2 := hep u hu
    cases u with
    | DeactivateHandler a =>
      have ha : subject ≠ a := fun h => hs (h ▸ hu2 a rfl)
      simp [Undo.toStep, Appstate.JournalStep.run, Undo.run, Finset.mem_erase, ha]
    | ActivateHandler a =>
      have ha : subject ≠ a := fun h => hs (h ▸ hu2 a rfl)
      simp [Undo.toStep, Appstate.JournalStep.run, Undo.run, Finset.mem_insert, ha]
    | websocketStop => rfl
    | websocketStart => rfl
    | restoreSections old touched => rfl
    | activity name => rfl
    | checkpoint id => rfl
    | checkpointDeleted id => rfl

theorem mainSubjects_not_toggled : ∀ subject ∈ mainSubjects, subject ∉ toggledSubjects := by
  decide

theorem handler_spares (agentEnv : Agent) (subject : String)
    (hs : subject ∉ toggledSubjects)
    (handler : Appstate.IStateHandler World Transition)
    (hmem : handler ∈ stateHandlers agentEnv) (w : World) (t : Transition) :
    Spares subject w (handler.Handle w t) ∧ Spares subject w (handler.OnExit w t) := by
  simp only [stateHandlers, List.mem_cons, List.mem_singleton, List.not_mem_nil,
    or_false] at hmem
  rcases hmem with h | h | h | h | h | h | h
  all_goals subst h
  · exact ⟨own_effect _ (own_boot_handle t) subject hs w,
      own_effect _ (inv_pure ()) subject hs w⟩
  · exact ⟨own_effect _ (own_init_handle agentEnv t) subject hs w,
      own_effect _ (own_init_onExit t) subject hs w⟩
  · exact ⟨own_effect _ (own_active_handle agentEnv.DeviceType t) subject hs w,
      own_effect _ (own_active_onExit t) subject hs w⟩
  · exact ⟨own_effect _ (own_updateConfig_handle agentEnv.DeviceType t) subject hs w,
      own_effect _ (inv_pure ()) subject hs w⟩
  · exact ⟨own_effect _ (own_maintenance_handle t) subject hs w,
      own_effect _ (inv_pure ()) subject hs w⟩
  · exact ⟨own_effect _ (own_ztpSetup_handle t) subject hs w,
      own_effect _ (inv_pure ()) subject hs w⟩
  · exact ⟨own_effect _ (own_reset_handle agentEnv.DeviceType t) subject hs w,
      own_effect _ (inv_pure ()) subject hs w⟩

end Handlers

namespace Appstate

variable {W τ : Type}

theorem runChain_chainRun (svc : Services W) (ToState : τ → AppState) (fuel : Nat)
    (s s1 : Machine W τ) (t : τ) (err : Option GoError)
    (h : runChain svc ToState fuel s t = some (s1, err)) :
    ChainRun svc ToState s t s1 err := by
  induction fuel generalizing s t with
  | zero => simp [runChain] at h
  | succ n ih =>
    cases hres : (performTransition svc ToState s t).2 with
    | error e =>
      have h2 : runChain svc ToState (n + 1) s t =
          some ((performTransition svc ToState s t).1, some e) := by
        rw [runChain]
        cases hp : performTransition svc ToState s t with
        | mk a b =>
          rw [hp] at hres
          simp only at hres
          subst hres
          rfl
      rw [h2] at h
      cases h
      exact ChainRun.failed s t e hres
    | ok r =>
      rw [runChain_step svc ToState n s t r hres] at h
      cases hT : r.Transition with
      | none =>
        simp only [hT] at h
        cases h
        exact ChainRun.finished s t r hres hT
      | some next =>
        simp only [hT] at h
        exact ChainRun.followUp s t next r s1 err hres hT (ih _ _ h)

theorem foldr_runUndo_stateHandlers (steps : List (UndoStep W)) (s : Machine W τ) :
    (steps.foldr (fun st acc => runUndo st acc) s).stateHandlers = s.stateHandlers := by
  induction steps with
  | nil => rfl
  | cons st rest ih =>
    rw [List.foldr_cons]
    cases st with
    | restoreState o =>
      by_cases ho : o = AppStateBoot
      · simpa [runUndo, ho] using ih
      · simpa [runUndo, ho] using ih
    | external f => simpa [runUndo] using ih

theorem rollback_stateHandlers (s : Machine W τ) :
    (rollback s).stateHandlers = s.stateHandlers := by
  rcases rollback_cases s with ⟨_, h⟩ | ⟨_, _, post, _, _, h⟩
  · rw [h]
    exact foldr_runUndo_stateHandlers s.tx s
  · rw [h]
    exact foldr_runUndo_stateHandlers post s

theorem rollback_restores_activeState (svc : Services W) (ToState : τ → AppState)
    (s s1 : Machine W τ) (t : τ) (err : Option GoError) (evs : List Event)
    (hfresh : s.tx = []) (hboot : s.activeState ≠ AppStateBoot)
    (hchain : ChainRun svc ToState s t s1 err)
    (hcp : activeCheckpoint s1.tx.reverse [] = none) :
    (rollback { s1 with trace := s1.trace ++ evs }).activeState = s.activeState := by
  have hinv : ChainInv s.activeState s := Or.inl ⟨rfl, by simp [hfresh]⟩
  have h1 := chainRun_chainInv svc ToState s.activeState s s1 t err hchain hinv
  rw [rollback_activeState { s1 with trace := s1.trace ++ evs } hcp]
  rcases h1 with ⟨ha, hext⟩ | ⟨pre, post, htx, hpre⟩
  · rw [foldr_runUndo_external _ _ hext]
    exact ha
  · simp only [htx]
    exact foldr_runUndo_restore pre post s.activeState _ hboot hpre

theorem serveRequest_cases (svc : Services W) (ToState : τ → AppState) (fuel : Nat)
    (s m1 : Machine W τ) (t : τ) (res : Option GoError)
    (h : serveRequest svc ToState fuel s t = some (m1, res)) :
    (∃ err, (svc.StartTransaction s.world).2 = some err ∧
      m1.world = (svc.StartTransaction s.world).1 ∧ m1.activeState = s.activeState ∧
      m1.stateHandlers = s.stateHandlers) ∨
    (∃ s1 err, (svc.StartTransaction s.world).2 = none ∧
      runChain svc ToState fuel
        { s with trace := s.trace ++ [Event.startTransaction],
                 world := (svc.StartTransaction s.world).1, tx := [] } t = some (s1, err) ∧
      m1.world = (FinishTransaction svc s1 err).1.world ∧
      m1.activeState = (FinishTransaction svc s1 err).1.activeState ∧
      m1.stateHandlers = (FinishTransaction svc s1 err).1.stateHandlers) := by
  unfold serveRequest at h
  cases hst : svc.StartTransaction s.world with
  | mk w o =>
    simp only [hst] at h ⊢
    cases o with
    | some err =>
      left
      simp only [Option.some.injEq, Prod.mk.injEq] at h
      obtain ⟨h1, _⟩ := h
      subst h1
      exact ⟨err, rfl, rfl, rfl, rfl⟩
    | none =>
      right
      simp only at h
      cases hrun : runChain svc ToState fuel
          { s with trace := s.trace ++ [Event.startTransaction], world := w, tx := [] } t with
      | none =>
        rw [hrun] at h
        cases h
      | some p =>
        obtain ⟨s1, err⟩ := p
        rw [hrun] at h
        simp only at h
        refine ⟨s1, err, rfl, rfl, ?_⟩
        cases hfin : FinishTransaction svc s1 err with
        | mk s2 status =>
          rw [hfin] at h
          cases status with
          | none =>
            simp only [Option.some.injEq, Prod.mk.injEq] at h
            obtain ⟨h1, _⟩ := h
            subst h1
            exact ⟨rfl, rfl, rfl⟩
          | some err2 =>
            simp only [Option.some.injEq, Prod.mk.injEq] at h
            obtain ⟨h1, _⟩ := h
            subst h1
            exact ⟨rfl, rfl, rfl⟩

theorem perform_serveRequest (svc : Services W) (ToState : τ → AppState) (fuel : Nat)
    (s m1 : Machine W τ) (t : τ) (res : Option GoError)
    (h : Perform svc ToState fuel s t = some (m1, res)) :
    ∃ r, serveRequest svc ToState fuel s t = some (m1, r) := by
  unfold Perform at h
  cases hs : serveRequest svc ToState fuel s t with
  | none =>
    rw [hs] at h
    cases h
  | some p =>
    obtain ⟨s1, r⟩ := p
    rw [hs] at h
    cases r with
    | none =>
      simp only [Option.some.injEq, Prod.mk.injEq] at h
      exact ⟨none, by rw [h.1]⟩
    | some e =>
      simp only [Option.some.injEq, Prod.mk.injEq] at h
      exact ⟨some e, by rw [h.1]⟩

theorem setActiveStateFromBoot_cases (svc : Services W) (ToState : τ → AppState)
    (OnAfterBoot : AppState → τ) (GetConfig : W → W × Except GoError (Option String))
    (initState : AppState) (fuel : Nat) (s m1 : Machine W τ)
    (hfin : ∀ w e, svc.FinishStatus w (some e) ≠ none)
    (h : setActiveStateFromBoot svc ToState OnAfterBoot GetConfig initState fuel s =
      some (m1, none)) :
    ∃ toState s2, runChain svc ToState fuel
        { s with trace := s.trace ++ [Event.startTransaction],
                 world := (GetConfig (svc.StartTransaction s.world).1).1, tx := [] }
        (OnAfterBoot toState) = some (s2, none) ∧
      m1.world = s2.world ∧ m1.activeState = s2.activeState ∧
      m1.stateHandlers = s2.stateHandlers := by
  unfold setActiveStateFromBoot at h
  cases hst : svc.StartTransaction s.world with
  | mk w o =>
    simp only [hst] at h ⊢
    cases o with
    | some err =>
      simp at h
    | none =>
      simp only at h
      cases hget : GetConfig w with
      | mk w1 r =>
        rw [hget] at h
        cases r with
        | error err =>
          simp only [Option.some.injEq] at h
          have h2 := congrArg Prod.snd h
          simp only [FinishTransaction] at h2
          exact absurd h2 (hfin _ _)
        | ok o2 =>
          cases o2 with
          | none => simp at h
          | some state =>
            simp only at h
            refine ⟨if state ≠ "" then state else initState, ?_⟩
            cases hrun : runChain svc ToState fuel
                { s with trace := s.trace ++ [Event.startTransaction], world := w1, tx := [] }
                (OnAfterBoot (if state ≠ "" then state else initState)) with
            | none =>
              rw [hrun] at h
              simp at h
            | some p =>
              obtain ⟨s2, err⟩ := p
              rw [hrun] at h
              cases err with
              | some e =>
                simp only [Option.some.injEq] at h
                have h2 := congrArg Prod.snd h
                simp only [FinishTransaction] at h2
                exact absurd h2 (hfin _ _)
              | none =>
                simp only [Option.some.injEq] at h
                have h1 := congrArg Prod.fst h
                simp only [FinishTransaction] at h1
                subst h1
                exact ⟨s2, rfl, rfl, rfl, rfl⟩

end Appstate

namespace Handlers

open Appstate (AppState AppStateBoot AppStateInit AppStateActive AppStateUpdateConfig
  AppStateMaintenance AppStateZTPSetup AppStateReset)

theorem startTransaction_subjects (w : World) :
    (StartTransaction w).1.subjects = w.subjects := by
  unfold StartTransaction
  cases h : w.outcome w.calls .StartTransaction <;> simp [call, h]

theorem persistedState_subjects (w : World) :
    (persistedState w).1.subjects = w.subjects := by
  unfold persistedState
  rw [getConfig_eq]
  cases h : w.outcome w.calls .GetConfig <;> simp [h, HState.record]

theorem followUp_toState (emitter : AppState) (next : Transition)
    (h : isFollowUpOf emitter next = true) : next.ToState ≠ AppStateBoot := by
  cases next <;> first
    | (simp [isFollowUpOf] at h; done)
    | (simp only [Transition.ToState]
       decide)

theorem submitted_facts (t : Transition) (h : t.isSubmitted = true) :
    t.isMigrate = false ∧ t.ToState ≠ AppStateBoot := by
  cases t <;> first
    | (simp [Transition.isSubmitted] at h; done)
    | (refine ⟨rfl, ?_⟩
       simp only [Transition.ToState]
       decide)

theorem chainRun_live (agentEnv : Agent)
    (FinishStatus : World → Option GoError → Option GoError)
    (m m1 : Appstate.Machine World Transition) (t : Transition) (err : Option GoError)
    (hchain : Appstate.ChainRun (services FinishStatus) Transition.ToState m t m1 err)
    (hreg : m.stateHandlers = registry agentEnv) :
    m1.stateHandlers = registry agentEnv ∧
      (err = none → (m.activeState = AppStateBoot ∨ t.ToState ≠ AppStateBoot) →
        m1.activeState ≠ AppStateBoot) := by
  induction hchain with
  | failed s t e _ =>
    obtain ⟨evs, steps, hf⟩ :=
      Appstate.performTransition_facts (services FinishStatus) Transition.ToState s t
    exact ⟨hf.handlers_eq.trans hreg, fun h => by cases h⟩
  | finished s t r hr hnone =>
    obtain ⟨toState, w, hr1, hto, hne, hv, hH, hrr, hh, ha⟩ :=
      Appstate.performTransition_ok_handle (services FinishStatus) Transition.ToState s t r hr
    refine ⟨hh.trans hreg, fun _ hl => ?_⟩
    rw [ha]
    rcases hl with h | h
    · rw [h] at hne
      exact fun hb => hne hb.symm
    · exact h
  | followUp s t next r s1 err hr hnext _ ih =>
    obtain ⟨toState, w, hr1, hto, hne, hv, hH, hrr, hh, ha⟩ :=
      Appstate.performTransition_ok_handle (services FinishStatus) Transition.ToState s t r hr
    have ih2 := ih (hh.trans hreg)
    refine ⟨ih2.1, fun herr _ => ih2.2 herr (Or.inr ?_)⟩
    rw [hreg] at hto
    rw [hnext] at hrr
    exact followUp_toState _ next (handle_followUp agentEnv toState
      (lookup_registry_mem agentEnv _ _ hto) t w hr1 next hH hrr.symm)

theorem settled_of_eq (agentEnv : Agent) (m m1 : Appstate.Machine World Transition)
    (h1 : m1.world = m.world) (h2 : m1.activeState = m.activeState)
    (h3 : m1.stateHandlers = m.stateHandlers) (hm : Settled agentEnv m) :
    Settled agentEnv m1 := by
  obtain ⟨ha, hb, hc⟩ := hm
  exact ⟨h3.trans ha, by rw [h2]; exact hb, by rw [h1, h2]; exact hc⟩

theorem unmarked_world (s : HState) (w : World) : Unmarked s { s with world := w } :=
  ⟨[], by simp, by simp⟩

theorem unmarked_push (s : HState) (u : Undo) (h : ∀ id, u ≠ .checkpoint id) :
    Unmarked s { s with undo := s.undo ++ [u] } := by
  refine ⟨[u], rfl, ?_⟩
  intro v hv
  simp only [List.mem_singleton] at hv
  subst hv
  exact h

theorem unmarked_checkSchemes (addrs : List String) :
    Act.Inv Unmarked (ActiveStateHandler.checkSchemes addrs) := by
  constructor
  intro s
  rw [checkSchemes_eq]
  split <;> exact IsRefl.refl s

theorem unmarked_subscribeLoop (l : List String) : Act.Inv Unmarked (subscribeLoop l) := by
  induction l with
  | nil => exact inv_pure _
  | cons a rest ih =>
    unfold subscribeLoop
    refine inv_bind (inv_wrapErr _ ?_) (fun _ => ih)
    unfold ExecuteFunc ActivateHandler
    repeat' first
      | intro _
      | exact inv_pure _
      | apply inv_bind
      | (apply inv_callOf; intro s err; exact unmarked_world s _)
      | (apply inv_modifyWorld; intro s; exact unmarked_world s _)
      | (apply inv_pushUndo; intro s; exact unmarked_push s _ (by intro id h; cases h))

theorem unmarked_unsubscribeLoop (l : List String) :
    Act.Inv Unmarked (unsubscribeLoop l) := by
  induction l with
  | nil => exact inv_pure _
  | cons a rest ih =>
    unfold unsubscribeLoop
    refine inv_bind (inv_wrapErr _ ?_) (fun _ => ih)
    unfold ExecuteFunc DeactivateHandler
    repeat' first
      | intro _
      | exact inv_pure _
      | apply inv_bind
      | (apply inv_callOf; intro s err; exact unmarked_world s _)
      | (apply inv_modifyWorld; intro s; exact unmarked_world s _)
      | (apply inv_pushUndo; intro s; exact unmarked_push s _ (by intro id h; cases h))

theorem unmarked_boot_handle (t : Transition) :
    Act.Inv Unmarked (BootStateHandler.Handle t) := by
  unfold BootStateHandler.Handle
  repeat' first
    | intro _
    | exact inv_pure _
    | exact inv_fail _
    | exact inv_getWorld
    | exact unmarked_checkSchemes _
    | exact unmarked_subscribeLoop _
    | exact unmarked_unsubscribeLoop _
    | apply inv_bind
    | apply inv_wrapErr
    | apply inv_attempt
    | apply inv_ite
    | (apply inv_callOf; intro s err; exact unmarked_world s _)
    | (apply inv_noteOf; intro s err; exact unmarked_world s _)
    | (apply inv_modifyWorld; intro s; exact unmarked_world s _)
    | (apply inv_pushUndo; intro s; exact unmarked_push s _ (by intro id h; cases h))
    | (apply inv_nilDeref; intro s; exact unmarked_world s _)
    | split
    | unfold checkHubTunnels
    | unfold UpdateConfigStateHandler.checkHubTunnels
    | unfold ActiveStateHandler.waitDeviceInit
    | unfold BuildConn
    | unfold writeActiveAddr
    | unfold UpdateConfig
    | unfold ActiveStateHandler.subscribeQueueSubjects
    | unfold InitStateHandler.subscribeQueueSubjects
    | unfold ActiveStateHandler.unsubscribeQueueSubjects
    | unfold InitStateHandler.unsubscribeQueueSubjects

theorem unmarked_init_handle (agentEnv : Agent) (t : Transition) :
    Act.Inv Unmarked (InitStateHandler.Handle agentEnv t) := by
  unfold InitStateHandler.Handle
  repeat' first
    | intro _
    | exact inv_pure _
    | exact inv_fail _
    | exact inv_getWorld
    | exact unmarked_checkSchemes _
    | exact unmarked_subscribeLoop _
    | exact unmarked_unsubscribeLoop _
    | apply inv_bind
    | apply inv_wrapErr
    | apply inv_attempt
    | apply inv_ite
    | (apply inv_callOf; intro s err; exact unmarked_world s _)
    | (apply inv_noteOf; intro s err; exact unmarked_world s _)
    | (apply inv_modifyWorld; intro s; exact unmarked_world s _)
    | (apply inv_pushUndo; intro s; exact unmarked_push s _ (by intro id h; cases h))
    | (apply inv_nilDeref; intro s; exact unmarked_world s _)
    | split
    | unfold checkHubTunnels
    | unfold UpdateConfigStateHandler.checkHubTunnels
    | unfold ActiveStateHandler.waitDeviceInit
    | unfold BuildConn
    | unfold writeActiveAddr
    | unfold UpdateConfig
    | unfold ActiveStateHandler.subscribeQueueSubjects
    | unfold InitStateHandler.subscribeQueueSubjects
    | unfold ActiveStateHandler.unsubscribeQueueSubjects
    | unfold InitStateHandler.unsubscribeQueueSubjects

theorem unmarked_active_handle (deviceType : String) (t : Transition) :
    Act.Inv Unmarked (ActiveStateHandler.Handle deviceType t) := by
  unfold ActiveStateHandler.Handle
  repeat' first
    | intro _
    | exact inv_pure _
    | exact inv_fail _
    | exact inv_getWorld
    | exact unmarked_checkSchemes _
    | exact unmarked_subscribeLoop _
    | exact unmarked_unsubscribeLoop _
    | apply inv_bind
    | apply inv_wrapErr
    | apply inv_attempt
    | apply inv_ite
    | (apply inv_callOf; intro s err; exact unmarked_world s _)
    | (apply inv_noteOf; intro s err; exact unmarked_world s _)
    | (apply inv_modifyWorld; intro s; exact unmarked_world s _)
    | (apply inv_pushUndo; intro s; exact unmarked_push s _ (by intro id h; cases h))
    | (apply inv_nilDeref; intro s; exact unmarked_world s _)
    | split
    | unfold checkHubTunnels
    | unfold UpdateConfigStateHandler.checkHubTunnels
    | unfold ActiveStateHandler.waitDeviceInit
    | unfold BuildConn
    | unfold writeActiveAddr
    | unfold UpdateConfig
    | unfold ActiveStateHandler.subscribeQueueSubjects
    | unfold InitStateHandler.subscribeQueueSubjects
    | unfold ActiveStateHandler.unsubscribeQueueSubjects
    | unfold InitStateHandler.unsubscribeQueueSubjects

theorem unmarked_updateConfig_handle (deviceType : String) (t : Transition) :
    Act.Inv Unmarked (UpdateConfigStateHandler.Handle deviceType t) := by
  unfold UpdateConfigStateHandler.Handle
  repeat' first
    | intro _
    | exact inv_pure _
    | exact inv_fail _
    | exact inv_getWorld
    | exact unmarked_checkSchemes _
    | exact unmarked_subscribeLoop _
    | exact unmarked_unsubscribeLoop _
    | apply inv_bind
    | apply inv_wrapErr
    | apply inv_attempt
    | apply inv_ite
    | (apply inv_callOf; intro s err; exact unmarked_world s _)
    | (apply inv_noteOf; intro s err; exact unmarked_world s _)
    | (apply inv_modifyWorld; intro s; exact unmarked_world s _)
    | (apply inv_pushUndo; intro s; exact unmarked_push s _ (by intro id h; cases h))
    | (apply inv_nilDeref; intro s; exact unmarked_world s _)
    | split
    | unfold checkHubTunnels
    | unfold UpdateConfigStateHandler.checkHubTunnels
    | unfold ActiveStateHandler.waitDeviceInit
    | unfold BuildConn
    | unfold writeActiveAddr
    | unfold UpdateConfig
    | unfold ActiveStateHandler.subscribeQueueSubjects
    | unfold InitStateHandler.subscribeQueueSubjects
    | unfold ActiveStateHandler.unsubscribeQueueSubjects
    | unfold InitStateHandler.unsubscribeQueueSubjects

theorem unmarked_ztpSetup_handle (t : Transition) :
    Act.Inv Unmarked (ZTPSetupHandler.Handle t) := by
  unfold ZTPSetupHandler.Handle
  repeat' first
    | intro _
    | exact inv_pure _
    | exact inv_fail _
    | exact inv_getWorld
    | exact unmarked_checkSchemes _
    | exact unmarked_subscribeLoop _
    | exact unmarked_unsubscribeLoop _
    | apply inv_bind
    | apply inv_wrapErr
    | apply inv_attempt
    | apply inv_ite
    | (apply inv_callOf; intro s err; exact unmarked_world s _)
    | (apply inv_noteOf; intro s err; exact unmarked_world s _)
    | (apply inv_modifyWorld; intro s; exact unmarked_world s _)
    | (apply inv_pushUndo; intro s; exact unmarked_push s _ (by intro id h; cases h))
    | (apply inv_nilDeref; intro s; exact unmarked_world s _)
    | split
    | unfold checkHubTunnels
    | unfold UpdateConfigStateHandler.checkHubTunnels
    | unfold ActiveStateHandler.waitDeviceInit
    | unfold BuildConn
    | unfold writeActiveAddr
    | unfold UpdateConfig
    | unfold ActiveStateHandler.subscribeQueueSubjects
    | unfold InitStateHandler.subscribeQueueSubjects
    | unfold ActiveStateHandler.unsubscribeQueueSubjects
    | unfold InitStateHandler.unsubscribeQueueSubjects

theorem unmarked_init_onExit (t : Transition) :
    Act.Inv Unmarked (InitStateHandler.OnExit t) := by
  unfold InitStateHandler.OnExit
  repeat' first
    | intro _
    | exact inv_pure _
    | exact inv_fail _
    | exact inv_getWorld
    | exact unmarked_checkSchemes _
    | exact unmarked_subscribeLoop _
    | exact unmarked_unsubscribeLoop _
    | apply inv_bind
    | apply inv_wrapErr
    | apply inv_attempt
    | apply inv_ite
    | (apply inv_callOf; intro s err; exact unmarked_world s _)
    | (apply inv_noteOf; intro s err; exact unmarked_world s _)
    | (apply inv_modifyWorld; intro s; exact unmarked_world s _)
    | (apply inv_pushUndo; intro s; exact unmarked_push s _ (by intro id h; cases h))
    | (apply inv_nilDeref; intro s; exact unmarked_world s _)
    | split
    | unfold checkHubTunnels
    | unfold UpdateConfigStateHandler.checkHubTunnels
    | unfold ActiveStateHandler.waitDeviceInit
    | unfold BuildConn
    | unfold writeActiveAddr
    | unfold UpdateConfig
    | unfold ActiveStateHandler.subscribeQueueSubjects
    | unfold InitStateHandler.subscribeQueueSubjects
    | unfold ActiveStateHandler.unsubscribeQueueSubjects
    | unfold InitStateHandler.unsubscribeQueueSubjects

theorem unmarked_active_onExit (t : Transition) :
    Act.Inv Unmarked (ActiveStateHandler.OnExit t) := by
  unfold ActiveStateHandler.OnExit
  repeat' first
    | intro _
    | exact inv_pure _
    | exact inv_fail _
    | exact inv_getWorld
    | exact unmarked_checkSchemes _
    | exact unmarked_subscribeLoop _
    | exact unmarked_unsubscribeLoop _
    | apply inv_bind
    | apply inv_wrapErr
    | apply inv_attempt
    | apply inv_ite
    | (apply inv_callOf; intro s err; exact unmarked_world s _)
    | (apply inv_noteOf; intro s err; exact unmarked_world s _)
    | (apply inv_modifyWorld; intro s; exact unmarked_world s _)
    | (apply inv_pushUndo; intro s; exact unmarked_push s _ (by intro id h; cases h))
    | (apply inv_nilDeref; intro s; exact unmarked_world s _)
    | split
    | unfold checkHubTunnels
    | unfold UpdateConfigStateHandler.checkHubTunnels
    | unfold ActiveStateHandler.waitDeviceInit
    | unfold BuildConn
    | unfold writeActiveAddr
    | unfold UpdateConfig
    | unfold ActiveStateHandler.subscribeQueueSubjects
    | unfold InitStateHandler.subscribeQueueSubjects
    | unfold ActiveStateHandler.unsubscribeQueueSubjects
    | unfold InitStateHandler.unsubscribeQueueSubjects

theorem unmarked_updateConfigWithTx (cfg : Config) (skipGenerators : Bool) :
    Act.Inv Unmarked (UpdateConfigWithTx cfg skipGenerators) := by
  unfold UpdateConfigWithTx
  repeat' first
    | intro _
    | exact inv_pure _
    | exact inv_fail _
    | exact inv_getWorld
    | exact unmarked_checkSchemes _
    | exact unmarked_subscribeLoop _
    | exact unmarked_unsubscribeLoop _
    | apply inv_bind
    | apply inv_wrapErr
    | apply inv_attempt
    | apply inv_ite
    | (apply inv_callOf; intro s err; exact unmarked_world s _)
    | (apply inv_noteOf; intro s err; exact unmarked_world s _)
    | (apply inv_modifyWorld; intro s; exact unmarked_world s _)
    | (apply inv_pushUndo; intro s; exact unmarked_push s _ (by intro id h; cases h))
    | (apply inv_nilDeref; intro s; exact unmarked_world s _)
    | split
    | unfold checkHubTunnels
    | unfold UpdateConfigStateHandler.checkHubTunnels
    | unfold ActiveStateHandler.waitDeviceInit
    | unfold BuildConn
    | unfold writeActiveAddr
    | unfold UpdateConfig
    | unfold ActiveStateHandler.subscribeQueueSubjects
    | unfold InitStateHandler.subscribeQueueSubjects
    | unfold ActiveStateHandler.unsubscribeQueueSubjects
    | unfold InitStateHandler.unsubscribeQueueSubjects

theorem toStep_run (u : Undo) (w : World) : (Undo.toStep u).run w = u.run w := by
  cases u <;> rfl

theorem toStep_checkpoint (u : Undo) (id : Nat)
    (h : Undo.toStep u = Appstate.JournalStep.checkpoint id) : u = .checkpoint id := by
  cases u <;> first | rfl | cases h
  rfl

theorem effect_unmarked {α : Type} (x : Act α) (hx : Act.Inv Unmarked x) (w : World)
    (id : Nat) :
    Appstate.UndoStep.external (.checkpoint id) ∉
      (x.toEffect w).undo.map Appstate.UndoStep.external := by
  obtain ⟨entries, he, hno⟩ := hx.run { world := w, undo := [] }
  intro hmem
  simp only [toEffect_undo, he, List.nil_append, List.mem_map] at hmem
  obtain ⟨e, ⟨u, hu, rfl⟩, h2⟩ := hmem
  have h3 : Undo.toStep u = Appstate.JournalStep.checkpoint id := by
    injection h2
  exact hno u hu id (toStep_checkpoint u id h3)

theorem foldr_quiet (E : List (Appstate.UndoStep World))
    (hE : ∀ st ∈ E, ∃ u : Undo, st = Appstate.UndoStep.external (Undo.toStep u) ∧
      u.isToggle = false)
    (X : Appstate.Machine World Transition) :
    (E.foldr (fun st acc => Appstate.runUndo st acc) X).activeState = X.activeState ∧
      (E.foldr (fun st acc => Appstate.runUndo st acc) X).world.subjects =
        X.world.subjects := by
  induction E with
  | nil => exact ⟨rfl, rfl⟩
  | cons st rest ih =>
    obtain ⟨u, rfl, hu⟩ := hE st (List.mem_cons_self _ _)
    obtain ⟨h1, h2⟩ := ih (fun v hv => hE v (List.mem_cons_of_mem _ hv))
    refine ⟨h1, ?_⟩
    show ((Undo.toStep u).run
      (rest.foldr (fun st acc => Appstate.runUndo st acc) X).world).subjects =
        X.world.subjects
    rw [toStep_run, run_subjects, h2]
    cases u <;> first | rfl | simp [Undo.isToggle] at hu

theorem effect_quiet {α : Type} (x : Act α) (hx : Act.Inv Neutral x) (w : World) :
    ∀ st ∈ (x.toEffect w).undo.map Appstate.UndoStep.external,
      ∃ u : Undo, st = Appstate.UndoStep.external (Undo.toStep u) ∧ u.isToggle = false := by
  obtain ⟨_, entries, he, hno⟩ := hx.run { world := w, undo := [] }
  intro st hst
  simp only [toEffect_undo, he, List.nil_append, List.mem_map] at hst
  obtain ⟨e, ⟨u, hu, rfl⟩, rfl⟩ := hst
  exact ⟨u, rfl, hno u hu⟩

theorem back_of_undoes {α : Type} (eff : Appstate.Effect World α)
    (S S1 : Finset String)
    (h : Undoes (eff.undo.map Appstate.UndoStep.external) S1 S)
    (X : Appstate.Machine World Transition) (hX : X.world.subjects = S1) :
    ((eff.undo.map Appstate.UndoStep.external).foldr
        (fun st acc => Appstate.runUndo st acc) X).activeState = X.activeState ∧
      ((eff.undo.map Appstate.UndoStep.external).foldr
        (fun st acc => Appstate.runUndo st acc) X).world.subjects = S := by
  refine ⟨Appstate.foldr_runUndo_external _ _ (Appstate.external_map_isExternal _), ?_⟩
  rw [foldr_runUndo_world]
  exact h X.world hX

theorem sealedAt_nil (live : AppState) (S : Finset String) : SealedAt [] live S := by
  intro pre id post h
  cases pre <;> cases h

theorem sealedAt_append (tx E : List (Appstate.UndoStep World)) (L L1 : AppState)
    (S S1 : Finset String) (hS : SealedAt tx L S)
    (hno : ∀ id, Appstate.UndoStep.external (.checkpoint id) ∉ E)
    (hback : ∀ X : Appstate.Machine World Transition, X.activeState = L1 →
      X.world.subjects = S1 →
      (E.foldr (fun st acc => Appstate.runUndo st acc) X).activeState = L ∧
        (E.foldr (fun st acc => Appstate.runUndo st acc) X).world.subjects = S) :
    SealedAt (tx ++ E) L1 S1 := by
  intro pre id post hsplit X hXl hXs
  rcases List.append_eq_append_iff.mp hsplit with ⟨a, _, hE⟩ | ⟨c, htx, hc⟩
  · exact absurd (by rw [hE]; simp) (hno id)
  · cases c with
    | nil =>
      simp only [List.nil_append] at hc
      exact absurd (by rw [← hc]; simp) (hno id)
    | cons x c1 =>
      simp only [List.cons_append, List.cons.injEq] at hc
      obtain ⟨hx, hpost⟩ := hc
      subst hx
      rw [hpost, List.foldr_append]
      obtain ⟨h1, h2⟩ := hback X hXl hXs
      exact hS pre id c1 htx _ h1 h2

theorem sealedAt_append_quiet (tx E : List (Appstate.UndoStep World)) (L : AppState)
    (S : Finset String) (hL : L = AppStateMaintenance ∨ L = AppStateReset)
    (hS : SealedAt tx L S) (hempty : S ∩ toggledSubjects = ∅)
    (hE : ∀ st ∈ E, ∃ u : Undo, st = Appstate.UndoStep.external (Undo.toStep u) ∧
      u.isToggle = false) :
    SealedAt (tx ++ E) L S := by
  intro pre id post hsplit X hXl hXs
  have hsuffix : ∀ (a : List (Appstate.UndoStep World)) (y : Appstate.UndoStep World),
      E = a ++ y :: post →
      ((post.foldr (fun st acc => Appstate.runUndo st acc) X).activeState =
          AppStateMaintenance ∨
        (post.foldr (fun st acc => Appstate.runUndo st acc) X).activeState =
          AppStateReset) ∧
        (post.foldr (fun st acc => Appstate.runUndo st acc) X).world.subjects ∩
          toggledSubjects = ∅ := by
    intro a y hEq
    obtain ⟨h1, h2⟩ := foldr_quiet post
      (fun st hst => hE st (by rw [hEq]; simp [hst])) X
    rw [h1, h2, hXl, hXs]
    exact ⟨hL, hempty⟩
  rcases List.append_eq_append_iff.mp hsplit with ⟨a, _, hE2⟩ | ⟨c, htx, hc⟩
  · exact hsuffix a _ hE2
  · cases c with
    | nil =>
      simp only [List.nil_append] at hc
      exact hsuffix [] _ hc.symm
    | cons x c1 =>
      simp only [List.cons_append, List.cons.injEq] at hc
      obtain ⟨hx, hpost⟩ := hc
      subst hx
      rw [hpost, List.foldr_append]
      obtain ⟨h1, h2⟩ := foldr_quiet E hE X
      exact hS pre id c1 htx _ (h1.trans hXl) (h2.trans hXs)

theorem exitEffect_unmarked (agentEnv : Agent) (m : Appstate.Machine World Transition)
    (t : Transition) (hreg : m.stateHandlers = registry agentEnv) (id : Nat) :
    Appstate.UndoStep.external (.checkpoint id) ∉
      (Appstate.exitEffect m t).undo.map Appstate.UndoStep.external := by
  unfold Appstate.exitEffect
  rw [hreg, lookup_registry]
  split_ifs
  · exact effect_unmarked (BootStateHandler.OnExit t) (inv_pure _) m.world id
  · exact effect_unmarked _ (unmarked_init_onExit t) m.world id
  · exact effect_unmarked _ (unmarked_active_onExit t) m.world id
  · exact effect_unmarked (UpdateConfigStateHandler.OnExit t) (inv_pure _) m.world id
  · exact effect_unmarked (MaintenanceStateHandler.OnExit t) (inv_pure _) m.world id
  · exact effect_unmarked (ZTPSetupHandler.OnExit t) (inv_pure _) m.world id
  · exact effect_unmarked (ResetStateHandler.OnExit t) (inv_pure _) m.world id
  · simp

theorem handle_sealed (agentEnv : Agent) (id : AppState)
    (toState : Appstate.IStateHandler World Transition)
    (hlook : Appstate.lookupHandler (registry agentEnv) id = some toState)
    (w : World) (t : Transition) (hw : w.subjects ∩ toggledSubjects = ∅)
    (tx : List (Appstate.UndoStep World)) (hS : SealedAt tx id w.subjects) :
    SealedAt (tx ++ (toState.Handle w t).undo.map Appstate.UndoStep.external) id
      (toState.Handle w t).world.subjects := by
  have hU := (handle_subjects agentEnv id toState hlook w t hw).1
  have hother : (∀ cp, Appstate.UndoStep.external (.checkpoint cp) ∉
      (toState.Handle w t).undo.map Appstate.UndoStep.external) →
      SealedAt (tx ++ (toState.Handle w t).undo.map Appstate.UndoStep.external) id
        (toState.Handle w t).world.subjects := by
    intro hno
    refine sealedAt_append tx _ id id w.subjects _ hS hno ?_
    intro X hXl hXs
    obtain ⟨h1, h2⟩ := back_of_undoes (toState.Handle w t) w.subjects _ hU X hXs
    exact ⟨h1.trans hXl, h2⟩
  rw [lookup_registry] at hlook
  split_ifs at hlook with h1 h2 h3 h4 h5 h6 h7
  all_goals cases hlook
  · exact hother (fun cp => effect_unmarked _ (unmarked_boot_handle t) w cp)
  · exact hother (fun cp => effect_unmarked _ (unmarked_init_handle agentEnv t) w cp)
  · exact hother (fun cp => effect_unmarked _
      (unmarked_active_handle agentEnv.DeviceType t) w cp)
  · exact hother (fun cp => effect_unmarked _
      (unmarked_updateConfig_handle agentEnv.DeviceType t) w cp)
  · subst h5
    have hN := neutral_effect _ (neutral_maintenance_handle t) w
    have hq := effect_quiet _ (neutral_maintenance_handle t) w
    have hsame : (maintenanceStateHandler.Handle w t).world.subjects = w.subjects := hN.2
    rw [hsame]
    exact sealedAt_append_quiet tx _ _ w.subjects (Or.inl rfl) hS hw hq
  · exact hother (fun cp => effect_unmarked _ (unmarked_ztpSetup_handle t) w cp)
  · subst h7
    have hN := neutral_effect _ (neutral_reset_handle agentEnv.DeviceType t) w
    have hq := effect_quiet _ (neutral_reset_handle agentEnv.DeviceType t) w
    have hsame : ((resetStateHandler agentEnv).Handle w t).world.subjects = w.subjects :=
      hN.2
    rw [hsame]
    exact sealedAt_append_quiet tx _ _ w.subjects (Or.inr rfl) hS hw hq

theorem performTransition_sealed (agentEnv : Agent)
    (FinishStatus : World → Option GoError → Option GoError)
    (m : Appstate.Machine World Transition) (t : Transition)
    (hreg : m.stateHandlers = registry agentEnv) (hboot : m.activeState ≠ AppStateBoot)
    (hpre : SubjectsMatch m.activeState t m.world.subjects)
    (hS : SealedAt m.tx m.activeState m.world.subjects) :
    SealedAt (Appstate.performTransition (services FinishStatus) Transition.ToState m t).1.tx
      (Appstate.performTransition (services FinishStatus) Transition.ToState m
        t).1.activeState
      (Appstate.performTransition (services FinishStatus) Transition.ToState m
        t).1.world.subjects := by
  by_cases hne : m.activeState = t.ToState
  · have h : Appstate.performTransition (services FinishStatus) Transition.ToState m t =
        (m, .error (.leaf ("performTransition: already in state " ++ m.activeState))) := by
      simp [Appstate.performTransition, hne]
    rw [h]
    exact hS
  · cases hto : Appstate.lookupHandler m.stateHandlers t.ToState with
    | none =>
      have h : Appstate.performTransition (services FinishStatus) Transition.ToState m t =
          (m, .error (.leaf ("performTransition: handler for state " ++ t.ToState ++
            " not found"))) := by
        simp [Appstate.performTransition, hne, hto]
      rw [h]
      exact hS
    | some toState =>
      cases hv : toState.ValidateTransition m.activeState with
      | some err =>
        have h : ∃ e, Appstate.performTransition (services FinishStatus) Transition.ToState
            m t = ({ m with trace := m.trace ++
              [Appstate.Event.validateTransition toState.StateID m.activeState] },
              .error e) := by
          simp [Appstate.performTransition, hne, hto, hv]
        obtain ⟨e, h⟩ := h
        rw [h]
        exact hS
      | none =>
        obtain ⟨hh, hexitErr, hexitOk⟩ := Appstate.performTransition_steps
          (services FinishStatus) Transition.ToState m t toState hne hto hv
        obtain ⟨hE1, hE2⟩ := exitEffect_subjects agentEnv m t hreg hpre
        have hA : SealedAt (m.tx ++ (Appstate.exitEffect m t).undo.map
            Appstate.UndoStep.external) m.activeState
            (Appstate.exitEffect m t).world.subjects := by
          refine sealedAt_append m.tx _ m.activeState m.activeState m.world.subjects _ hS
            (exitEffect_unmarked agentEnv m t hreg) ?_
          intro X hXl hXs
          obtain ⟨h1, h2⟩ := back_of_undoes (Appstate.exitEffect m t) m.world.subjects _
            hE1 X hXs
          exact ⟨h1.trans hXl, h2⟩
        cases hre : (Appstate.exitEffect m t).ret with
        | error e =>
          obtain ⟨_, hw, ha, htx⟩ := hexitErr ⟨e, hre⟩
          rw [htx, hw, ha]
          exact hA
        | ok u =>
          obtain ⟨hcfgErr, hcfgOk⟩ := hexitOk ⟨u, hre⟩
          obtain ⟨hC1, hC2⟩ := updateState_subjects FinishStatus
            (Appstate.exitEffect m t).world t.ToState
          have hB : SealedAt (m.tx ++ (Appstate.exitEffect m t).undo.map
              Appstate.UndoStep.external ++
              ((services FinishStatus).UpdateConfigWithTx
                (Appstate.exitEffect m t).world t.ToState).undo.map
                Appstate.UndoStep.external) m.activeState
              ((services FinishStatus).UpdateConfigWithTx
                (Appstate.exitEffect m t).world t.ToState).world.subjects := by
            refine sealedAt_append _ _ m.activeState m.activeState
              (Appstate.exitEffect m t).world.subjects _ hA
              (fun cp => effect_unmarked _ (unmarked_updateConfigWithTx _ _) _ cp) ?_
            intro X hXl hXs
            obtain ⟨h1, h2⟩ := back_of_undoes ((services FinishStatus).UpdateConfigWithTx
              (Appstate.exitEffect m t).world t.ToState) _ _ hC1 X hXs
            exact ⟨h1.trans hXl, h2⟩
          cases hrc : ((services FinishStatus).UpdateConfigWithTx
              (Appstate.exitEffect m t).world t.ToState).ret with
          | error e =>
            obtain ⟨_, hw, ha, htx⟩ := hcfgErr ⟨e, hrc⟩
            rw [htx, hw, ha]
            exact hB
          | ok u2 =>
            obtain ⟨hw, ha, htx, _⟩ := hcfgOk ⟨u2, hrc⟩
            have hlook : Appstate.lookupHandler (registry agentEnv) t.ToState =
                some toState := by
              rw [← hreg]
              exact hto
            have hC : SealedAt (m.tx ++ (Appstate.exitEffect m t).undo.map
                Appstate.UndoStep.external ++
                ((services FinishStatus).UpdateConfigWithTx
                  (Appstate.exitEffect m t).world t.ToState).undo.map
                  Appstate.UndoStep.external ++
                [Appstate.UndoStep.restoreState m.activeState]) t.ToState
                ((services FinishStatus).UpdateConfigWithTx
                  (Appstate.exitEffect m t).world t.ToState).world.subjects := by
              refine sealedAt_append _ _ m.activeState t.ToState _ _ hB ?_ ?_
              · intro cp hmem
                simp at hmem
              · intro X _ hXs
                show (Appstate.runUndo (.restoreState m.activeState) X).activeState =
                  m.activeState ∧
                  (Appstate.runUndo (.restoreState m.activeState) X).world.subjects = _
                simp [Appstate.runUndo, hboot, hXs]
            rw [htx, hw, ha]
            exact handle_sealed agentEnv t.ToState toState hlook _ t
              (by rw [hC2]; exact hE2 u hre) _ hC

theorem chainRun_sealed (agentEnv : Agent)
    (FinishStatus : World → Option GoError → Option GoError) (before : Finset String)
    (m m1 : Appstate.Machine World Transition) (t : Transition) (err : Option GoError)
    (hchain : Appstate.ChainRun (services FinishStatus) Transition.ToState m t m1 err)
    (hreg : m.stateHandlers = registry agentEnv) (hK : ChainSubjects before m)
    (hpre : SubjectsMatch m.activeState t m.world.subjects)
    (hboot : m.activeState ≠ AppStateBoot) (hto : t.ToState ≠ AppStateBoot)
    (hS : SealedAt m.tx m.activeState m.world.subjects) :
    SealedAt m1.tx m1.activeState m1.world.subjects := by
  induction hchain with
  | failed s t e _ => exact performTransition_sealed agentEnv FinishStatus s t hreg hboot hpre hS
  | finished s t r _ _ =>
    exact performTransition_sealed agentEnv FinishStatus s t hreg hboot hpre hS
  | followUp s t next r s1 err hr hnext _ ih =>
    have h := performTransition_subjects agentEnv FinishStatus s t before hreg hK hpre
    obtain ⟨toState, w, hr1, hlook, _, _, hH, hrr, _, ha⟩ :=
      Appstate.performTransition_ok_handle (services FinishStatus) Transition.ToState s t r hr
    rw [hreg] at hlook
    rw [hnext] at hrr
    have hnextTo : next.ToState ≠ AppStateBoot :=
      followUp_toState _ next (handle_followUp agentEnv toState
        (lookup_registry_mem agentEnv _ _ hlook) t w hr1 next hH hrr.symm)
    exact ih h.2.1 h.1 ((h.2.2 r hr).1 next hnext) (by rw [ha]; exact hto) hnextTo
      (performTransition_sealed agentEnv FinishStatus s t hreg hboot hpre hS)

theorem chain_settles (agentEnv : Agent)
    (FinishStatus : World → Option GoError → Option GoError)
    (m s1 : Appstate.Machine World Transition) (t : Transition) (err : Option GoError)
    (evs : List Appstate.Event)
    (hreg : m.stateHandlers = registry agentEnv) (htx : m.tx = [])
    (hpre : SubjectsMatch m.activeState t m.world.subjects)
    (hlive : m.activeState = AppStateBoot ∨ t.ToState ≠ AppStateBoot)
    (hchain : Appstate.ChainRun (services FinishStatus) Transition.ToState m t s1 err) :
    (err = none → Settled agentEnv s1) ∧
      (m.activeState ≠ AppStateBoot → t.ToState ≠ AppStateBoot →
        m.world.subjects ∩ toggledSubjects = expectedSubjects m.activeState →
        ∀ e, err = some e →
          Settled agentEnv (Appstate.rollback { s1 with trace := s1.trace ++ evs })) := by
  have hK : ChainSubjects m.world.subjects m := by
    unfold ChainSubjects
    rw [htx]
    exact undoes_nil _
  have hS := chainRun_subjects agentEnv FinishStatus m.world.subjects m s1 t err hchain
    hreg hK hpre
  have hL := chainRun_live agentEnv FinishStatus m s1 t err hchain hreg
  refine ⟨fun herr => ⟨hL.1, hL.2 herr hlive, hS.2 herr⟩, ?_⟩
  intro hboot hto hsub e _
  rcases Appstate.rollback_cases { s1 with trace := s1.trace ++ evs } with
    ⟨hcp, _⟩ | ⟨pre, id, post, hsplit, _, hpart⟩
  · have ha := Appstate.rollback_restores_activeState (services FinishStatus)
      Transition.ToState m s1 t err evs htx hboot hchain hcp
    have hw : (Appstate.rollback { s1 with trace := s1.trace ++ evs }).world.subjects =
        m.world.subjects := by
      rw [rollback_world _ hcp]
      exact hS.1 s1.world rfl
    refine ⟨(Appstate.rollback_stateHandlers _).trans hL.1, by rw [ha]; exact hboot, ?_⟩
    rw [hw, ha]
    exact hsub
  · have hsealed := chainRun_sealed agentEnv FinishStatus m.world.subjects m s1 t err hchain
      hreg hK hpre hboot hto (by rw [htx]; exact sealedAt_nil _ _)
    obtain ⟨h1, h2⟩ := hsealed pre id post hsplit { s1 with trace := s1.trace ++ evs }
      rfl rfl
    have hlive2 : (Appstate.rollback { s1 with trace := s1.trace ++ evs }).activeState =
        (post.foldr (fun st acc => Appstate.runUndo st acc)
          { s1 with trace := s1.trace ++ evs }).activeState := by
      rw [hpart]
    have hworld2 : (Appstate.rollback { s1 with trace := s1.trace ++ evs }).world =
        (post.foldr (fun st acc => Appstate.runUndo st acc)
          { s1 with trace := s1.trace ++ evs }).world := by
      rw [hpart]
    refine ⟨(Appstate.rollback_stateHandlers _).trans hL.1, ?_, ?_⟩
    · rw [hlive2]
      rcases h1 with h | h <;> rw [h] <;> decide
    · rw [hworld2, hlive2, h2]
      rcases h1 with h | h <;> rw [h] <;> decide

theorem serveRequest_settled (agentEnv : Agent)
    (FinishStatus : World → Option GoError → Option GoError) (fuel : Nat)
    (m m1 : Appstate.Machine World Transition) (t : Transition) (res : Option GoError)
    (hm : Settled agentEnv m) (ht : t.isSubmitted = true)
    (h : Appstate.serveRequest (services FinishStatus) Transition.ToState fuel m t =
      some (m1, res)) : Settled agentEnv m1 := by
  obtain ⟨hreg, hlive, hsub⟩ := hm
  obtain ⟨hmig, hto⟩ := submitted_facts t ht
  rcases Appstate.serveRequest_cases _ _ _ _ _ _ _ h with
    ⟨err, _, hw, ha, hh⟩ | ⟨s1, err, _, hrun, hw, ha, hh⟩
  · refine ⟨hh.trans hreg, by rw [ha]; exact hlive, ?_⟩
    rw [hw, ha]
    have h1 : ((services FinishStatus).StartTransaction m.world).1.subjects =
        m.world.subjects := startTransaction_subjects m.world
    rw [h1]
    exact hsub
  · have hchain := Appstate.runChain_chainRun _ _ _ _ _ _ _ hrun
    have h1 : ((services FinishStatus).StartTransaction m.world).1.subjects =
        m.world.subjects := startTransaction_subjects m.world
    have hsub1 : ((services FinishStatus).StartTransaction m.world).1.subjects ∩
        toggledSubjects = expectedSubjects m.activeState := by
      rw [h1]
      exact hsub
    have hpre : SubjectsMatch m.activeState t
        ((services FinishStatus).StartTransaction m.world).1.subjects := by
      unfold SubjectsMatch
      rw [hmig]
      simpa using hsub1
    have hC := chain_settles agentEnv FinishStatus
      { m with trace := m.trace ++ [Appstate.Event.startTransaction],
               world := ((services FinishStatus).StartTransaction m.world).1, tx := [] }
      s1 t err [Appstate.Event.finishTransaction err] hreg rfl hpre (Or.inr hto) hchain
    cases err with
    | none => exact settled_of_eq agentEnv s1 m1 hw ha hh (hC.1 rfl)
    | some e => exact settled_of_eq agentEnv _ m1 hw ha hh (hC.2 hlive hto hsub1 e rfl)

theorem reach_settled (agentEnv : Agent)
    (FinishStatus : World → Option GoError → Option GoError) (initState : AppState)
    (hfin : ∀ w e, FinishStatus w (some e) ≠ none)
    (m : Appstate.Machine World Transition)
    (hreach : Reach agentEnv FinishStatus initState m) : Settled agentEnv m := by
  induction hreach with
  | boot m0 m1 fuel hreg hlive hsub hset =>
    obtain ⟨toState, s2, hrun, hw, ha, hh⟩ :=
      Appstate.setActiveStateFromBoot_cases (services FinishStatus) Transition.ToState
        Transition.OnAfterBoot persistedState initState fuel m0 m1 hfin hset
    have hchain := Appstate.runChain_chainRun _ _ _ _ _ _ _ hrun
    have h1 : (persistedState ((services FinishStatus).StartTransaction m0.world).1).1.subjects
        = m0.world.subjects := by
      rw [persistedState_subjects]
      exact startTransaction_subjects m0.world
    have hpre : SubjectsMatch m0.activeState (.OnAfterBoot toState)
        (persistedState ((services FinishStatus).StartTransaction m0.world).1).1.subjects := by
      rw [hlive, subjectsMatch_other _ _ _ (by decide) (by decide), h1]
      exact hsub
    have hC := chain_settles agentEnv FinishStatus
      { m0 with trace := m0.trace ++ [Appstate.Event.startTransaction],
                world := (persistedState
                  ((services FinishStatus).StartTransaction m0.world).1).1, tx := [] }
      s2 (.OnAfterBoot toState) none [] hreg rfl hpre (Or.inl hlive) hchain
    exact settled_of_eq agentEnv s2 m1 hw ha hh (hC.1 rfl)
  | perform m m1 t fuel res _ ht hperf ih =>
    obtain ⟨r, hr⟩ := Appstate.perform_serveRequest _ _ _ _ _ _ _ hperf
    exact serveRequest_settled agentEnv FinishStatus fuel m m1 t r ih ht hr

/-- C26. In every machine the controller reaches from boot with none of the subjects the
handlers toggle active (after `setActiveStateFromBoot` has returned nil and after any number
of `Perform` requests with the eight submitted transitions, whether their chain succeeded or
was rolled back), the toggled subjects that are active are those of the live state: the seven
of `init` in init, the two of `active` in active, none in reset. `Handle` and `OnExit` of
every registered handler spare the three subjects `main` activates: no toggle call on them,
and they stay as they were. `FinishTransaction` is taken to report a failed chain as failed. -/
theorem reachable_subjects_follow_live_state (agentEnv : Agent)
    (FinishStatus : World → Option GoError → Option GoError) (initState : AppState)
    (hfin : ∀ w e, FinishStatus w (some e) ≠ none)
    (m : Appstate.Machine World Transition)
    (hreach : Reach agentEnv FinishStatus initState m) :
    m.world.subjects ∩ toggledSubjects = expectedSubjects m.activeState ∧
      (m.activeState = AppStateInit →
        m.world.subjects ∩ toggledSubjects = InitStateHandler.mqSubjects.toFinset) ∧
      (m.activeState = AppStateActive →
        m.world.subjects ∩ toggledSubjects = {MQAgentReset, MQAgentRebuildServices}) ∧
      (m.activeState = AppStateReset → m.world.subjects ∩ toggledSubjects = ∅) ∧
      ∀ subject ∈ mainSubjects, ∀ handler ∈ stateHandlers agentEnv,
        ∀ (w : World) (t : Transition),
          Spares subject w (handler.Handle w t) ∧ Spares subject w (handler.OnExit w t) := by
  obtain ⟨_, _, hsub⟩ := reach_settled agentEnv FinishStatus initState hfin m hreach
  refine ⟨hsub, ?_, ?_, ?_, ?_⟩
  · intro h
    rw [hsub, h]
    rfl
  · intro h
    rw [hsub, h]
    decide
  · intro h
    rw [hsub, h]
    rfl
  · intro subject hs handler hmem w t
    exact handler_spares agentEnv subject (mainSubjects_not_toggled subject hs) handler hmem
      w t

theorem machineOr_eq (o : Option (Appstate.Machine World Transition × Option GoError))
    (m0 : Appstate.Machine World Transition) (ho : o.map Prod.snd = some none) :
    o = some (machineOr o m0, none) := by
  cases o with
  | none => cases ho
  | some p =>
    obtain ⟨m1, r⟩ := p
    simp only [Option.map_some', Option.some.injEq] at ho
    subst ho
    rfl

/-- Witness for C26: a CPE that boots with the persisted state `active`;
`setActiveStateFromBoot` returns nil, and in the machine it leaves the toggled subjects that
are active are those of the live state. -/
theorem reachable_subjects_witness :
    (Appstate.setActiveStateFromBoot (services (fun _ execErr => execErr))
        Transition.ToState Transition.OnAfterBoot persistedState AppStateInit 2
        sampleBootActive).map Prod.snd = some none ∧
      sampleAfterBoot.world.subjects ∩ toggledSubjects =
        expectedSubjects sampleAfterBoot.activeState := by
  have h2 : (Appstate.setActiveStateFromBoot (services (fun _ execErr => execErr))
      Transition.ToState Transition.OnAfterBoot persistedState AppStateInit 2
      sampleBootActive).map Prod.snd = some none := by
    decide!
  have hfin : ∀ (w : World) (e : GoError),
      (fun (_ : World) (execErr : Option GoError) => execErr) w (some e) ≠ none :=
    fun _ _ h => Option.noConfusion h
  have hsub : sampleBootActive.world.subjects ∩ toggledSubjects = ∅ :=
    Finset.empty_inter _
  exact ⟨h2, (reachable_subjects_follow_live_state { DeviceType := DeviceTypeCPE }
    (fun _ execErr => execErr) AppStateInit hfin sampleAfterBoot
    (Reach.boot sampleBootActive sampleAfterBoot 2 rfl rfl hsub
      (machineOr_eq _ sampleBootActive h2))).1⟩

end Handlers


/-! ## Theorems: checkpoints and rollback -/

namespace Handlers

open Appstate (AppState AppStateBoot AppStateInit AppStateActive AppStateUpdateConfig
  AppStateMaintenance AppStateZTPSetup AppStateReset)

/-- Counterexample for C1: live state `active` on a CPE, `OnUpdateDevice` with the agent
package. `updateDevice` succeeds and leaves its checkpoint in place; the follow-up
`OnUpdateDeviceFinished` fails in `Handle` of active, whose `ActivateHandler` fails. The
chain ends with an error and checkpoint 0 active, and the rollback, which skips the entries
before that checkpoint, leaves the live state `maintenance`, not `active`. -/
theorem failed_update_chain_stays_in_maintenance :
    (sampleActiveMachine sampleStoreServices subscribeFails).activeState = AppStateActive ∧
      (sampleActiveMachine sampleStoreServices subscribeFails).tx = [] ∧
      (Appstate.runChain (services (fun _ execErr => execErr)) Transition.ToState 2
          (sampleActiveMachine sampleStoreServices subscribeFails)
          (.OnUpdateDevice sampleInstallRequest)).map
        (fun p => (p.2.isSome, Appstate.activeCheckpoint p.1.tx.reverse [],
          (Appstate.rollback p.1).activeState)) =
        some (true, some 0, AppStateMaintenance) := by
  refine ⟨rfl, rfl, by decide!⟩

end Handlers


/-! ## Theorems: stored identity in `active` and `maintenance` -/

namespace Handlers

open Appstate (AppState AppStateBoot AppStateInit AppStateActive AppStateUpdateConfig
  AppStateMaintenance AppStateZTPSetup AppStateReset)

theorem identityOf_of_record {a b : Config} (h : recordOf a = recordOf b) :
    identityOf a = identityOf b :=
  congrArg Prod.fst h

theorem run_spares (u : Undo) (h : u.sparesIdentity = true) (w : World) :
    recordOf (u.run w).store = recordOf w.store := by
  cases u with
  | restoreSections old touched =>
    simp only [Undo.sparesIdentity, Bool.and_eq_true, Option.isNone_iff_eq_none] at h
    simp [Undo.run, restoreConfig, restoreSection, recordOf, identityOf, h.1, h.2]
  | _ => rfl

theorem foldr_run_spares (entries : List Undo) (h : ∀ u ∈ entries, u.sparesIdentity = true)
    (w : World) : recordOf (entries.foldr Undo.run w).store = recordOf w.store := by
  induction entries with
  | nil => rfl
  | cons u rest ih =>
    rw [List.foldr_cons, run_spares u (h u (List.mem_cons_self _ _)),
      ih (fun v hv => h v (List.mem_cons_of_mem _ hv))]

theorem idRestores_of_quiet {s s1 : HState} (h : IdQuiet s s1) : IdRestores s s1 := by
  obtain ⟨h1, entries, h2, h3⟩ := h
  refine ⟨entries, h2, ?_⟩
  intro w hw
  rw [foldr_run_spares entries h3, hw, h1]

theorem safeKept_of_quiet {s s1 : HState} (h : IdQuiet s s1) : SafeKept s s1 := by
  intro hs
  rw [h.1]
  exact hs

theorem idQuiet_world (s : HState) (w : World)
    (h : recordOf w.store = recordOf s.world.store) : IdQuiet s { s with world := w } :=
  ⟨h, [], by simp, by simp⟩

theorem idQuiet_push (s : HState) (u : Undo) (h : u.sparesIdentity = true) :
    IdQuiet s { s with undo := s.undo ++ [u] } :=
  ⟨rfl, [u], rfl, by simpa using h⟩

theorem idRestores_world (s : HState) (w : World)
    (h : recordOf w.store = recordOf s.world.store) :
    IdRestores s { s with world := w } :=
  idRestores_of_quiet (idQuiet_world s w h)

theorem idRestores_push (s : HState) (u : Undo) (h : u.sparesIdentity = true) :
    IdRestores s { s with undo := s.undo ++ [u] } :=
  idRestores_of_quiet (idQuiet_push s u h)

theorem safeKept_world (s : HState) (w : World)
    (h : recordOf w.store = recordOf s.world.store) :
    SafeKept s { s with world := w } :=
  safeKept_of_quiet (idQuiet_world s w h)

theorem recordOf_merge_none (stored cfg : Config)
    (h : cfg.App = none ∧ cfg.AppState = none) :
    recordOf (mergeConfig stored cfg) = recordOf stored := by
  simp [recordOf, identityOf, mergeConfig, mergeSection, h.1, h.2]

theorem idQuiet_updateConfigWithTx (cfg : Config) (skipGenerators : Bool)
    (h : cfg.App = none ∧ cfg.AppState = none) :
    Act.Inv IdQuiet (UpdateConfigWithTx cfg skipGenerators) := by
  constructor
  intro s
  rw [updateConfigWithTx_eq]
  split
  · refine ⟨recordOf_merge_none _ _ h, [.restoreSections s.world.store cfg], rfl, ?_⟩
    intro u hu
    simp only [List.mem_singleton] at hu
    subst hu
    simp [Undo.sparesIdentity, h.1, h.2]
  · exact idQuiet_world s _ rfl

theorem recordOf_restore (old touched cur : Config)
    (h : recordOf cur = recordOf (mergeConfig old touched)) :
    recordOf (restoreConfig old touched cur) = recordOf old := by
  simp only [recordOf, identityOf, mergeConfig, mergeSection, restoreConfig, restoreSection,
    Prod.mk.injEq] at h ⊢
  obtain ⟨h1, h2⟩ := h
  constructor
  · cases ha : touched.App with
    | none => simpa [ha] using h1
    | some app => simp
  · cases hb : touched.AppState with
    | none => simpa [hb] using h2
    | some st => simp

theorem idRestores_updateConfigWithTx (cfg : Config) (skipGenerators : Bool) :
    Act.Inv IdRestores (UpdateConfigWithTx cfg skipGenerators) := by
  constructor
  intro s
  rw [updateConfigWithTx_eq]
  split
  · refine ⟨[.restoreSections s.world.store cfg], rfl, ?_⟩
    intro w hw
    exact recordOf_restore s.world.store cfg w.store hw
  · exact idRestores_world s _ rfl

/-- The stored config after an `UpdateConfigWithTx` that writes neither of the two sections,
or a blank App section together with a recorded state that is none of a device set up, can be
started from when it could before. -/
theorem safeKept_updateConfigWithTx (cfg : Config) (skipGenerators : Bool)
    (h : (cfg.App = none ∧ cfg.AppState = none) ∨
      ∃ app st, cfg.App = some app ∧ app.SerialNumber = "" ∧ cfg.AppState = some st ∧
        ¬ setUp st.State) :
    Act.Inv SafeKept (UpdateConfigWithTx cfg skipGenerators) := by
  constructor
  intro s
  rw [updateConfigWithTx_eq]
  split
  · rcases h with h | ⟨app, st, h, hs, h2, hst⟩
    · intro hsafe
      have h1 : recordOf (s.afterUpdate cfg skipGenerators).world.store =
          recordOf s.world.store := recordOf_merge_none _ _ h
      rw [h1]
      exact hsafe
    · intro _
      have h1 : recordOf (s.afterUpdate cfg skipGenerators).world.store =
          (some (app.SerialNumber, app.OrchestratorAddrs), some st.State) := by
        show recordOf (mergeConfig s.world.store cfg) = _
        simp [recordOf, identityOf, mergeConfig, mergeSection, h, h2]
      rw [h1]
      right
      refine ⟨?_, ?_⟩
      · intro serial addrs heq
        cases heq
        exact hs
      · intro st1 heq
        cases heq
        exact hst
  · exact safeKept_world s _ rfl

end Handlers

namespace Handlers

open Appstate (AppState AppStateBoot AppStateInit AppStateActive AppStateUpdateConfig
  AppStateMaintenance AppStateZTPSetup AppStateReset)

theorem updateConfig_eq (cfg : Config) (s : HState) :
    UpdateConfig cfg s =
      match s.world.outcome s.world.calls (.UpdateConfig cfg) with
      | none => (.ok (), { s with world := { (s.record (.UpdateConfig cfg) none).world with
          store := mergeConfig s.world.store cfg } })
      | some e => (.error e, s.record (.UpdateConfig cfg) (some e)) := by
  cases h : s.world.outcome s.world.calls (.UpdateConfig cfg) <;>
    simp [UpdateConfig, call, modifyWorld, h, HState.record]

/-- The write of the active address keeps the serial number and the addresses. -/
theorem idQuiet_writeActiveAddr (orchestratorAddr : String) :
    Act.Inv IdQuiet (writeActiveAddr orchestratorAddr) := by
  constructor
  intro s
  unfold writeActiveAddr
  cases hg : s.world.outcome s.world.calls .GetConfig with
  | some e =>
    have h1 : (GetConfig.wrapErr "BuildConn: ") s =
        (.error (.wrap "BuildConn: " e), s.record .GetConfig (some e)) := by
      simp only [Act.wrapErr, getConfig_eq, hg]
    rw [Act.bind_error h1]
    exact idQuiet_world s _ rfl
  | none =>
    have h1 : (GetConfig.wrapErr "BuildConn: ") s =
        (.ok s.world.store, s.record .GetConfig none) := by
      simp only [Act.wrapErr, getConfig_eq, hg]
    rw [Act.bind_ok h1]
    cases happ : s.world.store.App with
    | none => exact idQuiet_world s _ rfl
    | some oldApp =>
      simp only
      unfold Act.wrapErr
      rw [updateConfig_eq]
      split
      · rename_i a s1 heq
        split at heq
        · cases heq
          refine idQuiet_world s _ ?_
          show recordOf (mergeConfig s.world.store _) = recordOf s.world.store
          simp [recordOf, identityOf, mergeConfig, mergeSection, happ]
        · cases heq
      · rename_i e s1 heq
        split at heq
        · cases heq
        · cases heq
          exact idQuiet_world s _ rfl

theorem idQuiet_buildConn : Act.Inv IdQuiet BuildConn := by
  unfold BuildConn
  repeat' first
    | intro _
    | exact inv_pure _
    | exact inv_fail _
    | exact inv_getWorld
    | exact idQuiet_writeActiveAddr _
    | apply inv_bind
    | apply inv_wrapErr
    | (apply inv_callOf; intro s err; exact idQuiet_world s _ rfl)
    | (apply inv_modifyWorld; intro s; exact idQuiet_world s _ rfl)
    | split

/-- A connection is built only for a stored serial number and a stored address list that are
not empty; building it keeps both and appends nothing to the transaction. -/
theorem buildConn_ok (s s1 : HState) (h : BuildConn s = (.ok (), s1)) :
    Identified (identityOf s.world.store) ∧
      recordOf s1.world.store = recordOf s.world.store := by
  have hq := inv_of_eq idQuiet_buildConn h
  refine ⟨?_, hq.1⟩
  unfold BuildConn at h
  obtain ⟨cfg, s2, h2, h⟩ := Act.bind_eq_ok h
  have h2b := Act.wrapErr_eq_ok h2
  rw [getConfig_eq] at h2b
  have hcfg : cfg = s.world.store := by
    split at h2b
    · cases h2b
      rfl
    · cases h2b
  subst hcfg
  cases happ : s.world.store.App with
  | none =>
    rw [happ] at h
    cases h
  | some app =>
    rw [happ] at h
    simp only at h
    obtain ⟨w, s3, h3, h⟩ := Act.bind_eq_ok h
    cases hf : Discovery.FetchPrimary w.CheckPrimary id app.OrchestratorAddrs with
    | none =>
      rw [hf] at h
      obtain ⟨_, s4, _, h⟩ := Act.bind_eq_ok h
      cases h
    | some p =>
      obtain ⟨primary, perr⟩ := p
      rw [hf] at h
      cases perr with
      | some err => cases h
      | none =>
        simp only at h
        by_cases hs : app.SerialNumber = ""
        · rw [if_pos hs] at h
          cases h
        · refine ⟨app.SerialNumber, app.OrchestratorAddrs, by simp [identityOf, happ], hs, ?_⟩
          intro hnil
          rw [hnil] at hf
          simp [Discovery.FetchPrimary] at hf

end Handlers

namespace Handlers

open Appstate (AppState AppStateBoot AppStateInit AppStateActive AppStateUpdateConfig
  AppStateMaintenance AppStateZTPSetup AppStateReset)

theorem inv_weaken {α : Type} {R R1 : HState → HState → Prop} {x : Act α}
    (h : ∀ s s1, R s s1 → R1 s s1) (hx : Act.Inv R x) : Act.Inv R1 x :=
  ⟨fun s => h _ _ (hx.run s)⟩

theorem idQuiet_checkSchemes (addrs : List String) :
    Act.Inv IdQuiet (ActiveStateHandler.checkSchemes addrs) := by
  constructor
  intro s
  rw [checkSchemes_eq]
  split <;> exact IsRefl.refl s

theorem idQuiet_subscribeLoop (l : List String) : Act.Inv IdQuiet (subscribeLoop l) := by
  induction l with
  | nil => exact inv_pure _
  | cons a rest ih =>
    unfold subscribeLoop
    refine inv_bind (inv_wrapErr _ ?_) (fun _ => ih)
    unfold ExecuteFunc ActivateHandler
    repeat' first
      | intro _
      | exact inv_pure _
      | apply inv_bind
      | (apply inv_callOf; intro s err; exact idQuiet_world s _ rfl)
      | (apply inv_modifyWorld; intro s; exact idQuiet_world s _ rfl)
      | (apply inv_pushUndo; intro s; exact idQuiet_push s _ rfl)

theorem idQuiet_unsubscribeLoop (l : List String) :
    Act.Inv IdQuiet (unsubscribeLoop l) := by
  induction l with
  | nil => exact inv_pure _
  | cons a rest ih =>
    unfold unsubscribeLoop
    refine inv_bind (inv_wrapErr _ ?_) (fun _ => ih)
    unfold ExecuteFunc DeactivateHandler
    repeat' first
      | intro _
      | exact inv_pure _
      | apply inv_bind
      | (apply inv_callOf; intro s err; exact idQuiet_world s _ rfl)
      | (apply inv_modifyWorld; intro s; exact idQuiet_world s _ rfl)
      | (apply inv_pushUndo; intro s; exact idQuiet_push s _ rfl)

theorem idQuiet_boot_handle (t : Transition) :
    Act.Inv IdQuiet (BootStateHandler.Handle t) := by
  unfold BootStateHandler.Handle
  repeat' first
    | intro _
    | exact inv_pure _
    | exact inv_fail _
    | exact inv_getWorld
    | exact idQuiet_checkSchemes _
    | exact idQuiet_subscribeLoop _
    | exact idQuiet_unsubscribeLoop _
    | exact idQuiet_buildConn
    | (apply idQuiet_updateConfigWithTx; first | exact ⟨rfl, rfl⟩ | assumption)
    | apply inv_bind
    | apply inv_wrapErr
    | apply inv_attempt
    | apply inv_ite
    | (apply inv_callOf; intro s err; exact idQuiet_world s _ rfl)
    | (apply inv_noteOf; intro s err; exact idQuiet_world s _ rfl)
    | (apply inv_modifyWorld; intro s; exact idQuiet_world s _ rfl)
    | (apply inv_pushUndo; intro s; exact idQuiet_push s _ rfl)
    | (apply inv_nilDeref; intro s; exact idQuiet_world s _ rfl)
    | split
    | unfold checkHubTunnels
    | unfold UpdateConfigStateHandler.checkHubTunnels
    | unfold MaintenanceStateHandler.installUpdateManager
    | unfold ActiveStateHandler.waitDeviceInit
    | unfold ActiveStateHandler.subscribeQueueSubjects
    | unfold InitStateHandler.subscribeQueueSubjects
    | unfold ActiveStateHandler.unsubscribeQueueSubjects
    | unfold InitStateHandler.unsubscribeQueueSubjects

theorem idQuiet_init_handle (agentEnv : Agent) (t : Transition) :
    Act.Inv IdQuiet (InitStateHandler.Handle agentEnv t) := by
  unfold InitStateHandler.Handle
  repeat' first
    | intro _
    | exact inv_pure _
    | exact inv_fail _
    | exact inv_getWorld
    | exact idQuiet_checkSchemes _
    | exact idQuiet_subscribeLoop _
    | exact idQuiet_unsubscribeLoop _
    | exact idQuiet_buildConn
    | (apply idQuiet_updateConfigWithTx; first | exact ⟨rfl, rfl⟩ | assumption)
    | apply inv_bind
    | apply inv_wrapErr
    | apply inv_attempt
    | apply inv_ite
    | (apply inv_callOf; intro s err; exact idQuiet_world s _ rfl)
    | (apply inv_noteOf; intro s err; exact idQuiet_world s _ rfl)
    | (apply inv_modifyWorld; intro s; exact idQuiet_world s _ rfl)
    | (apply inv_pushUndo; intro s; exact idQuiet_push s _ rfl)
    | (apply inv_nilDeref; intro s; exact idQuiet_world s _ rfl)
    | split
    | unfold checkHubTunnels
    | unfold UpdateConfigStateHandler.checkHubTunnels
    | unfold MaintenanceStateHandler.installUpdateManager
    | unfold ActiveStateHandler.waitDeviceInit
    | unfold ActiveStateHandler.subscribeQueueSubjects
    | unfold InitStateHandler.subscribeQueueSubjects
    | unfold ActiveStateHandler.unsubscribeQueueSubjects
    | unfold InitStateHandler.unsubscribeQueueSubjects

theorem idQuiet_maintenance_handle (t : Transition) :
    Act.Inv IdQuiet (MaintenanceStateHandler.Handle t) := by
  unfold MaintenanceStateHandler.Handle
  repeat' first
    | intro _
    | exact inv_pure _
    | exact inv_fail _
    | exact inv_getWorld
    | exact idQuiet_checkSchemes _
    | exact idQuiet_subscribeLoop _
    | exact idQuiet_unsubscribeLoop _
    | exact idQuiet_buildConn
    | (apply idQuiet_updateConfigWithTx; first | exact ⟨rfl, rfl⟩ | assumption)
    | apply inv_bind
    | apply inv_wrapErr
    | apply inv_attempt
    | apply inv_ite
    | (apply inv_callOf; intro s err; exact idQuiet_world s _ rfl)
    | (apply inv_noteOf; intro s err; exact idQuiet_world s _ rfl)
    | (apply inv_modifyWorld; intro s; exact idQuiet_world s _ rfl)
    | (apply inv_pushUndo; intro s; exact idQuiet_push s _ rfl)
    | (apply inv_nilDeref; intro s; exact idQuiet_world s _ rfl)
    | split
    | unfold checkHubTunnels
    | unfold UpdateConfigStateHandler.checkHubTunnels
    | unfold MaintenanceStateHandler.installUpdateManager
    | unfold ActiveStateHandler.waitDeviceInit
    | unfold ActiveStateHandler.subscribeQueueSubjects
    | unfold InitStateHandler.subscribeQueueSubjects
    | unfold ActiveStateHandler.unsubscribeQueueSubjects
    | unfold InitStateHandler.unsubscribeQueueSubjects

theorem idQuiet_init_onExit (t : Transition) :
    Act.Inv IdQuiet (InitStateHandler.OnExit t) := by
  unfold InitStateHandler.OnExit
  repeat' first
    | intro _
    | exact inv_pure _
    | exact inv_fail _
    | exact inv_getWorld
    | exact idQuiet_checkSchemes _
    | exact idQuiet_subscribeLoop _
    | exact idQuiet_unsubscribeLoop _
    | exact idQuiet_buildConn
    | (apply idQuiet_updateConfigWithTx; first | exact ⟨rfl, rfl⟩ | assumption)
    | apply inv_bind
    | apply inv_wrapErr
    | apply inv_attempt
    | apply inv_ite
    | (apply inv_callOf; intro s err; exact idQuiet_world s _ rfl)
    | (apply inv_noteOf; intro s err; exact idQuiet_world s _ rfl)
    | (apply inv_modifyWorld; intro s; exact idQuiet_world s _ rfl)
    | (apply inv_pushUndo; intro s; exact idQuiet_push s _ rfl)
    | (apply inv_nilDeref; intro s; exact idQuiet_world s _ rfl)
    | split
    | unfold checkHubTunnels
    | unfold UpdateConfigStateHandler.checkHubTunnels
    | unfold MaintenanceStateHandler.installUpdateManager
    | unfold ActiveStateHandler.waitDeviceInit
    | unfold ActiveStateHandler.subscribeQueueSubjects
    | unfold InitStateHandler.subscribeQueueSubjects
    | unfold ActiveStateHandler.unsubscribeQueueSubjects
    | unfold InitStateHandler.unsubscribeQueueSubjects

theorem idQuiet_active_onExit (t : Transition) :
    Act.Inv IdQuiet (ActiveStateHandler.OnExit t) := by
  unfold ActiveStateHandler.OnExit
  repeat' first
    | intro _
    | exact inv_pure _
    | exact inv_fail _
    | exact inv_getWorld
    | exact idQuiet_checkSchemes _
    | exact idQuiet_subscribeLoop _
    | exact idQuiet_unsubscribeLoop _
    | exact idQuiet_buildConn
    | (apply idQuiet_updateConfigWithTx; first | exact ⟨rfl, rfl⟩ | assumption)
    | apply inv_bind
    | apply inv_wrapErr
    | apply inv_attempt
    | apply inv_ite
    | (apply inv_callOf; intro s err; exact idQuiet_world s _ rfl)
    | (apply inv_noteOf; intro s err; exact idQuiet_world s _ rfl)
    | (apply inv_modifyWorld; intro s; exact idQuiet_world s _ rfl)
    | (apply inv_pushUndo; intro s; exact idQuiet_push s _ rfl)
    | (apply inv_nilDeref; intro s; exact idQuiet_world s _ rfl)
    | split
    | unfold checkHubTunnels
    | unfold UpdateConfigStateHandler.checkHubTunnels
    | unfold MaintenanceStateHandler.installUpdateManager
    | unfold ActiveStateHandler.waitDeviceInit
    | unfold ActiveStateHandler.subscribeQueueSubjects
    | unfold InitStateHandler.subscribeQueueSubjects
    | unfold ActiveStateHandler.unsubscribeQueueSubjects
    | unfold InitStateHandler.unsubscribeQueueSubjects

theorem idQuiet_active_handle (deviceType : String) (t : Transition)
    (h : t.writesIdentity = false) : Act.Inv IdQuiet (ActiveStateHandler.Handle deviceType t) := by
  cases t with
  | OnFirstSetup serialNumber orchestratorAddrs => cases h
  | OnMigrateFromOldVersion serialNumber orchestratorAddr => cases h
  | _ =>
    unfold ActiveStateHandler.Handle
    simp only
    repeat' first
      | intro _
      | exact inv_pure _
      | exact inv_fail _
      | exact inv_getWorld
      | exact idQuiet_checkSchemes _
      | exact idQuiet_subscribeLoop _
      | exact idQuiet_unsubscribeLoop _
      | exact idQuiet_buildConn
      | (apply idQuiet_updateConfigWithTx; first | exact ⟨rfl, rfl⟩ | assumption)
      | apply inv_bind
      | apply inv_wrapErr
      | apply inv_attempt
      | apply inv_ite
      | (apply inv_callOf; intro s err; exact idQuiet_world s _ rfl)
      | (apply inv_noteOf; intro s err; exact idQuiet_world s _ rfl)
      | (apply inv_modifyWorld; intro s; exact idQuiet_world s _ rfl)
      | (apply inv_pushUndo; intro s; exact idQuiet_push s _ rfl)
      | (apply inv_nilDeref; intro s; exact idQuiet_world s _ rfl)
      | split
      | unfold checkHubTunnels
      | unfold UpdateConfigStateHandler.checkHubTunnels
      | unfold MaintenanceStateHandler.installUpdateManager
      | unfold ActiveStateHandler.waitDeviceInit
      | unfold ActiveStateHandler.subscribeQueueSubjects
      | unfold InitStateHandler.subscribeQueueSubjects
      | unfold ActiveStateHandler.unsubscribeQueueSubjects
      | unfold InitStateHandler.unsubscribeQueueSubjects

theorem idQuiet_updateConfig_handle (deviceType : String) (t : Transition)
    (h : t.writesIdentity = false) :
    Act.Inv IdQuiet (UpdateConfigStateHandler.Handle deviceType t) := by
  cases t with
  | OnUpdateConfig cfg =>
    have hc : cfg.App = none ∧ cfg.AppState = none := by
      simpa [Transition.writesIdentity, Transition.isBare] using h
    unfold UpdateConfigStateHandler.Handle UpdateConfigStateHandler.updateConfig
    simp only
    repeat' first
      | intro _
      | exact inv_pure _
      | exact inv_fail _
      | exact inv_getWorld
      | exact idQuiet_checkSchemes _
      | exact idQuiet_subscribeLoop _
      | exact idQuiet_unsubscribeLoop _
      | exact idQuiet_buildConn
      | (apply idQuiet_updateConfigWithTx; first | exact ⟨rfl, rfl⟩ | assumption)
      | apply inv_bind
      | apply inv_wrapErr
      | apply inv_attempt
      | apply inv_ite
      | (apply inv_callOf; intro s err; exact idQuiet_world s _ rfl)
      | (apply inv_noteOf; intro s err; exact idQuiet_world s _ rfl)
      | (apply inv_modifyWorld; intro s; exact idQuiet_world s _ rfl)
      | (apply inv_pushUndo; intro s; exact idQuiet_push s _ rfl)
      | (apply inv_nilDeref; intro s; exact idQuiet_world s _ rfl)
      | split
      | unfold checkHubTunnels
      | unfold UpdateConfigStateHandler.checkHubTunnels
      | unfold MaintenanceStateHandler.installUpdateManager
      | unfold ActiveStateHandler.waitDeviceInit
      | unfold ActiveStateHandler.subscribeQueueSubjects
      | unfold InitStateHandler.subscribeQueueSubjects
      | unfold ActiveStateHandler.unsubscribeQueueSubjects
      | unfold InitStateHandler.unsubscribeQueueSubjects
  | _ =>
    unfold UpdateConfigStateHandler.Handle
    simp only
    repeat' first
      | intro _
      | exact inv_pure _
      | exact inv_fail _
      | exact inv_getWorld
      | exact idQuiet_checkSchemes _
      | exact idQuiet_subscribeLoop _
      | exact idQuiet_unsubscribeLoop _
      | exact idQuiet_buildConn
      | (apply idQuiet_updateConfigWithTx; first | exact ⟨rfl, rfl⟩ | assumption)
      | apply inv_bind
      | apply inv_wrapErr
      | apply inv_attempt
      | apply inv_ite
      | (apply inv_callOf; intro s err; exact idQuiet_world s _ rfl)
      | (apply inv_noteOf; intro s err; exact idQuiet_world s _ rfl)
      | (apply inv_modifyWorld; intro s; exact idQuiet_world s _ rfl)
      | (apply inv_pushUndo; intro s; exact idQuiet_push s _ rfl)
      | (apply inv_nilDeref; intro s; exact idQuiet_world s _ rfl)
      | split
      | unfold checkHubTunnels
      | unfold UpdateConfigStateHandler.checkHubTunnels
      | unfold MaintenanceStateHandler.installUpdateManager
      | unfold ActiveStateHandler.waitDeviceInit
      | unfold ActiveStateHandler.subscribeQueueSubjects
      | unfold InitStateHandler.subscribeQueueSubjects
      | unfold ActiveStateHandler.unsubscribeQueueSubjects
      | unfold InitStateHandler.unsubscribeQueueSubjects

theorem idQuiet_ztpSetup_handle (t : Transition) (h : t.writesIdentity = false) :
    Act.Inv IdQuiet (ZTPSetupHandler.Handle t) := by
  cases t with
  | OnZTPSetupConfig cfg =>
    have hc : cfg.App = none ∧ cfg.AppState = none := by
      simpa [Transition.writesIdentity, Transition.isBare] using h
    unfold ZTPSetupHandler.Handle ZTPSetupHandler.setupZTPConfig
    simp only
    repeat' first
      | intro _
      | exact inv_pure _
      | exact inv_fail _
      | exact inv_getWorld
      | exact idQuiet_checkSchemes _
      | exact idQuiet_subscribeLoop _
      | exact idQuiet_unsubscribeLoop _
      | exact idQuiet_buildConn
      | (apply idQuiet_updateConfigWithTx; first | exact ⟨rfl, rfl⟩ | assumption)
      | apply inv_bind
      | apply inv_wrapErr
      | apply inv_attempt
      | apply inv_ite
      | (apply inv_callOf; intro s err; exact idQuiet_world s _ rfl)
      | (apply inv_noteOf; intro s err; exact idQuiet_world s _ rfl)
      | (apply inv_modifyWorld; intro s; exact idQuiet_world s _ rfl)
      | (apply inv_pushUndo; intro s; exact idQuiet_push s _ rfl)
      | (apply inv_nilDeref; intro s; exact idQuiet_world s _ rfl)
      | split
      | unfold checkHubTunnels
      | unfold UpdateConfigStateHandler.checkHubTunnels
      | unfold MaintenanceStateHandler.installUpdateManager
      | unfold ActiveStateHandler.waitDeviceInit
      | unfold ActiveStateHandler.subscribeQueueSubjects
      | unfold InitStateHandler.subscribeQueueSubjects
      | unfold ActiveStateHandler.unsubscribeQueueSubjects
      | unfold InitStateHandler.unsubscribeQueueSubjects
  | _ =>
    unfold ZTPSetupHandler.Handle
    simp only
    repeat' first
      | intro _
      | exact inv_pure _
      | exact inv_fail _
      | exact inv_getWorld
      | exact idQuiet_checkSchemes _
      | exact idQuiet_subscribeLoop _
      | exact idQuiet_unsubscribeLoop _
      | exact idQuiet_buildConn
      | (apply idQuiet_updateConfigWithTx; first | exact ⟨rfl, rfl⟩ | assumption)
      | apply inv_bind
      | apply inv_wrapErr
      | apply inv_attempt
      | apply inv_ite
      | (apply inv_callOf; intro s err; exact idQuiet_world s _ rfl)
      | (apply inv_noteOf; intro s err; exact idQuiet_world s _ rfl)
      | (apply inv_modifyWorld; intro s; exact idQuiet_world s _ rfl)
      | (apply inv_pushUndo; intro s; exact idQuiet_push s _ rfl)
      | (apply inv_nilDeref; intro s; exact idQuiet_world s _ rfl)
      | split
      | unfold checkHubTunnels
      | unfold UpdateConfigStateHandler.checkHubTunnels
      | unfold MaintenanceStateHandler.installUpdateManager
      | unfold ActiveStateHandler.waitDeviceInit
      | unfold ActiveStateHandler.subscribeQueueSubjects
      | unfold InitStateHandler.subscribeQueueSubjects
      | unfold ActiveStateHandler.unsubscribeQueueSubjects
      | unfold InitStateHandler.unsubscribeQueueSubjects

theorem idQuiet_reset_handle (deviceType : String) (t : Transition)
    (h : t.writesIdentity = false) : Act.Inv IdQuiet (ResetStateHandler.Handle deviceType t) := by
  cases t with
  | OnReset => cases h
  | _ =>
    unfold ResetStateHandler.Handle
    simp only
    repeat' first
      | intro _
      | exact inv_pure _
      | exact inv_fail _
      | exact inv_getWorld
      | exact idQuiet_checkSchemes _
      | exact idQuiet_subscribeLoop _
      | exact idQuiet_unsubscribeLoop _
      | exact idQuiet_buildConn
      | (apply idQuiet_updateConfigWithTx; first | exact ⟨rfl, rfl⟩ | assumption)
      | apply inv_bind
      | apply inv_wrapErr
      | apply inv_attempt
      | apply inv_ite
      | (apply inv_callOf; intro s err; exact idQuiet_world s _ rfl)
      | (apply inv_noteOf; intro s err; exact idQuiet_world s _ rfl)
      | (apply inv_modifyWorld; intro s; exact idQuiet_world s _ rfl)
      | (apply inv_pushUndo; intro s; exact idQuiet_push s _ rfl)
      | (apply inv_nilDeref; intro s; exact idQuiet_world s _ rfl)
      | split
      | unfold checkHubTunnels
      | unfold UpdateConfigStateHandler.checkHubTunnels
      | unfold MaintenanceStateHandler.installUpdateManager
      | unfold ActiveStateHandler.waitDeviceInit
      | unfold ActiveStateHandler.subscribeQueueSubjects
      | unfold InitStateHandler.subscribeQueueSubjects
      | unfold ActiveStateHandler.unsubscribeQueueSubjects
      | unfold InitStateHandler.unsubscribeQueueSubjects

theorem idRestores_checkSchemes (addrs : List String) :
    Act.Inv IdRestores (ActiveStateHandler.checkSchemes addrs) :=
  inv_weaken (fun _ _ h => idRestores_of_quiet h) (idQuiet_checkSchemes addrs)

theorem idRestores_subscribeLoop (l : List String) : Act.Inv IdRestores (subscribeLoop l) :=
  inv_weaken (fun _ _ h => idRestores_of_quiet h) (idQuiet_subscribeLoop l)

theorem idRestores_unsubscribeLoop (l : List String) :
    Act.Inv IdRestores (unsubscribeLoop l) :=
  inv_weaken (fun _ _ h => idRestores_of_quiet h) (idQuiet_unsubscribeLoop l)

theorem idRestores_buildConn : Act.Inv IdRestores BuildConn :=
  inv_weaken (fun _ _ h => idRestores_of_quiet h) idQuiet_buildConn

set_option maxHeartbeats 1600000 in
theorem idRestores_active_handle (deviceType : String) (t : Transition) :
    Act.Inv IdRestores (ActiveStateHandler.Handle deviceType t) := by
  unfold ActiveStateHandler.Handle
  repeat' first
    | intro _
    | exact inv_pure _
    | exact inv_fail _
    | exact inv_getWorld
    | exact idRestores_checkSchemes _
    | exact idRestores_subscribeLoop _
    | exact idRestores_unsubscribeLoop _
    | exact idRestores_buildConn
    | exact idRestores_updateConfigWithTx _ _
    | apply inv_bind
    | apply inv_wrapErr
    | apply inv_attempt
    | apply inv_ite
    | (apply inv_callOf; intro s err; exact idRestores_world s _ rfl)
    | (apply inv_noteOf; intro s err; exact idRestores_world s _ rfl)
    | (apply inv_modifyWorld; intro s; exact idRestores_world s _ rfl)
    | (apply inv_pushUndo; intro s; exact idRestores_push s _ rfl)
    | (apply inv_nilDeref; intro s; exact idRestores_world s _ rfl)
    | split
    | unfold checkHubTunnels
    | unfold UpdateConfigStateHandler.checkHubTunnels
    | unfold MaintenanceStateHandler.installUpdateManager
    | unfold ActiveStateHandler.waitDeviceInit
    | unfold ActiveStateHandler.subscribeQueueSubjects
    | unfold InitStateHandler.subscribeQueueSubjects
    | unfold ActiveStateHandler.unsubscribeQueueSubjects
    | unfold InitStateHandler.unsubscribeQueueSubjects

theorem idRestores_updateConfig_handle (deviceType : String) (t : Transition) :
    Act.Inv IdRestores (UpdateConfigStateHandler.Handle deviceType t) := by
  unfold UpdateConfigStateHandler.Handle
  repeat' first
    | intro _
    | exact inv_pure _
    | exact inv_fail _
    | exact inv_getWorld
    | exact idRestores_checkSchemes _
    | exact idRestores_subscribeLoop _
    | exact idRestores_unsubscribeLoop _
    | exact idRestores_buildConn
    | exact idRestores_updateConfigWithTx _ _
    | apply inv_bind
    | apply inv_wrapErr
    | apply inv_attempt
    | apply inv_ite
    | (apply inv_callOf; intro s err; exact idRestores_world s _ rfl)
    | (apply inv_noteOf; intro s err; exact idRestores_world s _ rfl)
    | (apply inv_modifyWorld; intro s; exact idRestores_world s _ rfl)
    | (apply inv_pushUndo; intro s; exact idRestores_push s _ rfl)
    | (apply inv_nilDeref; intro s; exact idRestores_world s _ rfl)
    | split
    | unfold checkHubTunnels
    | unfold UpdateConfigStateHandler.checkHubTunnels
    | unfold MaintenanceStateHandler.installUpdateManager
    | unfold ActiveStateHandler.waitDeviceInit
    | unfold ActiveStateHandler.subscribeQueueSubjects
    | unfold InitStateHandler.subscribeQueueSubjects
    | unfold ActiveStateHandler.unsubscribeQueueSubjects
    | unfold InitStateHandler.unsubscribeQueueSubjects

theorem idRestores_ztpSetup_handle (t : Transition) :
    Act.Inv IdRestores (ZTPSetupHandler.Handle t) := by
  unfold ZTPSetupHandler.Handle
  repeat' first
    | intro _
    | exact inv_pure _
    | exact inv_fail _
    | exact inv_getWorld
    | exact idRestores_checkSchemes _
    | exact idRestores_subscribeLoop _
    | exact idRestores_unsubscribeLoop _
    | exact idRestores_buildConn
    | exact idRestores_updateConfigWithTx _ _
    | apply inv_bind
    | apply inv_wrapErr
    | apply inv_attempt
    | apply inv_ite
    | (apply inv_callOf; intro s err; exact idRestores_world s _ rfl)
    | (apply inv_noteOf; intro s err; exact idRestores_world s _ rfl)
    | (apply inv_modifyWorld; intro s; exact idRestores_world s _ rfl)
    | (apply inv_pushUndo; intro s; exact idRestores_push s _ rfl)
    | (apply inv_nilDeref; intro s; exact idRestores_world s _ rfl)
    | split
    | unfold checkHubTunnels
    | unfold UpdateConfigStateHandler.checkHubTunnels
    | unfold MaintenanceStateHandler.installUpdateManager
    | unfold ActiveStateHandler.waitDeviceInit
    | unfold ActiveStateHandler.subscribeQueueSubjects
    | unfold InitStateHandler.subscribeQueueSubjects
    | unfold ActiveStateHandler.unsubscribeQueueSubjects
    | unfold InitStateHandler.unsubscribeQueueSubjects

theorem idRestores_reset_handle (deviceType : String) (t : Transition) :
    Act.Inv IdRestores (ResetStateHandler.Handle deviceType t) := by
  unfold ResetStateHandler.Handle
  repeat' first
    | intro _
    | exact inv_pure _
    | exact inv_fail _
    | exact inv_getWorld
    | exact idRestores_checkSchemes _
    | exact idRestores_subscribeLoop _
    | exact idRestores_unsubscribeLoop _
    | exact idRestores_buildConn
    | exact idRestores_updateConfigWithTx _ _
    | apply inv_bind
    | apply inv_wrapErr
    | apply inv_attempt
    | apply inv_ite
    | (apply inv_callOf; intro s err; exact idRestores_world s _ rfl)
    | (apply inv_noteOf; intro s err; exact idRestores_world s _ rfl)
    | (apply inv_modifyWorld; intro s; exact idRestores_world s _ rfl)
    | (apply inv_pushUndo; intro s; exact idRestores_push s _ rfl)
    | (apply inv_nilDeref; intro s; exact idRestores_world s _ rfl)
    | split
    | unfold checkHubTunnels
    | unfold UpdateConfigStateHandler.checkHubTunnels
    | unfold MaintenanceStateHandler.installUpdateManager
    | unfold ActiveStateHandler.waitDeviceInit
    | unfold ActiveStateHandler.subscribeQueueSubjects
    | unfold InitStateHandler.subscribeQueueSubjects
    | unfold ActiveStateHandler.unsubscribeQueueSubjects
    | unfold InitStateHandler.unsubscribeQueueSubjects

theorem safeKept_reset_handle (deviceType : String) (t : Transition) :
    Act.Inv SafeKept (ResetStateHandler.Handle deviceType t) := by
  unfold ResetStateHandler.Handle
  repeat' first
    | intro _
    | exact inv_pure _
    | exact inv_fail _
    | exact inv_getWorld
    | (apply safeKept_updateConfigWithTx; first | (left; exact ⟨rfl, rfl⟩) | (right; exact ⟨_, _, rfl, rfl, rfl, by unfold setUp; decide⟩))
    | apply inv_bind
    | apply inv_wrapErr
    | apply inv_attempt
    | apply inv_ite
    | (apply inv_callOf; intro s err; exact safeKept_world s _ rfl)
    | (apply inv_noteOf; intro s err; exact safeKept_world s _ rfl)
    | (apply inv_modifyWorld; intro s; exact safeKept_world s _ rfl)
    | (apply inv_pushUndo; intro s; exact safeKept_world s _ rfl)
    | (apply inv_nilDeref; intro s; exact safeKept_world s _ rfl)
    | split
    | unfold checkHubTunnels
    | unfold UpdateConfigStateHandler.checkHubTunnels
    | unfold MaintenanceStateHandler.installUpdateManager
    | unfold ActiveStateHandler.waitDeviceInit
    | unfold ActiveStateHandler.subscribeQueueSubjects
    | unfold InitStateHandler.subscribeQueueSubjects
    | unfold ActiveStateHandler.unsubscribeQueueSubjects
    | unfold InitStateHandler.unsubscribeQueueSubjects

end Handlers

namespace Handlers

open Appstate (AppState AppStateBoot AppStateInit AppStateActive AppStateUpdateConfig
  AppStateMaintenance AppStateZTPSetup AppStateReset)

theorem identified_of_app (cfg : Config) (app : AppSection) (h : cfg.App = some app)
    (hs : app.SerialNumber ≠ "") (ha : app.OrchestratorAddrs ≠ []) :
    Identified (identityOf cfg) :=
  ⟨app.SerialNumber, app.OrchestratorAddrs, by simp [identityOf, h], hs, ha⟩

theorem app_of_identified (cfg : Config) (h : Identified (identityOf cfg)) :
    ∃ app, cfg.App = some app ∧ app.SerialNumber ≠ "" ∧ app.OrchestratorAddrs ≠ [] := by
  obtain ⟨serial, addrs, h1, h2, h3⟩ := h
  cases happ : cfg.App with
  | none => simp [identityOf, happ] at h1
  | some app =>
    simp only [identityOf, happ, Option.map_some', Option.some.injEq, Prod.mk.injEq] at h1
    obtain ⟨h4, h5⟩ := h1
    exact ⟨app, rfl, by rw [h4]; exact h2, by rw [h5]; exact h3⟩

theorem defineNewAddrs_ne_nil (newAddrs oldAddrs : List String) (h : oldAddrs ≠ []) :
    defineNewAddrs newAddrs oldAddrs ≠ [] := by
  unfold defineNewAddrs
  split
  · exact h
  · rename_i hl
    intro hn
    exact hl (by rw [hn]; rfl)

/-- An `InitDevice` request is served only over a connection, which is built only for a
stored serial number and address list that are not empty; `InitDevice` keeps the serial
number and stores a non-empty address list. -/
theorem waitDeviceInit_identified (deviceType : String) (waitInitChan : InitChan)
    (s s1 : HState)
    (h : ActiveStateHandler.waitDeviceInit deviceType waitInitChan s = (.ok none, s1)) :
    Identified (identityOf s1.world.store) := by
  unfold ActiveStateHandler.waitDeviceInit at h
  cases waitInitChan with
  | holding err => cases h
  | waiting chan =>
    simp only at h
    obtain ⟨w, s2, h2, h⟩ := Act.bind_eq_ok h
    cases h2
    cases hreq : s.world.initRequest with
    | none =>
      rw [hreq] at h
      cases h
    | some initConfig =>
      rw [hreq] at h
      simp only at h
      obtain ⟨r, s3, h3, h⟩ := Act.bind_eq_ok h
      cases r with
      | some e => cases h
      | none =>
        simp only at h
        obtain ⟨_, h4⟩ := Act.attempt_eq_none h3
        obtain ⟨hid, hsame⟩ := buildConn_ok s s3 h4
        rw [← identityOf_of_record hsame] at hid
        obtain ⟨app0, happ, hs, ha⟩ := app_of_identified _ hid
        have hres := initDevice_app deviceType initConfig s3 s1 app0 happ h
        exact identified_of_app _ _ hres hs (defineNewAddrs_ne_nil _ _ ha)

end Handlers

namespace Handlers

open Appstate (AppState AppStateBoot AppStateInit AppStateActive AppStateUpdateConfig
  AppStateMaintenance AppStateZTPSetup AppStateReset)

/-- A `runFirstSetup` that returns nil leaves a serial number and an address list that are
not empty, whatever its payload. -/
theorem runFirstSetup_identified (deviceType serialNumber : String)
    (orchestratorAddrs : List String) (s s1 : HState)
    (h : ActiveStateHandler.runFirstSetup deviceType serialNumber orchestratorAddrs s =
      (.ok (), s1)) :
    Identified (identityOf s1.world.store) := by
  unfold ActiveStateHandler.runFirstSetup at h
  obtain ⟨cfg, s2, h2, h⟩ := Act.bind_eq_ok h
  split at h
  · cases h
  obtain ⟨_, s3, h3, h⟩ := Act.bind_eq_ok h
  obtain ⟨_, s4, h4, h⟩ := Act.bind_eq_ok h
  obtain ⟨_, s5, h5, h⟩ := Act.bind_eq_ok h
  obtain ⟨_, s6, h6, h⟩ := Act.bind_eq_ok h
  obtain ⟨w, s7, h7, h⟩ := Act.bind_eq_ok h
  obtain ⟨waitInitChan, s8, h8, h⟩ := Act.bind_eq_ok h
  obtain ⟨_, s9, h9, h⟩ := Act.bind_eq_ok h
  obtain ⟨r, s10, h10, h⟩ := Act.bind_eq_ok h
  cases r with
  | some err => cases h
  | none =>
    simp only at h
    have hid := waitDeviceInit_identified deviceType waitInitChan s9 s10 h10
    have k : IdQuiet s10 s1 := by
      refine inv_of_eq ?_ h
      unfold ActiveStateHandler.subscribeQueueSubjects TryStopServiceWithTx goRoutine
      repeat' first
        | intro _
        | exact inv_pure _
        | exact inv_fail _
        | exact idQuiet_subscribeLoop _
        | apply inv_bind
        | apply inv_wrapErr
        | apply inv_ite
        | (apply inv_callOf; intro s err; exact idQuiet_world s _ rfl)
        | (apply inv_noteOf; intro s err; exact idQuiet_world s _ rfl)
        | (apply inv_pushUndo; intro s; exact idQuiet_push s _ rfl)
        | split
    rw [identityOf_of_record k.1]
    exact hid

/-- A migration that returns nil leaves the serial number of its payload and a one-element
address list. -/
theorem migrateFromOldVersion_identified (serialNumber orchestratorAddr : String)
    (s s1 : HState) (hs : serialNumber ≠ "")
    (h : ActiveStateHandler.migrateFromOldVersion serialNumber orchestratorAddr s =
      (.ok (), s1)) :
    Identified (identityOf s1.world.store) := by
  obtain ⟨app0, _, h2⟩ := migrateFromOldVersion_app serialNumber orchestratorAddr s s1 h
  exact identified_of_app _ _ h2 hs (by simp)

/-- When `Handle` of active returns nil for a transition that makes a handler write the App
section, a serial number and an address list that are not empty are stored. -/
theorem active_handle_identified (deviceType : String) (t : Transition) (s s1 : HState)
    (r : Appstate.StateHandleResult Transition)
    (h : ActiveStateHandler.Handle deviceType t s = (.ok r, s1))
    (ht : t.writesIdentity = true)
    (hm : ∀ sn a, t = .OnMigrateFromOldVersion sn a → sn ≠ "") :
    Identified (identityOf s1.world.store) := by
  cases t with
  | OnFirstSetup serialNumber orchestratorAddrs =>
    unfold ActiveStateHandler.Handle at h
    simp only at h
    obtain ⟨_, s2, h2, h⟩ := Act.bind_eq_ok h
    cases h
    exact runFirstSetup_identified _ _ _ s s1 (Act.wrapErr_eq_ok h2)
  | OnMigrateFromOldVersion serialNumber orchestratorAddr =>
    unfold ActiveStateHandler.Handle at h
    simp only at h
    obtain ⟨_, s2, h2, h⟩ := Act.bind_eq_ok h
    cases h
    exact migrateFromOldVersion_identified _ _ s s1 (hm _ _ rfl) (Act.wrapErr_eq_ok h2)
  | OnReset => cases h
  | OnUpdateConfig cfg => cases h
  | OnZTPSetupConfig cfg => cases h
  | _ => cases ht

/-- The follow-up of the reset handler after boot: `OnFallback`, to active, is returned only
when a serial number is stored. -/
theorem reset_afterBoot_followUp (deviceType : String) (toState : AppState) (s s1 : HState)
    (r : Appstate.StateHandleResult Transition)
    (h : ResetStateHandler.Handle deviceType (.OnAfterBoot toState) s = (.ok r, s1)) :
    r.Transition = some .OnInitFallback ∨
      (r.Transition = some .OnFallback ∧
        ∃ app, s.world.store.App = some app ∧ app.SerialNumber ≠ "") := by
  unfold ResetStateHandler.Handle at h
  simp only at h
  obtain ⟨wasInit, s2, h2, h⟩ := Act.bind_eq_ok h
  have h2b := Act.wrapErr_eq_ok h2
  unfold ResetStateHandler.wasInitState at h2b
  obtain ⟨cfg, s3, h3, h2b⟩ := Act.bind_eq_ok h2b
  have h3b := Act.wrapErr_eq_ok h3
  rw [getConfig_eq] at h3b
  have hcfg : cfg = s.world.store := by
    split at h3b
    · cases h3b
      rfl
    · cases h3b
  subst hcfg
  cases happ : s.world.store.App with
  | none =>
    rw [happ] at h2b
    cases h2b
  | some app =>
    rw [happ] at h2b
    cases h2b
    by_cases hser : app.SerialNumber = ""
    · left
      simp only [hser, decide_True, if_true] at h
      cases h
      rfl
    · right
      simp only [hser, decide_False, Bool.false_eq_true, if_false] at h
      cases h
      exact ⟨rfl, app, rfl, hser⟩

/-- The follow-up of the init handler carries the device id of the environment, which
`checkMigrateFromOldVersion` has found not to be empty. -/
theorem init_followUp_serial (agentEnv : Agent) (t : Transition) (s s1 : HState)
    (r : Appstate.StateHandleResult Transition)
    (h : InitStateHandler.Handle agentEnv t s = (.ok r, s1)) (sn a : String)
    (hn : r.Transition = some (.OnMigrateFromOldVersion sn a)) : sn ≠ "" := by
  obtain ⟨_, toState, ht⟩ := (ret_init_handle agentEnv t).run s r (by rw [h]) _ hn
  subst ht
  unfold InitStateHandler.Handle at h
  simp only at h
  by_cases hc : InitStateHandler.checkMigrateFromOldVersion agentEnv = true
  · rw [if_pos hc] at h
    cases h
    simp only [Option.some.injEq, Transition.OnMigrateFromOldVersion.injEq] at hn
    obtain ⟨h1, _⟩ := hn
    rw [← h1]
    intro he
    simp [InitStateHandler.checkMigrateFromOldVersion, he] at hc
  · rw [if_neg hc] at h
    obtain ⟨_, s2, _, h⟩ := Act.bind_eq_ok h
    cases h
    cases hn

end Handlers

namespace Handlers

open Appstate (AppState AppStateBoot AppStateInit AppStateActive AppStateUpdateConfig
  AppStateMaintenance AppStateZTPSetup AppStateReset)

theorem markSpares_of_quiet {s s1 : HState} (h : IdQuiet s s1) : MarkSpares s s1 := by
  obtain ⟨_, entries, h2, h3⟩ := h
  refine ⟨entries, h2, ?_⟩
  intro pre id post hsplit u hu
  exact h3 u (by rw [hsplit]; simp [hu])

theorem markSpares_of_unmarked {s s1 : HState} (h : Unmarked s s1) : MarkSpares s s1 := by
  obtain ⟨entries, h2, h3⟩ := h
  refine ⟨entries, h2, ?_⟩
  intro pre id post hsplit
  exact absurd rfl (h3 (.checkpoint id) (by rw [hsplit]; simp) id)

theorem markSpares_bind_unmarked {α β : Type} {x : Act α} {f : α → Act β}
    (hx : Act.Inv Unmarked x) (hf : ∀ a, Act.Inv MarkSpares (f a)) :
    Act.Inv MarkSpares (x >>= f) := by
  constructor
  intro s
  have h1 := hx.run s
  simp only [Act.bind_apply]
  cases hxs : x s with
  | mk r s1 =>
    rw [hxs] at h1
    cases r with
    | error e => exact markSpares_of_unmarked h1
    | ok a =>
      obtain ⟨e1, ha, hb⟩ := h1
      obtain ⟨e2, hc, hd⟩ := (hf a).run s1
      refine ⟨e1 ++ e2, by rw [hc, ha, List.append_assoc], ?_⟩
      intro pre id post hsplit u hu
      rcases List.append_eq_append_iff.mp hsplit with ⟨a1, _, h6⟩ | ⟨c, h5, h6⟩
      · exact hd a1 id post h6 u hu
      · cases c with
        | nil =>
          simp only [List.nil_append] at h6
          exact hd [] id post h6.symm u hu
        | cons y c1 =>
          simp only [List.cons_append, List.cons.injEq] at h6
          exact absurd h6.1.symm (hb y (by rw [h5]; simp) id)

theorem markSpares_bind_quiet {α β : Type} {x : Act α} {f : α → Act β}
    (hx : Act.Inv MarkSpares x) (hf : ∀ a, Act.Inv IdQuiet (f a)) :
    Act.Inv MarkSpares (x >>= f) := by
  constructor
  intro s
  have h1 := hx.run s
  simp only [Act.bind_apply]
  cases hxs : x s with
  | mk r s1 =>
    rw [hxs] at h1
    cases r with
    | error e => exact h1
    | ok a =>
      obtain ⟨e1, ha, hb⟩ := h1
      obtain ⟨_, e2, hc, hd⟩ := (hf a).run s1
      refine ⟨e1 ++ e2, by rw [hc, ha, List.append_assoc], ?_⟩
      intro pre id post hsplit u hu
      rcases List.append_eq_append_iff.mp hsplit with ⟨a1, _, h6⟩ | ⟨c, h5, h6⟩
      · exact hd u (by rw [h6]; simp [hu])
      · cases c with
        | nil =>
          simp only [List.nil_append] at h6
          exact hd u (by rw [← h6]; simp [hu])
        | cons y c1 =>
          simp only [List.cons_append, List.cons.injEq] at h6
          obtain ⟨hy, hpost⟩ := h6
          subst hy
          rw [hpost] at hu
          rcases List.mem_append.mp hu with h | h
          · exact hb pre id c1 h5 u h
          · exact hd u h

/-- In `reset` every write to the store comes before the checkpoint. -/
theorem markSpares_reset : Act.Inv MarkSpares ResetStateHandler.reset := by
  unfold ResetStateHandler.reset
  iterate 8
    refine markSpares_bind_unmarked ?_ (fun _ => ?_)
    · repeat' first
      | intro _
      | exact inv_pure _
      | exact inv_fail _
      | exact inv_getWorld
      | apply inv_bind
      | apply inv_wrapErr
      | apply inv_attempt
      | apply inv_ite
      | (apply inv_callOf; intro s err; exact unmarked_world s _)
      | (apply inv_noteOf; intro s err; exact unmarked_world s _)
      | (apply inv_modifyWorld; intro s; exact unmarked_world s _)
      | (apply inv_pushUndo; intro s; exact unmarked_push s _ (by intro id h; cases h))
      | (apply inv_nilDeref; intro s; exact unmarked_world s _)
      | split
  refine inv_weaken (fun _ _ h => markSpares_of_quiet h) ?_
  repeat' first
      | intro _
      | exact inv_pure _
      | exact inv_fail _
      | exact inv_getWorld
      | apply inv_bind
      | apply inv_wrapErr
      | apply inv_attempt
      | apply inv_ite
      | (apply inv_callOf; intro s err; exact idQuiet_world s _ rfl)
      | (apply inv_noteOf; intro s err; exact idQuiet_world s _ rfl)
      | (apply inv_modifyWorld; intro s; exact idQuiet_world s _ rfl)
      | (apply inv_pushUndo; intro s; exact idQuiet_push s _ rfl)
      | (apply inv_nilDeref; intro s; exact idQuiet_world s _ rfl)
      | split

theorem unmarked_resetHub : Act.Inv Unmarked ResetStateHandler.resetHub := by
  unfold ResetStateHandler.resetHub
  repeat' first
      | intro _
      | exact inv_pure _
      | exact inv_fail _
      | exact inv_getWorld
      | apply inv_bind
      | apply inv_wrapErr
      | apply inv_attempt
      | apply inv_ite
      | (apply inv_callOf; intro s err; exact unmarked_world s _)
      | (apply inv_noteOf; intro s err; exact unmarked_world s _)
      | (apply inv_modifyWorld; intro s; exact unmarked_world s _)
      | (apply inv_pushUndo; intro s; exact unmarked_push s _ (by intro id h; cases h))
      | (apply inv_nilDeref; intro s; exact unmarked_world s _)
      | split

theorem idQuiet_reset_other (deviceType : String) (t : Transition) (h : t ≠ .OnReset) :
    Act.Inv IdQuiet (ResetStateHandler.Handle deviceType t) := by
  cases t with
  | OnReset => exact absurd rfl h
  | _ =>
    unfold ResetStateHandler.Handle
    simp only
    repeat' first
      | intro _
      | exact inv_pure _
      | exact inv_fail _
      | exact inv_getWorld
      | apply inv_bind
      | apply inv_wrapErr
      | apply inv_attempt
      | apply inv_ite
      | (apply inv_callOf; intro s err; exact idQuiet_world s _ rfl)
      | (apply inv_noteOf; intro s err; exact idQuiet_world s _ rfl)
      | (apply inv_modifyWorld; intro s; exact idQuiet_world s _ rfl)
      | (apply inv_pushUndo; intro s; exact idQuiet_push s _ rfl)
      | (apply inv_nilDeref; intro s; exact idQuiet_world s _ rfl)
      | split

theorem markSpares_reset_handle (deviceType : String) (t : Transition) :
    Act.Inv MarkSpares (ResetStateHandler.Handle deviceType t) := by
  cases t with
  | OnReset =>
    unfold ResetStateHandler.Handle
    simp only
    split
    · refine markSpares_bind_quiet (inv_wrapErr _
        (inv_weaken (fun _ _ h => markSpares_of_unmarked h) unmarked_resetHub))
        (fun _ => inv_pure _)
    · exact markSpares_bind_quiet (inv_wrapErr _ markSpares_reset) (fun _ => inv_pure _)
  | _ =>
    exact inv_weaken (fun _ _ h => markSpares_of_quiet h)
      (idQuiet_reset_other deviceType _ (by intro h; cases h))

theorem ret_reset_fallback (deviceType : String) (t : Transition) :
    Act.Ret (ResetStateHandler.Handle deviceType t) (fun r =>
      r.Transition = some .OnFallback → ∃ toState, t = .OnAfterBoot toState) := by
  unfold ResetStateHandler.Handle
  cases t
  all_goals simp only
  all_goals repeat' first
    | intro _
    | exact ret_fail _
    | (apply ret_pure
       intro hnext
       simp at hnext
       done)
    | (apply ret_pure
       intro hnext
       exact ⟨_, rfl⟩)
    | apply ret_bind
    | apply ret_ite

/-- The reset handler returns `OnFallback` only when a serial number is stored. -/
theorem reset_handle_fallback (deviceType : String) (t : Transition) (s s1 : HState)
    (r : Appstate.StateHandleResult Transition)
    (h : ResetStateHandler.Handle deviceType t s = (.ok r, s1))
    (hn : r.Transition = some .OnFallback) : ¬ Blank (identityOf s1.world.store) := by
  obtain ⟨toState, ht⟩ := (ret_reset_fallback deviceType t).run s r (by rw [h]) hn
  subst ht
  have hq : IdQuiet s s1 := inv_of_eq (idQuiet_reset_other deviceType _ (by intro h; cases h)) h
  rcases reset_afterBoot_followUp deviceType toState s s1 r h with h1 | ⟨_, app, happ, hs⟩
  · rw [hn] at h1
    cases h1
  · intro hb
    rw [identityOf_of_record hq.1] at hb
    exact hs (hb app.SerialNumber app.OrchestratorAddrs (by simp [identityOf, happ]))

end Handlers

namespace Handlers

open Appstate (AppState AppStateBoot AppStateInit AppStateActive AppStateUpdateConfig
  AppStateMaintenance AppStateZTPSetup AppStateReset)

theorem foldr_runUndo_entries (entries : List Undo)
    (X : Appstate.Machine World Transition) :
    (((entries.map Undo.toStep).map Appstate.UndoStep.external).foldr
        (fun st acc => Appstate.runUndo st acc) X).activeState = X.activeState ∧
      (((entries.map Undo.toStep).map Appstate.UndoStep.external).foldr
        (fun st acc => Appstate.runUndo st acc) X).world = entries.foldr Undo.run X.world := by
  induction entries with
  | nil => exact ⟨rfl, rfl⟩
  | cons u rest ih =>
    obtain ⟨h1, h2⟩ := ih
    refine ⟨h1, ?_⟩
    show (Undo.toStep u).run
      (((rest.map Undo.toStep).map Appstate.UndoStep.external).foldr
        (fun st acc => Appstate.runUndo st acc) X).world = _
    rw [toStep_run, h2]
    rfl

/-- Undoing what a call appended gives back what the store recorded before the call. -/
theorem effect_restores {α : Type} (x : Act α) (hx : Act.Inv IdRestores x) (w : World)
    (X : Appstate.Machine World Transition)
    (hX : recordOf X.world.store = recordOf (x.toEffect w).world.store) :
    (((x.toEffect w).undo.map Appstate.UndoStep.external).foldr
        (fun st acc => Appstate.runUndo st acc) X).activeState = X.activeState ∧
      recordOf (((x.toEffect w).undo.map Appstate.UndoStep.external).foldr
        (fun st acc => Appstate.runUndo st acc) X).world.store = recordOf w.store := by
  obtain ⟨entries, he, hb⟩ := hx.run { world := w, undo := [] }
  simp only [List.nil_append] at he
  rw [toEffect_undo, he]
  obtain ⟨h1, h2⟩ := foldr_runUndo_entries entries X
  refine ⟨h1, ?_⟩
  rw [h2]
  exact hb X.world (by rw [hX, toEffect_world])

theorem effect_sparing {α : Type} (x : Act α) (hx : Act.Inv IdQuiet x) (w : World) :
    recordOf (x.toEffect w).world.store = recordOf w.store ∧
      ∀ st ∈ (x.toEffect w).undo.map Appstate.UndoStep.external,
        ∃ u : Undo, st = Appstate.UndoStep.external (Undo.toStep u) ∧
          u.sparesIdentity = true := by
  obtain ⟨h1, entries, he, hs⟩ := hx.run { world := w, undo := [] }
  refine ⟨by rw [toEffect_world]; exact h1, ?_⟩
  intro st hst
  simp only [toEffect_undo, he, List.nil_append, List.mem_map] at hst
  obtain ⟨e, ⟨u, hu, rfl⟩, rfl⟩ := hst
  exact ⟨u, rfl, hs u hu⟩

theorem foldr_sparing (E : List (Appstate.UndoStep World))
    (hE : ∀ st ∈ E, ∃ u : Undo, st = Appstate.UndoStep.external (Undo.toStep u) ∧
      u.sparesIdentity = true)
    (X : Appstate.Machine World Transition) :
    (E.foldr (fun st acc => Appstate.runUndo st acc) X).activeState = X.activeState ∧
      recordOf (E.foldr (fun st acc => Appstate.runUndo st acc) X).world.store =
        recordOf X.world.store := by
  induction E with
  | nil => exact ⟨rfl, rfl⟩
  | cons st rest ih =>
    obtain ⟨u, rfl, hu⟩ := hE st (List.mem_cons_self _ _)
    obtain ⟨h1, h2⟩ := ih (fun v hv => hE v (List.mem_cons_of_mem _ hv))
    refine ⟨h1, ?_⟩
    show recordOf ((Undo.toStep u).run
      (rest.foldr (fun st acc => Appstate.runUndo st acc) X).world).store = _
    rw [toStep_run, run_spares u hu, h2]

theorem effect_markSpares {α : Type} (x : Act α) (hx : Act.Inv MarkSpares x) (w : World)
    (pre : List (Appstate.UndoStep World)) (id : Nat) (post : List (Appstate.UndoStep World))
    (hsplit : (x.toEffect w).undo.map Appstate.UndoStep.external =
      pre ++ Appstate.UndoStep.external (.checkpoint id) :: post) :
    ∀ st ∈ post, ∃ u : Undo, st = Appstate.UndoStep.external (Undo.toStep u) ∧
      u.sparesIdentity = true := by
  obtain ⟨entries, he, hs⟩ := hx.run { world := w, undo := [] }
  simp only [List.nil_append] at he
  rw [toEffect_undo, he, List.map_map] at hsplit
  obtain ⟨l1, l2, hl, _, h2⟩ := List.map_eq_append_iff.mp hsplit
  obtain ⟨u0, l3, hl2, hu0, h3⟩ := List.map_eq_cons_iff.mp h2
  have hcp : u0 = Undo.checkpoint id := by
    simp only [Function.comp_apply, Appstate.UndoStep.external.injEq] at hu0
    exact toStep_checkpoint u0 id hu0
  subst hcp
  subst hl2
  intro st hst
  rw [← h3] at hst
  obtain ⟨u, hu, rfl⟩ := List.mem_map.mp hst
  exact ⟨u, rfl, hs l1 id l3 hl u hu⟩

theorem idSealedAt_nil (live : AppState)
    (r : Option (String × List String) × Option AppState) : IdSealedAt [] live r := by
  intro pre id post h
  cases pre <;> cases h

theorem idBack_nil (r : Option (String × List String) × Option AppState) :
    IdBack [] r r :=
  fun _ h => h

/-- Appending the entries of one call keeps every checkpoint sealed: undoing them gives back
the state before the call, and the entries after a checkpoint of their own spare the
identity, which fits the live state. -/
theorem idSealedAt_append (tx E : List (Appstate.UndoStep World)) (L L1 : AppState)
    (r r1 : Option (String × List String) × Option AppState)
    (hS : IdSealedAt tx L r)
    (hback : ∀ X : Appstate.Machine World Transition, X.activeState = L1 →
      recordOf X.world.store = r1 →
      (E.foldr (fun st acc => Appstate.runUndo st acc) X).activeState = L ∧
        recordOf (E.foldr (fun st acc => Appstate.runUndo st acc) X).world.store = r)
    (hmark : ∀ pre id post, E = pre ++ Appstate.UndoStep.external (.checkpoint id) :: post →
      (StoredFor L1 r1 ∧ L1 ≠ AppStateBoot) ∧ ∀ st ∈ post, ∃ u : Undo,
        st = Appstate.UndoStep.external (Undo.toStep u) ∧ u.sparesIdentity = true) :
    IdSealedAt (tx ++ E) L1 r1 := by
  intro pre id post hsplit X hXl hXr
  have hinner : ∀ (a : List (Appstate.UndoStep World)),
      E = a ++ Appstate.UndoStep.external (.checkpoint id) :: post →
      StoredFor (post.foldr (fun st acc => Appstate.runUndo st acc) X).activeState
        (recordOf (post.foldr (fun st acc => Appstate.runUndo st acc) X).world.store) ∧
      (post.foldr (fun st acc => Appstate.runUndo st acc) X).activeState ≠
        AppStateBoot := by
    intro a hEq
    obtain ⟨hst, hsp⟩ := hmark a id post hEq
    obtain ⟨h1, h2⟩ := foldr_sparing post hsp X
    rw [h1, h2, hXl, hXr]
    exact hst
  rcases List.append_eq_append_iff.mp hsplit with ⟨a, _, hE⟩ | ⟨c, htx, hc⟩
  · exact hinner a hE
  · cases c with
    | nil =>
      simp only [List.nil_append] at hc
      exact hinner [] hc.symm
    | cons x c1 =>
      simp only [List.cons_append, List.cons.injEq] at hc
      obtain ⟨hx, hpost⟩ := hc
      subst hx
      rw [hpost, List.foldr_append]
      obtain ⟨h1, h2⟩ := hback X hXl hXr
      exact hS pre id c1 htx _ h1 h2

theorem idBack_append (tx E : List (Appstate.UndoStep World))
    (r r1 r0 : Option (String × List String) × Option AppState) (hB : IdBack tx r r0)
    (hback : ∀ X : Appstate.Machine World Transition, recordOf X.world.store = r1 →
      recordOf (E.foldr (fun st acc => Appstate.runUndo st acc) X).world.store = r) :
    IdBack (tx ++ E) r1 r0 := by
  intro X hX
  rw [List.foldr_append]
  exact hB _ (hback X hX)

end Handlers

namespace Handlers

open Appstate (AppState AppStateBoot AppStateInit AppStateActive AppStateUpdateConfig
  AppStateMaintenance AppStateZTPSetup AppStateReset)

theorem not_setUp_boot : ¬ setUp AppStateBoot := by
  unfold setUp
  decide

theorem not_setUp_init : ¬ setUp AppStateInit := by
  unfold setUp
  decide

theorem not_setUp_ztpSetup : ¬ setUp AppStateZTPSetup := by
  unfold setUp
  decide

theorem not_setUp_reset : ¬ setUp AppStateReset := by
  unfold setUp
  decide

theorem not_setUp_empty : ¬ setUp "" := by
  unfold setUp
  decide

theorem safe_cases {r : Option (String × List String) × Option AppState} (h : Safe r) :
    Identified r.1 ∨ Blank r.1 :=
  h.imp id And.left

theorem safe_not_blank {r : Option (String × List String) × Option AppState} (h : Safe r)
    (hb : ¬ Blank r.1) : Identified r.1 := by
  rcases h with h | h
  · exact h
  · exact absurd h.1 hb

/-- A store whose recorded state is `id` fits the live state `id` as soon as the identity is
stored when `id` is a state of a device set up. -/
theorem storedFor_of (id : AppState) (r : Option (String × List String) × Option AppState)
    (hr2 : r.2 = some id) (hsafe : Identified r.1 ∨ Blank r.1)
    (hset : setUp id → Identified r.1) : StoredFor id r := by
  refine ⟨?_, hset⟩
  rcases hsafe with h | h
  · exact Or.inl h
  · by_cases hs : setUp id
    · exact Or.inl (hset hs)
    · refine Or.inr ⟨h, ?_⟩
      intro st hst
      rw [hr2] at hst
      cases hst
      exact hs

theorem storedFor_identified (live : AppState)
    (r : Option (String × List String) × Option AppState) (h : Identified r.1) :
    StoredFor live r :=
  ⟨Or.inl h, fun _ => h⟩

theorem ready_of_identity {a b : Config} (t : Transition)
    (h : identityOf b = identityOf a) (hr : Ready a t) : Ready b t := by
  unfold Ready at *
  rw [h]
  exact hr

theorem writes_false (t : Transition) (hb : t.isBare = true)
    (h1 : t.ToState ≠ AppStateActive) (h2 : t.ToState ≠ AppStateReset) :
    t.writesIdentity = false := by
  cases t <;> first
    | exact absurd rfl h1
    | exact absurd rfl h2
    | simpa [Transition.writesIdentity] using hb
    | rfl

theorem effect_eq {α : Type} (x : Act α) (w : World) (a : α)
    (h : (x.toEffect w).ret = .ok a) :
    x { world := w, undo := [] } = (.ok a, (x { world := w, undo := [] }).2) := by
  rw [toEffect_ret] at h
  exact Prod.ext h rfl

/-- What a follow-up needs is there when the handler that returned it has left a store that
fits its state. -/
theorem ready_followUp (emitter : AppState) (next : Transition) (cfg : Config)
    (h : isFollowUpOf emitter next = true) (hstored : StoredFor emitter (recordOf cfg))
    (hinit : emitter = AppStateInit → ∀ serialNumber orchestratorAddr,
      next = .OnMigrateFromOldVersion serialNumber orchestratorAddr → serialNumber ≠ "")
    (hreset : emitter = AppStateReset → next = .OnFallback → ¬ Blank (identityOf cfg)) :
    Ready cfg next := by
  have hU : setUp AppStateUpdateConfig := Or.inr (Or.inl rfl)
  have hM : setUp AppStateMaintenance := Or.inr (Or.inr rfl)
  cases next <;> simp [isFollowUpOf] at h
  case OnMigrateFromOldVersion serialNumber orchestratorAddr =>
    exact ⟨fun _ hw => by simp [Transition.writesIdentity] at hw,
      fun sn a heq => hinit h sn a heq, rfl⟩
  case OnFallback =>
    refine ⟨fun _ _ => ?_, fun _ _ heq => (by cases heq), rfl⟩
    rcases h with h | h
    · subst h
      exact hstored.2 hU
    · exact safe_not_blank hstored.1 (hreset h rfl)
  case OnUpdateConfigFinished =>
    subst h
    exact ⟨fun _ _ => hstored.2 hU, fun _ _ heq => (by cases heq), rfl⟩
  case OnUpdateDeviceFinished e =>
    subst h
    exact ⟨fun _ _ => hstored.2 hM, fun _ _ heq => (by cases heq), rfl⟩
  case OnInitFallback =>
    exact ⟨fun hs => absurd hs not_setUp_init, fun _ _ heq => (by cases heq), rfl⟩
  case OnHubResetFinished =>
    exact ⟨fun hs => absurd hs not_setUp_init, fun _ _ heq => (by cases heq), rfl⟩
  case OnZTPSetupInterrupted =>
    exact ⟨fun hs => absurd hs not_setUp_init, fun _ _ heq => (by cases heq), rfl⟩
  case OnZTPSetupFinished =>
    exact ⟨fun hs => absurd hs not_setUp_init, fun _ _ heq => (by cases heq), rfl⟩

/-- The exit of the live state leaves what the store records and appends only entries that
spare the identity. -/
theorem exitEffect_sparing (agentEnv : Agent) (m : Appstate.Machine World Transition)
    (t : Transition) (hreg : m.stateHandlers = registry agentEnv) :
    recordOf (Appstate.exitEffect m t).world.store = recordOf m.world.store ∧
      ∀ st ∈ (Appstate.exitEffect m t).undo.map Appstate.UndoStep.external,
        ∃ u : Undo, st = Appstate.UndoStep.external (Undo.toStep u) ∧
          u.sparesIdentity = true := by
  unfold Appstate.exitEffect
  rw [hreg, lookup_registry]
  split_ifs
  · exact effect_sparing (BootStateHandler.OnExit t) (inv_pure _) m.world
  · exact effect_sparing _ (idQuiet_init_onExit t) m.world
  · exact effect_sparing _ (idQuiet_active_onExit t) m.world
  · exact effect_sparing (UpdateConfigStateHandler.OnExit t) (inv_pure _) m.world
  · exact effect_sparing (MaintenanceStateHandler.OnExit t) (inv_pure _) m.world
  · exact effect_sparing (ZTPSetupHandler.OnExit t) (inv_pure _) m.world
  · exact effect_sparing (ResetStateHandler.OnExit t) (inv_pure _) m.world
  · exact ⟨rfl, by simp⟩

/-- The config update of `updateAppState` records the new state and leaves the identity;
when it fails the store is as before. -/
theorem updateState_record (FinishStatus : World → Option GoError → Option GoError)
    (w : World) (target : AppState) :
    ((∃ u, ((services FinishStatus).UpdateConfigWithTx w target).ret = .ok u) →
      recordOf ((services FinishStatus).UpdateConfigWithTx w target).world.store =
        (identityOf w.store, some target)) ∧
    ((∃ e, ((services FinishStatus).UpdateConfigWithTx w target).ret = .error e) →
      recordOf ((services FinishStatus).UpdateConfigWithTx w target).world.store =
        recordOf w.store) := by
  show ((∃ u, ((UpdateConfigWithTx { AppState := some { State := target } }
      false).toEffect w).ret = .ok u) → recordOf ((UpdateConfigWithTx
        { AppState := some { State := target } } false).toEffect w).world.store =
          (identityOf w.store, some target)) ∧
    ((∃ e, ((UpdateConfigWithTx { AppState := some { State := target } }
      false).toEffect w).ret = .error e) → recordOf ((UpdateConfigWithTx
        { AppState := some { State := target } } false).toEffect w).world.store =
          recordOf w.store)
  rw [toEffect_ret, toEffect_world, updateConfigWithTx_eq]
  cases hc : w.outcome w.calls
      (.UpdateConfigWithTx { AppState := some { State := target } } false) with
  | none =>
    refine ⟨fun _ => ?_, fun ⟨e, he⟩ => (by cases he)⟩
    simp [recordOf, identityOf, HState.afterUpdate, mergeConfig, mergeSection]
  | some e =>
    exact ⟨fun ⟨u, hu⟩ => (by cases hu), fun _ => rfl⟩

theorem updateState_restores (FinishStatus : World → Option GoError → Option GoError)
    (w : World) (target : AppState) (X : Appstate.Machine World Transition)
    (hX : recordOf X.world.store =
      recordOf ((services FinishStatus).UpdateConfigWithTx w target).world.store) :
    ((((services FinishStatus).UpdateConfigWithTx w target).undo.map
        Appstate.UndoStep.external).foldr
          (fun st acc => Appstate.runUndo st acc) X).activeState = X.activeState ∧
      recordOf ((((services FinishStatus).UpdateConfigWithTx w target).undo.map
        Appstate.UndoStep.external).foldr
          (fun st acc => Appstate.runUndo st acc) X).world.store = recordOf w.store :=
  effect_restores (UpdateConfigWithTx { AppState := some { State := target } } false)
    (idRestores_updateConfigWithTx _ _) w X hX

end Handlers

namespace Handlers

open Appstate (AppState AppStateBoot AppStateInit AppStateActive AppStateUpdateConfig
  AppStateMaintenance AppStateZTPSetup AppStateReset)

/-- One `Handle` of a registered handler, run on a store that records the state of the
handler: when it returns nil the store fits that state and the follow-up it returns can be
performed; the two handlers that add checkpoints leave a store that fits their state also
when they fail. -/
theorem handle_step (agentEnv : Agent) (id : AppState)
    (toState : Appstate.IStateHandler World Transition)
    (hlook : Appstate.lookupHandler (registry agentEnv) id = some toState)
    (w : World) (t : Transition) (hto : t.ToState = id)
    (hrec : (recordOf w.store).2 = some id)
    (hsafe : Identified (identityOf w.store) ∨ Blank (identityOf w.store))
    (hready : Ready w.store t) :
    ((id = AppStateMaintenance ∨ id = AppStateReset) →
      StoredFor id (recordOf (toState.Handle w t).world.store)) ∧
    ∀ hr, (toState.Handle w t).ret = .ok hr →
      StoredFor id (recordOf (toState.Handle w t).world.store) ∧
        ∀ next, hr.Transition = some next →
          Ready (toState.Handle w t).world.store next := by
  have hfollow : ∀ hr next, (toState.Handle w t).ret = .ok hr →
      hr.Transition = some next → isFollowUpOf toState.StateID next = true :=
    fun hr next h1 h2 => handle_followUp agentEnv toState
      (lookup_registry_mem _ _ _ hlook) t w hr next h1 h2
  have hquiet : ∀ (x : Act (Appstate.StateHandleResult Transition)), Act.Inv IdQuiet x →
      (setUp id → Identified (identityOf w.store)) →
      StoredFor id (recordOf (x.toEffect w).world.store) := by
    intro x hx hset
    rw [(effect_sparing x hx w).1]
    exact storedFor_of id _ hrec hsafe hset
  rw [lookup_registry] at hlook
  split_ifs at hlook with h1 h2 h3 h4 h5 h6 h7
  all_goals cases hlook
  · subst h1
    have hS := hquiet (BootStateHandler.Handle t) (idQuiet_boot_handle t)
      (fun hs => absurd hs not_setUp_boot)
    refine ⟨fun _ => hS, fun hr hret => ⟨hS, fun next hnext => ?_⟩⟩
    exact ready_followUp AppStateBoot next _ (hfollow hr next hret hnext) hS
      (fun h => absurd h (by decide)) (fun h => absurd h (by decide))
  · subst h2
    have hS := hquiet (InitStateHandler.Handle agentEnv t) (idQuiet_init_handle agentEnv t)
      (fun hs => absurd hs not_setUp_init)
    refine ⟨fun _ => hS, fun hr hret => ⟨hS, fun next hnext => ?_⟩⟩
    refine ready_followUp AppStateInit next _ (hfollow hr next hret hnext) hS ?_
      (fun h => absurd h (by decide))
    intro _ sn a heq
    exact init_followUp_serial agentEnv t _ _ hr
      (effect_eq (InitStateHandler.Handle agentEnv t) w hr hret) sn a (by rw [hnext, heq])
  · subst h3
    have hS : ∀ hr, ((activeStateHandler agentEnv).Handle w t).ret = .ok hr →
        StoredFor AppStateActive
          (recordOf ((activeStateHandler agentEnv).Handle w t).world.store) := by
      intro hr hret
      by_cases hw : t.writesIdentity = true
      · have heq := effect_eq (ActiveStateHandler.Handle agentEnv.DeviceType t) w hr hret
        exact storedFor_identified _ _
          (active_handle_identified agentEnv.DeviceType t _ _ hr heq hw hready.2.1)
      · have hwf : t.writesIdentity = false := by simpa using hw
        exact hquiet _ (idQuiet_active_handle agentEnv.DeviceType t hwf)
          (fun hs => hready.1 (by rw [hto]; exact hs) hwf)
    refine ⟨fun h => absurd h (by decide), fun hr hret => ⟨hS hr hret,
      fun next hnext => ?_⟩⟩
    exact ready_followUp AppStateActive next _ (hfollow hr next hret hnext) (hS hr hret)
      (fun h => absurd h (by decide)) (fun h => absurd h (by decide))
  · subst h4
    have hwf : t.writesIdentity = false :=
      writes_false t hready.2.2 (by rw [hto]; decide) (by rw [hto]; decide)
    have hS := hquiet _ (idQuiet_updateConfig_handle agentEnv.DeviceType t hwf)
      (fun hs => hready.1 (by rw [hto]; exact hs) hwf)
    refine ⟨fun _ => hS, fun hr hret => ⟨hS, fun next hnext => ?_⟩⟩
    exact ready_followUp AppStateUpdateConfig next _ (hfollow hr next hret hnext) hS
      (fun h => absurd h (by decide)) (fun h => absurd h (by decide))
  · subst h5
    have hwf : t.writesIdentity = false :=
      writes_false t hready.2.2 (by rw [hto]; decide) (by rw [hto]; decide)
    have hS := hquiet _ (idQuiet_maintenance_handle t)
      (fun hs => hready.1 (by rw [hto]; exact hs) hwf)
    refine ⟨fun _ => hS, fun hr hret => ⟨hS, fun next hnext => ?_⟩⟩
    exact ready_followUp AppStateMaintenance next _ (hfollow hr next hret hnext) hS
      (fun h => absurd h (by decide)) (fun h => absurd h (by decide))
  · subst h6
    have hwf : t.writesIdentity = false :=
      writes_false t hready.2.2 (by rw [hto]; decide) (by rw [hto]; decide)
    have hS := hquiet _ (idQuiet_ztpSetup_handle t hwf)
      (fun hs => absurd hs not_setUp_ztpSetup)
    refine ⟨fun _ => hS, fun hr hret => ⟨hS, fun next hnext => ?_⟩⟩
    exact ready_followUp AppStateZTPSetup next _ (hfollow hr next hret hnext) hS
      (fun h => absurd h (by decide)) (fun h => absurd h (by decide))
  · subst h7
    have hSafeW : Safe (recordOf w.store) := by
      rcases hsafe with h | h
      · exact Or.inl h
      · refine Or.inr ⟨h, fun st hst => ?_⟩
        rw [hrec] at hst
        cases hst
        exact not_setUp_reset
    have hS : StoredFor AppStateReset
        (recordOf ((resetStateHandler agentEnv).Handle w t).world.store) :=
      ⟨(safeKept_reset_handle agentEnv.DeviceType t).run { world := w, undo := [] } hSafeW,
        fun hs => absurd hs not_setUp_reset⟩
    refine ⟨fun _ => hS, fun hr hret => ⟨hS, fun next hnext => ?_⟩⟩
    refine ready_followUp AppStateReset next _ (hfollow hr next hret hnext) hS
      (fun h => absurd h (by decide)) ?_
    intro _ hnf
    exact reset_handle_fallback agentEnv.DeviceType t _ _ hr
      (effect_eq (ResetStateHandler.Handle agentEnv.DeviceType t) w hr hret)
      (by rw [hnext, hnf])

/-- The journal of one `Handle` of a registered handler: undoing it gives back what the
store recorded, and entries after a checkpoint are found only in maintenance and reset and
spare the identity. -/
theorem handle_journal (agentEnv : Agent) (id : AppState)
    (toState : Appstate.IStateHandler World Transition)
    (hlook : Appstate.lookupHandler (registry agentEnv) id = some toState)
    (w : World) (t : Transition) :
    (∀ X : Appstate.Machine World Transition,
      recordOf X.world.store = recordOf (toState.Handle w t).world.store →
      (((toState.Handle w t).undo.map Appstate.UndoStep.external).foldr
          (fun st acc => Appstate.runUndo st acc) X).activeState = X.activeState ∧
        recordOf (((toState.Handle w t).undo.map Appstate.UndoStep.external).foldr
          (fun st acc => Appstate.runUndo st acc) X).world.store = recordOf w.store) ∧
    ∀ pre cp post, (toState.Handle w t).undo.map Appstate.UndoStep.external =
        pre ++ Appstate.UndoStep.external (.checkpoint cp) :: post →
      (id = AppStateMaintenance ∨ id = AppStateReset) ∧
        ∀ st ∈ post, ∃ u : Undo, st = Appstate.UndoStep.external (Undo.toStep u) ∧
          u.sparesIdentity = true := by
  have hno : ∀ (x : Act (Appstate.StateHandleResult Transition)), Act.Inv Unmarked x →
      ∀ pre cp post, (x.toEffect w).undo.map Appstate.UndoStep.external =
        pre ++ Appstate.UndoStep.external (.checkpoint cp) :: post →
      (id = AppStateMaintenance ∨ id = AppStateReset) ∧
        ∀ st ∈ post, ∃ u : Undo, st = Appstate.UndoStep.external (Undo.toStep u) ∧
          u.sparesIdentity = true := by
    intro x hx pre cp post hsplit
    exact absurd (by rw [hsplit]; simp) (effect_unmarked x hx w cp)
  rw [lookup_registry] at hlook
  split_ifs at hlook with h1 h2 h3 h4 h5 h6 h7
  all_goals cases hlook
  · exact ⟨fun X hX => effect_restores _
      (inv_weaken (fun _ _ h => idRestores_of_quiet h) (idQuiet_boot_handle t)) w X hX,
      hno _ (unmarked_boot_handle t)⟩
  · exact ⟨fun X hX => effect_restores _
      (inv_weaken (fun _ _ h => idRestores_of_quiet h) (idQuiet_init_handle agentEnv t))
        w X hX,
      hno _ (unmarked_init_handle agentEnv t)⟩
  · exact ⟨fun X hX => effect_restores _
      (idRestores_active_handle agentEnv.DeviceType t) w X hX,
      hno _ (unmarked_active_handle agentEnv.DeviceType t)⟩
  · exact ⟨fun X hX => effect_restores _
      (idRestores_updateConfig_handle agentEnv.DeviceType t) w X hX,
      hno _ (unmarked_updateConfig_handle agentEnv.DeviceType t)⟩
  · exact ⟨fun X hX => effect_restores _
      (inv_weaken (fun _ _ h => idRestores_of_quiet h) (idQuiet_maintenance_handle t))
        w X hX,
      fun pre cp post hsplit => ⟨Or.inl h5.symm, effect_markSpares _
        (inv_weaken (fun _ _ h => markSpares_of_quiet h) (idQuiet_maintenance_handle t))
        w pre cp post hsplit⟩⟩
  · exact ⟨fun X hX => effect_restores _ (idRestores_ztpSetup_handle t) w X hX,
      hno _ (unmarked_ztpSetup_handle t)⟩
  · exact ⟨fun X hX => effect_restores _
      (idRestores_reset_handle agentEnv.DeviceType t) w X hX,
      fun pre cp post hsplit => ⟨Or.inr h7.symm, effect_markSpares _
        (markSpares_reset_handle agentEnv.DeviceType t) w pre cp post hsplit⟩⟩

end Handlers

namespace Handlers

open Appstate (AppState AppStateBoot AppStateInit AppStateActive AppStateUpdateConfig
  AppStateMaintenance AppStateZTPSetup AppStateReset)

/-- One `performTransition` on a store that can be started from, with a transition that can
be performed on it: when it returns nil the store fits the new live state and the follow-up
can be performed; and whatever it returns, every checkpoint of the journal stays sealed and
undoing the journal still gives back what the store recorded when the journal was empty. -/
theorem performTransition_stored (agentEnv : Agent)
    (FinishStatus : World → Option GoError → Option GoError)
    (m : Appstate.Machine World Transition) (t : Transition)
    (hreg : m.stateHandlers = registry agentEnv)
    (hsafe : Safe (recordOf m.world.store))
    (hready : ∀ toState, Appstate.lookupHandler m.stateHandlers t.ToState = some toState →
      toState.ValidateTransition m.activeState = none → Ready m.world.store t) :
    (∀ r, (Appstate.performTransition (services FinishStatus) Transition.ToState m t).2 = .ok r →
      StoredFor (Appstate.performTransition (services FinishStatus) Transition.ToState m t).1.activeState (recordOf (Appstate.performTransition (services FinishStatus) Transition.ToState m t).1.world.store) ∧
        ∀ next, r.Transition = some next → Ready (Appstate.performTransition (services FinishStatus) Transition.ToState m t).1.world.store next) ∧
    (m.activeState ≠ AppStateBoot →
      ∀ r0, IdSealedAt m.tx m.activeState (recordOf m.world.store) →
        IdBack m.tx (recordOf m.world.store) r0 →
        IdSealedAt (Appstate.performTransition (services FinishStatus) Transition.ToState m t).1.tx (Appstate.performTransition (services FinishStatus) Transition.ToState m t).1.activeState (recordOf (Appstate.performTransition (services FinishStatus) Transition.ToState m t).1.world.store) ∧
          IdBack (Appstate.performTransition (services FinishStatus) Transition.ToState m t).1.tx (recordOf (Appstate.performTransition (services FinishStatus) Transition.ToState m t).1.world.store) r0) := by
  by_cases hne : m.activeState = t.ToState
  · have h : (Appstate.performTransition (services FinishStatus) Transition.ToState m t) =
        (m, .error (.leaf ("performTransition: already in state " ++ m.activeState))) := by
      simp [Appstate.performTransition, hne]
    rw [h]
    exact ⟨fun r hr => (by cases hr), fun _ r0 hS hB => ⟨hS, hB⟩⟩
  · cases hto : Appstate.lookupHandler m.stateHandlers t.ToState with
    | none =>
      have h : (Appstate.performTransition (services FinishStatus) Transition.ToState m t) =
          (m, .error (.leaf ("performTransition: handler for state " ++ t.ToState ++
            " not found"))) := by
        simp [Appstate.performTransition, hne, hto]
      rw [h]
      exact ⟨fun r hr => (by cases hr), fun _ r0 hS hB => ⟨hS, hB⟩⟩
    | some toState =>
      cases hv : toState.ValidateTransition m.activeState with
      | some err =>
        have h : ∃ e, (Appstate.performTransition (services FinishStatus) Transition.ToState m t) = ({ m with trace := m.trace ++
              [Appstate.Event.validateTransition toState.StateID m.activeState] },
              .error e) := by
          simp [Appstate.performTransition, hne, hto, hv]
        obtain ⟨e, h⟩ := h
        rw [h]
        exact ⟨fun r hr => (by cases hr), fun _ r0 hS hB => ⟨hS, hB⟩⟩
      | none =>
        obtain ⟨hh, hexitErr, hexitOk⟩ := Appstate.performTransition_steps
          (services FinishStatus) Transition.ToState m t toState hne hto hv
        obtain ⟨hE1, hE2⟩ := exitEffect_sparing agentEnv m t hreg
        have hA : ∀ r0, IdSealedAt m.tx m.activeState (recordOf m.world.store) →
            IdBack m.tx (recordOf m.world.store) r0 →
            IdSealedAt (m.tx ++ (Appstate.exitEffect m t).undo.map Appstate.UndoStep.external) m.activeState (recordOf (Appstate.exitEffect m t).world.store) ∧
              IdBack (m.tx ++ (Appstate.exitEffect m t).undo.map Appstate.UndoStep.external) (recordOf (Appstate.exitEffect m t).world.store) r0 := by
          intro r0 hS hB
          refine ⟨idSealedAt_append m.tx _ m.activeState m.activeState
            (recordOf m.world.store) _ hS ?_ ?_,
            idBack_append m.tx _ (recordOf m.world.store) _ r0 hB ?_⟩
          · intro X hXl hXr
            obtain ⟨h1, h2⟩ := foldr_sparing _ hE2 X
            exact ⟨h1.trans hXl, by rw [h2, hXr, hE1]⟩
          · intro pre id post hsplit
            exact absurd (by rw [hsplit]; simp) (exitEffect_unmarked agentEnv m t hreg id)
          · intro X hXr
            rw [(foldr_sparing _ hE2 X).2, hXr, hE1]
        cases hre : (Appstate.exitEffect m t).ret with
        | error e =>
          obtain ⟨⟨e1, he1⟩, hw, ha, htx⟩ := hexitErr ⟨e, hre⟩
          refine ⟨fun r hr => ?_, fun _ r0 hS hB => ?_⟩
          · rw [he1] at hr
            cases hr
          · rw [htx, hw, ha]
            exact hA r0 hS hB
        | ok u =>
          obtain ⟨hcfgErr, hcfgOk⟩ := hexitOk ⟨u, hre⟩
          obtain ⟨hU1, hU2⟩ := updateState_record FinishStatus (Appstate.exitEffect m t).world t.ToState
          have hB1 : ∀ r0, IdSealedAt m.tx m.activeState (recordOf m.world.store) →
              IdBack m.tx (recordOf m.world.store) r0 →
              IdSealedAt (m.tx ++ (Appstate.exitEffect m t).undo.map Appstate.UndoStep.external ++ ((services FinishStatus).UpdateConfigWithTx (Appstate.exitEffect m t).world t.ToState).undo.map Appstate.UndoStep.external) m.activeState
                  (recordOf ((services FinishStatus).UpdateConfigWithTx (Appstate.exitEffect m t).world t.ToState).world.store) ∧
                IdBack (m.tx ++ (Appstate.exitEffect m t).undo.map Appstate.UndoStep.external ++ ((services FinishStatus).UpdateConfigWithTx (Appstate.exitEffect m t).world t.ToState).undo.map Appstate.UndoStep.external) (recordOf ((services FinishStatus).UpdateConfigWithTx (Appstate.exitEffect m t).world t.ToState).world.store) r0 := by
            intro r0 hS hB
            obtain ⟨hS1, hB0⟩ := hA r0 hS hB
            refine ⟨idSealedAt_append _ _ m.activeState m.activeState
              (recordOf (Appstate.exitEffect m t).world.store) _ hS1 ?_ ?_,
              idBack_append _ _ (recordOf (Appstate.exitEffect m t).world.store) _ r0 hB0 ?_⟩
            · intro X hXl hXr
              obtain ⟨h1, h2⟩ := updateState_restores FinishStatus (Appstate.exitEffect m t).world t.ToState X hXr
              exact ⟨h1.trans hXl, h2⟩
            · intro pre id post hsplit
              have hmem : Appstate.UndoStep.external (.checkpoint id) ∈ ((services FinishStatus).UpdateConfigWithTx (Appstate.exitEffect m t).world t.ToState).undo.map Appstate.UndoStep.external := by
                rw [hsplit]
                simp
              exact absurd hmem
                (effect_unmarked _ (unmarked_updateConfigWithTx
                  { AppState := some { State := t.ToState } } false) (Appstate.exitEffect m t).world id)
            · intro X hXr
              exact (updateState_restores FinishStatus (Appstate.exitEffect m t).world t.ToState X hXr).2
          cases hrc : ((services FinishStatus).UpdateConfigWithTx (Appstate.exitEffect m t).world t.ToState).ret with
          | error e =>
            obtain ⟨⟨e1, he1⟩, hw, ha, htx⟩ := hcfgErr ⟨e, hrc⟩
            refine ⟨fun r hr => ?_, fun _ r0 hS hB => ?_⟩
            · rw [he1] at hr
              cases hr
            · rw [htx, hw, ha]
              exact hB1 r0 hS hB
          | ok u2 =>
            obtain ⟨hw, ha, htx, hiff⟩ := hcfgOk ⟨u2, hrc⟩
            have hlook : Appstate.lookupHandler (registry agentEnv) t.ToState =
                some toState := by
              rw [← hreg]
              exact hto
            have hrecU := hU1 ⟨u2, hrc⟩
            have hidU : identityOf ((services FinishStatus).UpdateConfigWithTx (Appstate.exitEffect m t).world t.ToState).world.store = identityOf m.world.store :=
              (congrArg Prod.fst hrecU).trans (identityOf_of_record hE1)
            obtain ⟨hmark, hfwd⟩ := handle_step agentEnv t.ToState toState hlook
              ((services FinishStatus).UpdateConfigWithTx (Appstate.exitEffect m t).world t.ToState).world t rfl (by rw [hrecU]) (by rw [hidU]; exact safe_cases hsafe)
              (ready_of_identity t hidU (hready toState hto hv))
            obtain ⟨hHback, hHmark⟩ := handle_journal agentEnv t.ToState toState hlook
              ((services FinishStatus).UpdateConfigWithTx (Appstate.exitEffect m t).world t.ToState).world t
            refine ⟨fun r hr => ?_, fun hboot r0 hS hB => ?_⟩
            · obtain ⟨hr1, hret, hrr⟩ := (hiff r).mp hr
              obtain ⟨h1, h2⟩ := hfwd hr1 hret
              rw [hw, ha]
              exact ⟨h1, fun next hnext => h2 next (by rw [← hnext, hrr])⟩
            · obtain ⟨hS2, hB2⟩ := hB1 r0 hS hB
              have hS3 : IdSealedAt (m.tx ++ (Appstate.exitEffect m t).undo.map Appstate.UndoStep.external ++ ((services FinishStatus).UpdateConfigWithTx (Appstate.exitEffect m t).world t.ToState).undo.map Appstate.UndoStep.external ++
                  [Appstate.UndoStep.restoreState m.activeState]) t.ToState
                  (recordOf ((services FinishStatus).UpdateConfigWithTx (Appstate.exitEffect m t).world t.ToState).world.store) := by
                refine idSealedAt_append _ _ m.activeState t.ToState
                  (recordOf ((services FinishStatus).UpdateConfigWithTx (Appstate.exitEffect m t).world t.ToState).world.store) _ hS2 ?_ ?_
                · intro X _ hXr
                  show (Appstate.runUndo (.restoreState m.activeState) X).activeState =
                    m.activeState ∧
                    recordOf (Appstate.runUndo (.restoreState m.activeState) X).world.store
                      = _
                  simp [Appstate.runUndo, hboot, hXr]
                · intro pre id post hsplit
                  have hmem : Appstate.UndoStep.external (.checkpoint id) ∈
                      [Appstate.UndoStep.restoreState (W := World) m.activeState] := by
                    rw [hsplit]
                    simp
                  simp at hmem
              have hB3 : IdBack (m.tx ++ (Appstate.exitEffect m t).undo.map Appstate.UndoStep.external ++ ((services FinishStatus).UpdateConfigWithTx (Appstate.exitEffect m t).world t.ToState).undo.map Appstate.UndoStep.external ++
                  [Appstate.UndoStep.restoreState m.activeState])
                  (recordOf ((services FinishStatus).UpdateConfigWithTx (Appstate.exitEffect m t).world t.ToState).world.store) r0 := by
                refine idBack_append _ _ (recordOf ((services FinishStatus).UpdateConfigWithTx (Appstate.exitEffect m t).world t.ToState).world.store) _ r0 hB2 ?_
                intro X hXr
                show recordOf (Appstate.runUndo (.restoreState m.activeState) X).world.store
                  = _
                simp [Appstate.runUndo, hboot, hXr]
              rw [htx, hw, ha]
              refine ⟨idSealedAt_append _ _ t.ToState t.ToState
                (recordOf ((services FinishStatus).UpdateConfigWithTx (Appstate.exitEffect m t).world t.ToState).world.store) _ hS3 ?_ ?_,
                idBack_append _ _ (recordOf ((services FinishStatus).UpdateConfigWithTx (Appstate.exitEffect m t).world t.ToState).world.store) _ r0 hB3 ?_⟩
              · intro X hXl hXr
                obtain ⟨h1, h2⟩ := hHback X hXr
                exact ⟨h1.trans hXl, h2⟩
              · intro pre id post hsplit
                obtain ⟨hid, hsp⟩ := hHmark pre id post hsplit
                exact ⟨⟨hmark hid, by rcases hid with h | h <;> rw [h] <;> decide⟩, hsp⟩
              · intro X hXr
                exact (hHback X hXr).2

end Handlers

namespace Appstate

variable {W τ : Type}

theorem setActiveStateFromBoot_state (svc : Services W) (ToState : τ → AppState)
    (OnAfterBoot : AppState → τ) (GetConfig : W → W × Except GoError (Option String))
    (initState : AppState) (fuel : Nat) (s m1 : Machine W τ)
    (hfin : ∀ w e, svc.FinishStatus w (some e) ≠ none)
    (h : setActiveStateFromBoot svc ToState OnAfterBoot GetConfig initState fuel s =
      some (m1, none)) :
    ∃ state s2, (GetConfig (svc.StartTransaction s.world).1).2 = .ok (some state) ∧
      runChain svc ToState fuel
        { s with trace := s.trace ++ [Event.startTransaction],
                 world := (GetConfig (svc.StartTransaction s.world).1).1, tx := [] }
        (OnAfterBoot (if state ≠ "" then state else initState)) = some (s2, none) ∧
      m1.world = s2.world ∧ m1.activeState = s2.activeState ∧
      m1.stateHandlers = s2.stateHandlers := by
  unfold setActiveStateFromBoot at h
  cases hst : svc.StartTransaction s.world with
  | mk w o =>
    simp only [hst] at h ⊢
    cases o with
    | some err =>
      simp at h
    | none =>
      simp only at h
      cases hget : GetConfig w with
      | mk w1 r =>
        rw [hget] at h
        cases r with
        | error err =>
          simp only [Option.some.injEq] at h
          have h2 := congrArg Prod.snd h
          simp only [FinishTransaction] at h2
          exact absurd h2 (hfin _ _)
        | ok o2 =>
          cases o2 with
          | none => simp at h
          | some state =>
            simp only at h
            refine ⟨state, ?_⟩
            cases hrun : runChain svc ToState fuel
                { s with trace := s.trace ++ [Event.startTransaction], world := w1, tx := [] }
                (OnAfterBoot (if state ≠ "" then state else initState)) with
            | none =>
              rw [hrun] at h
              simp at h
            | some p =>
              obtain ⟨s2, err⟩ := p
              rw [hrun] at h
              cases err with
              | some e =>
                simp only [Option.some.injEq] at h
                have h2 := congrArg Prod.snd h
                simp only [FinishTransaction] at h2
                exact absurd h2 (hfin _ _)
              | none =>
                simp only [Option.some.injEq] at h
                have h1 := congrArg Prod.fst h
                simp only [FinishTransaction] at h1
                subst h1
                exact ⟨s2, rfl, rfl, rfl, rfl, rfl⟩

end Appstate

namespace Handlers

open Appstate (AppState AppStateBoot AppStateInit AppStateActive AppStateUpdateConfig
  AppStateMaintenance AppStateZTPSetup AppStateReset)

theorem startTransaction_store (w : World) : (StartTransaction w).1.store = w.store := by
  unfold StartTransaction
  cases h : w.outcome w.calls .StartTransaction <;> simp [call, h]

theorem persistedState_store (w : World) :
    (persistedState w).1.store = w.store ∧
      ∀ state, (persistedState w).2 = .ok (some state) →
        (recordOf w.store).2 = some state := by
  unfold persistedState
  rw [getConfig_eq]
  cases h : w.outcome w.calls .GetConfig with
  | none =>
    refine ⟨rfl, fun state hs => ?_⟩
    simp only [Except.ok.injEq] at hs
    exact hs
  | some e =>
    exact ⟨rfl, fun state hs => (by cases hs)⟩

/-- A chain of transitions started on a store that can be started from, with a transition
that can be performed: when it ends without error the store fits the live state; and every
checkpoint of its journal is sealed, and undoing the journal gives back what the store
recorded at the start. -/
theorem chainRun_stored (agentEnv : Agent)
    (FinishStatus : World → Option GoError → Option GoError)
    (m s1 : Appstate.Machine World Transition) (t : Transition) (err : Option GoError)
    (hchain : Appstate.ChainRun (services FinishStatus) Transition.ToState m t s1 err)
    (hreg : m.stateHandlers = registry agentEnv)
    (hsafe : Safe (recordOf m.world.store))
    (hready : ∀ toState, Appstate.lookupHandler m.stateHandlers t.ToState = some toState →
      toState.ValidateTransition m.activeState = none → Ready m.world.store t) :
    (err = none → StoredFor s1.activeState (recordOf s1.world.store)) ∧
    (m.activeState ≠ AppStateBoot → t.ToState ≠ AppStateBoot →
      ∀ r0, IdSealedAt m.tx m.activeState (recordOf m.world.store) →
        IdBack m.tx (recordOf m.world.store) r0 →
        IdSealedAt s1.tx s1.activeState (recordOf s1.world.store) ∧
          IdBack s1.tx (recordOf s1.world.store) r0) := by
  induction hchain with
  | failed s t e _ =>
    exact ⟨fun h => (by cases h), fun hboot _ r0 hS hB =>
      (performTransition_stored agentEnv FinishStatus s t hreg hsafe hready).2 hboot r0
        hS hB⟩
  | finished s t r hr _ =>
    obtain ⟨hfw, hj⟩ := performTransition_stored agentEnv FinishStatus s t hreg hsafe hready
    exact ⟨fun _ => (hfw r hr).1, fun hboot _ r0 hS hB => hj hboot r0 hS hB⟩
  | followUp s t next r s1 err hr hnext _ ih =>
    obtain ⟨hfw, hj⟩ := performTransition_stored agentEnv FinishStatus s t hreg hsafe hready
    obtain ⟨hst, hrd⟩ := hfw r hr
    obtain ⟨toState, w, hr1, hlook, _, _, hH, hrr, hh, ha⟩ :=
      Appstate.performTransition_ok_handle (services FinishStatus) Transition.ToState s t r hr
    have ih2 := ih (hh.trans hreg) hst.1 (fun _ _ _ => hrd next hnext)
    refine ⟨ih2.1, fun hboot hto r0 hS hB => ?_⟩
    obtain ⟨hS1, hB1⟩ := hj hboot r0 hS hB
    rw [hreg] at hlook
    rw [hnext] at hrr
    have hnextTo : next.ToState ≠ AppStateBoot :=
      followUp_toState _ next (handle_followUp agentEnv toState
        (lookup_registry_mem agentEnv _ _ hlook) t w hr1 next hH hrr.symm)
    exact ih2.2 (by rw [ha]; exact hto) hnextTo r0 hS1 hB1

/-- A transition of a request handler can be performed in every machine at rest in which the
handler of its state accepts it: update_config and maintenance are entered from active,
where the identity is stored. -/
theorem submitted_ready (agentEnv : Agent) (m : Appstate.Machine World Transition)
    (t : Transition) (hm : AtRest agentEnv m) (ht : t.isSubmitted = true)
    (hb : t.isBare = true) :
    ∀ toState, Appstate.lookupHandler m.stateHandlers t.ToState = some toState →
      toState.ValidateTransition m.activeState = none → Ready m.world.store t := by
  obtain ⟨hreg, hboot, hst⟩ := hm
  intro toState hto hv
  rw [hreg] at hto
  have hU : Appstate.lookupHandler (registry agentEnv) AppStateUpdateConfig =
      some (updateConfigStateHandler agentEnv) := rfl
  have hM : Appstate.lookupHandler (registry agentEnv) AppStateMaintenance =
      some maintenanceStateHandler := rfl
  have hfromU : (updateConfigStateHandler agentEnv).ValidateTransition m.activeState = none →
      Identified (identityOf m.world.store) := by
    intro hv1
    refine hst.2 (Or.inl ?_)
    by_contra hna
    have h1 : UpdateConfigStateHandler.ValidateTransition m.activeState =
        some (.wrap "ValidateTransition: " ErrTransitionNotSupported) := if_pos ⟨hna, hboot⟩
    have h2 : UpdateConfigStateHandler.ValidateTransition m.activeState = none := hv1
    rw [h1] at h2
    cases h2
  have hfromM : maintenanceStateHandler.ValidateTransition m.activeState = none →
      Identified (identityOf m.world.store) := by
    intro hv1
    refine hst.2 (Or.inl ?_)
    by_contra hna
    have h1 : MaintenanceStateHandler.ValidateTransition m.activeState =
        some (.wrap "ValidateTransition: " ErrTransitionNotSupported) := if_pos ⟨hna, hboot⟩
    have h2 : MaintenanceStateHandler.ValidateTransition m.activeState = none := hv1
    rw [h1] at h2
    cases h2
  refine ⟨fun hs hw => ?_, fun sn a heq => ?_, hb⟩
  · cases t <;> simp [Transition.isSubmitted] at ht
    case OnFirstSetup sn addrs => simp [Transition.writesIdentity] at hw
    case OnReset => simp [Transition.writesIdentity] at hw
    case OnUpdateConfig cfg =>
      have h1 := hU.symm.trans hto
      simp only [Option.some.injEq] at h1
      subst h1
      exact hfromU hv
    case OnRebuildServices =>
      have h1 := hU.symm.trans hto
      simp only [Option.some.injEq] at h1
      subst h1
      exact hfromU hv
    case OnUpdateDevice req =>
      have h1 := hM.symm.trans hto
      simp only [Option.some.injEq] at h1
      subst h1
      exact hfromM hv
    case OnZTPSetupConfig cfg => exact absurd hs not_setUp_ztpSetup
    case OnHubSetPort p => exact absurd hs not_setUp_ztpSetup
    case OnHubDeletePort p => exact absurd hs not_setUp_ztpSetup
  · subst heq
    cases ht

/-- One request of `Perform` with a transition of a request handler takes a machine at rest
to a machine at rest, whether the chain ends without error or is rolled back. -/
theorem serveRequest_stored (agentEnv : Agent)
    (FinishStatus : World → Option GoError → Option GoError) (fuel : Nat)
    (m m1 : Appstate.Machine World Transition) (t : Transition) (res : Option GoError)
    (hm : AtRest agentEnv m) (ht : t.isSubmitted = true) (hb : t.isBare = true)
    (h : Appstate.serveRequest (services FinishStatus) Transition.ToState fuel m t =
      some (m1, res)) : AtRest agentEnv m1 := by
  have hready := submitted_ready agentEnv m t hm ht hb
  obtain ⟨hreg, hlive, hst⟩ := hm
  obtain ⟨_, hto⟩ := submitted_facts t ht
  have hstore : ((services FinishStatus).StartTransaction m.world).1.store = m.world.store :=
    startTransaction_store m.world
  rcases Appstate.serveRequest_cases _ _ _ _ _ _ _ h with
    ⟨err, _, hw, ha, hh⟩ | ⟨s1, err, _, hrun, hw, ha, hh⟩
  · refine ⟨hh.trans hreg, by rw [ha]; exact hlive, ?_⟩
    rw [hw, ha, hstore]
    exact hst
  · have hchain := Appstate.runChain_chainRun _ _ _ _ _ _ _ hrun
    have hL := chainRun_live agentEnv FinishStatus _ s1 t err hchain hreg
    have hC := chainRun_stored agentEnv FinishStatus
      { m with trace := m.trace ++ [Appstate.Event.startTransaction],
               world := ((services FinishStatus).StartTransaction m.world).1, tx := [] }
      s1 t err hchain hreg (by rw [hstore]; exact hst.1)
      (fun toState h1 h2 => by rw [hstore]; exact hready toState h1 h2)
    cases err with
    | none =>
      refine ⟨hh.trans hL.1, ?_, ?_⟩
      · rw [ha]
        exact hL.2 rfl (Or.inr hto)
      · rw [hw, ha]
        exact hC.1 rfl
    | some e =>
      obtain ⟨hS, hB⟩ := hC.2 hlive hto (recordOf m.world.store) (idSealedAt_nil _ _)
        (by rw [hstore]; exact idBack_nil _)
      have hfin : (Appstate.FinishTransaction (services FinishStatus) s1 (some e)).1 =
          Appstate.rollback { s1 with trace := s1.trace ++
            [Appstate.Event.finishTransaction (some e)] } := rfl
      rw [hfin] at hw ha hh
      refine ⟨hh.trans ((Appstate.rollback_stateHandlers _).trans hL.1), ?_, ?_⟩
      · rw [ha]
        rcases Appstate.rollback_cases { s1 with trace := s1.trace ++
            [Appstate.Event.finishTransaction (some e)] } with
          ⟨hcp, _⟩ | ⟨pre, id, post, hsplit, _, hpart⟩
        · rw [Appstate.rollback_restores_activeState (services FinishStatus)
            Transition.ToState
            { m with trace := m.trace ++ [Appstate.Event.startTransaction],
                     world := ((services FinishStatus).StartTransaction m.world).1,
                     tx := [] }
            s1 t (some e) [Appstate.Event.finishTransaction (some e)]
            rfl hlive hchain hcp]
          exact hlive
        · rw [hpart]
          exact (hS pre id post hsplit
            { s1 with trace := s1.trace ++
            [Appstate.Event.finishTransaction (some e)] } rfl rfl).2
      · rw [hw, ha]
        rcases Appstate.rollback_cases { s1 with trace := s1.trace ++
            [Appstate.Event.finishTransaction (some e)] } with
          ⟨hcp, hfull⟩ | ⟨pre, id, post, hsplit, _, hpart⟩
        · rw [Appstate.rollback_restores_activeState (services FinishStatus)
            Transition.ToState
            { m with trace := m.trace ++ [Appstate.Event.startTransaction],
                     world := ((services FinishStatus).StartTransaction m.world).1,
                     tx := [] }
            s1 t (some e) [Appstate.Event.finishTransaction (some e)]
            rfl hlive hchain hcp]
          rw [hfull]
          have h2 := hB { s1 with trace := s1.trace ++
            [Appstate.Event.finishTransaction (some e)] } rfl
          show StoredFor m.activeState (recordOf (List.foldr
            (fun st acc => Appstate.runUndo st acc) { s1 with trace := s1.trace ++
              [Appstate.Event.finishTransaction (some e)] } s1.tx).world.store)
          rw [h2]
          exact hst
        · rw [hpart]
          exact (hS pre id post hsplit
            { s1 with trace := s1.trace ++
            [Appstate.Event.finishTransaction (some e)] } rfl rfl).1

end Handlers

namespace Handlers

open Appstate (AppState AppStateBoot AppStateInit AppStateActive AppStateUpdateConfig
  AppStateMaintenance AppStateZTPSetup AppStateReset)

/-- Start-up on a store that can be started from: when `setActiveStateFromBoot` returns nil
the machine it leaves is at rest. -/
theorem boot_stored (agentEnv : Agent)
    (FinishStatus : World → Option GoError → Option GoError)
    (hfin : ∀ w e, FinishStatus w (some e) ≠ none) (fuel : Nat)
    (m0 m1 : Appstate.Machine World Transition)
    (hreg : m0.stateHandlers = registry agentEnv) (hlive : m0.activeState = AppStateBoot)
    (hsafe : Safe (recordOf m0.world.store))
    (h : Appstate.setActiveStateFromBoot (services FinishStatus) Transition.ToState
      Transition.OnAfterBoot persistedState AppStateInit fuel m0 = some (m1, none)) :
    AtRest agentEnv m1 := by
  obtain ⟨state, s2, hstate, hrun, hw, ha, hh⟩ :=
    Appstate.setActiveStateFromBoot_state (services FinishStatus) Transition.ToState
      Transition.OnAfterBoot persistedState AppStateInit fuel m0 m1 hfin h
  have hchain := Appstate.runChain_chainRun _ _ _ _ _ _ _ hrun
  have hp := persistedState_store ((services FinishStatus).StartTransaction m0.world).1
  have hst0 : ((services FinishStatus).StartTransaction m0.world).1.store = m0.world.store :=
    startTransaction_store m0.world
  have hstore : (persistedState
      ((services FinishStatus).StartTransaction m0.world).1).1.store = m0.world.store :=
    hp.1.trans hst0
  have hrec : (recordOf m0.world.store).2 = some state := by
    have h1 := hp.2 state hstate
    rw [hst0] at h1
    exact h1
  have hL := chainRun_live agentEnv FinishStatus _ s2 _ none hchain hreg
  have hready : Ready (persistedState
      ((services FinishStatus).StartTransaction m0.world).1).1.store
      (.OnAfterBoot (if state ≠ "" then state else AppStateInit)) := by
    refine ⟨fun hs _ => ?_, fun _ _ heq => (by cases heq), rfl⟩
    rw [hstore]
    rcases hsafe with h1 | ⟨_, hpers⟩
    · exact h1
    · exfalso
      have hs2 : setUp (if state ≠ "" then state else AppStateInit) := hs
      by_cases he : state = ""
      · rw [if_neg (by simpa using he)] at hs2
        exact not_setUp_init hs2
      · rw [if_pos he] at hs2
        exact hpers state hrec hs2
  have hC := chainRun_stored agentEnv FinishStatus _ s2 _ none hchain hreg
    (by rw [hstore]; exact hsafe) (fun _ _ _ => hready)
  exact ⟨hh.trans hL.1, by rw [ha]; exact hL.2 rfl (Or.inl hlive),
    by rw [hw, ha]; exact hC.1 rfl⟩

theorem idRestores_initDevice (deviceType : String) (initConfig : InitConfig) :
    Act.Inv IdRestores (InitDevice deviceType initConfig) := by
  unfold InitDevice
  repeat' first
    | intro _
    | exact inv_pure _
    | exact inv_fail _
    | exact inv_getWorld
    | exact idRestores_updateConfigWithTx _ _
    | apply inv_bind
    | apply inv_wrapErr
    | apply inv_attempt
    | apply inv_ite
    | (apply inv_callOf; intro s err; exact idRestores_world s _ rfl)
    | (apply inv_noteOf; intro s err; exact idRestores_world s _ rfl)
    | (apply inv_modifyWorld; intro s; exact idRestores_world s _ rfl)
    | (apply inv_pushUndo; intro s; exact idRestores_push s _ rfl)
    | (apply inv_nilDeref; intro s; exact idRestores_world s _ rfl)
    | split
    | unfold checkHubTunnels

/-- An `InitDevice` request served outside first setup keeps the serial number and leaves a
non-empty address list, or is rolled back. -/
theorem initDeviceAlone_stored (deviceType : String) (initConfig : InitConfig) (w : World)
    (hid : Identified (identityOf w.store)) :
    Identified (identityOf (initDeviceAlone deviceType initConfig w).store) ∨
      recordOf (initDeviceAlone deviceType initConfig w).store = recordOf w.store := by
  unfold initDeviceAlone
  have hs0 := startTransaction_store w
  cases hst : StartTransaction w with
  | mk w1 o =>
    rw [hst] at hs0
    simp only at hs0
    cases o with
    | some e =>
      right
      simp only [hs0]
    | none =>
      simp only
      have hres := (idRestores_initDevice deviceType initConfig).run
        { world := w1, undo := [] }
      cases hrun : InitDevice deviceType initConfig { world := w1, undo := [] } with
      | mk r s =>
        rw [hrun] at hres
        obtain ⟨entries, he, hback⟩ := hres
        simp only [List.nil_append] at he
        have hroll : recordOf (s.undo.foldr Undo.run s.world).store = recordOf w.store := by
          rw [he, hback s.world rfl, hs0]
        cases r with
        | error e =>
          right
          exact hroll
        | ok o2 =>
          cases o2 with
          | some e =>
            right
            exact hroll
          | none =>
            left
            obtain ⟨app0, happ, hs, ha⟩ := app_of_identified _ hid
            have hres2 := initDevice_app deviceType initConfig { world := w1, undo := [] } s
              app0 (by rw [← happ]; exact congrArg Config.App hs0) hrun
            exact identified_of_app _ _ hres2 hs (defineNewAddrs_ne_nil _ _ ha)

/-- Every machine the controller is in between two requests is at rest. -/
theorem reach_atRest (agentEnv : Agent)
    (FinishStatus : World → Option GoError → Option GoError)
    (hfin : ∀ w e, FinishStatus w (some e) ≠ none)
    (m : Appstate.Machine World Transition)
    (hreach : ReachStored agentEnv FinishStatus m) : AtRest agentEnv m := by
  induction hreach with
  | firstBoot m0 m1 fuel hreg hlive hstore hset =>
    refine boot_stored agentEnv FinishStatus hfin fuel m0 m1 hreg hlive ?_ hset
    rw [hstore]
    refine Or.inr ⟨?_, ?_⟩
    · intro serial addrs h
      cases h
      rfl
    · intro st h
      cases h
      exact not_setUp_empty
  | restart m m0 m1 fuel _ hreg hlive hstore hset ih =>
    refine boot_stored agentEnv FinishStatus hfin fuel m0 m1 hreg hlive ?_ hset
    rw [hstore]
    exact ih.2.2.1
  | perform m m1 t fuel res _ ht hb hperf ih =>
    obtain ⟨r, hr⟩ := Appstate.perform_serveRequest _ _ _ _ _ _ _ hperf
    exact serveRequest_stored agentEnv FinishStatus fuel m m1 t r ih ht hb hr
  | dial m r s1 _ hbuild ih =>
    obtain ⟨hreg, hlive, hst⟩ := ih
    have hq : IdQuiet { world := m.world, undo := [] } s1 :=
      inv_of_eq idQuiet_buildConn hbuild
    refine ⟨hreg, hlive, ?_⟩
    show StoredFor m.activeState (recordOf s1.world.store)
    rw [hq.1]
    exact hst
  | initDevice m initConfig _ hactive _ ih =>
    obtain ⟨hreg, hlive, hst⟩ := ih
    refine ⟨hreg, hlive, ?_⟩
    show StoredFor m.activeState
      (recordOf (initDeviceAlone agentEnv.DeviceType initConfig m.world).store)
    rcases initDeviceAlone_stored agentEnv.DeviceType initConfig m.world
        (hst.2 (Or.inl hactive)) with h | h
    · exact storedFor_identified _ _ h
    · rw [h]
      exact hst
  | write m w _ happ hstate ih =>
    obtain ⟨hreg, hlive, hst⟩ := ih
    refine ⟨hreg, hlive, ?_⟩
    show StoredFor m.activeState (recordOf w.store)
    have h : recordOf w.store = recordOf m.world.store := by
      simp [recordOf, identityOf, happ, hstate]
    rw [h]
    exact hst

end Handlers

namespace Handlers

open Appstate (AppState AppStateBoot AppStateInit AppStateActive AppStateUpdateConfig
  AppStateMaintenance AppStateZTPSetup AppStateReset)

/-- C13. In every machine the controller is in between two requests, from the first start
of the device on (start-up on the config the device is created with or on the store the
process left, any number of `Perform` requests with the transitions of the request handlers
and the configs they build, whether their chain ended without error or was rolled back,
connections built by `BuildConn`, `InitDevice` requests served in live state active, and
writes of other sections), a live state `active` or `maintenance` comes with a stored App
section whose serial number is not the empty string and whose list of orchestrator addresses
is not empty, for every payload of `OnFirstSetup` and `OnMigrateFromOldVersion`: a first
setup returns nil only after `InitDevice` was served, which needs a connection, which
`BuildConn` refuses without a serial number and without an address.
`FinishTransaction` is taken to report a failed chain as failed. -/
theorem stored_identity_in_active_and_maintenance (agentEnv : Agent)
    (FinishStatus : World → Option GoError → Option GoError)
    (hfin : ∀ w e, FinishStatus w (some e) ≠ none)
    (m : Appstate.Machine World Transition)
    (hreach : ReachStored agentEnv FinishStatus m)
    (hlive : m.activeState = AppStateActive ∨ m.activeState = AppStateMaintenance) :
    ∃ app, m.world.store.App = some app ∧ app.SerialNumber ≠ "" ∧
      app.OrchestratorAddrs ≠ [] :=
  app_of_identified _ ((reach_atRest agentEnv FinishStatus hfin m hreach).2.2.2
    (hlive.elim Or.inl (fun h => Or.inr (Or.inr h))))

theorem sampleFirstBoot_returns :
    (Appstate.setActiveStateFromBoot (services (fun _ execErr => execErr))
      Transition.ToState Transition.OnAfterBoot persistedState AppStateInit 2
      sampleFirstBoot).map Prod.snd = some none := by
  decide!

theorem sampleSetPort_returns :
    (Appstate.Perform (services (fun _ execErr => execErr))
      Transition.ToState 3 sampleFirstBooted sampleSetPort).map Prod.snd = some none := by
  decide!

theorem sampleFirstSetup_returns :
    (Appstate.Perform (services (fun _ execErr => execErr))
      Transition.ToState 2 samplePortSet (.OnFirstSetup "SN1" ["https://orch1"])).map
        Prod.snd = some none := by
  decide!

/-- Witness for C13: a CPE starts for the first time on the config it is created with, the
WAN port is set, and the first setup with serial number `SN1` is performed while the
orchestrator sends its `InitDevice` request; the machine left is in live state `active`, and
its stored App section has a serial number and an orchestrator address. -/
theorem stored_identity_witness :
    sampleSetUp.activeState = AppStateActive ∧
      ∃ app, sampleSetUp.world.store.App = some app ∧ app.SerialNumber ≠ "" ∧
        app.OrchestratorAddrs ≠ [] := by
  have hfin : ∀ (w : World) (e : GoError),
      (fun (_ : World) (execErr : Option GoError) => execErr) w (some e) ≠ none :=
    fun _ _ h => Option.noConfusion h
  have hactive : sampleSetUp.activeState = AppStateActive := by
    decide!
  exact ⟨hactive, stored_identity_in_active_and_maintenance { DeviceType := DeviceTypeCPE }
    (fun _ execErr => execErr) hfin sampleSetUp
    (ReachStored.perform samplePortSet sampleSetUp (.OnFirstSetup "SN1" ["https://orch1"]) 2
      none
      (ReachStored.perform sampleFirstBooted samplePortSet sampleSetPort 3 none
        (ReachStored.firstBoot sampleFirstBoot sampleFirstBooted 2 rfl rfl rfl
          (machineOr_eq _ sampleFirstBoot sampleFirstBoot_returns))
        rfl rfl (machineOr_eq _ sampleFirstBooted sampleSetPort_returns))
      rfl rfl (machineOr_eq _ samplePortSet sampleFirstSetup_returns))
    (Or.inl hactive)⟩

end Handlers
